import Mathlib

/-!
# DRMKII reverb engine: a shallow embedding of `PluginProcessor.cpp`

The DSP core of the plugin (`OnePole`, `DampingFilter`, `EnhancedCombFilter`,
`CombFilter`, `AllpassFilter`, `DelayLine`, `ReverbProcessor`) is translated
function by function.

Conventions of the embedding

* C++ `float` samples and coefficients are exact rationals (`ℚ`) in the
  translated functions: they compute without rounding, overflow or NaN. Where
  the float differs in kind this is stated by separate definitions at the end
  of the definitions: the special values of a float and the lines forming an
  output sample (`FloatVal`, `outputSample`), the rounding inside
  `msToSamples` (`msToSamplesRounded`), and the signal levels at which no
  value of the signal path leaves the float range (`Stable`).
* C++ `int` cursors are `Int`; a comparison or an arithmetic operation that
  mixes an `int` with a `size_t` converts the `int` to an unsigned 64-bit
  value first, which is `toSizeT`.
* `std::vector<float>` is `List ℚ`; its `size()` is `List.length`, and
  `std::fill` with zero is the list of zeros of the same length.
* A member function that mutates the object returns the new object (paired
  with the returned value when there is one).
* `std::sin`, `std::cos`, `std::pow` and `std::sqrt` are fields of a
  `FloatMath` record that every function using them takes as a parameter.
-/

namespace Reverb

/-! ## Helpers standing for the language and library primitives -/

/-- The `juce::jlimit (lowerLimit, upperLimit, valueToConstrain)` template:
`v < lo ? lo : (hi < v ? hi : v)`. -/
def jlimit (lo hi v : ℚ) : ℚ :=
  if v < lo then lo else if hi < v then hi else v

/-- The integer instance of `juce::jlimit`. -/
def jlimitInt (lo hi v : Int) : Int :=
  if v < lo then lo else if hi < v then hi else v

/-- Conversion of an `int` to `size_t` (64 bits, modular). -/
def toSizeT (i : Int) : Nat :=
  (i % 18446744073709551616).toNat

/-- The conversion `static_cast<int>(x)` of a float: truncation toward zero. -/
def truncToInt (x : ℚ) : Int :=
  if 0 ≤ x then ⌊x⌋ else -⌊-x⌋

/-- The call `v.resize (n)` on a `std::vector<float>`: the first `n` elements are kept and
the new elements are value-initialised to zero. -/
def vectorResize (v : List ℚ) (n : Nat) : List ℚ :=
  v.take n ++ List.replicate (n - v.length) 0

/-- The transcendental functions of `<cmath>` used by the engine. -/
structure FloatMath where
  sin : ℚ → ℚ
  cos : ℚ → ℚ
  pow : ℚ → ℚ → ℚ
  sqrt : ℚ → ℚ

/-- A rational stand-in for `<cmath>`, used to run the model on concrete inputs:
low-order polynomial approximations. The coefficients it yields are not the
values the program computes with the real library. -/
def sampleMath : FloatMath where
  sin := fun x => x - x * x * x / 6
  cos := fun x => 1 - x * x / 2
  pow := fun b e => 1 + e * (b - 1)
  sqrt := fun x => (x + 1) / 2

/-! ## juce::LinearSmoothedValue -/

/-- Modelled from the spec: `juce::LinearSmoothedValue<float>` is a JUCE library
type, not a file of this repository. The spec describes it as a current value,
a target value and a per-sample step; the fields and operations below follow
the linear ramp of the library (`countdown` steps left, `stepsToTarget` the ramp
length chosen by `reset`). -/
structure SmoothedValue where
  currentValue : ℚ
  target : ℚ
  countdown : Int
  step : ℚ
  stepsToTarget : Int
deriving DecidableEq, Repr

namespace SmoothedValue

/-- A default-constructed smoother: value and target 0, not ramping. -/
def init : SmoothedValue :=
  { currentValue := 0, target := 0, countdown := 0, step := 0, stepsToTarget := 0 }

def isSmoothing (v : SmoothedValue) : Bool := 0 < v.countdown

def getCurrentValue (v : SmoothedValue) : ℚ := v.currentValue

def setCurrentAndTargetValue (v : SmoothedValue) (newValue : ℚ) : SmoothedValue :=
  { v with target := newValue, currentValue := newValue, countdown := 0 }

/-- The call `reset (sampleRate, rampLengthInSeconds)`: the ramp length in steps is
`floor (rampLengthInSeconds * sampleRate)`, and the value jumps to the target. -/
def reset (v : SmoothedValue) (sampleRate rampLengthInSeconds : ℚ) : SmoothedValue :=
  setCurrentAndTargetValue { v with stepsToTarget := ⌊rampLengthInSeconds * sampleRate⌋ } v.target

/-- The call `setTargetValue`: nothing when the target is unchanged, a jump when the
ramp length is not positive, otherwise a new linear ramp from the current value. -/
def setTargetValue (v : SmoothedValue) (newValue : ℚ) : SmoothedValue :=
  if newValue = v.target then v
  else if v.stepsToTarget ≤ 0 then setCurrentAndTargetValue v newValue
  else
    { v with
      target := newValue
      countdown := v.stepsToTarget
      step := (newValue - v.currentValue) / (v.stepsToTarget : ℚ) }

/-- The call `getNextValue`: one step of the ramp; returns the new state and the value. -/
def getNextValue (v : SmoothedValue) : SmoothedValue × ℚ :=
  if ¬ 0 < v.countdown then (v, v.target)
  else if 0 < v.countdown - 1 then
    ({ v with countdown := v.countdown - 1, currentValue := v.currentValue + v.step },
      v.currentValue + v.step)
  else
    ({ v with countdown := v.countdown - 1, currentValue := v.target }, v.target)

end SmoothedValue

/-! ## OnePole -/

structure OnePole where
  state : ℚ
deriving DecidableEq, Repr

namespace OnePole

def init : OnePole := { state := 0 }

def process (p : OnePole) (input coeff : ℚ) : OnePole × ℚ :=
  let coeff := jlimit 0 0.9999 coeff
  let state := input * (1 - coeff) + p.state * coeff
  ({ state := state }, state)

def reset (_p : OnePole) : OnePole := { state := 0 }

def clear (_p : OnePole) : OnePole := { state := 0 }

end OnePole

/-! ## DampingFilter -/

structure DampingFilter where
  lpCoeff : ℚ
  hpCoeff : ℚ
  lpState : ℚ
  hpState : ℚ
deriving DecidableEq, Repr

namespace DampingFilter

def init : DampingFilter := { lpState := 0, hpState := 0, lpCoeff := 0.5, hpCoeff := 0.8 }

def setCoeffs (d : DampingFilter) (lpCoeff hpCoeff : ℚ) : DampingFilter :=
  { d with lpCoeff := jlimit 0 0.999 lpCoeff, hpCoeff := jlimit 0.01 0.999 hpCoeff }

def process (d : DampingFilter) (input : ℚ) : DampingFilter × ℚ :=
  let stage1 := input * (1 - d.lpCoeff) + d.lpState * d.lpCoeff
  let stage2 := stage1 - d.hpState
  let hpState := stage1 * d.hpCoeff + d.hpState * (1 - d.hpCoeff)
  ({ d with lpState := stage1, hpState := hpState }, stage1 + stage2 * 0.3)

def clear (d : DampingFilter) : DampingFilter :=
  { d with lpState := 0, hpState := 0 }

end DampingFilter

/-! ## EnhancedCombFilter -/

structure EnhancedCombFilter where
  buffer : List ℚ
  writeIndex : Int
  damping : DampingFilter
  feedback : ℚ
  dampingLP : ℚ
  dampingHP : ℚ
deriving DecidableEq, Repr

namespace EnhancedCombFilter

def init : EnhancedCombFilter :=
  { buffer := [], writeIndex := 0, damping := DampingFilter.init,
    feedback := 0.5, dampingLP := 0.5, dampingHP := 0.8 }

def clear (c : EnhancedCombFilter) : EnhancedCombFilter :=
  { c with buffer := List.replicate c.buffer.length 0, damping := c.damping.clear }

def setSize (c : EnhancedCombFilter) (samples : Int) : EnhancedCombFilter :=
  let samples := if samples ≤ 0 then 1 else samples
  { clear { c with buffer := vectorResize c.buffer samples.toNat } with writeIndex := 0 }

def process (c : EnhancedCombFilter) (input stereoSpread : ℚ) : EnhancedCombFilter × ℚ :=
  if c.buffer = [] then (c, input)
  else
    let writeIndex := if c.buffer.length ≤ toSizeT c.writeIndex then 0 else c.writeIndex
    let output := c.buffer.getD writeIndex.toNat 0
    let (damping, damped) := c.damping.process output
    let spreadMod := 1 + stereoSpread * 0.01
    let safeFeedback := jlimit 0 0.999 (c.feedback * spreadMod)
    ({ c with
        buffer := c.buffer.set writeIndex.toNat (input + damped * safeFeedback)
        writeIndex := ((toSizeT (writeIndex + 1) % c.buffer.length : Nat) : Int)
        damping := damping },
      output)

def setDamping (c : EnhancedCombFilter) (lpVal hpVal : ℚ) : EnhancedCombFilter :=
  let lp := jlimit 0 0.999 lpVal
  let hp := jlimit 0.01 0.999 hpVal
  { c with dampingLP := lp, dampingHP := hp, damping := c.damping.setCoeffs lp hp }

def setFeedback (c : EnhancedCombFilter) (val : ℚ) : EnhancedCombFilter :=
  { c with feedback := jlimit 0 0.999 val }

end EnhancedCombFilter

/-! ## CombFilter -/

structure CombFilter where
  buffer : List ℚ
  feedback : ℚ
  writeIndex : Int
  lowpass : OnePole
  damp : ℚ
deriving DecidableEq, Repr

namespace CombFilter

def init : CombFilter :=
  { buffer := [], feedback := 0.5, writeIndex := 0, lowpass := OnePole.init, damp := 0.5 }

def clear (c : CombFilter) : CombFilter :=
  { c with buffer := List.replicate c.buffer.length 0, lowpass := c.lowpass.clear }

def setSize (c : CombFilter) (samples : Int) : CombFilter :=
  let samples := if samples ≤ 0 then 1 else samples
  { clear { c with buffer := vectorResize c.buffer samples.toNat } with writeIndex := 0 }

def process (c : CombFilter) (input : ℚ) : CombFilter × ℚ :=
  if c.buffer = [] then (c, input)
  else
    let writeIndex := if c.buffer.length ≤ toSizeT c.writeIndex then 0 else c.writeIndex
    let output := c.buffer.getD writeIndex.toNat 0
    let (lowpass, damped) := c.lowpass.process output c.damp
    let safeFeedback := jlimit 0 0.9999 c.feedback
    ({ c with
        buffer := c.buffer.set writeIndex.toNat (input + damped * safeFeedback)
        writeIndex := ((toSizeT (writeIndex + 1) % c.buffer.length : Nat) : Int)
        lowpass := lowpass },
      output)

def setDamp (c : CombFilter) (val : ℚ) : CombFilter :=
  { c with damp := jlimit 0 0.9999 val }

def setFeedback (c : CombFilter) (val : ℚ) : CombFilter :=
  { c with feedback := jlimit 0 0.9999 val }

end CombFilter

/-! ## AllpassFilter -/

structure AllpassFilter where
  buffer : List ℚ
  writeIndex : Int
  coeff : ℚ
deriving DecidableEq, Repr

namespace AllpassFilter

def init : AllpassFilter := { buffer := [], writeIndex := 0, coeff := 0.5 }

def clear (a : AllpassFilter) : AllpassFilter :=
  { a with buffer := List.replicate a.buffer.length 0 }

def setSize (a : AllpassFilter) (samples : Int) : AllpassFilter :=
  let samples := if samples ≤ 0 then 1 else samples
  { clear { a with buffer := vectorResize a.buffer samples.toNat } with writeIndex := 0 }

def process (a : AllpassFilter) (input : ℚ) : AllpassFilter × ℚ :=
  if a.buffer = [] then (a, input)
  else
    let writeIndex := if a.buffer.length ≤ toSizeT a.writeIndex then 0 else a.writeIndex
    let bufOut := a.buffer.getD writeIndex.toNat 0
    let safeCoeff := jlimit 0 0.9999 a.coeff
    let output := -input + bufOut
    ({ a with
        buffer := a.buffer.set writeIndex.toNat (input + bufOut * safeCoeff)
        writeIndex := ((toSizeT (writeIndex + 1) % a.buffer.length : Nat) : Int) },
      output)

def setCoeff (a : AllpassFilter) (val : ℚ) : AllpassFilter :=
  { a with coeff := jlimit 0 0.9999 val }

end AllpassFilter

/-! ## DelayLine -/

structure DelayLine where
  buffer : List ℚ
  writeIndex : Int
  readIndex : Int
  delaySamples : Int
deriving DecidableEq, Repr

namespace DelayLine

def init : DelayLine := { buffer := [], writeIndex := 0, readIndex := 0, delaySamples := 0 }

def clear (d : DelayLine) : DelayLine :=
  { d with buffer := List.replicate d.buffer.length 0, writeIndex := 0, readIndex := 0 }

def setSize (d : DelayLine) (samples : Int) : DelayLine :=
  let samples := if samples ≤ 0 then 1 else samples
  { clear { d with buffer := vectorResize d.buffer samples.toNat } with
    writeIndex := 0, readIndex := 0 }

/-- The call `setDelay`: the sum `writeIndex - delaySamples + buffer.size()` is taken in
`size_t`. -/
def setDelay (d : DelayLine) (samples : Int) : DelayLine :=
  if d.buffer = [] then d
  else
    let delaySamples := jlimitInt 0 ((d.buffer.length : Int) - 1) samples
    { d with
      delaySamples := delaySamples
      readIndex :=
        ((toSizeT (d.writeIndex - delaySamples + (d.buffer.length : Int)) % d.buffer.length : Nat) : Int) }

def process (d : DelayLine) (input : ℚ) : DelayLine × ℚ :=
  if d.buffer = [] then (d, input)
  else
    let writeIndex := if d.buffer.length ≤ toSizeT d.writeIndex then 0 else d.writeIndex
    let readIndex := if d.buffer.length ≤ toSizeT d.readIndex then 0 else d.readIndex
    let output := d.buffer.getD readIndex.toNat 0
    ({ d with
        buffer := d.buffer.set writeIndex.toNat input
        writeIndex := ((toSizeT (writeIndex + 1) % d.buffer.length : Nat) : Int)
        readIndex := ((toSizeT (readIndex + 1) % d.buffer.length : Nat) : Int) },
      output)

end DelayLine

/-! ## ReverbProcessor: state -/

/-- The function-local statics of `updateAllParameters` (`lastRoomSize`,
`lastRefDelay`, `lastSubDelay`). -/
structure UpdateStatics where
  lastRoomSize : ℚ
  lastRefDelay : ℚ
  lastSubDelay : ℚ
deriving DecidableEq, Repr

/-- The fields of `ReverbProcessor`. The three base-delay tables are constants
(`baseCombDelaysMs`, `baseAllpassDelaysMs`, `earlyTapDelaysMs` below).
`statics` holds the function-local statics of `updateAllParameters`: `none` until
the first call that reaches their declaration, which initialises them. -/
structure ReverbProcessor where
  sampleRate : ℚ
  combsL : List CombFilter
  combsR : List CombFilter
  allpassesL : List AllpassFilter
  allpassesR : List AllpassFilter
  preDelayL : DelayLine
  preDelayR : DelayLine
  earlyTaps : List (DelayLine × DelayLine)
  decayTime : ℚ
  preDelayMs : ℚ
  damping : ℚ
  diffusion : ℚ
  reverbDiffusion : ℚ
  roomSize : ℚ
  roomVolume : ℚ
  earlyReflectionLevel : ℚ
  reflectionDelay : ℚ
  subsequentReverbDelay : ℚ
  subsequentLevel : ℚ
  envelopment : ℚ
  normalizedReflectivity : ℚ
  tieLevel : ℚ
  tieLevelGain : ℚ
  position : ℚ
  dryWet : ℚ
  reverbLevel : ℚ
  decaySmoother : SmoothedValue
  dampingSmoother : SmoothedValue
  mixSmoother : SmoothedValue
  statics : Option UpdateStatics

/-- The table `baseCombDelaysMs`; each entry is the decimal value of the source literal
(the program holds the float nearest to it). -/
def baseCombDelaysMs : List ℚ := [29.7, 37.1, 41.1, 43.7, 31.3, 34.9, 39.5, 44.3]

/-- The table `baseAllpassDelaysMs`, as decimal values of the source literals. -/
def baseAllpassDelaysMs : List ℚ := [5.0, 1.7, 12.7, 9.3]

/-- The table `earlyTapDelaysMs`, as decimal values of the source literals. -/
def earlyTapDelaysMs : List ℚ := [8.3, 11.7, 15.2, 19.8, 24.1, 28.9]

/-- The element update `v[i] = f (v[i])` of a vector; an index past the end changes
nothing. -/
def modifyAt {α : Type} (f : α → α) : Nat → List α → List α
  | _, [] => []
  | 0, x :: xs => f x :: xs
  | n + 1, x :: xs => x :: modifyAt f n xs

/-- A loop `for (size_t i = 0; i < n; ++i) body`. -/
def forLoop {σ : Type} (n : Nat) (body : Nat → σ → σ) (s : σ) : σ :=
  (List.range n).foldl (fun acc i => body i acc) s

namespace ReverbProcessor

/-- The constructor `ReverbProcessor()`, with the field initialisers of the class. -/
def init : ReverbProcessor :=
  { sampleRate := 44100
    combsL := [], combsR := [], allpassesL := [], allpassesR := []
    preDelayL := DelayLine.init, preDelayR := DelayLine.init
    earlyTaps := []
    decayTime := 2.0, preDelayMs := 20.0, damping := 0.5, diffusion := 0.7
    reverbDiffusion := 0.7, roomSize := 0.75, roomVolume := 1.0
    earlyReflectionLevel := 0.3, reflectionDelay := 1.0
    subsequentReverbDelay := 1.0, subsequentLevel := 0.8, envelopment := 0.8
    normalizedReflectivity := 0.8, tieLevel := 0.5, position := 0.5, dryWet := 0.5
    tieLevelGain := 1.0, reverbLevel := 0.0
    decaySmoother := SmoothedValue.init
    dampingSmoother := SmoothedValue.init
    mixSmoother := SmoothedValue.init
    statics := none }

/-- The call `msToSamples`: a non-positive sample rate is replaced by 44100 in the object.
The product and the quotient are exact here; `msToSamplesRounded` is the same conversion
with the float rounding of both operations. -/
def msToSamples (s : ReverbProcessor) (ms : ℚ) : ReverbProcessor × Int :=
  let ms := if ms < 0 then 0 else ms
  let s := if s.sampleRate ≤ 0 then { s with sampleRate := 44100 } else s
  (s, truncToInt (s.sampleRate * ms / 1000))

def initSmoothers (s : ReverbProcessor) (sampleRate : ℚ) : ReverbProcessor :=
  let smoothTime : ℚ := 0.05
  { s with
    decaySmoother := (s.decaySmoother.reset sampleRate smoothTime).setCurrentAndTargetValue s.decayTime
    dampingSmoother := (s.dampingSmoother.reset sampleRate smoothTime).setCurrentAndTargetValue s.damping
    mixSmoother := (s.mixSmoother.reset sampleRate smoothTime).setCurrentAndTargetValue s.dryWet }

def clear (s : ReverbProcessor) : ReverbProcessor :=
  { s with
    combsL := s.combsL.map CombFilter.clear
    combsR := s.combsR.map CombFilter.clear
    allpassesL := s.allpassesL.map AllpassFilter.clear
    allpassesR := s.allpassesR.map AllpassFilter.clear
    preDelayL := s.preDelayL.clear
    preDelayR := s.preDelayR.clear
    earlyTaps := s.earlyTaps.map (fun tap => (tap.1.clear, tap.2.clear))
    reverbLevel := 0 }

/-- One pass of the fade loop of `resetWithFade`, at step `i`. -/
def fadeStep (i : Nat) (s : ReverbProcessor) : ReverbProcessor :=
  let fade : ℚ := 1 - (i : ℚ) / 64
  { s with
    combsL := s.combsL.map (fun c => c.setFeedback (c.feedback * fade))
    combsR := s.combsR.map (fun c => c.setFeedback (c.feedback * fade)) }

def resetWithFade (s : ReverbProcessor) : ReverbProcessor :=
  clear (forLoop 64 fadeStep s)

/-! ### Derived coefficients -/

/-- The loop of `updateFeedback` from index `i` on, over the remaining left and right
combs. The source indexes `combsR[i]` for every `i < combsL.size()`; where the right
bank is shorter that access is out of bounds, and nothing is modelled for it. -/
def setCombFeedbacks (baseFeedback : ℚ) :
    Nat → List CombFilter → List CombFilter → List CombFilter × List CombFilter
  | _, [], rs => ([], rs)
  | i, l :: ls, [] =>
    let variation : ℚ := 1 + 0.015 * ((i % 4 : Nat) : ℚ)
    let rest := setCombFeedbacks baseFeedback (i + 1) ls []
    (l.setFeedback (baseFeedback * variation) :: rest.1, rest.2)
  | i, l :: ls, r :: rs =>
    let variation : ℚ := 1 + 0.015 * ((i % 4 : Nat) : ℚ)
    let rest := setCombFeedbacks baseFeedback (i + 1) ls rs
    (l.setFeedback (baseFeedback * variation) :: rest.1,
      r.setFeedback (baseFeedback * (1 / variation)) :: rest.2)

def updateFeedback (M : FloatMath) (s : ReverbProcessor) : ReverbProcessor :=
  if s.combsL = [] ∨ s.combsR = [] ∨ s.decayTime ≤ 0 ∨ s.sampleRate ≤ 0 then s
  else
    let avgCombDelayMs := baseCombDelaysMs.getD 0 0 * s.roomSize * s.subsequentReverbDelay
    let avgCombDelaySec := avgCombDelayMs / 1000
    let s := if s.decayTime < 0.01 then { s with decayTime := 0.01 } else s
    let exponent := -3 * avgCombDelaySec / s.decayTime
    let baseFeedback := M.pow 10 exponent
    let baseFeedback := baseFeedback * s.normalizedReflectivity
    let baseFeedback := jlimit 0 0.998 baseFeedback
    let combs := setCombFeedbacks baseFeedback 0 s.combsL s.combsR
    { s with combsL := combs.1, combsR := combs.2 }

def updateDamping (s : ReverbProcessor) : ReverbProcessor :=
  let lpDamp := s.damping * 0.9
  { s with
    combsL := s.combsL.map (fun c => c.setDamp lpDamp)
    combsR := s.combsR.map (fun c => c.setDamp lpDamp) }

/-- The loop of `updateDiffusion` from index `i` on (same convention as
`setCombFeedbacks` for a shorter right bank). -/
def setAllpassCoeffs (earlyCoeff tailCoeff : ℚ) :
    Nat → List AllpassFilter → List AllpassFilter → List AllpassFilter × List AllpassFilter
  | _, [], rs => ([], rs)
  | i, l :: ls, [] =>
    let coeff := if i < 2 then earlyCoeff else tailCoeff
    let rest := setAllpassCoeffs earlyCoeff tailCoeff (i + 1) ls []
    (l.setCoeff coeff :: rest.1, rest.2)
  | i, l :: ls, r :: rs =>
    let coeff := if i < 2 then earlyCoeff else tailCoeff
    let rest := setAllpassCoeffs earlyCoeff tailCoeff (i + 1) ls rs
    (l.setCoeff coeff :: rest.1, r.setCoeff coeff :: rest.2)

def updateDiffusion (s : ReverbProcessor) : ReverbProcessor :=
  let earlyCoeff := jlimit 0.01 0.999 (s.diffusion * 0.6)
  let tailCoeff := jlimit 0.01 0.999 (s.reverbDiffusion * 0.6)
  let aps := setAllpassCoeffs earlyCoeff tailCoeff 0 s.allpassesL s.allpassesR
  { s with allpassesL := aps.1, allpassesR := aps.2 }

def updatePreDelay (s : ReverbProcessor) : ReverbProcessor :=
  let r := msToSamples s 500
  let s := r.1
  let maxPreDelay := if r.2 < 1 then 1 else r.2
  let s :=
    if s.preDelayL.buffer.length < toSizeT maxPreDelay then
      { s with preDelayL := s.preDelayL.setSize maxPreDelay
               preDelayR := s.preDelayR.setSize maxPreDelay }
    else s
  let r := msToSamples s s.preDelayMs
  let s := r.1
  { s with preDelayL := s.preDelayL.setDelay r.2, preDelayR := s.preDelayR.setDelay r.2 }

def updateTieLevel (s : ReverbProcessor) : ReverbProcessor :=
  { s with tieLevelGain := jlimit 0 3 (0.5 + s.tieLevel * 1.5) }

/-- The body of the loop of `updateReflectionDelays`, at tap `t`. -/
def reflectionDelayStep (t : Nat) (s : ReverbProcessor) : ReverbProcessor :=
  let delayMs := earlyTapDelaysMs.getD t 0 * s.roomSize * s.reflectionDelay
  let rL := msToSamples s delayMs
  let rR := msToSamples rL.1 (delayMs * 1.03)
  let s := rR.1
  { s with earlyTaps :=
      modifyAt (fun tap => (tap.1.setDelay rL.2, tap.2.setDelay rR.2)) t s.earlyTaps }

def updateReflectionDelays (s : ReverbProcessor) : ReverbProcessor :=
  forLoop (min s.earlyTaps.length earlyTapDelaysMs.length) reflectionDelayStep s

/-- The body of the loop of `updateSubsequentDelays`, at comb `i`. -/
def subsequentDelayStep (i : Nat) (s : ReverbProcessor) : ReverbProcessor :=
  let delayMs := baseCombDelaysMs.getD i 0 * s.roomSize * s.subsequentReverbDelay
  let rL := msToSamples s delayMs
  let rR := msToSamples rL.1 (delayMs * 1.02)
  let s := rR.1
  { s with
    combsL := modifyAt
      (fun c => if c.buffer.length ≠ toSizeT rL.2 then c.setSize rL.2 else c) i s.combsL
    combsR := modifyAt
      (fun c => if c.buffer.length ≠ toSizeT rR.2 then c.setSize rR.2 else c) i s.combsR }

def updateSubsequentDelays (M : FloatMath) (s : ReverbProcessor) : ReverbProcessor :=
  updateFeedback M
    (forLoop (min s.combsL.length baseCombDelaysMs.length) subsequentDelayStep s)

/-! ### The full parameter update -/

/-- The body of the comb loop of `updateAllParameters`, at comb `i`. -/
def combSizeStep (sizeScalar : ℚ) (i : Nat) (s : ReverbProcessor) : ReverbProcessor :=
  let delayMs := baseCombDelaysMs.getD i 0 * sizeScalar * s.subsequentReverbDelay
  let rL := msToSamples s delayMs
  let delaySamples := if rL.2 < 1 then 1 else rL.2
  let rR := msToSamples rL.1 (delayMs * 1.02)
  let s := rR.1
  { s with
    combsL := modifyAt
      (fun c => if c.buffer.length ≠ toSizeT delaySamples then c.setSize delaySamples else c)
      i s.combsL
    combsR := modifyAt
      (fun c => if c.buffer.length ≠ toSizeT rR.2 then c.setSize rR.2 else c) i s.combsR }

/-- The body of the allpass loop of `updateAllParameters`, at allpass `i`. -/
def allpassSizeStep (sizeScalar : ℚ) (i : Nat) (s : ReverbProcessor) : ReverbProcessor :=
  let delayMs := baseAllpassDelaysMs.getD i 0 * sizeScalar
  let rL := msToSamples s delayMs
  let delaySamples := if rL.2 < 1 then 1 else rL.2
  let rR := msToSamples rL.1 (delayMs * 1.02)
  let s := rR.1
  { s with
    allpassesL := modifyAt
      (fun a => if a.buffer.length ≠ toSizeT delaySamples then a.setSize delaySamples else a)
      i s.allpassesL
    allpassesR := modifyAt
      (fun a => if a.buffer.length ≠ toSizeT rR.2 then a.setSize rR.2 else a) i s.allpassesR }

/-- One early-reflection delay line of `updateAllParameters`: grow when too small, then
set the delay. -/
def sizeAndDelay (d : DelayLine) (delaySamples : Int) : DelayLine :=
  (if d.buffer.length < toSizeT delaySamples then d.setSize (delaySamples * 2) else d).setDelay
    delaySamples

/-- The body of the early-reflection loop of `updateAllParameters`, at tap `t`. -/
def tapSizeStep (sizeScalar : ℚ) (t : Nat) (s : ReverbProcessor) : ReverbProcessor :=
  let delayMs := earlyTapDelaysMs.getD t 0 * sizeScalar * s.reflectionDelay
  let rL := msToSamples s delayMs
  let rR := msToSamples rL.1 (delayMs * 1.03)
  let s := rR.1
  { s with earlyTaps :=
      modifyAt (fun tap => (sizeAndDelay tap.1 rL.2, sizeAndDelay tap.2 rR.2)) t s.earlyTaps }

/-- The five coefficient updates that both paths of `updateAllParameters` run. -/
def updateOthers (M : FloatMath) (s : ReverbProcessor) : ReverbProcessor :=
  updateTieLevel (updatePreDelay (updateDiffusion (updateDamping (updateFeedback M s))))

/-- The values of the statics of `updateAllParameters` once control has passed their
declaration: the stored ones, or on the first pass the current parameters. -/
def currentStatics (s : ReverbProcessor) : UpdateStatics :=
  match s.statics with
  | some st => st
  | none =>
    { lastRoomSize := s.roomSize, lastRefDelay := s.reflectionDelay,
      lastSubDelay := s.subsequentReverbDelay }

/-- The condition of the cheap path of `updateAllParameters`. -/
def cheapPath (st : UpdateStatics) (s : ReverbProcessor) : Bool :=
  let sizeChanged : Bool := decide (|s.roomSize - st.lastRoomSize| > 0.001)
  let refChanged : Bool := decide (|s.reflectionDelay - st.lastRefDelay| > 0.001)
  let subChanged : Bool := decide (|s.subsequentReverbDelay - st.lastSubDelay| > 0.001)
  !sizeChanged && !refChanged && !subChanged && !s.combsL.isEmpty && !s.combsR.isEmpty

/-- The three resizing loops of the full path of `updateAllParameters` (combs, allpasses,
early-reflection taps). -/
def resizeFilters (s : ReverbProcessor) : ReverbProcessor :=
  let sizeScalar := jlimit 0.01 2 s.roomSize
  let s := forLoop (min s.combsL.length baseCombDelaysMs.length) (combSizeStep sizeScalar) s
  let s :=
    forLoop (min s.allpassesL.length baseAllpassDelaysMs.length) (allpassSizeStep sizeScalar) s
  forLoop (min s.earlyTaps.length earlyTapDelaysMs.length) (tapSizeStep sizeScalar) s

/-- The assignment of the current parameters to the statics at the end of the full path. -/
def storeStatics (s : ReverbProcessor) : ReverbProcessor :=
  let st : UpdateStatics :=
    { lastRoomSize := s.roomSize, lastRefDelay := s.reflectionDelay,
      lastSubDelay := s.subsequentReverbDelay }
  { s with statics := some st }

def updateAllParameters (M : FloatMath) (s : ReverbProcessor) : ReverbProcessor :=
  if s.sampleRate ≤ 0 then s
  else if cheapPath (currentStatics s) s then
    updateOthers M { s with statics := some (currentStatics s) }
  else
    storeStatics (updateOthers M (resizeFilters { s with statics := some (currentStatics s) }))

/-- The first part of `prepare`: the sample rate is clamped and stored, the smoothers are
initialised, and the filter banks are replaced by freshly constructed filters. -/
def prepareFilters (s : ReverbProcessor) (sr : ℚ) : ReverbProcessor :=
  let s := { s with sampleRate := jlimit 22050 192000 sr }
  let s := initSmoothers s s.sampleRate
  { s with
    combsL := List.replicate 8 CombFilter.init
    combsR := List.replicate 8 CombFilter.init
    allpassesL := List.replicate 4 AllpassFilter.init
    allpassesR := List.replicate 4 AllpassFilter.init
    earlyTaps := List.replicate 6 (DelayLine.init, DelayLine.init) }

def prepare (M : FloatMath) (s : ReverbProcessor) (sr : ℚ) : ReverbProcessor :=
  clear (updateAllParameters M (prepareFilters s sr))

/-! ### Parameter setters -/

def setDecayTime (M : FloatMath) (s : ReverbProcessor) (seconds : ℚ) : ReverbProcessor :=
  let s := { s with decayTime := jlimit 0.01 60 seconds }
  updateFeedback M { s with decaySmoother := s.decaySmoother.setTargetValue s.decayTime }

def setPreDelay (s : ReverbProcessor) (ms : ℚ) : ReverbProcessor :=
  updatePreDelay { s with preDelayMs := jlimit 0 500 ms }

def setDamping (s : ReverbProcessor) (val : ℚ) : ReverbProcessor :=
  let s := { s with damping := jlimit 0 0.999 val }
  updateDamping { s with dampingSmoother := s.dampingSmoother.setTargetValue s.damping }

def setDiffusion (s : ReverbProcessor) (val : ℚ) : ReverbProcessor :=
  updateDiffusion { s with diffusion := jlimit 0 1 val }

def setReverbDiffusion (s : ReverbProcessor) (val : ℚ) : ReverbProcessor :=
  updateDiffusion { s with reverbDiffusion := jlimit 0 1 val }

def setRoomSize (M : FloatMath) (s : ReverbProcessor) (val : ℚ) : ReverbProcessor :=
  updateAllParameters M { s with roomSize := jlimit 0.01 2 val }

def setRoomVolume (s : ReverbProcessor) (val : ℚ) : ReverbProcessor :=
  { s with roomVolume := jlimit 0 5 val }

def setEarlyReflectionLevel (s : ReverbProcessor) (val : ℚ) : ReverbProcessor :=
  { s with earlyReflectionLevel := jlimit 0 1 val }

def setReflectionDelay (s : ReverbProcessor) (val : ℚ) : ReverbProcessor :=
  updateReflectionDelays { s with reflectionDelay := jlimit 0.1 4 val }

def setSubsequentReverbDelay (M : FloatMath) (s : ReverbProcessor) (val : ℚ) :
    ReverbProcessor :=
  updateSubsequentDelays M { s with subsequentReverbDelay := jlimit 0.1 4 val }

def setSubsequentLevel (s : ReverbProcessor) (val : ℚ) : ReverbProcessor :=
  { s with subsequentLevel := jlimit 0 1 val }

def setEnvelopment (s : ReverbProcessor) (val : ℚ) : ReverbProcessor :=
  { s with envelopment := jlimit 0 1 val }

def setNormalizedReflectivity (M : FloatMath) (s : ReverbProcessor) (val : ℚ) :
    ReverbProcessor :=
  updateFeedback M { s with normalizedReflectivity := jlimit 0 1 val }

def setTieLevel (s : ReverbProcessor) (val : ℚ) : ReverbProcessor :=
  updateTieLevel { s with tieLevel := jlimit 0 1 val }

def setPosition (s : ReverbProcessor) (val : ℚ) : ReverbProcessor :=
  { s with position := jlimit 0 1 val }

def setDryWet (s : ReverbProcessor) (val : ℚ) : ReverbProcessor :=
  let s := { s with dryWet := jlimit 0 1 val }
  { s with mixSmoother := s.mixSmoother.setTargetValue s.dryWet }

/-! ### The per-sample stereo algorithm -/

/-- The early-reflection loop of `processStereo` from tap `t` on; `size` is
`earlyTaps.size()`. Returns the updated taps and the two running sums. -/
def processEarlyTaps (size : Nat) (preL preR : ℚ) :
    Nat → List (DelayLine × DelayLine) → ℚ → ℚ → List (DelayLine × DelayLine) × ℚ × ℚ
  | _, [], earlyL, earlyR => ([], earlyL, earlyR)
  | t, tap :: rest, earlyL, earlyR =>
    let pan : ℚ := (t : ℚ) / (size : ℚ)
    let rL := tap.1.process preL
    let rR := tap.2.process preR
    let r := processEarlyTaps size preL preR (t + 1) rest
      (earlyL + rL.2 * (1 - pan * 0.7)) (earlyR + rR.2 * (0.3 + pan * 0.7))
    ((rL.1, rR.1) :: r.1, r.2)

/-- The left comb loop of `processStereo` from comb `c` on. -/
def processCombsL (M : FloatMath) (preL preR position : ℚ) :
    Nat → List CombFilter → ℚ → List CombFilter × ℚ
  | _, [], combSumL => ([], combSumL)
  | c, comb :: rest, combSumL =>
    let leftWeight := 0.7 + 0.3 * M.sin ((c : ℚ) * 0.5)
    let rightWeight := 0.3 * M.cos ((c : ℚ) * 0.5)
    let combInput := preL * leftWeight + preR * rightWeight * position
    let detune := 1 + 0.0005 * (c : ℚ)
    let r := comb.process (combInput * detune)
    let rs := processCombsL M preL preR position (c + 1) rest (combSumL + r.2)
    (r.1 :: rs.1, rs.2)

/-- The right comb loop of `processStereo` from comb `c` on. -/
def processCombsR (M : FloatMath) (preL preR position : ℚ) :
    Nat → List CombFilter → ℚ → List CombFilter × ℚ
  | _, [], combSumR => ([], combSumR)
  | c, comb :: rest, combSumR =>
    let rightWeight := 0.7 + 0.3 * M.cos ((c : ℚ) * 0.5)
    let leftWeight := 0.3 * M.sin ((c : ℚ) * 0.5)
    let combInput := preR * rightWeight + preL * leftWeight * (1 - position)
    let detune := 1 - 0.0005 * (c : ℚ)
    let r := comb.process (combInput * detune)
    let rs := processCombsR M preL preR position (c + 1) rest (combSumR + r.2)
    (r.1 :: rs.1, rs.2)

/-- The allpass loop of `processStereo`, which runs over `allpassesL.size()` and
indexes both banks. Where the right bank is shorter the access `allpassesR[a]` is out
of bounds in the source; the model then leaves the right signal as it is. -/
def processAllpasses :
    List AllpassFilter → List AllpassFilter → ℚ → ℚ →
      List AllpassFilter × List AllpassFilter × ℚ × ℚ
  | [], rs, diffusedL, diffusedR => ([], rs, diffusedL, diffusedR)
  | l :: ls, [], diffusedL, diffusedR =>
    let rL := l.process diffusedL
    let r := processAllpasses ls [] rL.2 diffusedR
    (rL.1 :: r.1, r.2.1, r.2.2)
  | l :: ls, r :: rs, diffusedL, diffusedR =>
    let rL := l.process diffusedL
    let rR := r.process diffusedR
    let rest := processAllpasses ls rs rL.2 rR.2
    (rL.1 :: rest.1, rR.1 :: rest.2.1, rest.2.2)

/-- What the wet path of one sample produces: the updated filter banks and the two wet
signals. -/
structure WetResult where
  earlyTaps : List (DelayLine × DelayLine)
  combsL : List CombFilter
  combsR : List CombFilter
  allpassesL : List AllpassFilter
  allpassesR : List AllpassFilter
  wetL : ℚ
  wetR : ℚ

/-- The wet path of one sample of `processStereo`, from the pre-delayed samples to the
HF-contoured wet signals (early reflections, comb banks, allpass chains, tail level,
mid/side recombination, early/late mix, reflectivity, HF contour). -/
def wetStage (M : FloatMath) (s : ReverbProcessor) (preL preR : ℚ) : WetResult :=
  let nTaps := s.earlyTaps.length
  let e := processEarlyTaps nTaps preL preR 0 s.earlyTaps 0 0
  let earlyL := e.2.1 * s.earlyReflectionLevel / (nTaps : ℚ)
  let earlyR := e.2.2 * s.earlyReflectionLevel / (nTaps : ℚ)
  let cL := processCombsL M preL preR s.position 0 s.combsL 0
  let combSumL := cL.2 / (s.combsL.length : ℚ)
  let cR := processCombsR M preL preR s.position 0 s.combsR 0
  let combSumR := cR.2 / (s.combsR.length : ℚ)
  let a := processAllpasses s.allpassesL s.allpassesR combSumL combSumR
  let tailLevel := s.subsequentLevel * s.tieLevelGain
  let diffusedL := a.2.2.1 * tailLevel
  let diffusedR := a.2.2.2 * tailLevel
  let mid := (diffusedL + diffusedR) * 0.707
  let side := (diffusedL - diffusedR) * 0.707
  let wetL := mid + side * s.envelopment
  let wetR := mid - side * s.envelopment
  let earlyMix : ℚ := 0.3
  let lateMix : ℚ := 0.7
  let wetL := (earlyL * earlyMix + wetL * lateMix) * s.normalizedReflectivity
  let wetR := (earlyR * earlyMix + wetR * lateMix) * s.normalizedReflectivity
  let hfBoost := s.tieLevel * 2
  { earlyTaps := e.1, combsL := cL.1, combsR := cR.1, allpassesL := a.1, allpassesR := a.2.1
    wetL := wetL * (1 + hfBoost * 0.5), wetR := wetR * (1 + hfBoost * 0.5) }

/-- One pass of the sample loop of `processStereo` apart from the smoothers: the input
samples `inL`, `inR` are `left[i]`, `right[i]` before the pass, `smoothMix` is the mix
value the pass uses, and the two results are `left[i]`, `right[i]` after it. The
arithmetic is exact; what the lines forming the output do with an overflowed sample is
`outputSample`. -/
def processSample (M : FloatMath) (s : ReverbProcessor) (smoothMix inL inR : ℚ) :
    ReverbProcessor × ℚ × ℚ :=
  let gain := s.roomVolume
  let dryL := inL * jlimit 0 2 gain
  let dryR := inR * jlimit 0 2 gain
  let pL := s.preDelayL.process dryL
  let pR := s.preDelayR.process dryR
  let w := wetStage M s pL.2 pR.2
  let outL := dryL * (1 - smoothMix) + w.wetL * smoothMix
  let outR := dryR * (1 - smoothMix) + w.wetR * smoothMix
  let reverbLevel := 0.995 * s.reverbLevel + 0.005 * M.sqrt (w.wetL * w.wetL + w.wetR * w.wetR)
  ({ s with
      preDelayL := pL.1, preDelayR := pR.1, earlyTaps := w.earlyTaps
      combsL := w.combsL, combsR := w.combsR
      allpassesL := w.allpassesL, allpassesR := w.allpassesR
      reverbLevel := reverbLevel },
    jlimit (-1) 1 (outL * 0.95), jlimit (-1) 1 (outR * 0.95))

/-- The three `getNextValue` calls on the decay, damping and mix smoothers; the value
returned is the new `currentMix` (the decay and damping values are not used by the
loop). -/
def advanceSmoothers (s : ReverbProcessor) : ReverbProcessor × ℚ :=
  let d := s.decaySmoother.getNextValue
  let p := s.dampingSmoother.getNextValue
  let m := s.mixSmoother.getNextValue
  ({ s with decaySmoother := d.1, dampingSmoother := p.1, mixSmoother := m.1 }, m.2)

/-- The variables of the sample loop of `processStereo`: the processor, the two sample
arrays (processed in place) and the local `currentMix`. -/
structure LoopState where
  s : ReverbProcessor
  left : List ℚ
  right : List ℚ
  currentMix : ℚ

/-- The body of the sample loop of `processStereo` at index `i`. -/
def sampleStep (M : FloatMath) (i : Nat) (st : LoopState) : LoopState :=
  let smoothMix := if i = 0 then st.s.mixSmoother.getCurrentValue else st.currentMix
  let r := processSample M st.s smoothMix (st.left.getD i 0) (st.right.getD i 0)
  let left := st.left.set i r.2.1
  let right := st.right.set i r.2.2
  if i % 8 = 0 then
    let a := advanceSmoothers r.1
    { s := a.1, left := left, right := right, currentMix := a.2 }
  else
    { s := r.1, left := left, right := right, currentMix := st.currentMix }

/-- The part of `processStereo` after its two guards: the three `getNextValue` calls,
then `n` passes of the sample loop over the arrays `l`, `r`. -/
def sampleLoop (M : FloatMath) (s : ReverbProcessor) (l r : List ℚ) (n : Nat) : LoopState :=
  let a := advanceSmoothers s
  forLoop n (sampleStep M) { s := a.1, left := l, right := r, currentMix := a.2 }

/-- The call `processStereo (left, right, numSamples)`: a null pointer is `none`. Returns
the processor and the two arrays after the call. -/
def processStereo (M : FloatMath) (s : ReverbProcessor) (left right : Option (List ℚ))
    (numSamples : Int) : ReverbProcessor × Option (List ℚ) × Option (List ℚ) :=
  match left, right with
  | some l, some r =>
    if numSamples ≤ 0 then (s, left, right)
    else if s.combsL = [] ∨ s.combsR = [] then (s, left, right)
    else
      let st := sampleLoop M s l r numSamples.toNat
      (st.s, some st.left, some st.right)
  | _, _ => (s, left, right)

/-- The left array after a call of `processStereo` (empty for a null pointer). -/
def outLeft (res : ReverbProcessor × Option (List ℚ) × Option (List ℚ)) : List ℚ :=
  res.2.1.getD []

/-- The right array after a call of `processStereo` (empty for a null pointer). -/
def outRight (res : ReverbProcessor × Option (List ℚ) × Option (List ℚ)) : List ℚ :=
  res.2.2.getD []

/-! ## Observations and predicates used to state the properties -/

/-- The samples below index `k` of both arrays lie in `[-1, 1]`. -/
def BoundedBelow (k : Nat) (st : LoopState) : Prop :=
  ∀ j, j < k → (∀ x, st.left[j]? = some x → -1 ≤ x ∧ x ≤ 1) ∧
    (∀ x, st.right[j]? = some x → -1 ≤ x ∧ x ≤ 1)

/-- The configuration of a comb filter: buffer capacity, feedback and damping
coefficient. -/
def combConfig (c : CombFilter) : Nat × ℚ × ℚ := (c.buffer.length, c.feedback, c.damp)

/-- The configuration of an allpass filter: buffer capacity and coefficient. -/
def allpassConfig (a : AllpassFilter) : Nat × ℚ := (a.buffer.length, a.coeff)

/-- The configuration of a delay line: buffer capacity and configured delay. -/
def delayConfig (d : DelayLine) : Nat × Int := (d.buffer.length, d.delaySamples)

/-- The 16 parameters of the processor, in the order of the setters. -/
def parameters (s : ReverbProcessor) : List ℚ :=
  [s.decayTime, s.preDelayMs, s.damping, s.diffusion, s.reverbDiffusion, s.roomSize,
    s.roomVolume, s.earlyReflectionLevel, s.reflectionDelay, s.subsequentReverbDelay,
    s.subsequentLevel, s.envelopment, s.normalizedReflectivity, s.tieLevel, s.position,
    s.dryWet]

/-- Everything about a processor that is sized or configured rather than signal state:
the sample rate, the 16 parameters, the tie-level gain, and for every filter its capacity,
coefficients and configured delay. -/
structure Configuration where
  sampleRate : ℚ
  parameters : List ℚ
  tieLevelGain : ℚ
  combsL : List (Nat × ℚ × ℚ)
  combsR : List (Nat × ℚ × ℚ)
  allpassesL : List (Nat × ℚ)
  allpassesR : List (Nat × ℚ)
  preDelayL : Nat × Int
  preDelayR : Nat × Int
  earlyTaps : List ((Nat × Int) × (Nat × Int))

def configuration (s : ReverbProcessor) : Configuration :=
  { sampleRate := s.sampleRate
    parameters := parameters s
    tieLevelGain := s.tieLevelGain
    combsL := s.combsL.map combConfig
    combsR := s.combsR.map combConfig
    allpassesL := s.allpassesL.map allpassConfig
    allpassesR := s.allpassesR.map allpassConfig
    preDelayL := delayConfig s.preDelayL
    preDelayR := delayConfig s.preDelayR
    earlyTaps := s.earlyTaps.map (fun tap => (delayConfig tap.1, delayConfig tap.2)) }

/-- The base feedback of the RT60 mapping as the specification words it, from the
parameters of `s`: `10 ^ (-3 * delaySeconds / decayTime)` for the first comb's scaled
base delay, times the reflectivity, clamped to `[0, 0.998]`. -/
def rt60BaseFeedback (M : FloatMath) (s : ReverbProcessor) : ℚ :=
  max 0 (min 0.998
    (M.pow 10 (-3 * (29.7 * s.roomSize * s.subsequentReverbDelay / 1000) / s.decayTime) *
      s.normalizedReflectivity))

/-- The per-comb feedback of the RT60 mapping as the specification words it: comb `i` of
the left bank has the base feedback times `1 + 0.015 * (i mod 4)`, comb `i` of the right
bank the base feedback divided by it, both clamped to `[0, 0.9999]`. -/
def FeedbackMapped (M : FloatMath) (s : ReverbProcessor) : Prop :=
  ∀ i : Nat, i < 8 →
    (s.combsL[i]?).map CombFilter.feedback =
      some (max 0 (min 0.9999 (rt60BaseFeedback M s * (1 + 0.015 * ((i % 4 : Nat) : ℚ))))) ∧
    (s.combsR[i]?).map CombFilter.feedback =
      some (max 0 (min 0.9999 (rt60BaseFeedback M s / (1 + 0.015 * ((i % 4 : Nat) : ℚ)))))

/-- The invariant of a linear ramp: while the smoother is ramping, the remaining steps
lead from the current value exactly to the target. Every operation of `SmoothedValue`
keeps it. -/
def OnRamp (v : SmoothedValue) : Prop :=
  0 < v.countdown → v.currentValue + (v.countdown : ℚ) * v.step = v.target

/-- The dry/wet value `t` is in effect: the mix smoother's current value and target are
both `t` (and the smoother is a well-formed ramp). -/
def MixInEffect (t : ℚ) (s : ReverbProcessor) : Prop :=
  s.mixSmoother.currentValue = t ∧ s.mixSmoother.target = t ∧ OnRamp s.mixSmoother

/-- The processor without its three smoothers (they are replaced by fresh ones): what the
wet and dry signal paths read and write. -/
def dspPart (s : ReverbProcessor) : ReverbProcessor :=
  { s with decaySmoother := SmoothedValue.init, dampingSmoother := SmoothedValue.init,
           mixSmoother := SmoothedValue.init }

/-- The sample loop as a stream transformer for a constant mix value: the input pairs
`(left[i], right[i])` are consumed in order, and the output pairs are produced with the
same mix for every sample. -/
def dspStream (M : FloatMath) (mix : ℚ) :
    ReverbProcessor → List (ℚ × ℚ) → ReverbProcessor × List (ℚ × ℚ)
  | s, [] => (s, [])
  | s, x :: xs =>
    let r := processSample M s mix x.1 x.2
    let rest := dspStream M mix r.1 xs
    (rest.1, r.2 :: rest.2)

/-- The loop variables carry the mix value `t`: it is in effect in the processor and it
is the value of the local `currentMix`. -/
def LoopSettled (t : ℚ) (st : LoopState) : Prop :=
  MixInEffect t st.s ∧ st.currentMix = t

/-- The part of a processor that the resizing loops and the feedback, damping, diffusion
and tie-level updates never write: sample rate, room volume, dry/wet, pre-delay time, the
mix smoother, the two pre-delay lines and the number of filters of each bank. -/
structure UpdateFrame where
  sampleRate : ℚ
  roomVolume : ℚ
  dryWet : ℚ
  preDelayMs : ℚ
  mixSmoother : SmoothedValue
  preDelayL : DelayLine
  preDelayR : DelayLine
  nCombsL : Nat
  nCombsR : Nat
  nAllpassesL : Nat
  nAllpassesR : Nat
  nTaps : Nat

def updateFrame (s : ReverbProcessor) : UpdateFrame :=
  { sampleRate := s.sampleRate, roomVolume := s.roomVolume, dryWet := s.dryWet
    preDelayMs := s.preDelayMs, mixSmoother := s.mixSmoother
    preDelayL := s.preDelayL, preDelayR := s.preDelayR
    nCombsL := s.combsL.length, nCombsR := s.combsR.length
    nAllpassesL := s.allpassesL.length, nAllpassesR := s.allpassesR.length
    nTaps := s.earlyTaps.length }

/-- What `updatePreDelay` does to the frame when the sample rate is positive (so that
`msToSamples` leaves the sample rate alone). -/
def preDelayUpdate (f : UpdateFrame) : UpdateFrame :=
  let n := truncToInt (f.sampleRate * 500 / 1000)
  let maxPreDelay := if n < 1 then 1 else n
  let grow : Bool := decide (f.preDelayL.buffer.length < toSizeT maxPreDelay)
  let d := truncToInt (f.sampleRate * (if f.preDelayMs < 0 then 0 else f.preDelayMs) / 1000)
  { f with
    preDelayL := (if grow then f.preDelayL.setSize maxPreDelay else f.preDelayL).setDelay d
    preDelayR := (if grow then f.preDelayR.setSize maxPreDelay else f.preDelayR).setDelay d }

/-- Every sample of a buffer is zero. -/
def AllZero (l : List ℚ) : Prop := ∀ j : Nat, l.getD j 0 = 0

/-- A comb filter holding no signal: zero buffer, zero one-pole state. -/
def CombSilent (c : CombFilter) : Prop := AllZero c.buffer ∧ c.lowpass.state = 0

/-- An allpass filter holding no signal. -/
def AllpassSilent (a : AllpassFilter) : Prop := AllZero a.buffer

/-- A delay line holding no signal. -/
def DelaySilent (d : DelayLine) : Prop := AllZero d.buffer

/-- A pre-delay line of capacity `N` whose two cursors are both at `k` and whose buffer
is zero from index `k` on: the next `N - k` reads return zero whatever is written. -/
def PreDelayFresh (N k : Nat) (d : DelayLine) : Prop :=
  d.buffer.length = N ∧ d.writeIndex = (k : Int) ∧ d.readIndex = (k : Int) ∧
    ∀ j : Nat, k ≤ j → d.buffer.getD j 0 = 0

/-- A processor whose wet path holds no signal and whose pre-delay lines are fresh at
cursor `k`. -/
def Quiet (N k : Nat) (s : ReverbProcessor) : Prop :=
  PreDelayFresh N k s.preDelayL ∧ PreDelayFresh N k s.preDelayR ∧
    (∀ tap ∈ s.earlyTaps, DelaySilent tap.1 ∧ DelaySilent tap.2) ∧
    (∀ c ∈ s.combsL, CombSilent c) ∧ (∀ c ∈ s.combsR, CombSilent c) ∧
    (∀ a ∈ s.allpassesL, AllpassSilent a) ∧ (∀ a ∈ s.allpassesR, AllpassSilent a)

/-- The output sample of the dry path alone for the input sample `x`: input gain
`clamp (roomVolume, 0, 2)`, weight `1 - mix`, the `0.95` attenuation and the limiter. -/
def dryOut (roomVolume mix x : ℚ) : ℚ :=
  max (-1) (min 1 (x * max 0 (min 2 roomVolume) * (1 - mix) * 0.95))

/-- The unit impulse of 4096 samples: 1 at index 0, 0 elsewhere. -/
def impulse : List ℚ := 1 :: List.replicate 4095 0

/-- The volume-scaled dry input sample: the input times `clamp (roomVolume, 0, 2)`. -/
def dryScaled (roomVolume x : ℚ) : ℚ := max 0 (min 2 roomVolume) * x

/-- A processor with 8 combs and 4 allpasses per channel and 6 tap pairs none of which
has ever been sized: every buffer has capacity 0. -/
def Unsized (s : ReverbProcessor) : Prop :=
  s.combsL.map (fun c => c.buffer.length) = List.replicate 8 0 ∧
    s.combsR.map (fun c => c.buffer.length) = List.replicate 8 0 ∧
    s.allpassesL.map (fun a => a.buffer.length) = List.replicate 4 0 ∧
    s.allpassesR.map (fun a => a.buffer.length) = List.replicate 4 0 ∧
    s.earlyTaps.map (fun t => (t.1.buffer.length, t.2.buffer.length)) = List.replicate 6 (0, 0)

/-- The statics of `updateAllParameters` after a first full update at the default
parameters (room size 0.75, reflection delay 1, subsequent delay 1). -/
def defaultStatics : UpdateStatics :=
  { lastRoomSize := 0.75, lastRefDelay := 1, lastSubDelay := 1 }

end ReverbProcessor

end Reverb

namespace Reverb

/-! ## Observations used by the delay-line, smoothing and sizing properties -/

namespace DelayLine

/-- The cursor-offset relation of a delay line: the read cursor equals the write cursor
minus the configured delay, modulo the capacity. -/
def CursorOffset (d : DelayLine) : Prop :=
  d.readIndex = (d.writeIndex - d.delaySamples) % (d.buffer.length : Int)

/-- Feeding a sequence of samples through `process`, one call per sample: the line after
the last call and the outputs in order. -/
def feed : DelayLine → List ℚ → DelayLine × List ℚ
  | d, [] => (d, [])
  | d, x :: xs =>
    let r := d.process x
    let rest := feed r.1 xs
    (rest.1, r.2 :: rest.2)

end DelayLine

namespace SmoothedValue

/-- The smoother after `k` calls of `getNextValue`. -/
def advance (k : Nat) (v : SmoothedValue) : SmoothedValue :=
  (fun w : SmoothedValue => w.getNextValue.1)^[k] v

end SmoothedValue

namespace ReverbProcessor

/-- The delay in samples derived for the left line of early-reflection tap `t` from the
current parameters: `msToSamples (earlyTapDelaysMs[t] * roomSize * reflectionDelay)`. -/
def derivedTapDelayL (s : ReverbProcessor) (t : Nat) : Int :=
  (msToSamples s (earlyTapDelaysMs.getD t 0 * s.roomSize * s.reflectionDelay)).2

/-- The delay in samples derived for the right line of early-reflection tap `t`: the
left delay time times 1.03. -/
def derivedTapDelayR (s : ReverbProcessor) (t : Nat) : Int :=
  (msToSamples s (earlyTapDelaysMs.getD t 0 * s.roomSize * s.reflectionDelay * 1.03)).2

/-- The value of `msToSamples (ms)` at a positive sample rate `sr`. -/
def samplesAt (sr ms : ℚ) : Int :=
  truncToInt (sr * (if ms < 0 then 0 else ms) / 1000)

/-- What one pass of the early-reflection loop of `updateAllParameters` does to the tap
pair at index `t`, at the positive sample rate `sr`, size scalar `c` and reflection delay
`rd`. -/
def tapPass (sr c rd : ℚ) (t : Nat) (tap : DelayLine × DelayLine) : DelayLine × DelayLine :=
  (sizeAndDelay tap.1 (samplesAt sr (earlyTapDelaysMs.getD t 0 * c * rd)),
    sizeAndDelay tap.2 (samplesAt sr (earlyTapDelaysMs.getD t 0 * c * rd * 1.03)))

/-- What one pass of the allpass loop of `updateAllParameters` does to the left allpass at
index `i`, at the positive sample rate `sr` and size scalar `c`. -/
def allpassPassL (sr c : ℚ) (i : Nat) (a : AllpassFilter) : AllpassFilter :=
  let n := samplesAt sr (baseAllpassDelaysMs.getD i 0 * c)
  let delaySamples := if n < 1 then 1 else n
  if a.buffer.length ≠ toSizeT delaySamples then a.setSize delaySamples else a

/-- What one pass of the allpass loop of `updateAllParameters` does to the right allpass at
index `i`. -/
def allpassPassR (sr c : ℚ) (i : Nat) (a : AllpassFilter) : AllpassFilter :=
  let n := samplesAt sr (baseAllpassDelaysMs.getD i 0 * c * 1.02)
  if a.buffer.length ≠ toSizeT n then a.setSize n else a

/-- A call of one of the 16 parameter setters, with its argument. -/
inductive SetterCall where
  | decayTime (v : ℚ)
  | preDelay (v : ℚ)
  | damping (v : ℚ)
  | diffusion (v : ℚ)
  | reverbDiffusion (v : ℚ)
  | roomSize (v : ℚ)
  | roomVolume (v : ℚ)
  | earlyReflectionLevel (v : ℚ)
  | reflectionDelay (v : ℚ)
  | subsequentReverbDelay (v : ℚ)
  | subsequentLevel (v : ℚ)
  | envelopment (v : ℚ)
  | normalizedReflectivity (v : ℚ)
  | tieLevel (v : ℚ)
  | position (v : ℚ)
  | dryWet (v : ℚ)

/-- The processor after one setter call. -/
def applySetter (M : FloatMath) (s : ReverbProcessor) : SetterCall → ReverbProcessor
  | SetterCall.decayTime v => setDecayTime M s v
  | SetterCall.preDelay v => setPreDelay s v
  | SetterCall.damping v => setDamping s v
  | SetterCall.diffusion v => setDiffusion s v
  | SetterCall.reverbDiffusion v => setReverbDiffusion s v
  | SetterCall.roomSize v => setRoomSize M s v
  | SetterCall.roomVolume v => setRoomVolume s v
  | SetterCall.earlyReflectionLevel v => setEarlyReflectionLevel s v
  | SetterCall.reflectionDelay v => setReflectionDelay s v
  | SetterCall.subsequentReverbDelay v => setSubsequentReverbDelay M s v
  | SetterCall.subsequentLevel v => setSubsequentLevel s v
  | SetterCall.envelopment v => setEnvelopment s v
  | SetterCall.normalizedReflectivity v => setNormalizedReflectivity M s v
  | SetterCall.tieLevel v => setTieLevel s v
  | SetterCall.position v => setPosition s v
  | SetterCall.dryWet v => setDryWet s v

/-- The processor after a sequence of setter calls, in order. -/
def applySetters (M : FloatMath) (s : ReverbProcessor) (calls : List SetterCall) :
    ReverbProcessor :=
  calls.foldl (applySetter M) s

/-- The coefficient part of the derived state: the feedback and damping of every comb, the
coefficient of every allpass, and the tie-level gain. -/
@[ext]
structure Coefficients where
  feedbackL : List ℚ
  feedbackR : List ℚ
  dampL : List ℚ
  dampR : List ℚ
  coeffL : List ℚ
  coeffR : List ℚ
  tieLevelGain : ℚ

/-- The coefficients a processor holds. -/
def coefficients (s : ReverbProcessor) : Coefficients :=
  { feedbackL := s.combsL.map CombFilter.feedback
    feedbackR := s.combsR.map CombFilter.feedback
    dampL := s.combsL.map CombFilter.damp
    dampR := s.combsR.map CombFilter.damp
    coeffL := s.allpassesL.map AllpassFilter.coeff
    coeffR := s.allpassesR.map AllpassFilter.coeff
    tieLevelGain := s.tieLevelGain }

/-- The coefficients of a processor with 8 combs and 4 allpasses per channel as a function
of the parameter values alone (`p` lists them in the order of `parameters`): the RT60
feedback with its per-comb variation, the damping `0.9 * damping`, the early and tail
diffusion coefficients, and the tie-level gain, each with the clamp of its setter. -/
def derivedCoefficients (M : FloatMath) (p : List ℚ) : Coefficients :=
  let decayTime := p.getD 0 0
  let damping := p.getD 2 0
  let diffusion := p.getD 3 0
  let reverbDiffusion := p.getD 4 0
  let roomSize := p.getD 5 0
  let subsequentReverbDelay := p.getD 9 0
  let normalizedReflectivity := p.getD 12 0
  let tieLevel := p.getD 13 0
  let base := jlimit 0 0.998
    (M.pow 10 (-3 * (29.7 * roomSize * subsequentReverbDelay / 1000) / decayTime) *
      normalizedReflectivity)
  let variation := fun i : Nat => 1 + 0.015 * ((i % 4 : Nat) : ℚ)
  let apCoeff := fun i : Nat =>
    jlimit 0 0.9999
      (if i < 2 then jlimit 0.01 0.999 (diffusion * 0.6)
        else jlimit 0.01 0.999 (reverbDiffusion * 0.6))
  { feedbackL := (List.range 8).map (fun i => jlimit 0 0.9999 (base * variation i))
    feedbackR := (List.range 8).map (fun i => jlimit 0 0.9999 (base * (1 / variation i)))
    dampL := List.replicate 8 (jlimit 0 0.9999 (damping * 0.9))
    dampR := List.replicate 8 (jlimit 0 0.9999 (damping * 0.9))
    coeffL := (List.range 4).map apCoeff
    coeffR := (List.range 4).map apCoeff
    tieLevelGain := jlimit 0 3 (0.5 + tieLevel * 1.5) }

/-- A prepared processor (8 combs and 4 allpasses per channel, a positive sample rate, a
decay time of at least 0.01) whose coefficients are the ones derived from its current
parameter values. -/
def CoefficientsDerived (M : FloatMath) (s : ReverbProcessor) : Prop :=
  s.combsL.length = 8 ∧ s.combsR.length = 8 ∧ s.allpassesL.length = 4 ∧
    s.allpassesR.length = 4 ∧ 0 < s.sampleRate ∧ 0.01 ≤ s.decayTime ∧
    coefficients s = derivedCoefficients M (parameters s)

end ReverbProcessor

end Reverb

namespace Reverb

/-! ## Observations used by the filter-level properties -/

/-- The element read `v[i]` of a `std::vector<float>` at a `size_t` index: defined only
inside the vector. -/
def vectorAt (v : List ℚ) (i : Nat) : Option ℚ := v[i]?

/-- The element assignment `v[i] = x` of a `std::vector<float>` at a `size_t` index:
defined only inside the vector. -/
def vectorAssign (v : List ℚ) (i : Nat) (x : ℚ) : Option (List ℚ) :=
  if i < v.length then some (v.set i x) else none

namespace CombFilter

/-- The call `process` with every buffer access checked: the `int` cursor converts to
`size_t` at each `buffer[writeIndex]`, and the result is `none` when an index falls
outside the buffer. -/
def processChecked (c : CombFilter) (input : ℚ) : Option (CombFilter × ℚ) :=
  if c.buffer = [] then some (c, input)
  else
    let writeIndex := if c.buffer.length ≤ toSizeT c.writeIndex then 0 else c.writeIndex
    (vectorAt c.buffer (toSizeT writeIndex)).bind fun output =>
      let r := c.lowpass.process output c.damp
      let safeFeedback := jlimit 0 0.9999 c.feedback
      (vectorAssign c.buffer (toSizeT writeIndex) (input + r.2 * safeFeedback)).map
        fun buffer =>
          ({ c with
              buffer := buffer
              writeIndex := ((toSizeT (writeIndex + 1) % c.buffer.length : Nat) : Int)
              lowpass := r.1 },
            output)

/-- Feeding a sequence of samples through `process`, one call per sample: the filter
after the last call and the outputs in order. -/
def feed : CombFilter → List ℚ → CombFilter × List ℚ
  | c, [] => (c, [])
  | c, x :: xs =>
    let r := c.process x
    let rest := feed r.1 xs
    (rest.1, r.2 :: rest.2)

/-- The one-pole state of the comb right after call `j` (counted from 0) of a run of
`process` over the inputs `xs`. -/
def stateAfter (c : CombFilter) (xs : List ℚ) (j : Nat) : ℚ :=
  (c.feed (xs.take (j + 1))).1.lowpass.state

/-- The largest magnitude a comb filter holds: the maximum of `|buffer[j]|` over the
buffer and of the magnitude of the one-pole state. -/
def peak (c : CombFilter) : ℚ :=
  (c.buffer.map fun x => |x|).foldr max |c.lowpass.state|

end CombFilter

namespace EnhancedCombFilter

/-- The call `process` with every buffer access checked, as for `CombFilter`. -/
def processChecked (c : EnhancedCombFilter) (input stereoSpread : ℚ) :
    Option (EnhancedCombFilter × ℚ) :=
  if c.buffer = [] then some (c, input)
  else
    let writeIndex := if c.buffer.length ≤ toSizeT c.writeIndex then 0 else c.writeIndex
    (vectorAt c.buffer (toSizeT writeIndex)).bind fun output =>
      let r := c.damping.process output
      let spreadMod := 1 + stereoSpread * 0.01
      let safeFeedback := jlimit 0 0.999 (c.feedback * spreadMod)
      (vectorAssign c.buffer (toSizeT writeIndex) (input + r.2 * safeFeedback)).map
        fun buffer =>
          ({ c with
              buffer := buffer
              writeIndex := ((toSizeT (writeIndex + 1) % c.buffer.length : Nat) : Int)
              damping := r.1 },
            output)

end EnhancedCombFilter

namespace AllpassFilter

/-- The call `process` with every buffer access checked, as for `CombFilter`. -/
def processChecked (a : AllpassFilter) (input : ℚ) : Option (AllpassFilter × ℚ) :=
  if a.buffer = [] then some (a, input)
  else
    let writeIndex := if a.buffer.length ≤ toSizeT a.writeIndex then 0 else a.writeIndex
    (vectorAt a.buffer (toSizeT writeIndex)).bind fun bufOut =>
      let safeCoeff := jlimit 0 0.9999 a.coeff
      let output := -input + bufOut
      (vectorAssign a.buffer (toSizeT writeIndex) (input + bufOut * safeCoeff)).map
        fun buffer =>
          ({ a with
              buffer := buffer
              writeIndex := ((toSizeT (writeIndex + 1) % a.buffer.length : Nat) : Int) },
            output)

/-- Feeding a sequence of samples through `process`, one call per sample: the filter
after the last call and the outputs in order. -/
def feed : AllpassFilter → List ℚ → AllpassFilter × List ℚ
  | a, [] => (a, [])
  | a, x :: xs =>
    let r := a.process x
    let rest := feed r.1 xs
    (rest.1, r.2 :: rest.2)

/-- The value held, right after call `j` (counted from 0) of a run of `process` over the
inputs `xs`, by the buffer slot that call wrote: slot `j mod N` for a run that starts at
cursor 0 on a buffer of capacity `N`. -/
def storedAfter (a : AllpassFilter) (N : Nat) (xs : List ℚ) (j : Nat) : ℚ :=
  (a.feed (xs.take (j + 1))).1.buffer.getD (j % N) 0

end AllpassFilter

namespace DelayLine

/-- The call `process` with every buffer access checked: the read at `readIndex` comes
first, then the write at `writeIndex`. -/
def processChecked (d : DelayLine) (input : ℚ) : Option (DelayLine × ℚ) :=
  if d.buffer = [] then some (d, input)
  else
    let writeIndex := if d.buffer.length ≤ toSizeT d.writeIndex then 0 else d.writeIndex
    let readIndex := if d.buffer.length ≤ toSizeT d.readIndex then 0 else d.readIndex
    (vectorAt d.buffer (toSizeT readIndex)).bind fun output =>
      (vectorAssign d.buffer (toSizeT writeIndex) input).map fun buffer =>
        ({ d with
            buffer := buffer
            writeIndex := ((toSizeT (writeIndex + 1) % d.buffer.length : Nat) : Int)
            readIndex := ((toSizeT (readIndex + 1) % d.buffer.length : Nat) : Int) },
          output)

end DelayLine

namespace ReverbProcessor

/-- A processor holding no signal at all: every comb, allpass, early-tap and pre-delay
buffer is zero and every one-pole state is zero. -/
def Silent (s : ReverbProcessor) : Prop :=
  DelaySilent s.preDelayL ∧ DelaySilent s.preDelayR ∧
    (∀ tap ∈ s.earlyTaps, DelaySilent tap.1 ∧ DelaySilent tap.2) ∧
    (∀ c ∈ s.combsL, CombSilent c) ∧ (∀ c ∈ s.combsR, CombSilent c) ∧
    (∀ a ∈ s.allpassesL, AllpassSilent a) ∧ (∀ a ∈ s.allpassesR, AllpassSilent a)

/-- The product of the fade factors of the first `n` passes of the fade loop of
`resetWithFade`: `(1 - 0/64) * (1 - 1/64) * ... * (1 - (n-1)/64)`. -/
def fadeProduct : Nat → ℚ
  | 0 => 1
  | n + 1 => fadeProduct n * (1 - (n : ℚ) / 64)

/-- The two diffused tail signals of one sample of `processStereo`, as `wetStage` computes
them before the mid/side recombination: the comb sums averaged over the bank, passed
through the allpass chains and scaled by the tail level. -/
def diffused (M : FloatMath) (s : ReverbProcessor) (preL preR : ℚ) : ℚ × ℚ :=
  let cL := processCombsL M preL preR s.position 0 s.combsL 0
  let combSumL := cL.2 / (s.combsL.length : ℚ)
  let cR := processCombsR M preL preR s.position 0 s.combsR 0
  let combSumR := cR.2 / (s.combsR.length : ℚ)
  let a := processAllpasses s.allpassesL s.allpassesR combSumL combSumR
  let tailLevel := s.subsequentLevel * s.tieLevelGain
  (a.2.2.1 * tailLevel, a.2.2.2 * tailLevel)

end ReverbProcessor

end Reverb

namespace Reverb

/-! ## Float kinds, float rounding and signal levels

The model above takes `float` arithmetic as exact. The definitions of this section state
where that matters: the special values of a `float` (overflow to infinity, NaN), the
rounding of an operation, and bounds on the signal a processor holds under which no value
comes near the float range. -/

/-- The largest finite `float` (IEEE binary32): `(2 - 2^-23) * 2^127`. -/
def floatMax : ℚ := 340282346638528859811704183484516925440

/-- A `float` by kind: a finite value, an infinity of either sign, or a NaN. The rounding
of finite results and the sign of zero are not modelled; a finite result of magnitude
above `floatMax` overflows to the infinity of its sign. -/
inductive FloatVal where
  | finite (value : ℚ)
  | infinity (negative : Bool)
  | nan
deriving DecidableEq, Repr

namespace FloatVal

/-- The float an exact finite result becomes. -/
def ofExact (q : ℚ) : FloatVal :=
  if floatMax < q then infinity false else if q < -floatMax then infinity true else finite q

def neg : FloatVal → FloatVal
  | finite a => finite (-a)
  | infinity n => infinity (!n)
  | nan => nan

/-- The sum `a + b`: opposite infinities give NaN. -/
def add : FloatVal → FloatVal → FloatVal
  | nan, _ => nan
  | _, nan => nan
  | finite a, finite b => ofExact (a + b)
  | finite _, infinity n => infinity n
  | infinity n, finite _ => infinity n
  | infinity n, infinity m => if n = m then infinity n else nan

def sub (a b : FloatVal) : FloatVal := add a (neg b)

/-- The product `a * b`: zero times an infinity gives NaN. -/
def mul : FloatVal → FloatVal → FloatVal
  | nan, _ => nan
  | _, nan => nan
  | finite a, finite b => ofExact (a * b)
  | finite a, infinity n => if a = 0 then nan else infinity (xor n (decide (a < 0)))
  | infinity n, finite b => if b = 0 then nan else infinity (xor n (decide (b < 0)))
  | infinity n, infinity m => infinity (xor n m)

/-- The comparison `a < b`: false whenever an operand is NaN. -/
def lt : FloatVal → FloatVal → Bool
  | nan, _ => false
  | _, nan => false
  | finite a, finite b => decide (a < b)
  | finite _, infinity n => !n
  | infinity n, finite _ => n
  | infinity n, infinity m => n && !m

/-- The `juce::jlimit` template on floats: `v < lo ? lo : (hi < v ? hi : v)`; a NaN fails
both comparisons and is returned as it is. -/
def jlimit (lo hi v : FloatVal) : FloatVal :=
  if lt v lo then lo else if lt hi v then hi else v

end FloatVal

/-- The lines of the sample loop of `processStereo` that form one output sample, on float
kinds: `dry = input * jlimit (0, 2, roomVolume)`,
`out = dry * (1 - smoothMix) + wet * smoothMix`, `out = jlimit (-1, 1, out * 0.95)`. -/
def outputSample (input roomVolume smoothMix wet : FloatVal) : FloatVal :=
  let dry := FloatVal.mul input
    (FloatVal.jlimit (FloatVal.finite 0) (FloatVal.finite 2) roomVolume)
  let out := FloatVal.add (FloatVal.mul dry (FloatVal.sub (FloatVal.finite 1) smoothMix))
    (FloatVal.mul wet smoothMix)
  FloatVal.jlimit (FloatVal.finite (-1)) (FloatVal.finite 1)
    (FloatVal.mul out (FloatVal.finite 0.95))

/-- Every sample of a buffer has magnitude at most `b`. -/
def Within (b : ℚ) (l : List ℚ) : Prop := ∀ v ∈ l, |v| ≤ b

/-- A comb filter whose buffer and one-pole state have magnitude at most `b`. -/
def CombWithin (b : ℚ) (c : CombFilter) : Prop :=
  Within b c.buffer ∧ |c.lowpass.state| ≤ b

/-- An allpass chain whose first stage receives inputs of magnitude at most `v`: the
buffer of a stage is within 10000 times the bound on its input (the coefficient is at most
0.9999), and the bound on the input grows by the factor 10001 from a stage to the next. -/
def AllpassesWithin : ℚ → List AllpassFilter → Prop
  | _, [] => True
  | v, a :: rest => Within (10000 * v) a.buffer ∧ AllpassesWithin (10001 * v) rest

/-- A math library whose sine and cosine stay in `[-1, 1]`. -/
def BoundedMath (M : FloatMath) : Prop := ∀ x : ℚ, |M.sin x| ≤ 1 ∧ |M.cos x| ≤ 1

/-- A rational stand-in for `<cmath>` with bounded sine and cosine, used to run the model
on concrete inputs. -/
def boundedMath : FloatMath where
  sin := fun x => x / (1 + x * x)
  cos := fun x => 1 / (1 + x * x)
  pow := fun b e => 1 + e * (b - 1)
  sqrt := fun x => (x + 1) / 2

namespace ReverbProcessor

/-- A processor at signal level `B`: it has at most 8 combs and 4 allpasses per channel,
the parameters the wet path reads are in the ranges their setters clamp to, and it holds no
more signal than input samples of magnitude at most `B` can produce: pre-delay and tap
lines within `2 B` (the input gain is at most 2), combs within `30000 B` (comb input at
most `3 B`, feedback at most 0.9999), and the allpass chains within the bounds of
`AllpassesWithin` from `30000 B` on. With `B ≤ 10^9` every such value is below `10^31`,
far inside the float range. The level meter `reverbLevel`, which squares the wet signals
and which the signal path never reads, is not part of the level. -/
structure Stable (B : ℚ) (s : ReverbProcessor) : Prop where
  level_nonneg : 0 ≤ B
  level_le : B ≤ 1000000000
  combsL_count : s.combsL.length ≤ 8
  combsR_count : s.combsR.length ≤ 8
  allpassesL_count : s.allpassesL.length ≤ 4
  allpassesR_count : s.allpassesR.length ≤ 4
  position_range : 0 ≤ s.position ∧ s.position ≤ 1
  earlyLevel_range : 0 ≤ s.earlyReflectionLevel ∧ s.earlyReflectionLevel ≤ 1
  subsequentLevel_range : 0 ≤ s.subsequentLevel ∧ s.subsequentLevel ≤ 1
  tieLevelGain_range : 0 ≤ s.tieLevelGain ∧ s.tieLevelGain ≤ 3
  envelopment_range : 0 ≤ s.envelopment ∧ s.envelopment ≤ 1
  reflectivity_range : 0 ≤ s.normalizedReflectivity ∧ s.normalizedReflectivity ≤ 1
  tieLevel_range : 0 ≤ s.tieLevel ∧ s.tieLevel ≤ 1
  preDelayL_within : Within (2 * B) s.preDelayL.buffer
  preDelayR_within : Within (2 * B) s.preDelayR.buffer
  taps_within : ∀ tap ∈ s.earlyTaps, Within (2 * B) tap.1.buffer ∧ Within (2 * B) tap.2.buffer
  combsL_within : ∀ c ∈ s.combsL, CombWithin (30000 * B) c
  combsR_within : ∀ c ∈ s.combsR, CombWithin (30000 * B) c
  allpassesL_within : AllpassesWithin (30000 * B) s.allpassesL
  allpassesR_within : AllpassesWithin (30000 * B) s.allpassesR

/-- The two wet signals `wetL`, `wetR` of the pass of the sample loop of `processStereo`
over the input samples `inL`, `inR`: the wet path fed with what the pre-delay lines return
for the gain-scaled inputs. -/
def wetOfSample (M : FloatMath) (s : ReverbProcessor) (inL inR : ℚ) : ℚ × ℚ :=
  let w := wetStage M s (s.preDelayL.process (inL * jlimit 0 2 s.roomVolume)).2
    (s.preDelayR.process (inR * jlimit 0 2 s.roomVolume)).2
  (w.wetL, w.wetR)

/-- The bound on the two wet signals of a sample on a processor at level `B`. -/
def wetBound (B : ℚ) : ℚ := 400000 * 10001 ^ 4 * B

end ReverbProcessor

end Reverb

namespace Reverb

/-! ## Basic facts about the helpers -/

theorem jlimit_ge (lo hi v : ℚ) (h : lo ≤ hi) : lo ≤ jlimit lo hi v := by
  unfold jlimit
  split_ifs with h1 h2
  · exact le_refl _
  · exact h
  · exact not_lt.mp h1

theorem jlimit_le (lo hi v : ℚ) (h : lo ≤ hi) : jlimit lo hi v ≤ hi := by
  unfold jlimit
  split_ifs with h1 h2
  · exact h
  · exact le_refl _
  · exact not_lt.mp h2

theorem jlimit_eq_max_min (lo hi v : ℚ) (h : lo ≤ hi) : jlimit lo hi v = max lo (min hi v) := by
  unfold jlimit
  split_ifs with h1 h2
  · rw [max_eq_left]; exact le_trans (min_le_right _ _) (le_of_lt h1)
  · rw [min_eq_left (le_of_lt h2), max_eq_right h]
  · rw [min_eq_right (not_lt.mp h2), max_eq_right (not_lt.mp h1)]

theorem vectorResize_length (v : List ℚ) (n : Nat) : (vectorResize v n).length = n := by
  unfold vectorResize
  rw [List.length_append, List.length_take, List.length_replicate]
  omega

theorem forLoop_zero {σ : Type} (body : Nat → σ → σ) (s : σ) : forLoop 0 body s = s := rfl

theorem forLoop_succ {σ : Type} (n : Nat) (body : Nat → σ → σ) (s : σ) :
    forLoop (n + 1) body s = body n (forLoop n body s) := by
  simp [forLoop, List.range_succ, List.foldl_append]

/-- Loop invariant rule: a property that holds before the loop at index 0 and is carried
from index `i` to `i + 1` by the body holds at index `n` after the loop. -/
theorem forLoop_induction {σ : Type} (P : Nat → σ → Prop) (n : Nat) (body : Nat → σ → σ)
    (s : σ) (h0 : P 0 s) (hstep : ∀ i t, i < n → P i t → P (i + 1) (body i t)) :
    P n (forLoop n body s) := by
  induction n with
  | zero => exact h0
  | succ k ih =>
    rw [forLoop_succ]
    exact hstep k _ (Nat.lt_succ_self k)
      (ih (fun i t hi hp => hstep i t (Nat.lt_succ_of_lt hi) hp))

/-- Loop invariant rule without the index. -/
theorem forLoop_preserves {σ : Type} (P : σ → Prop) (n : Nat) (body : Nat → σ → σ)
    (s : σ) (h0 : P s) (hstep : ∀ i t, P t → P (body i t)) : P (forLoop n body s) :=
  forLoop_induction (fun _ t => P t) n body s h0 (fun i t _ hp => hstep i t hp)

namespace ReverbProcessor

/-! ## C8 -/

/-- C8: `processStereo` with a null buffer or a non-positive sample count returns the
processor and both arrays exactly as they were passed. -/
theorem C8_processStereo_invalid_input_is_noop (M : FloatMath) (s : ReverbProcessor)
    (left right : Option (List ℚ)) (numSamples : Int)
    (h : numSamples ≤ 0 ∨ left = none ∨ right = none) :
    processStereo M s left right numSamples = (s, left, right) := by
  unfold processStereo
  cases left with
  | none => rfl
  | some l =>
    cases right with
    | none => rfl
    | some r =>
      rcases h with h | h | h
      · simp [h]
      · cases h
      · cases h

/-! ## C1 -/

theorem processSample_left_bounds (M : FloatMath) (s : ReverbProcessor) (m x y : ℚ) :
    -1 ≤ (processSample M s m x y).2.1 ∧ (processSample M s m x y).2.1 ≤ 1 :=
  ⟨jlimit_ge _ _ _ (by norm_num), jlimit_le _ _ _ (by norm_num)⟩

theorem processSample_right_bounds (M : FloatMath) (s : ReverbProcessor) (m x y : ℚ) :
    -1 ≤ (processSample M s m x y).2.2 ∧ (processSample M s m x y).2.2 ≤ 1 :=
  ⟨jlimit_ge _ _ _ (by norm_num), jlimit_le _ _ _ (by norm_num)⟩

theorem sampleStep_left (M : FloatMath) (i : Nat) (st : LoopState) :
    ∃ v, -1 ≤ v ∧ v ≤ 1 ∧ (sampleStep M i st).left = st.left.set i v := by
  unfold sampleStep
  split_ifs <;> exact ⟨_, (processSample_left_bounds M _ _ _ _).1,
    (processSample_left_bounds M _ _ _ _).2, rfl⟩

theorem sampleStep_right (M : FloatMath) (i : Nat) (st : LoopState) :
    ∃ v, -1 ≤ v ∧ v ≤ 1 ∧ (sampleStep M i st).right = st.right.set i v := by
  unfold sampleStep
  split_ifs <;> exact ⟨_, (processSample_right_bounds M _ _ _ _).1,
    (processSample_right_bounds M _ _ _ _).2, rfl⟩

theorem set_bounded (l : List ℚ) (i j : Nat) (v x : ℚ) (hv : -1 ≤ v ∧ v ≤ 1)
    (hl : j ≠ i → ∀ y, l[j]? = some y → -1 ≤ y ∧ y ≤ 1)
    (hx : (l.set i v)[j]? = some x) : -1 ≤ x ∧ x ≤ 1 := by
  rw [List.getElem?_set] at hx
  by_cases hij : i = j
  · rw [if_pos hij] at hx
    split_ifs at hx
    · cases hx; exact hv
  · rw [if_neg hij] at hx
    exact hl (fun h => hij h.symm) x hx

theorem sampleStep_bounded (M : FloatMath) (i : Nat) (st : LoopState)
    (h : BoundedBelow i st) : BoundedBelow (i + 1) (sampleStep M i st) := by
  intro j hj
  obtain ⟨vl, hvl1, hvl2, hl⟩ := sampleStep_left M i st
  obtain ⟨vr, hvr1, hvr2, hr⟩ := sampleStep_right M i st
  have hlt : j ≠ i → j < i := fun hne => lt_of_le_of_ne (Nat.lt_succ_iff.mp hj) hne
  constructor
  · intro x hx
    rw [hl] at hx
    exact set_bounded _ _ _ _ _ ⟨hvl1, hvl2⟩ (fun hne => (h j (hlt hne)).1) hx
  · intro x hx
    rw [hr] at hx
    exact set_bounded _ _ _ _ _ ⟨hvr1, hvr2⟩ (fun hne => (h j (hlt hne)).2) hx

theorem processStereo_run (M : FloatMath) (s : ReverbProcessor)
    (left right : List ℚ) (numSamples : Int)
    (hL : s.combsL ≠ []) (hR : s.combsR ≠ []) (hn : 0 < numSamples) :
    processStereo M s (some left) (some right) numSamples =
      ((sampleLoop M s left right numSamples.toNat).s,
        some (sampleLoop M s left right numSamples.toNat).left,
        some (sampleLoop M s left right numSamples.toNat).right) := by
  unfold processStereo
  simp only [not_le.mpr hn, hL, hR, if_false, or_self]

theorem sampleLoop_lengths (M : FloatMath) (s : ReverbProcessor) (l r : List ℚ) (n : Nat) :
    (sampleLoop M s l r n).left.length = l.length ∧
      (sampleLoop M s l r n).right.length = r.length := by
  unfold sampleLoop
  refine forLoop_preserves (fun (st : LoopState) => st.left.length = l.length ∧ st.right.length = r.length)
    n _ _ ⟨rfl, rfl⟩ ?_
  intro i t ht
  obtain ⟨_, _, _, hl⟩ := sampleStep_left M i t
  obtain ⟨_, _, _, hr⟩ := sampleStep_right M i t
  rw [hl, hr, List.length_set, List.length_set]
  exact ht

/-- In exact arithmetic (no rounding, no overflow, no NaN): on a processor whose comb banks
exist, after `processStereo` over `numSamples > 0` samples both arrays keep their length
and every sample at an index below `numSamples` lies in `[-1, 1]`. -/
theorem exact_output_within_unit_interval (M : FloatMath) (s : ReverbProcessor)
    (left right : List ℚ) (numSamples : Int)
    (hL : s.combsL ≠ []) (hR : s.combsR ≠ []) (hn : 0 < numSamples) :
    (outLeft (processStereo M s (some left) (some right) numSamples)).length = left.length ∧
    (outRight (processStereo M s (some left) (some right) numSamples)).length = right.length ∧
    ∀ i : Nat, (i : Int) < numSamples →
      (∀ x, (outLeft (processStereo M s (some left) (some right) numSamples))[i]? = some x →
        -1 ≤ x ∧ x ≤ 1) ∧
      (∀ x, (outRight (processStereo M s (some left) (some right) numSamples))[i]? = some x →
        -1 ≤ x ∧ x ≤ 1) := by
  rw [processStereo_run M s left right numSamples hL hR hn]
  simp only [outLeft, outRight, Option.getD_some]
  refine ⟨(sampleLoop_lengths M s left right _).1, (sampleLoop_lengths M s left right _).2, ?_⟩
  intro i hi
  have key := forLoop_induction BoundedBelow numSamples.toNat (sampleStep M)
    { s := (advanceSmoothers s).1, left := left, right := right,
      currentMix := (advanceSmoothers s).2 }
    (fun j hj => absurd hj (Nat.not_lt_zero j))
    (fun k t _ hp => sampleStep_bounded M k t hp)
  exact key i (by omega)

end ReverbProcessor
end Reverb

namespace Reverb
namespace ReverbProcessor

/-! ## Parameters are not touched by the derived-coefficient updates -/

theorem updateFeedback_decayTime (M : FloatMath) (s : ReverbProcessor)
    (h : 0.01 ≤ s.decayTime) : (updateFeedback M s).decayTime = s.decayTime := by
  unfold updateFeedback
  have h' : ¬ s.decayTime < 0.01 := not_lt.mpr h
  split_ifs <;> simp [h']

theorem updateFeedback_normalizedReflectivity (M : FloatMath) (s : ReverbProcessor) :
    (updateFeedback M s).normalizedReflectivity = s.normalizedReflectivity := by
  unfold updateFeedback
  split_ifs <;> simp <;> split_ifs <;> rfl

theorem updateFeedback_roomSize (M : FloatMath) (s : ReverbProcessor) :
    (updateFeedback M s).roomSize = s.roomSize := by
  unfold updateFeedback
  split_ifs <;> simp <;> split_ifs <;> rfl

theorem updateFeedback_subsequentReverbDelay (M : FloatMath) (s : ReverbProcessor) :
    (updateFeedback M s).subsequentReverbDelay = s.subsequentReverbDelay := by
  unfold updateFeedback
  split_ifs <;> simp <;> split_ifs <;> rfl

theorem updatePreDelay_preDelayMs (s : ReverbProcessor) :
    (updatePreDelay s).preDelayMs = s.preDelayMs := by
  simp only [updatePreDelay, msToSamples]
  split_ifs <;> rfl

theorem updatePreDelay_roomSize (s : ReverbProcessor) :
    (updatePreDelay s).roomSize = s.roomSize := by
  simp only [updatePreDelay, msToSamples]
  split_ifs <;> rfl

theorem updateOthers_roomSize (M : FloatMath) (s : ReverbProcessor) :
    (updateOthers M s).roomSize = s.roomSize := by
  show (updateTieLevel (updatePreDelay (updateDiffusion (updateDamping
    (updateFeedback M s))))).roomSize = s.roomSize
  change (updatePreDelay (updateDiffusion (updateDamping (updateFeedback M s)))).roomSize = _
  rw [updatePreDelay_roomSize]
  exact updateFeedback_roomSize M s

theorem combSizeStep_roomSize (c : ℚ) (i : Nat) (s : ReverbProcessor) :
    (combSizeStep c i s).roomSize = s.roomSize := by
  simp only [combSizeStep, msToSamples]
  split_ifs <;> rfl

theorem allpassSizeStep_roomSize (c : ℚ) (i : Nat) (s : ReverbProcessor) :
    (allpassSizeStep c i s).roomSize = s.roomSize := by
  simp only [allpassSizeStep, msToSamples]
  split_ifs <;> rfl

theorem tapSizeStep_roomSize (c : ℚ) (i : Nat) (s : ReverbProcessor) :
    (tapSizeStep c i s).roomSize = s.roomSize := by
  simp only [tapSizeStep, msToSamples]
  split_ifs <;> rfl

theorem forLoop_roomSize (n : Nat) (body : Nat → ReverbProcessor → ReverbProcessor)
    (s : ReverbProcessor) (h : ∀ i t, (body i t).roomSize = t.roomSize) :
    (forLoop n body s).roomSize = s.roomSize :=
  forLoop_preserves (fun t : ReverbProcessor => t.roomSize = s.roomSize) n body s rfl
    (fun i t ht => (h i t).trans ht)

theorem resizeFilters_roomSize (s : ReverbProcessor) :
    (resizeFilters s).roomSize = s.roomSize := by
  unfold resizeFilters
  simp only []
  rw [forLoop_roomSize _ _ _ (tapSizeStep_roomSize _),
    forLoop_roomSize _ _ _ (allpassSizeStep_roomSize _),
    forLoop_roomSize _ _ _ (combSizeStep_roomSize _)]

theorem updateAllParameters_roomSize (M : FloatMath) (s : ReverbProcessor) :
    (updateAllParameters M s).roomSize = s.roomSize := by
  unfold updateAllParameters
  split_ifs
  · rfl
  · exact updateOthers_roomSize M _
  · show (updateOthers M _).roomSize = _
    rw [updateOthers_roomSize, resizeFilters_roomSize]

theorem reflectionDelayStep_reflectionDelay (i : Nat) (s : ReverbProcessor) :
    (reflectionDelayStep i s).reflectionDelay = s.reflectionDelay := by
  simp only [reflectionDelayStep, msToSamples]
  split_ifs <;> rfl

theorem updateReflectionDelays_reflectionDelay (s : ReverbProcessor) :
    (updateReflectionDelays s).reflectionDelay = s.reflectionDelay :=
  forLoop_preserves (fun t : ReverbProcessor => t.reflectionDelay = s.reflectionDelay) _ _ s rfl
    (fun i t ht => (reflectionDelayStep_reflectionDelay i t).trans ht)

theorem subsequentDelayStep_subsequentReverbDelay (i : Nat) (s : ReverbProcessor) :
    (subsequentDelayStep i s).subsequentReverbDelay = s.subsequentReverbDelay := by
  simp only [subsequentDelayStep, msToSamples]
  split_ifs <;> rfl

theorem updateSubsequentDelays_subsequentReverbDelay (M : FloatMath) (s : ReverbProcessor) :
    (updateSubsequentDelays M s).subsequentReverbDelay = s.subsequentReverbDelay := by
  unfold updateSubsequentDelays
  rw [updateFeedback_subsequentReverbDelay]
  exact forLoop_preserves
    (fun t : ReverbProcessor => t.subsequentReverbDelay = s.subsequentReverbDelay) _ _ s rfl
    (fun i t ht => (subsequentDelayStep_subsequentReverbDelay i t).trans ht)

theorem setDecayTime_decayTime (M : FloatMath) (s : ReverbProcessor) (v : ℚ) :
    (setDecayTime M s v).decayTime = jlimit 0.01 60 v := by
  unfold setDecayTime
  exact updateFeedback_decayTime M _ (jlimit_ge _ _ _ (by norm_num))

theorem setPreDelay_preDelayMs (s : ReverbProcessor) (v : ℚ) :
    (setPreDelay s v).preDelayMs = jlimit 0 500 v := by
  unfold setPreDelay
  exact updatePreDelay_preDelayMs _

theorem setRoomSize_roomSize (M : FloatMath) (s : ReverbProcessor) (v : ℚ) :
    (setRoomSize M s v).roomSize = jlimit 0.01 2 v := by
  unfold setRoomSize
  exact updateAllParameters_roomSize M _

theorem setReflectionDelay_reflectionDelay (s : ReverbProcessor) (v : ℚ) :
    (setReflectionDelay s v).reflectionDelay = jlimit 0.1 4 v := by
  unfold setReflectionDelay
  exact updateReflectionDelays_reflectionDelay _

theorem setSubsequentReverbDelay_subsequentReverbDelay (M : FloatMath) (s : ReverbProcessor)
    (v : ℚ) : (setSubsequentReverbDelay M s v).subsequentReverbDelay = jlimit 0.1 4 v := by
  unfold setSubsequentReverbDelay
  exact updateSubsequentDelays_subsequentReverbDelay M _

theorem setNormalizedReflectivity_normalizedReflectivity (M : FloatMath) (s : ReverbProcessor)
    (v : ℚ) : (setNormalizedReflectivity M s v).normalizedReflectivity = jlimit 0 1 v := by
  unfold setNormalizedReflectivity
  exact updateFeedback_normalizedReflectivity M _

/-- C7: every parameter setter stores the clamp of its argument to the range of the
parameter; the coefficient updates that the setter triggers leave that value in place. -/
theorem C7_setters_store_clamped_value (M : FloatMath) (s : ReverbProcessor) (v : ℚ) :
    (setDecayTime M s v).decayTime = max 0.01 (min 60 v) ∧
    (setPreDelay s v).preDelayMs = max 0 (min 500 v) ∧
    (setDamping s v).damping = max 0 (min 0.999 v) ∧
    (setRoomSize M s v).roomSize = max 0.01 (min 2 v) ∧
    (setReflectionDelay s v).reflectionDelay = max 0.1 (min 4 v) ∧
    (setSubsequentReverbDelay M s v).subsequentReverbDelay = max 0.1 (min 4 v) ∧
    (setDiffusion s v).diffusion = max 0 (min 1 v) ∧
    (setReverbDiffusion s v).reverbDiffusion = max 0 (min 1 v) ∧
    (setEarlyReflectionLevel s v).earlyReflectionLevel = max 0 (min 1 v) ∧
    (setSubsequentLevel s v).subsequentLevel = max 0 (min 1 v) ∧
    (setEnvelopment s v).envelopment = max 0 (min 1 v) ∧
    (setNormalizedReflectivity M s v).normalizedReflectivity = max 0 (min 1 v) ∧
    (setTieLevel s v).tieLevel = max 0 (min 1 v) ∧
    (setPosition s v).position = max 0 (min 1 v) ∧
    (setDryWet s v).dryWet = max 0 (min 1 v) ∧
    (setRoomVolume s v).roomVolume = max 0 (min 5 v) := by
  have e1 : jlimit 0.01 60 v = max 0.01 (min 60 v) := jlimit_eq_max_min _ _ _ (by norm_num)
  have e2 : jlimit 0 500 v = max 0 (min 500 v) := jlimit_eq_max_min _ _ _ (by norm_num)
  have e3 : jlimit 0 0.999 v = max 0 (min 0.999 v) := jlimit_eq_max_min _ _ _ (by norm_num)
  have e4 : jlimit 0.01 2 v = max 0.01 (min 2 v) := jlimit_eq_max_min _ _ _ (by norm_num)
  have e5 : jlimit 0.1 4 v = max 0.1 (min 4 v) := jlimit_eq_max_min _ _ _ (by norm_num)
  have e6 : jlimit 0 1 v = max 0 (min 1 v) := jlimit_eq_max_min _ _ _ (by norm_num)
  have e7 : jlimit 0 5 v = max 0 (min 5 v) := jlimit_eq_max_min _ _ _ (by norm_num)
  rw [setDecayTime_decayTime, setPreDelay_preDelayMs, setRoomSize_roomSize,
    setReflectionDelay_reflectionDelay, setSubsequentReverbDelay_subsequentReverbDelay,
    setNormalizedReflectivity_normalizedReflectivity]
  exact ⟨e1, e2, e3, e4, e5, e5, e6, e6, e6, e6, e6, e6, e6, e6, e6, e7⟩

end ReverbProcessor
end Reverb

namespace Reverb
namespace ReverbProcessor

/-! ## C9: processing leaves the configuration alone -/

theorem combFilter_process_config (c : CombFilter) (x : ℚ) :
    combConfig (c.process x).1 = combConfig c := by
  unfold CombFilter.process combConfig
  split_ifs <;> simp

theorem allpassFilter_process_config (a : AllpassFilter) (x : ℚ) :
    allpassConfig (a.process x).1 = allpassConfig a := by
  unfold AllpassFilter.process allpassConfig
  split_ifs <;> simp

theorem delayLine_process_config (d : DelayLine) (x : ℚ) :
    delayConfig (d.process x).1 = delayConfig d := by
  unfold DelayLine.process delayConfig
  split_ifs <;> simp

theorem processEarlyTaps_config (size : Nat) (preL preR : ℚ) (taps : List (DelayLine × DelayLine)) :
    ∀ (t : Nat) (eL eR : ℚ),
      (processEarlyTaps size preL preR t taps eL eR).1.map
          (fun tap => (delayConfig tap.1, delayConfig tap.2)) =
        taps.map (fun tap => (delayConfig tap.1, delayConfig tap.2)) := by
  induction taps with
  | nil => intro t eL eR; rfl
  | cons tap rest ih =>
    intro t eL eR
    simp only [processEarlyTaps, List.map_cons, ih, delayLine_process_config]

theorem processCombsL_config (M : FloatMath) (preL preR pos : ℚ) (combs : List CombFilter) :
    ∀ (c : Nat) (sum : ℚ),
      (processCombsL M preL preR pos c combs sum).1.map combConfig = combs.map combConfig := by
  induction combs with
  | nil => intro c sum; rfl
  | cons comb rest ih =>
    intro c sum
    simp only [processCombsL, List.map_cons, ih, combFilter_process_config]

theorem processCombsR_config (M : FloatMath) (preL preR pos : ℚ) (combs : List CombFilter) :
    ∀ (c : Nat) (sum : ℚ),
      (processCombsR M preL preR pos c combs sum).1.map combConfig = combs.map combConfig := by
  induction combs with
  | nil => intro c sum; rfl
  | cons comb rest ih =>
    intro c sum
    simp only [processCombsR, List.map_cons, ih, combFilter_process_config]

theorem processAllpasses_config (ls : List AllpassFilter) :
    ∀ (rs : List AllpassFilter) (dL dR : ℚ),
      (processAllpasses ls rs dL dR).1.map allpassConfig = ls.map allpassConfig ∧
      (processAllpasses ls rs dL dR).2.1.map allpassConfig = rs.map allpassConfig := by
  induction ls with
  | nil => intro rs dL dR; exact ⟨rfl, rfl⟩
  | cons l rest ih =>
    intro rs dL dR
    cases rs with
    | nil =>
      simp only [processAllpasses, List.map_cons, allpassFilter_process_config]
      exact ⟨by rw [(ih [] _ _).1], (ih [] _ _).2⟩
    | cons r rs =>
      simp only [processAllpasses, List.map_cons, allpassFilter_process_config]
      exact ⟨by rw [(ih rs _ _).1], by rw [(ih rs _ _).2]⟩

theorem processSample_config (M : FloatMath) (s : ReverbProcessor) (m x y : ℚ) :
    configuration (processSample M s m x y).1 = configuration s := by
  simp only [configuration, processSample, wetStage, parameters, delayLine_process_config,
    processEarlyTaps_config, processCombsL_config, processCombsR_config,
    (processAllpasses_config _ _ _ _).1, (processAllpasses_config _ _ _ _).2]

theorem advanceSmoothers_config (s : ReverbProcessor) :
    configuration (advanceSmoothers s).1 = configuration s := rfl

theorem sampleStep_config (M : FloatMath) (i : Nat) (st : LoopState) :
    configuration (sampleStep M i st).s = configuration st.s := by
  by_cases h8 : i % 8 = 0
  · simp only [sampleStep, h8, if_true]
    exact (advanceSmoothers_config _).trans (processSample_config M _ _ _ _)
  · simp only [sampleStep, h8, if_false]
    exact processSample_config M _ _ _ _

theorem sampleLoop_config (M : FloatMath) (s : ReverbProcessor) (l r : List ℚ) (n : Nat) :
    configuration (sampleLoop M s l r n).s = configuration s := by
  unfold sampleLoop
  exact forLoop_preserves (fun st : LoopState => configuration st.s = configuration s) n _ _
    (advanceSmoothers_config s) (fun i t ht => (sampleStep_config M i t).trans ht)

/-- C9: `processStereo` leaves the configuration of the processor unchanged, whatever the
state, the buffers and the sample count: the sample rate, the 16 parameters, and the
capacity, coefficients and configured delay of every comb, allpass, pre-delay and
early-reflection filter are the same after the call as before it. -/
theorem C9_processStereo_preserves_configuration (M : FloatMath) (s : ReverbProcessor)
    (left right : Option (List ℚ)) (numSamples : Int) :
    configuration (processStereo M s left right numSamples).1 = configuration s := by
  unfold processStereo
  cases left with
  | none => rfl
  | some l =>
    cases right with
    | none => rfl
    | some r =>
      simp only []
      split_ifs
      · rfl
      · rfl
      · exact sampleLoop_config M s l r _

end ReverbProcessor
end Reverb

namespace Reverb
namespace ReverbProcessor

/-! ## C10: the RT60 feedback mapping -/

theorem setCombFeedbacks_left (b : ℚ) (ls : List CombFilter) :
    ∀ (k : Nat) (rs : List CombFilter) (i : Nat),
      (setCombFeedbacks b k ls rs).1[i]? =
        (ls[i]?).map (fun c =>
          c.setFeedback (b * (1 + 0.015 * (((k + i) % 4 : Nat) : ℚ)))) := by
  induction ls with
  | nil => intro k rs i; simp [setCombFeedbacks]
  | cons l rest ih =>
    intro k rs i
    cases rs with
    | nil =>
      cases i with
      | zero => simp [setCombFeedbacks]
      | succ j =>
        simp only [setCombFeedbacks, List.getElem?_cons_succ, ih]
        rw [show k + 1 + j = k + (j + 1) by omega]
    | cons r rs =>
      cases i with
      | zero => simp [setCombFeedbacks]
      | succ j =>
        simp only [setCombFeedbacks, List.getElem?_cons_succ, ih]
        rw [show k + 1 + j = k + (j + 1) by omega]

theorem setCombFeedbacks_right_nil (b : ℚ) (ls : List CombFilter) :
    ∀ k : Nat, (setCombFeedbacks b k ls []).2 = [] := by
  induction ls with
  | nil => intro k; rfl
  | cons l rest ih => intro k; simp only [setCombFeedbacks, ih]

theorem setCombFeedbacks_right (b : ℚ) (ls : List CombFilter) :
    ∀ (k : Nat) (rs : List CombFilter) (i : Nat), i < ls.length →
      (setCombFeedbacks b k ls rs).2[i]? =
        (rs[i]?).map (fun c =>
          c.setFeedback (b * (1 / (1 + 0.015 * (((k + i) % 4 : Nat) : ℚ))))) := by
  induction ls with
  | nil => intro k rs i hi; simp at hi
  | cons l rest ih =>
    intro k rs i hi
    cases rs with
    | nil => simp [setCombFeedbacks, setCombFeedbacks_right_nil]
    | cons r rs =>
      cases i with
      | zero => simp [setCombFeedbacks]
      | succ j =>
        simp only [setCombFeedbacks, List.getElem?_cons_succ]
        rw [ih (k + 1) rs j (by simpa using hi), show k + 1 + j = k + (j + 1) by omega]

theorem updateFeedback_mapped (M : FloatMath) (s : ReverbProcessor)
    (hL : s.combsL.length = 8) (hR : s.combsR.length = 8) (hsr : 0 < s.sampleRate)
    (hd : 0 < s.decayTime) : FeedbackMapped M (updateFeedback M s) := by
  have hLne : s.combsL ≠ [] := by intro h; rw [h] at hL; simp at hL
  have hRne : s.combsR ≠ [] := by intro h; rw [h] at hR; simp at hR
  have hguard : ¬ (s.combsL = [] ∨ s.combsR = [] ∨ s.decayTime ≤ 0 ∨ s.sampleRate ≤ 0) := by
    simp [hLne, hRne, hd, hsr]
  intro i hi
  have hiL : i < s.combsL.length := by omega
  have hiR : i < s.combsR.length := by omega
  have e1 : ∀ x : ℚ, jlimit 0 0.9999 x = max 0 (min 0.9999 x) :=
    fun x => jlimit_eq_max_min _ _ _ (by norm_num)
  have e2 : ∀ x : ℚ, jlimit 0 0.998 x = max 0 (min 0.998 x) :=
    fun x => jlimit_eq_max_min _ _ _ (by norm_num)
  unfold updateFeedback
  rw [if_neg hguard]
  by_cases hlt : s.decayTime < 0.01
  · simp only [hlt, if_true, rt60BaseFeedback, setCombFeedbacks_left,
      setCombFeedbacks_right _ _ _ _ _ hiL, List.getElem?_eq_getElem hiL,
      List.getElem?_eq_getElem hiR, Option.map_some', CombFilter.setFeedback, zero_add, e1, e2,
      baseCombDelaysMs, List.getD_cons_zero]
    exact ⟨trivial, by rw [mul_one_div]⟩
  · simp only [hlt, if_false, rt60BaseFeedback, setCombFeedbacks_left,
      setCombFeedbacks_right _ _ _ _ _ hiL, List.getElem?_eq_getElem hiL,
      List.getElem?_eq_getElem hiR, Option.map_some', CombFilter.setFeedback, zero_add, e1, e2,
      baseCombDelaysMs, List.getD_cons_zero]
    exact ⟨trivial, by rw [mul_one_div]⟩

/-- C10: on a processor with 8 combs per channel, a positive sample rate and a positive
stored decay time, after `setDecayTime` and after `setNormalizedReflectivity` the feedback
of left comb `i` is the RT60 base feedback (from the first comb's base delay, times the
reflectivity, clamped to `[0, 0.998]`) times `1 + 0.015 * (i mod 4)`, and that of right
comb `i` the base feedback divided by it, both clamped to `[0, 0.9999]`. -/
theorem C10_rt60_feedback_mapping (M : FloatMath) (s : ReverbProcessor) (v : ℚ)
    (hL : s.combsL.length = 8) (hR : s.combsR.length = 8) (hsr : 0 < s.sampleRate)
    (hd : 0 < s.decayTime) :
    FeedbackMapped M (setDecayTime M s v) ∧
      FeedbackMapped M (setNormalizedReflectivity M s v) := by
  constructor
  · unfold setDecayTime
    exact updateFeedback_mapped M _ hL hR hsr
      (lt_of_lt_of_le (by norm_num) (jlimit_ge 0.01 60 v (by norm_num)))
  · unfold setNormalizedReflectivity
    exact updateFeedback_mapped M _ hL hR hsr hd

end ReverbProcessor
end Reverb

namespace Reverb
namespace ReverbProcessor

/-! ## The linear ramp invariant -/

theorem onRamp_init : OnRamp SmoothedValue.init := by
  intro h; simp [SmoothedValue.init] at h

theorem onRamp_setCurrentAndTargetValue (v : SmoothedValue) (x : ℚ) :
    OnRamp (v.setCurrentAndTargetValue x) := by
  intro h; simp [SmoothedValue.setCurrentAndTargetValue] at h

theorem onRamp_reset (v : SmoothedValue) (sr t : ℚ) : OnRamp (v.reset sr t) :=
  onRamp_setCurrentAndTargetValue _ _

theorem onRamp_setTargetValue (v : SmoothedValue) (x : ℚ) (h : OnRamp v) :
    OnRamp (v.setTargetValue x) := by
  unfold SmoothedValue.setTargetValue
  split_ifs with h1 h2
  · exact h
  · exact onRamp_setCurrentAndTargetValue _ _
  · intro _
    have hpos : (0 : ℚ) < (v.stepsToTarget : ℚ) := by
      have : 0 < v.stepsToTarget := not_le.mp h2
      exact_mod_cast this
    show v.currentValue + (v.stepsToTarget : ℚ) * ((x - v.currentValue) / (v.stepsToTarget : ℚ)) = x
    field_simp

theorem getNextValue_idle (v : SmoothedValue) (h : ¬ 0 < v.countdown) :
    v.getNextValue = (v, v.target) := by
  unfold SmoothedValue.getNextValue
  rw [if_pos h]

theorem getNextValue_ramp (v : SmoothedValue) (h : 0 < v.countdown - 1) :
    v.getNextValue =
      ({ v with countdown := v.countdown - 1, currentValue := v.currentValue + v.step },
        v.currentValue + v.step) := by
  unfold SmoothedValue.getNextValue
  rw [if_neg (by intro hn; apply hn; omega), if_pos h]

theorem getNextValue_last (v : SmoothedValue) (h0 : 0 < v.countdown)
    (h : ¬ 0 < v.countdown - 1) :
    v.getNextValue = ({ v with countdown := v.countdown - 1, currentValue := v.target },
      v.target) := by
  unfold SmoothedValue.getNextValue
  rw [if_neg (by intro hn; exact hn h0), if_neg h]

theorem onRamp_getNextValue (v : SmoothedValue) (h : OnRamp v) : OnRamp v.getNextValue.1 := by
  by_cases h0 : 0 < v.countdown
  · by_cases h1 : 0 < v.countdown - 1
    · rw [getNextValue_ramp v h1]
      intro _
      have := h h0
      show v.currentValue + v.step + ((v.countdown - 1 : Int) : ℚ) * v.step = v.target
      push_cast
      linarith
    · rw [getNextValue_last v h0 h1]
      intro h3
      exact absurd h3 h1
  · rw [getNextValue_idle v h0]
    exact h

theorem getNextValue_settled (v : SmoothedValue) (t : ℚ) (hc : v.currentValue = t)
    (ht : v.target = t) (h : OnRamp v) :
    v.getNextValue.2 = t ∧ v.getNextValue.1.currentValue = t ∧ v.getNextValue.1.target = t ∧
      OnRamp v.getNextValue.1 := by
  refine ⟨?_, ?_, ?_, onRamp_getNextValue v h⟩
  all_goals
    by_cases h0 : 0 < v.countdown
    · have hr := h h0
      have hpos : (0 : ℚ) < (v.countdown : ℚ) := by exact_mod_cast h0
      have hstep : v.step = 0 := by
        have : (v.countdown : ℚ) * v.step = 0 := by linarith
        rcases mul_eq_zero.mp this with h2 | h2
        · exact absurd h2 (ne_of_gt hpos)
        · exact h2
      by_cases h1 : 0 < v.countdown - 1
      · rw [getNextValue_ramp v h1]
        simp [hstep, hc, ht]
      · rw [getNextValue_last v h0 h1]
        simp [hc, ht]
    · rw [getNextValue_idle v h0]
      simp [hc, ht]

/-! ## The sample loop when the mix is in effect -/

theorem processSample_mixSmoother (M : FloatMath) (s : ReverbProcessor) (m x y : ℚ) :
    (processSample M s m x y).1.mixSmoother = s.mixSmoother := rfl

theorem processSample_dspPart (M : FloatMath) (s : ReverbProcessor) (m x y : ℚ) :
    dspPart (processSample M s m x y).1 = (processSample M (dspPart s) m x y).1 := rfl

theorem processSample_out_dspPart (M : FloatMath) (s : ReverbProcessor) (m x y : ℚ) :
    (processSample M s m x y).2 = (processSample M (dspPart s) m x y).2 := rfl

theorem advanceSmoothers_dspPart (s : ReverbProcessor) :
    dspPart (advanceSmoothers s).1 = dspPart s := rfl

theorem advanceSmoothers_settled (s : ReverbProcessor) (t : ℚ) (h : MixInEffect t s) :
    MixInEffect t (advanceSmoothers s).1 ∧ (advanceSmoothers s).2 = t := by
  obtain ⟨h1, h2, h3, h4⟩ := getNextValue_settled s.mixSmoother t h.1 h.2.1 h.2.2
  exact ⟨⟨h2, h3, h4⟩, h1⟩

/-- One pass of the loop when the mix is in effect: the pass is `processSample` with that
mix, whatever the index. -/
theorem sampleStep_settled (M : FloatMath) (i : Nat) (st : LoopState) (t : ℚ)
    (h : LoopSettled t st) :
    LoopSettled t (sampleStep M i st) ∧
      dspPart (sampleStep M i st).s =
        dspPart (processSample M st.s t (st.left.getD i 0) (st.right.getD i 0)).1 ∧
      (sampleStep M i st).left =
        st.left.set i (processSample M st.s t (st.left.getD i 0) (st.right.getD i 0)).2.1 ∧
      (sampleStep M i st).right =
        st.right.set i (processSample M st.s t (st.left.getD i 0) (st.right.getD i 0)).2.2 := by
  obtain ⟨⟨hc, ht, hr⟩, hm⟩ := h
  have hmix : (if i = 0 then st.s.mixSmoother.getCurrentValue else st.currentMix) = t := by
    split_ifs
    · exact hc
    · exact hm
  by_cases h8 : i % 8 = 0
  · simp only [sampleStep, h8, if_true, hmix]
    have hs := advanceSmoothers_settled
      (processSample M st.s t (st.left.getD i 0) (st.right.getD i 0)).1 t ⟨hc, ht, hr⟩
    refine ⟨⟨hs.1, hs.2⟩, ?_, ?_, ?_⟩ <;> first | trivial | rfl
  · simp only [sampleStep, h8, if_false, hmix]
    refine ⟨⟨⟨hc, ht, hr⟩, hm⟩, ?_, ?_, ?_⟩ <;> first | trivial | rfl

end ReverbProcessor
end Reverb

namespace Reverb
namespace ReverbProcessor

/-! ## The sample loop as a stream -/

theorem set_length_append_cons (outs rest : List ℚ) (x v : ℚ) :
    (outs ++ x :: rest).set outs.length v = outs ++ v :: rest := by
  induction outs with
  | nil => rfl
  | cons a tl ih => simp only [List.cons_append, List.length_cons, List.set_cons_succ, ih]

theorem getD_length_append_cons (outs rest : List ℚ) (x : ℚ) :
    (outs ++ x :: rest).getD outs.length 0 = x := by
  induction outs with
  | nil => rfl
  | cons a tl ih => simpa only [List.cons_append, List.length_cons, List.getD_cons_succ] using ih

theorem getD_eq_getElem_of_lt (l : List ℚ) (n : Nat) (hn : n < l.length) :
    l.getD n 0 = l[n] := by
  rw [List.getD_eq_getElem?_getD, List.getElem?_eq_getElem hn, Option.getD_some]

theorem set_at_boundary (outs l : List ℚ) (n : Nat) (hn : n < l.length)
    (ho : outs.length = n) (v : ℚ) :
    (outs ++ l.drop n).set n v = (outs ++ [v]) ++ l.drop (n + 1) := by
  subst ho
  rw [List.drop_eq_getElem_cons hn, set_length_append_cons, List.append_assoc]
  rfl

theorem getD_at_boundary (outs l : List ℚ) (n : Nat) (hn : n < l.length)
    (ho : outs.length = n) : (outs ++ l.drop n).getD n 0 = l.getD n 0 := by
  subst ho
  rw [List.drop_eq_getElem_cons hn, getD_length_append_cons, getD_eq_getElem_of_lt l _ hn]

theorem dspStream_append (M : FloatMath) (t : ℚ) (xs ys : List (ℚ × ℚ)) :
    ∀ s : ReverbProcessor,
      dspStream M t s (xs ++ ys) =
        ((dspStream M t (dspStream M t s xs).1 ys).1,
          (dspStream M t s xs).2 ++ (dspStream M t (dspStream M t s xs).1 ys).2) := by
  induction xs with
  | nil => intro s; rfl
  | cons x rest ih =>
    intro s
    rw [List.cons_append]
    simp only [dspStream]
    rw [ih]
    rfl

theorem dspStream_length (M : FloatMath) (t : ℚ) (xs : List (ℚ × ℚ)) :
    ∀ s : ReverbProcessor, (dspStream M t s xs).2.length = xs.length := by
  induction xs with
  | nil => intro s; rfl
  | cons x rest ih => intro s; simp only [dspStream, List.length_cons, ih]

/-- The stream only depends on the processor through its signal-path part. -/
theorem dspStream_dspPart (M : FloatMath) (t : ℚ) (xs : List (ℚ × ℚ)) :
    ∀ s s' : ReverbProcessor, dspPart s = dspPart s' →
      (dspStream M t s xs).2 = (dspStream M t s' xs).2 ∧
        dspPart (dspStream M t s xs).1 = dspPart (dspStream M t s' xs).1 := by
  induction xs with
  | nil => intro s s' h; exact ⟨rfl, h⟩
  | cons x rest ih =>
    intro s s' h
    have h1 : (processSample M s t x.1 x.2).2 = (processSample M s' t x.1 x.2).2 := by
      rw [processSample_out_dspPart M s, processSample_out_dspPart M s', h]
    have h2 : dspPart (processSample M s t x.1 x.2).1 =
        dspPart (processSample M s' t x.1 x.2).1 := by
      rw [processSample_dspPart M s, processSample_dspPart M s', h]
    obtain ⟨h3, h4⟩ := ih _ _ h2
    simp only [dspStream]
    exact ⟨by rw [h1, h3], h4⟩

theorem zip_take_succ (l r : List ℚ) (n : Nat) (hl : n < l.length) (hr : n < r.length) :
    (l.zip r).take (n + 1) = (l.zip r).take n ++ [(l.getD n 0, r.getD n 0)] := by
  have hz : n < (l.zip r).length := by simp [List.length_zip]; omega
  rw [List.take_succ, List.getElem?_eq_getElem hz]
  simp [List.getD_eq_getElem?_getD, hl, hr]

/-- The sample loop when the mix `t` is in effect, after `n` passes: the first `n`
samples of both arrays are the outputs of the stream over the first `n` input pairs, the
other samples are untouched, the signal-path part of the processor is that of the stream,
and the mix is still in effect. -/
theorem forLoop_settled (M : FloatMath) (t : ℚ) (s0 : ReverbProcessor) (l r : List ℚ)
    (cm : ℚ) (hset : LoopSettled t { s := s0, left := l, right := r, currentMix := cm })
    (n : Nat) (hl : n ≤ l.length) (hr : n ≤ r.length) :
    LoopSettled t (forLoop n (sampleStep M) { s := s0, left := l, right := r, currentMix := cm }) ∧
    dspPart (forLoop n (sampleStep M)
        { s := s0, left := l, right := r, currentMix := cm }).s =
      dspPart (dspStream M t s0 ((l.zip r).take n)).1 ∧
    (forLoop n (sampleStep M) { s := s0, left := l, right := r, currentMix := cm }).left =
      (dspStream M t s0 ((l.zip r).take n)).2.map Prod.fst ++ l.drop n ∧
    (forLoop n (sampleStep M) { s := s0, left := l, right := r, currentMix := cm }).right =
      (dspStream M t s0 ((l.zip r).take n)).2.map Prod.snd ++ r.drop n := by
  induction n with
  | zero => exact ⟨hset, rfl, rfl, rfl⟩
  | succ k ih =>
    obtain ⟨h1, h2, h3, h4⟩ := ih (Nat.le_of_succ_le hl) (Nat.le_of_succ_le hr)
    have hkl : k < l.length := hl
    have hkr : k < r.length := hr
    have hlen : (dspStream M t s0 ((l.zip r).take k)).2.length = k := by
      rw [dspStream_length, List.length_take, List.length_zip]; omega
    rw [forLoop_succ]
    obtain ⟨g1, g2, g3, g4⟩ := sampleStep_settled M k _ t h1
    have hx : (forLoop k (sampleStep M)
        { s := s0, left := l, right := r, currentMix := cm }).left.getD k 0 = l.getD k 0 := by
      rw [h3]; exact getD_at_boundary _ _ _ hkl (by rw [List.length_map, hlen])
    have hy : (forLoop k (sampleStep M)
        { s := s0, left := l, right := r, currentMix := cm }).right.getD k 0 = r.getD k 0 := by
      rw [h4]; exact getD_at_boundary _ _ _ hkr (by rw [List.length_map, hlen])
    rw [hx, hy] at g2 g3 g4
    have hout : (processSample M (forLoop k (sampleStep M)
          { s := s0, left := l, right := r, currentMix := cm }).s t (l.getD k 0) (r.getD k 0)).2 =
        (processSample M (dspStream M t s0 ((l.zip r).take k)).1 t
          (l.getD k 0) (r.getD k 0)).2 := by
      rw [processSample_out_dspPart, h2, ← processSample_out_dspPart]
    have hst : dspPart (processSample M (forLoop k (sampleStep M)
          { s := s0, left := l, right := r, currentMix := cm }).s t (l.getD k 0) (r.getD k 0)).1 =
        dspPart (processSample M (dspStream M t s0 ((l.zip r).take k)).1 t
          (l.getD k 0) (r.getD k 0)).1 := by
      rw [processSample_dspPart, h2, ← processSample_dspPart]
    rw [zip_take_succ l r k hkl hkr, dspStream_append]
    refine ⟨g1, ?_, ?_, ?_⟩
    · rw [g2, hst]; rfl
    · rw [g3, h3, hout, set_at_boundary _ _ _ hkl (by rw [List.length_map, hlen])]
      simp [dspStream]
    · rw [g4, h4, hout, set_at_boundary _ _ _ hkr (by rw [List.length_map, hlen])]
      simp [dspStream]

/-- The call `processStereo` over whole arrays of equal length when the mix `t` is in
effect: the outputs are those of the stream from the processor as it is before the call. -/
theorem processStereo_settled (M : FloatMath) (t : ℚ) (s : ReverbProcessor) (l r : List ℚ)
    (hL : s.combsL ≠ []) (hR : s.combsR ≠ []) (hmix : MixInEffect t s)
    (hlen : r.length = l.length) (hpos : 0 < l.length) :
    outLeft (processStereo M s (some l) (some r) l.length) =
      (dspStream M t s (l.zip r)).2.map Prod.fst ∧
    outRight (processStereo M s (some l) (some r) l.length) =
      (dspStream M t s (l.zip r)).2.map Prod.snd ∧
    dspPart (processStereo M s (some l) (some r) l.length).1 =
      dspPart (dspStream M t s (l.zip r)).1 ∧
    MixInEffect t (processStereo M s (some l) (some r) l.length).1 := by
  rw [processStereo_run M s l r _ hL hR (by exact_mod_cast hpos)]
  simp only [outLeft, outRight, Option.getD_some, Int.toNat_ofNat, sampleLoop]
  obtain ⟨ha1, ha2⟩ := advanceSmoothers_settled s t hmix
  obtain ⟨h1, h2, h3, h4⟩ := forLoop_settled M t (advanceSmoothers s).1 l r
    (advanceSmoothers s).2 ⟨ha1, ha2⟩ l.length (le_refl _) (by omega)
  have hz : (l.zip r).take l.length = l.zip r := by
    apply List.take_of_length_le
    simp [List.length_zip, hlen]
  rw [hz] at h2 h3 h4
  obtain ⟨e1, e2⟩ := dspStream_dspPart M t (l.zip r) (advanceSmoothers s).1 s
    (advanceSmoothers_dspPart s)
  refine ⟨?_, ?_, ?_, h1.1⟩
  · rw [h3, e1]; simp
  · rw [h4, e1]; simp [← hlen]
  · rw [h2, e2]

end ReverbProcessor
end Reverb

namespace Reverb
namespace ReverbProcessor

/-! ## What the parameter updates leave alone -/

theorem modifyAt_length {α : Type} (f : α → α) (l : List α) :
    ∀ n : Nat, (modifyAt f n l).length = l.length := by
  induction l with
  | nil => intro n; cases n <;> rfl
  | cons x xs ih =>
    intro n
    cases n with
    | zero => rfl
    | succ k => simp only [modifyAt, List.length_cons, ih]

theorem setCombFeedbacks_length (b : ℚ) (ls : List CombFilter) :
    ∀ (k : Nat) (rs : List CombFilter),
      (setCombFeedbacks b k ls rs).1.length = ls.length ∧
        (setCombFeedbacks b k ls rs).2.length = rs.length := by
  induction ls with
  | nil => intro k rs; exact ⟨rfl, rfl⟩
  | cons l rest ih =>
    intro k rs
    cases rs with
    | nil =>
      refine ⟨?_, ?_⟩ <;>
        simp only [setCombFeedbacks, List.length_cons, (ih (k + 1) []).1, (ih (k + 1) []).2]
    | cons r rs =>
      refine ⟨?_, ?_⟩ <;>
        simp only [setCombFeedbacks, List.length_cons, (ih (k + 1) rs).1, (ih (k + 1) rs).2]

theorem setAllpassCoeffs_length (e t : ℚ) (ls : List AllpassFilter) :
    ∀ (k : Nat) (rs : List AllpassFilter),
      (setAllpassCoeffs e t k ls rs).1.length = ls.length ∧
        (setAllpassCoeffs e t k ls rs).2.length = rs.length := by
  induction ls with
  | nil => intro k rs; exact ⟨rfl, rfl⟩
  | cons l rest ih =>
    intro k rs
    cases rs with
    | nil =>
      refine ⟨?_, ?_⟩ <;>
        simp only [setAllpassCoeffs, List.length_cons, (ih (k + 1) []).1, (ih (k + 1) []).2]
    | cons r rs =>
      refine ⟨?_, ?_⟩ <;>
        simp only [setAllpassCoeffs, List.length_cons, (ih (k + 1) rs).1, (ih (k + 1) rs).2]

theorem msToSamples_of_pos (s : ReverbProcessor) (ms : ℚ) (h : 0 < s.sampleRate) :
    msToSamples s ms = (s, truncToInt (s.sampleRate * (if ms < 0 then 0 else ms) / 1000)) := by
  unfold msToSamples
  simp only [not_le.mpr h, if_false]

theorem updateFeedback_frame (M : FloatMath) (s : ReverbProcessor) :
    updateFrame (updateFeedback M s) = updateFrame s := by
  unfold updateFeedback
  split_ifs
  · rfl
  · simp only [updateFrame, (setCombFeedbacks_length _ _ _ _).1,
      (setCombFeedbacks_length _ _ _ _).2]
  · simp only [updateFrame, (setCombFeedbacks_length _ _ _ _).1,
      (setCombFeedbacks_length _ _ _ _).2]

theorem updateDamping_frame (s : ReverbProcessor) :
    updateFrame (updateDamping s) = updateFrame s := by
  simp only [updateFrame, updateDamping, List.length_map]

theorem updateDiffusion_frame (s : ReverbProcessor) :
    updateFrame (updateDiffusion s) = updateFrame s := by
  simp only [updateFrame, updateDiffusion, (setAllpassCoeffs_length _ _ _ _ _).1,
    (setAllpassCoeffs_length _ _ _ _ _).2]

theorem updateTieLevel_frame (s : ReverbProcessor) :
    updateFrame (updateTieLevel s) = updateFrame s := rfl

theorem storeStatics_frame (s : ReverbProcessor) :
    updateFrame (storeStatics s) = updateFrame s := rfl

theorem combSizeStep_frame (c : ℚ) (i : Nat) (s : ReverbProcessor) (h : 0 < s.sampleRate) :
    updateFrame (combSizeStep c i s) = updateFrame s := by
  simp only [combSizeStep, msToSamples_of_pos _ _ h, updateFrame, modifyAt_length]

theorem allpassSizeStep_frame (c : ℚ) (i : Nat) (s : ReverbProcessor) (h : 0 < s.sampleRate) :
    updateFrame (allpassSizeStep c i s) = updateFrame s := by
  simp only [allpassSizeStep, msToSamples_of_pos _ _ h, updateFrame, modifyAt_length]

theorem tapSizeStep_frame (c : ℚ) (i : Nat) (s : ReverbProcessor) (h : 0 < s.sampleRate) :
    updateFrame (tapSizeStep c i s) = updateFrame s := by
  simp only [tapSizeStep, msToSamples_of_pos _ _ h, updateFrame, modifyAt_length]

theorem forLoop_frame (n : Nat) (body : Nat → ReverbProcessor → ReverbProcessor)
    (s : ReverbProcessor) (hs : 0 < s.sampleRate)
    (h : ∀ i t, 0 < t.sampleRate → updateFrame (body i t) = updateFrame t) :
    updateFrame (forLoop n body s) = updateFrame s := by
  refine forLoop_preserves (fun t : ReverbProcessor => updateFrame t = updateFrame s) n body s
    rfl ?_
  intro i t ht
  have hpos : 0 < t.sampleRate := by
    have := congrArg UpdateFrame.sampleRate ht
    simp only [updateFrame] at this
    rw [this]; exact hs
  exact (h i t hpos).trans ht

theorem pos_of_frame_eq (s t : ReverbProcessor) (h : updateFrame t = updateFrame s)
    (hs : 0 < s.sampleRate) : 0 < t.sampleRate := by
  have := congrArg UpdateFrame.sampleRate h
  simp only [updateFrame] at this
  rw [this]; exact hs

theorem resizeFilters_frame (s : ReverbProcessor) (hs : 0 < s.sampleRate) :
    updateFrame (resizeFilters s) = updateFrame s := by
  unfold resizeFilters
  simp only []
  have h1 := forLoop_frame (min s.combsL.length baseCombDelaysMs.length)
    (combSizeStep (jlimit 0.01 2 s.roomSize)) s hs (fun i t ht => combSizeStep_frame _ i t ht)
  have p1 := pos_of_frame_eq _ _ h1 hs
  refine Eq.trans (forLoop_frame _ _ _ ?_ (fun i t ht => tapSizeStep_frame _ i t ht)) ?_
  · exact pos_of_frame_eq _ _
      (forLoop_frame _ _ _ p1 (fun i t ht => allpassSizeStep_frame _ i t ht)) p1
  · exact (forLoop_frame _ _ _ p1 (fun i t ht => allpassSizeStep_frame _ i t ht)).trans h1

/-- The effect of `updatePreDelay` on the frame, for a positive sample rate. -/
theorem updatePreDelay_frame (s : ReverbProcessor) (hs : 0 < s.sampleRate) :
    updateFrame (updatePreDelay s) = preDelayUpdate (updateFrame s) := by
  unfold updatePreDelay
  simp only [msToSamples_of_pos s _ hs]
  have h500 : ¬ (500 : ℚ) < 0 := by norm_num
  simp only [h500, if_false]
  by_cases hg : s.preDelayL.buffer.length <
      toSizeT (if truncToInt (s.sampleRate * 500 / 1000) < 1 then 1
        else truncToInt (s.sampleRate * 500 / 1000))
  · rw [if_pos hg]
    simp only [msToSamples_of_pos, hs, preDelayUpdate, updateFrame, hg, decide_True, if_true]
  · rw [if_neg hg]
    simp only [msToSamples_of_pos, hs, preDelayUpdate, updateFrame, hg, decide_False, if_false,
      Bool.false_eq_true]

theorem updateOthers_frame (M : FloatMath) (s : ReverbProcessor) (hs : 0 < s.sampleRate) :
    updateFrame (updateOthers M s) = preDelayUpdate (updateFrame s) := by
  unfold updateOthers
  have h1 : updateFrame (updateDiffusion (updateDamping (updateFeedback M s))) =
      updateFrame s := by
    rw [updateDiffusion_frame, updateDamping_frame, updateFeedback_frame]
  rw [updateTieLevel_frame, updatePreDelay_frame _ (pos_of_frame_eq _ _ h1 hs), h1]

theorem updateAllParameters_frame (M : FloatMath) (s : ReverbProcessor)
    (hs : 0 < s.sampleRate) :
    updateFrame (updateAllParameters M s) = preDelayUpdate (updateFrame s) := by
  unfold updateAllParameters
  rw [if_neg (not_le.mpr hs)]
  split_ifs
  · exact updateOthers_frame M { s with statics := some (currentStatics s) } hs
  · have h1 := resizeFilters_frame { s with statics := some (currentStatics s) } hs
    rw [storeStatics_frame, updateOthers_frame M _ (pos_of_frame_eq _ _ h1 hs), h1]
    rfl

end ReverbProcessor
end Reverb

namespace Reverb
namespace ReverbProcessor

/-! ## Filters that hold no signal -/

theorem allZero_replicate (n : Nat) : AllZero (List.replicate n (0 : ℚ)) := by
  intro j
  rw [List.getD_eq_getElem?_getD, List.getElem?_replicate]
  split_ifs <;> rfl

theorem allZero_set (l : List ℚ) (i : Nat) (h : AllZero l) : AllZero (l.set i 0) := by
  intro j
  rw [List.getD_eq_getElem?_getD, List.getElem?_set]
  split_ifs
  · rfl
  · rfl
  · rw [← List.getD_eq_getElem?_getD]; exact h j

theorem combSilent_process (c : CombFilter) (h : CombSilent c) :
    (c.process 0).2 = 0 ∧ CombSilent (c.process 0).1 := by
  unfold CombFilter.process
  by_cases hb : c.buffer = []
  · rw [if_pos hb]; exact ⟨rfl, h⟩
  · rw [if_neg hb]
    simp only [OnePole.process, h.1 _, h.2, zero_mul, add_zero, zero_add]
    exact ⟨trivial, allZero_set _ _ h.1, rfl⟩

theorem allpassSilent_process (a : AllpassFilter) (h : AllpassSilent a) :
    (a.process 0).2 = 0 ∧ AllpassSilent (a.process 0).1 := by
  unfold AllpassFilter.process
  by_cases hb : a.buffer = []
  · rw [if_pos hb]; exact ⟨rfl, h⟩
  · rw [if_neg hb]
    have hz : ∀ j, a.buffer.getD j 0 = 0 := h
    simp only [hz, zero_mul, add_zero, neg_zero]
    exact ⟨trivial, allZero_set _ _ h⟩

theorem delaySilent_process (d : DelayLine) (h : DelaySilent d) :
    (d.process 0).2 = 0 ∧ DelaySilent (d.process 0).1 := by
  unfold DelayLine.process
  by_cases hb : d.buffer = []
  · rw [if_pos hb]; exact ⟨rfl, h⟩
  · rw [if_neg hb]
    have hz : ∀ j, d.buffer.getD j 0 = 0 := h
    simp only [hz]
    exact ⟨trivial, allZero_set _ _ h⟩

theorem processEarlyTaps_silent (size : Nat) (taps : List (DelayLine × DelayLine)) :
    ∀ (t : Nat) (eL eR : ℚ), (∀ tap ∈ taps, DelaySilent tap.1 ∧ DelaySilent tap.2) →
      (processEarlyTaps size 0 0 t taps eL eR).2 = (eL, eR) ∧
        ∀ tap ∈ (processEarlyTaps size 0 0 t taps eL eR).1,
          DelaySilent tap.1 ∧ DelaySilent tap.2 := by
  induction taps with
  | nil => intro t eL eR _; exact ⟨rfl, fun tap h => absurd h (List.not_mem_nil _)⟩
  | cons tap rest ih =>
    intro t eL eR h
    have h1 := delaySilent_process tap.1 (h tap (List.mem_cons_self _ _)).1
    have h2 := delaySilent_process tap.2 (h tap (List.mem_cons_self _ _)).2
    have hrest := ih (t + 1) eL eR (fun x hx => h x (List.mem_cons_of_mem _ hx))
    simp only [processEarlyTaps, h1.1, h2.1, zero_mul, add_zero]
    refine ⟨hrest.1, ?_⟩
    intro x hx
    rcases List.mem_cons.mp hx with hx | hx
    · rw [hx]; exact ⟨h1.2, h2.2⟩
    · exact hrest.2 x hx

theorem processCombsL_silent (M : FloatMath) (pos : ℚ) (combs : List CombFilter) :
    ∀ (c : Nat) (sum : ℚ), (∀ f ∈ combs, CombSilent f) →
      (processCombsL M 0 0 pos c combs sum).2 = sum ∧
        ∀ f ∈ (processCombsL M 0 0 pos c combs sum).1, CombSilent f := by
  induction combs with
  | nil => intro c sum _; exact ⟨rfl, fun f h => absurd h (List.not_mem_nil _)⟩
  | cons f rest ih =>
    intro c sum h
    have h1 := combSilent_process f (h f (List.mem_cons_self _ _))
    have hrest := ih (c + 1) sum (fun x hx => h x (List.mem_cons_of_mem _ hx))
    simp only [processCombsL, zero_mul, add_zero, h1.1]
    refine ⟨hrest.1, ?_⟩
    intro x hx
    rcases List.mem_cons.mp hx with hx | hx
    · rw [hx]; exact h1.2
    · exact hrest.2 x hx

theorem processCombsR_silent (M : FloatMath) (pos : ℚ) (combs : List CombFilter) :
    ∀ (c : Nat) (sum : ℚ), (∀ f ∈ combs, CombSilent f) →
      (processCombsR M 0 0 pos c combs sum).2 = sum ∧
        ∀ f ∈ (processCombsR M 0 0 pos c combs sum).1, CombSilent f := by
  induction combs with
  | nil => intro c sum _; exact ⟨rfl, fun f h => absurd h (List.not_mem_nil _)⟩
  | cons f rest ih =>
    intro c sum h
    have h1 := combSilent_process f (h f (List.mem_cons_self _ _))
    have hrest := ih (c + 1) sum (fun x hx => h x (List.mem_cons_of_mem _ hx))
    simp only [processCombsR, zero_mul, add_zero, h1.1]
    refine ⟨hrest.1, ?_⟩
    intro x hx
    rcases List.mem_cons.mp hx with hx | hx
    · rw [hx]; exact h1.2
    · exact hrest.2 x hx

theorem processAllpasses_silent (ls : List AllpassFilter) :
    ∀ (rs : List AllpassFilter), (∀ a ∈ ls, AllpassSilent a) → (∀ a ∈ rs, AllpassSilent a) →
      (processAllpasses ls rs 0 0).2.2 = (0, 0) ∧
        (∀ a ∈ (processAllpasses ls rs 0 0).1, AllpassSilent a) ∧
        (∀ a ∈ (processAllpasses ls rs 0 0).2.1, AllpassSilent a) := by
  induction ls with
  | nil => intro rs _ hr; exact ⟨rfl, fun a h => absurd h (List.not_mem_nil _), hr⟩
  | cons l rest ih =>
    intro rs hl hr
    have h1 := allpassSilent_process l (hl l (List.mem_cons_self _ _))
    cases rs with
    | nil =>
      have hrest := ih [] (fun x hx => hl x (List.mem_cons_of_mem _ hx)) hr
      simp only [processAllpasses, h1.1]
      refine ⟨hrest.1, ?_, hrest.2.2⟩
      intro x hx
      rcases List.mem_cons.mp hx with hx | hx
      · rw [hx]; exact h1.2
      · exact hrest.2.1 x hx
    | cons r rs =>
      have h2 := allpassSilent_process r (hr r (List.mem_cons_self _ _))
      have hrest := ih rs (fun x hx => hl x (List.mem_cons_of_mem _ hx))
        (fun x hx => hr x (List.mem_cons_of_mem _ hx))
      simp only [processAllpasses, h1.1, h2.1]
      refine ⟨hrest.1, ?_, ?_⟩
      · intro x hx
        rcases List.mem_cons.mp hx with hx | hx
        · rw [hx]; exact h1.2
        · exact hrest.2.1 x hx
      · intro x hx
        rcases List.mem_cons.mp hx with hx | hx
        · rw [hx]; exact h2.2
        · exact hrest.2.2 x hx

/-- The wet path fed with silence from silent filters produces silence and leaves the
filters silent. -/
theorem wetStage_silent (M : FloatMath) (s : ReverbProcessor)
    (ht : ∀ tap ∈ s.earlyTaps, DelaySilent tap.1 ∧ DelaySilent tap.2)
    (hcl : ∀ c ∈ s.combsL, CombSilent c) (hcr : ∀ c ∈ s.combsR, CombSilent c)
    (hal : ∀ a ∈ s.allpassesL, AllpassSilent a) (har : ∀ a ∈ s.allpassesR, AllpassSilent a) :
    (wetStage M s 0 0).wetL = 0 ∧ (wetStage M s 0 0).wetR = 0 ∧
      (∀ tap ∈ (wetStage M s 0 0).earlyTaps, DelaySilent tap.1 ∧ DelaySilent tap.2) ∧
      (∀ c ∈ (wetStage M s 0 0).combsL, CombSilent c) ∧
      (∀ c ∈ (wetStage M s 0 0).combsR, CombSilent c) ∧
      (∀ a ∈ (wetStage M s 0 0).allpassesL, AllpassSilent a) ∧
      (∀ a ∈ (wetStage M s 0 0).allpassesR, AllpassSilent a) := by
  have e := processEarlyTaps_silent s.earlyTaps.length s.earlyTaps 0 0 0 ht
  have cl := processCombsL_silent M s.position s.combsL 0 0 hcl
  have cr := processCombsR_silent M s.position s.combsR 0 0 hcr
  have ap := processAllpasses_silent s.allpassesL s.allpassesR hal har
  simp only [wetStage, e.1, cl.1, cr.1, zero_div, ap.1, zero_mul, add_zero, sub_zero, mul_zero]
  exact ⟨trivial, trivial, e.2, cl.2, cr.2, ap.2.1, ap.2.2⟩

end ReverbProcessor
end Reverb

namespace Reverb
namespace ReverbProcessor

/-! ## The pre-delay line and one sample on a quiet processor -/

theorem toSizeT_natCast (k : Nat) (h : k < 18446744073709551616) : toSizeT (k : Int) = k := by
  unfold toSizeT
  omega

theorem preDelayFresh_process (N k : Nat) (d : DelayLine) (x : ℚ)
    (h : PreDelayFresh N k d) (hk : k + 1 < N) (hN : N < 18446744073709551616) :
    (d.process x).2 = 0 ∧ PreDelayFresh N (k + 1) (d.process x).1 := by
  obtain ⟨hlen, hw, hr, hz⟩ := h
  subst hlen
  have hb : d.buffer ≠ [] := by
    intro hnil; rw [hnil] at hk; simp at hk
  have hk1 : toSizeT (k : Int) = k := toSizeT_natCast k (by omega)
  have hk2 : toSizeT ((k : Int) + 1) = k + 1 := by
    have := toSizeT_natCast (k + 1) (by omega)
    simpa using this
  have hnot : ¬ d.buffer.length ≤ k := by omega
  unfold DelayLine.process
  rw [if_neg hb]
  simp only [hw, hr, hk1, hk2, hnot, if_false, Int.toNat_ofNat, Nat.mod_eq_of_lt hk]
  refine ⟨hz k (le_refl _), ?_, ?_, ?_, ?_⟩
  · simp
  · simp
  · simp
  · intro j hj
    rw [List.getD_eq_getElem?_getD, List.getElem?_set_ne (by omega),
      ← List.getD_eq_getElem?_getD]
    exact hz j (by omega)

theorem jlimit_unit_eq (x : ℚ) : jlimit (-1) 1 x = max (-1) (min 1 x) :=
  jlimit_eq_max_min _ _ _ (by norm_num)

theorem jlimit_gain_eq (x : ℚ) : jlimit 0 2 x = max 0 (min 2 x) :=
  jlimit_eq_max_min _ _ _ (by norm_num)

theorem processSample_roomVolume (M : FloatMath) (s : ReverbProcessor) (m x y : ℚ) :
    (processSample M s m x y).1.roomVolume = s.roomVolume := rfl

/-- One sample on a quiet processor: the wet signal is zero, so both outputs are the dry
path alone, and the processor stays quiet with the pre-delay cursors one further. -/
theorem processSample_quiet (M : FloatMath) (N k : Nat) (s : ReverbProcessor) (m x y : ℚ)
    (h : Quiet N k s) (hk : k + 1 < N) (hN : N < 18446744073709551616) :
    (processSample M s m x y).2 = (dryOut s.roomVolume m x, dryOut s.roomVolume m y) ∧
      Quiet N (k + 1) (processSample M s m x y).1 := by
  obtain ⟨hpl, hpr, ht, hcl, hcr, hal, har⟩ := h
  have pl := preDelayFresh_process N k s.preDelayL (x * jlimit 0 2 s.roomVolume) hpl hk hN
  have pr := preDelayFresh_process N k s.preDelayR (y * jlimit 0 2 s.roomVolume) hpr hk hN
  have w := wetStage_silent M s ht hcl hcr hal har
  constructor
  · simp only [processSample, pl.1, pr.1, w.1, w.2.1, zero_mul, add_zero, dryOut]
    simp only [jlimit_unit_eq, jlimit_gain_eq]
  · simp only [processSample, pl.1, pr.1]
    exact ⟨pl.2, pr.2, w.2.2.1, w.2.2.2.1, w.2.2.2.2.1, w.2.2.2.2.2.1, w.2.2.2.2.2.2⟩

/-- The stream over a quiet processor is the dry path alone, as long as the pre-delay
cursors stay below the capacity. -/
theorem dspStream_quiet (M : FloatMath) (N : Nat) (t : ℚ) (xs : List (ℚ × ℚ))
    (hN : N < 18446744073709551616) :
    ∀ (k : Nat) (s : ReverbProcessor), Quiet N k s → k + xs.length < N →
      (dspStream M t s xs).2 =
        xs.map (fun p => (dryOut s.roomVolume t p.1, dryOut s.roomVolume t p.2)) := by
  induction xs with
  | nil => intro k s _ _; rfl
  | cons x rest ih =>
    intro k s hq hk
    simp only [List.length_cons] at hk
    obtain ⟨h1, h2⟩ := processSample_quiet M N k s t x.1 x.2 hq (by omega) hN
    simp only [dspStream, List.map_cons, h1]
    rw [ih (k + 1) _ h2 (by omega), processSample_roomVolume]

/-! ## The dry path alone: mix 0 -/

theorem processSample_mix_zero (M : FloatMath) (s : ReverbProcessor) (x y : ℚ) :
    (processSample M s 0 x y).2 = (dryOut s.roomVolume 0 x, dryOut s.roomVolume 0 y) := by
  simp only [processSample, dryOut, mul_zero, add_zero, sub_zero, mul_one, jlimit_unit_eq,
    jlimit_gain_eq]

theorem dspStream_mix_zero (M : FloatMath) (xs : List (ℚ × ℚ)) :
    ∀ s : ReverbProcessor,
      (dspStream M 0 s xs).2 =
        xs.map (fun p => (dryOut s.roomVolume 0 p.1, dryOut s.roomVolume 0 p.2)) := by
  induction xs with
  | nil => intro s; rfl
  | cons x rest ih =>
    intro s
    simp only [dspStream, List.map_cons, processSample_mix_zero]
    rw [ih, processSample_roomVolume]

theorem map_fst_zip_map (f : ℚ → ℚ) (l r : List ℚ) (h : r.length = l.length) :
    ((l.zip r).map (fun p => (f p.1, f p.2))).map Prod.fst = l.map f := by
  induction l generalizing r with
  | nil => rfl
  | cons a tl ih =>
    cases r with
    | nil => simp at h
    | cons b tr =>
      simp only [List.zip_cons_cons, List.map_cons]
      rw [ih tr (by simpa using h)]

theorem map_snd_zip_map (f : ℚ → ℚ) (l r : List ℚ) (h : r.length = l.length) :
    ((l.zip r).map (fun p => (f p.1, f p.2))).map Prod.snd = r.map f := by
  induction l generalizing r with
  | nil =>
    cases r with
    | nil => rfl
    | cons b tr => simp at h
  | cons a tl ih =>
    cases r with
    | nil => simp at h
    | cons b tr =>
      simp only [List.zip_cons_cons, List.map_cons]
      rw [ih tr (by simpa using h)]

/-- The call `processStereo` with the dry/wet value 0 in effect writes the dry path alone:
every sample is the input times the input gain, attenuated by 0.95 and limited. -/
theorem processStereo_dry (M : FloatMath) (s : ReverbProcessor) (l r : List ℚ)
    (hL : s.combsL ≠ []) (hR : s.combsR ≠ []) (hmix : MixInEffect 0 s)
    (hlen : r.length = l.length) (hpos : 0 < l.length) :
    outLeft (processStereo M s (some l) (some r) l.length) = l.map (dryOut s.roomVolume 0) ∧
      outRight (processStereo M s (some l) (some r) l.length) =
        r.map (dryOut s.roomVolume 0) := by
  obtain ⟨h1, h2, _, _⟩ := processStereo_settled M 0 s l r hL hR hmix hlen hpos
  rw [h1, h2, dspStream_mix_zero]
  exact ⟨map_fst_zip_map _ l r hlen, map_snd_zip_map _ l r hlen⟩

end ReverbProcessor
end Reverb

namespace Reverb
namespace ReverbProcessor

/-! ## The state after `prepare` -/

theorem prepareFilters_sampleRate_pos (s : ReverbProcessor) (sr : ℚ) :
    0 < (prepareFilters s sr).sampleRate :=
  lt_of_lt_of_le (by norm_num) (jlimit_ge 22050 192000 sr (by norm_num))

theorem prepare_updateFrame (M : FloatMath) (s : ReverbProcessor) (sr : ℚ) :
    updateFrame (updateAllParameters M (prepareFilters s sr)) =
      preDelayUpdate (updateFrame (prepareFilters s sr)) :=
  updateAllParameters_frame M _ (prepareFilters_sampleRate_pos s sr)

/-- After `prepare` the processor has 8 combs and 4 allpasses per channel and 6 tap pairs. -/
theorem prepare_counts (M : FloatMath) (s : ReverbProcessor) (sr : ℚ) :
    (prepare M s sr).combsL.length = 8 ∧ (prepare M s sr).combsR.length = 8 ∧
      (prepare M s sr).allpassesL.length = 4 ∧ (prepare M s sr).allpassesR.length = 4 ∧
      (prepare M s sr).earlyTaps.length = 6 := by
  have h := prepare_updateFrame M s sr
  have e1 := congrArg UpdateFrame.nCombsL h
  have e2 := congrArg UpdateFrame.nCombsR h
  have e3 := congrArg UpdateFrame.nAllpassesL h
  have e4 := congrArg UpdateFrame.nAllpassesR h
  have e5 := congrArg UpdateFrame.nTaps h
  simp only [updateFrame, preDelayUpdate, prepareFilters, List.length_replicate] at e1 e2 e3 e4 e5
  simp only [prepare, clear, List.length_map]
  exact ⟨e1, e2, e3, e4, e5⟩

theorem prepare_combs_ne_nil (M : FloatMath) (s : ReverbProcessor) (sr : ℚ) :
    (prepare M s sr).combsL ≠ [] ∧ (prepare M s sr).combsR ≠ [] := by
  obtain ⟨h1, h2, _⟩ := prepare_counts M s sr
  constructor
  · intro h; rw [h] at h1; simp at h1
  · intro h; rw [h] at h2; simp at h2

theorem prepare_roomVolume (M : FloatMath) (s : ReverbProcessor) (sr : ℚ) :
    (prepare M s sr).roomVolume = s.roomVolume := by
  have h := congrArg UpdateFrame.roomVolume (prepare_updateFrame M s sr)
  simp only [updateFrame, preDelayUpdate, prepareFilters, initSmoothers] at h
  exact h

theorem prepare_mixSmoother (M : FloatMath) (s : ReverbProcessor) (sr : ℚ) :
    (prepare M s sr).mixSmoother =
      (s.mixSmoother.reset (jlimit 22050 192000 sr) 0.05).setCurrentAndTargetValue s.dryWet := by
  have h := congrArg UpdateFrame.mixSmoother (prepare_updateFrame M s sr)
  simp only [updateFrame, preDelayUpdate, prepareFilters, initSmoothers] at h
  exact h

/-- After `prepare` the stored dry/wet value is in effect. -/
theorem prepare_mixInEffect (M : FloatMath) (s : ReverbProcessor) (sr : ℚ) :
    MixInEffect s.dryWet (prepare M s sr) := by
  unfold MixInEffect
  rw [prepare_mixSmoother]
  exact ⟨rfl, rfl, onRamp_setCurrentAndTargetValue _ _⟩

theorem prepare_preDelay (M : FloatMath) (s : ReverbProcessor) (sr : ℚ) :
    (prepare M s sr).preDelayL =
        (preDelayUpdate (updateFrame (prepareFilters s sr))).preDelayL.clear ∧
      (prepare M s sr).preDelayR =
        (preDelayUpdate (updateFrame (prepareFilters s sr))).preDelayR.clear := by
  have h := prepare_updateFrame M s sr
  have e1 := congrArg UpdateFrame.preDelayL h
  have e2 := congrArg UpdateFrame.preDelayR h
  exact ⟨congrArg DelayLine.clear e1, congrArg DelayLine.clear e2⟩

theorem delayLine_setDelay_buffer (d : DelayLine) (n : Int) : (d.setDelay n).buffer = d.buffer := by
  unfold DelayLine.setDelay
  split_ifs <;> rfl

theorem truncToInt_44100_500 : truncToInt ((44100 : ℚ) * 500 / 1000) = 22050 := by
  unfold truncToInt
  norm_num

theorem jlimit_44100 : jlimit 22050 192000 44100 = 44100 := by
  unfold jlimit
  norm_num

theorem preDelayFresh_clear (d : DelayLine) : PreDelayFresh d.buffer.length 0 d.clear := by
  refine ⟨?_, rfl, rfl, ?_⟩
  · simp [DelayLine.clear]
  · intro j _
    exact allZero_replicate _ j

/-- After `prepare (44100)` on a processor whose pre-delay lines were never sized, the
pre-delay lines have capacity 22050 with both cursors at 0, and no filter holds signal. -/
theorem prepare_quiet (M : FloatMath) (s : ReverbProcessor)
    (hl : s.preDelayL.buffer = []) (hr : s.preDelayR.buffer = []) :
    Quiet 22050 0 (prepare M s 44100) := by
  obtain ⟨pl, pr⟩ := prepare_preDelay M s 44100
  have hgrow : (0 : Nat) < toSizeT 22050 := by unfold toSizeT; omega
  have hl' : (prepare M s 44100).preDelayL.buffer.length = 22050 := by
    rw [pl]
    simp only [preDelayUpdate, updateFrame, prepareFilters, initSmoothers, jlimit_44100,
      truncToInt_44100_500, hl, List.length_nil, hgrow, decide_True, if_true,
      DelayLine.clear, delayLine_setDelay_buffer, DelayLine.setSize, List.length_replicate,
      vectorResize_length]
    norm_num [hgrow]
    rfl
  have hr' : (prepare M s 44100).preDelayR.buffer.length = 22050 := by
    rw [pr]
    simp only [preDelayUpdate, updateFrame, prepareFilters, initSmoothers, jlimit_44100,
      truncToInt_44100_500, hl, List.length_nil, hgrow, decide_True, if_true,
      DelayLine.clear, delayLine_setDelay_buffer, DelayLine.setSize, List.length_replicate,
      vectorResize_length]
    norm_num [hgrow]
    rfl
  refine ⟨?_, ?_, ?_, ?_, ?_, ?_, ?_⟩
  · have := preDelayFresh_clear (preDelayUpdate (updateFrame (prepareFilters s 44100))).preDelayL
    rw [← pl] at this
    have hlen : (preDelayUpdate (updateFrame (prepareFilters s 44100))).preDelayL.buffer.length =
        22050 := by
      have := hl'
      rw [pl] at this
      simpa [DelayLine.clear] using this
    rw [hlen] at this
    exact this
  · have := preDelayFresh_clear (preDelayUpdate (updateFrame (prepareFilters s 44100))).preDelayR
    rw [← pr] at this
    have hlen : (preDelayUpdate (updateFrame (prepareFilters s 44100))).preDelayR.buffer.length =
        22050 := by
      have := hr'
      rw [pr] at this
      simpa [DelayLine.clear] using this
    rw [hlen] at this
    exact this
  · intro tap htap
    simp only [prepare, clear, List.mem_map] at htap
    obtain ⟨t0, _, rfl⟩ := htap
    exact ⟨allZero_replicate _, allZero_replicate _⟩
  · intro c hc
    simp only [prepare, clear, List.mem_map] at hc
    obtain ⟨c0, _, rfl⟩ := hc
    exact ⟨allZero_replicate _, rfl⟩
  · intro c hc
    simp only [prepare, clear, List.mem_map] at hc
    obtain ⟨c0, _, rfl⟩ := hc
    exact ⟨allZero_replicate _, rfl⟩
  · intro a ha
    simp only [prepare, clear, List.mem_map] at ha
    obtain ⟨a0, _, rfl⟩ := ha
    exact allZero_replicate _
  · intro a ha
    simp only [prepare, clear, List.mem_map] at ha
    obtain ⟨a0, _, rfl⟩ := ha
    exact allZero_replicate _

end ReverbProcessor
end Reverb

namespace Reverb
namespace ReverbProcessor

/-! ## C2: the impulse scenario -/

theorem dryOut_zero_input (g m : ℚ) : dryOut g m 0 = 0 := by
  unfold dryOut
  norm_num

theorem impulse_length : impulse.length = 4096 := by
  unfold impulse
  rw [List.length_cons, List.length_replicate]

/-- C2: on a default-constructed processor (whatever the statics of `updateAllParameters`
hold) after `prepare (44100)`, processing the unit impulse of 4096 samples in both channels
writes 0.475 at index 0 and exactly 0 at every index from 1 to 4095, in both channels: the
pre-delayed impulse has not left the pre-delay line within the block. -/
theorem C2_impulse_block_has_no_tail (M : FloatMath) (st : Option UpdateStatics) :
    outLeft (processStereo M (prepare M { init with statics := st } 44100)
        (some impulse) (some impulse) 4096) = (19 / 40) :: List.replicate 4095 0 ∧
    outRight (processStereo M (prepare M { init with statics := st } 44100)
        (some impulse) (some impulse) 4096) = (19 / 40) :: List.replicate 4095 0 := by
  have hlen : ((impulse.length : Nat) : Int) = 4096 := by rw [impulse_length]; rfl
  have hne := prepare_combs_ne_nil M { init with statics := st } 44100
  have hmix : MixInEffect (1 / 2) (prepare M { init with statics := st } 44100) := by
    have h := prepare_mixInEffect M { init with statics := st } 44100
    have e : ({ init with statics := st } : ReverbProcessor).dryWet = 1 / 2 := by
      norm_num [init]
    rw [e] at h
    exact h
  have hq : Quiet 22050 0 (prepare M { init with statics := st } 44100) :=
    prepare_quiet M _ rfl rfl
  have hrv : (prepare M { init with statics := st } 44100).roomVolume = 1 := by
    rw [prepare_roomVolume]
    norm_num [init]
  obtain ⟨h1, h2, _, _⟩ := processStereo_settled M (1 / 2) _ impulse impulse hne.1 hne.2 hmix rfl
    (by rw [impulse_length]; norm_num)
  rw [hlen] at h1 h2
  have hs := dspStream_quiet M 22050 (1 / 2) (impulse.zip impulse) (by norm_num) 0 _ hq
    (by rw [List.length_zip, impulse_length]; norm_num)
  rw [h1, h2, hs, map_fst_zip_map _ _ _ rfl, map_snd_zip_map _ _ _ rfl, hrv]
  have e0 : dryOut 1 (1 / 2) 1 = 19 / 40 := by
    unfold dryOut
    norm_num
  simp only [impulse, List.map_cons, List.map_replicate, dryOut_zero_input, e0]
  exact ⟨trivial, trivial⟩

/-! ## C3: dry/wet 0 -/

theorem setDryWet_init_zero_dryWet : (setDryWet init 0).dryWet = 0 := by
  norm_num [setDryWet, jlimit]

theorem setDryWet_init_zero_roomVolume : (setDryWet init 0).roomVolume = 1 := by
  norm_num [setDryWet, init]

theorem prepared_dry_mixInEffect (M : FloatMath) :
    MixInEffect 0 (prepare M (setDryWet init 0) 44100) := by
  have h := prepare_mixInEffect M (setDryWet init 0) 44100
  rw [setDryWet_init_zero_dryWet] at h
  exact h

/-- Counterexample to C3 as stated: on a processor constructed with dry/wet 0 and prepared
at 44100 Hz (room volume 1), the input sample 1 comes out as 0.95, not as the
volume-scaled dry sample 1, whatever the math library computes. -/
theorem C3_counterexample_dry_output_is_attenuated :
    ¬ ∃ M : FloatMath,
      outLeft (processStereo M (prepare M (setDryWet init 0) 44100) (some [1]) (some [1]) 1) =
        [dryScaled (prepare M (setDryWet init 0) 44100).roomVolume 1] := by
  rintro ⟨M, h⟩
  have hne := prepare_combs_ne_nil M (setDryWet init 0) 44100
  obtain ⟨h1, _⟩ := processStereo_dry M _ [1] [1] hne.1 hne.2 (prepared_dry_mixInEffect M) rfl
    (by decide)
  have h1' : outLeft (processStereo M (prepare M (setDryWet init 0) 44100)
      (some [1]) (some [1]) 1) =
      [1].map (dryOut (prepare M (setDryWet init 0) 44100).roomVolume 0) := h1
  rw [h1', prepare_roomVolume, setDryWet_init_zero_roomVolume] at h
  norm_num [dryOut, dryScaled] at h

end ReverbProcessor
end Reverb

namespace Reverb
namespace ReverbProcessor

/-! ## C4: dry/wet 1 -/

/-- A delay line with a buffer returns a stored sample: the read happens before the
write, so the value returned does not depend on the input of the same call. -/
theorem delayLine_process_out (d : DelayLine) (x : ℚ) (h : d.buffer ≠ []) :
    (d.process x).2 =
      d.buffer.getD (if d.buffer.length ≤ toSizeT d.readIndex then 0 else d.readIndex).toNat 0 := by
  unfold DelayLine.process
  rw [if_neg h]

/-- With mix 1 the outputs of one sample are the limited, attenuated wet signals. -/
theorem processSample_mix_one (M : FloatMath) (s : ReverbProcessor) (x y : ℚ) :
    (processSample M s 1 x y).2 =
      (max (-1) (min 1 (0.95 * (wetStage M s
          (s.preDelayL.process (x * jlimit 0 2 s.roomVolume)).2
          (s.preDelayR.process (y * jlimit 0 2 s.roomVolume)).2).wetL)),
        max (-1) (min 1 (0.95 * (wetStage M s
          (s.preDelayL.process (x * jlimit 0 2 s.roomVolume)).2
          (s.preDelayR.process (y * jlimit 0 2 s.roomVolume)).2).wetR))) := by
  simp only [processSample, sub_self, mul_zero, zero_add, mul_one, jlimit_unit_eq]
  rw [mul_comm _ (0.95 : ℚ), mul_comm _ (0.95 : ℚ)]

theorem processSample_wet_only (M : FloatMath) (s : ReverbProcessor) (x y x' y' : ℚ)
    (hl : s.preDelayL.buffer ≠ []) (hr : s.preDelayR.buffer ≠ []) :
    (processSample M s 1 x y).2 = (processSample M s 1 x' y').2 := by
  rw [processSample_mix_one, processSample_mix_one]
  simp only [delayLine_process_out _ _ hl, delayLine_process_out _ _ hr]

theorem dspStream_config (M : FloatMath) (t : ℚ) (xs : List (ℚ × ℚ)) :
    ∀ s : ReverbProcessor, configuration (dspStream M t s xs).1 = configuration s := by
  induction xs with
  | nil => intro s; rfl
  | cons x rest ih =>
    intro s
    simp only [dspStream]
    rw [ih, processSample_config]

theorem preDelay_ne_nil_of_config (s s' : ReverbProcessor)
    (h : configuration s' = configuration s)
    (hl : s.preDelayL.buffer ≠ []) (hr : s.preDelayR.buffer ≠ []) :
    s'.preDelayL.buffer ≠ [] ∧ s'.preDelayR.buffer ≠ [] := by
  have e1 := congrArg (fun c => c.preDelayL.1) h
  have e2 := congrArg (fun c => c.preDelayR.1) h
  simp only [configuration, delayConfig] at e1 e2
  constructor
  · intro hn; rw [hn] at e1; exact hl (List.length_eq_zero.mp e1.symm)
  · intro hn; rw [hn] at e2; exact hr (List.length_eq_zero.mp e2.symm)

/-- The output pair at index `i` of the stream is the result of `processSample` on the
processor reached after the first `i` input pairs. -/
theorem dspStream_getElem? (M : FloatMath) (t : ℚ) (s : ReverbProcessor) (xs : List (ℚ × ℚ))
    (i : Nat) (hi : i < xs.length) :
    (dspStream M t s xs).2[i]? =
      some (processSample M (dspStream M t s (xs.take i)).1 t (xs[i]).1 (xs[i]).2).2 := by
  have hsplit : xs = xs.take i ++ xs[i] :: xs.drop (i + 1) := by
    rw [← List.drop_eq_getElem_cons hi, List.take_append_drop]
  have hlen : (dspStream M t s (xs.take i)).2.length = i := by
    rw [dspStream_length, List.length_take]; omega
  conv_lhs => rw [hsplit]
  rw [dspStream_append]
  simp only [dspStream]
  rw [List.getElem?_append_right (by omega), hlen, Nat.sub_self, List.getElem?_cons_zero]

theorem take_eq_of_agree (l l' : List ℚ) (i : Nat)
    (h : ∀ j, j ≠ i → l[j]? = l'[j]?) : l.take i = l'.take i := by
  apply List.ext_getElem?
  intro j
  rw [List.getElem?_take, List.getElem?_take]
  split_ifs with hj
  · exact h j (by omega)
  · rfl

theorem zip_take_eq_of_agree (l r l' r' : List ℚ) (i : Nat)
    (h : ∀ j, j ≠ i → l[j]? = l'[j]? ∧ r[j]? = r'[j]?) :
    (l.zip r).take i = (l'.zip r').take i := by
  have e : ∀ a b : List ℚ, (a.zip b).take i = (a.take i).zip (b.take i) := by
    intro a b
    unfold List.zip
    exact List.take_zipWith
  rw [e, e, take_eq_of_agree l l' i (fun j hj => (h j hj).1),
    take_eq_of_agree r r' i (fun j hj => (h j hj).2)]

/-- With the dry/wet value 1 in effect and pre-delay lines that have a buffer, the output
pair at index `i` is the same for two input blocks that differ only at index `i`. -/
theorem processStereo_wet_noninterference (M : FloatMath) (s : ReverbProcessor)
    (l r l' r' : List ℚ) (i : Nat)
    (hL : s.combsL ≠ []) (hR : s.combsR ≠ []) (hmix : MixInEffect 1 s)
    (hpl : s.preDelayL.buffer ≠ []) (hpr : s.preDelayR.buffer ≠ [])
    (hr : r.length = l.length) (hl' : l'.length = l.length) (hr' : r'.length = l.length)
    (hi : i < l.length) (hdiff : ∀ j, j ≠ i → l[j]? = l'[j]? ∧ r[j]? = r'[j]?) :
    (outLeft (processStereo M s (some l) (some r) l.length))[i]? =
        (outLeft (processStereo M s (some l') (some r') l'.length))[i]? ∧
      (outRight (processStereo M s (some l) (some r) l.length))[i]? =
        (outRight (processStereo M s (some l') (some r') l'.length))[i]? := by
  obtain ⟨h1, h2, _, _⟩ := processStereo_settled M 1 s l r hL hR hmix hr (by omega)
  obtain ⟨h3, h4, _, _⟩ := processStereo_settled M 1 s l' r' hL hR hmix (by omega) (by omega)
  have hz : i < (l.zip r).length := by rw [List.length_zip]; omega
  have hz' : i < (l'.zip r').length := by rw [List.length_zip]; omega
  have hpre := preDelay_ne_nil_of_config s _ (dspStream_config M 1 ((l.zip r).take i) s) hpl hpr
  have key : (dspStream M 1 s (l.zip r)).2[i]? = (dspStream M 1 s (l'.zip r')).2[i]? := by
    rw [dspStream_getElem? M 1 s _ i hz, dspStream_getElem? M 1 s _ i hz',
      ← zip_take_eq_of_agree l r l' r' i hdiff]
    exact congrArg some (processSample_wet_only M _ _ _ _ _ hpre.1 hpre.2)
  rw [h1, h2, h3, h4]
  simp only [List.getElem?_map, key]
  exact ⟨trivial, trivial⟩

end ReverbProcessor
end Reverb

namespace Reverb
namespace ReverbProcessor

/-! ## C5: splitting a block -/

theorem processStereo_configuration (M : FloatMath) (s : ReverbProcessor)
    (left right : Option (List ℚ)) (numSamples : Int) :
    configuration (processStereo M s left right numSamples).1 = configuration s := by
  unfold processStereo
  cases left with
  | none => rfl
  | some l =>
    cases right with
    | none => rfl
    | some r =>
      simp only []
      split_ifs
      · rfl
      · rfl
      · exact sampleLoop_config M s l r _

theorem combs_ne_nil_of_config (s s' : ReverbProcessor)
    (h : configuration s' = configuration s) (hL : s.combsL ≠ []) (hR : s.combsR ≠ []) :
    s'.combsL ≠ [] ∧ s'.combsR ≠ [] := by
  have e1 := congrArg (fun c => c.combsL.length) h
  have e2 := congrArg (fun c => c.combsR.length) h
  simp only [configuration, List.length_map] at e1 e2
  constructor
  · intro hn; rw [hn] at e1; exact hL (List.length_eq_zero.mp e1.symm)
  · intro hn; rw [hn] at e2; exact hR (List.length_eq_zero.mp e2.symm)

/-- One call of `processStereo` over a block and two calls over its two parts write the
same samples, when a dry/wet value is in effect. -/
theorem processStereo_split (M : FloatMath) (t : ℚ) (s : ReverbProcessor)
    (l1 r1 l2 r2 : List ℚ) (hL : s.combsL ≠ []) (hR : s.combsR ≠ [])
    (hmix : MixInEffect t s) (h1 : r1.length = l1.length) (h2 : r2.length = l2.length)
    (hp1 : 0 < l1.length) (hp2 : 0 < l2.length) :
    outLeft (processStereo M s (some (l1 ++ l2)) (some (r1 ++ r2)) (l1 ++ l2).length) =
        outLeft (processStereo M s (some l1) (some r1) l1.length) ++
          outLeft (processStereo M (processStereo M s (some l1) (some r1) l1.length).1
            (some l2) (some r2) l2.length) ∧
      outRight (processStereo M s (some (l1 ++ l2)) (some (r1 ++ r2)) (l1 ++ l2).length) =
        outRight (processStereo M s (some l1) (some r1) l1.length) ++
          outRight (processStereo M (processStereo M s (some l1) (some r1) l1.length).1
            (some l2) (some r2) l2.length) := by
  obtain ⟨a1, a2, a3, a4⟩ := processStereo_settled M t s l1 r1 hL hR hmix h1 hp1
  have hc := combs_ne_nil_of_config s _
    (processStereo_configuration M s (some l1) (some r1) l1.length) hL hR
  obtain ⟨b1, b2, _, _⟩ := processStereo_settled M t _ l2 r2 hc.1 hc.2 a4 h2 hp2
  obtain ⟨c1, c2, _, _⟩ := processStereo_settled M t s (l1 ++ l2) (r1 ++ r2) hL hR hmix
    (by rw [List.length_append, List.length_append, h1, h2])
    (by rw [List.length_append]; omega)
  obtain ⟨d1, _⟩ := dspStream_dspPart M t (l2.zip r2) _ _ a3
  rw [c1, c2, a1, a2, b1, b2, List.zip_append h1.symm, dspStream_append, d1]
  simp only [List.map_append]
  exact ⟨trivial, trivial⟩

/-! ### A mid-ramp block on a quiet processor -/

/-- One pass of the loop on a quiet processor, whatever the smoothers do: the samples
written are the dry path with the mix value the pass selects. -/
theorem sampleStep_quiet (M : FloatMath) (N k i : Nat) (st : LoopState)
    (hq : Quiet N k st.s) (hk : k + 1 < N) (hN : N < 18446744073709551616) :
    (sampleStep M i st).left = st.left.set i (dryOut st.s.roomVolume
        (if i = 0 then st.s.mixSmoother.currentValue else st.currentMix) (st.left.getD i 0)) ∧
    (sampleStep M i st).right = st.right.set i (dryOut st.s.roomVolume
        (if i = 0 then st.s.mixSmoother.currentValue else st.currentMix) (st.right.getD i 0)) ∧
    Quiet N (k + 1) (sampleStep M i st).s ∧
    (sampleStep M i st).s.roomVolume = st.s.roomVolume ∧
    (sampleStep M i st).s.mixSmoother =
      (if i % 8 = 0 then st.s.mixSmoother.getNextValue.1 else st.s.mixSmoother) ∧
    (sampleStep M i st).currentMix =
      (if i % 8 = 0 then st.s.mixSmoother.getNextValue.2 else st.currentMix) := by
  obtain ⟨h1, h2⟩ := processSample_quiet M N k st.s
    (if i = 0 then st.s.mixSmoother.currentValue else st.currentMix)
    (st.left.getD i 0) (st.right.getD i 0) hq hk hN
  have e1 := congrArg Prod.fst h1
  have e2 := congrArg Prod.snd h1
  simp only at e1 e2
  by_cases h8 : i % 8 = 0
  · simp only [sampleStep, h8, if_true, SmoothedValue.getCurrentValue, e1, e2]
    refine ⟨?_, ?_, h2, ?_, ?_, ?_⟩ <;> first | trivial | rfl
  · simp only [sampleStep, h8, if_false, SmoothedValue.getCurrentValue, e1, e2]
    refine ⟨?_, ?_, h2, ?_, ?_, ?_⟩ <;> first | trivial | rfl

end ReverbProcessor
end Reverb

namespace Reverb
namespace ReverbProcessor

theorem advanceSmoothers_quiet (N k : Nat) (s : ReverbProcessor) (h : Quiet N k s) :
    Quiet N k (advanceSmoothers s).1 := h

/-- A call over one sample on a quiet processor. -/
theorem sampleLoop_one_quiet (M : FloatMath) (N k : Nat) (s : ReverbProcessor) (x y : ℚ)
    (hq : Quiet N k s) (hk : k + 1 < N) (hN : N < 18446744073709551616) :
    (sampleLoop M s [x] [y] 1).left =
        [dryOut s.roomVolume s.mixSmoother.getNextValue.1.currentValue x] ∧
      (sampleLoop M s [x] [y] 1).s.mixSmoother =
        s.mixSmoother.getNextValue.1.getNextValue.1 ∧
      Quiet N (k + 1) (sampleLoop M s [x] [y] 1).s ∧
      (sampleLoop M s [x] [y] 1).s.roomVolume = s.roomVolume := by
  unfold sampleLoop
  rw [forLoop_succ, forLoop_zero]
  obtain ⟨h1, _, h3, h4, h5, _⟩ := sampleStep_quiet M N k 0
    { s := (advanceSmoothers s).1, left := [x], right := [y],
      currentMix := (advanceSmoothers s).2 } (advanceSmoothers_quiet N k s hq) hk hN
  refine ⟨?_, ?_, h3, ?_⟩
  · rw [h1]; rfl
  · rw [h5]; rfl
  · rw [h4]; rfl

/-- A call over two samples on a quiet processor. -/
theorem sampleLoop_two_quiet (M : FloatMath) (N k : Nat) (s : ReverbProcessor)
    (x1 x2 y1 y2 : ℚ) (hq : Quiet N k s) (hk : k + 2 < N) (hN : N < 18446744073709551616) :
    (sampleLoop M s [x1, x2] [y1, y2] 2).left =
      [dryOut s.roomVolume s.mixSmoother.getNextValue.1.currentValue x1,
        dryOut s.roomVolume s.mixSmoother.getNextValue.1.getNextValue.2 x2] := by
  unfold sampleLoop
  rw [forLoop_succ, forLoop_succ, forLoop_zero]
  obtain ⟨h1, _, h3, h4, _, h6⟩ := sampleStep_quiet M N k 0
    { s := (advanceSmoothers s).1, left := [x1, x2], right := [y1, y2],
      currentMix := (advanceSmoothers s).2 } (advanceSmoothers_quiet N k s hq) (by omega) hN
  obtain ⟨g1, _, _, _, _, _⟩ := sampleStep_quiet M N (k + 1) 1 _ h3 (by omega) hN
  rw [g1, h1, h4, h6]
  rfl

theorem setDryWet_quiet (N k : Nat) (s : ReverbProcessor) (v : ℚ) (h : Quiet N k s) :
    Quiet N k (setDryWet s v) := h

theorem rampState_quiet (M : FloatMath) :
    Quiet 22050 0 (setDryWet (prepare M init 44100) 1) :=
  setDryWet_quiet _ _ _ _ (prepare_quiet M init rfl rfl)

theorem setDryWet_roomVolume (s : ReverbProcessor) (v : ℚ) :
    (setDryWet s v).roomVolume = s.roomVolume := rfl

theorem setDryWet_mixSmoother (s : ReverbProcessor) (v : ℚ) :
    (setDryWet s v).mixSmoother = s.mixSmoother.setTargetValue (jlimit 0 1 v) := rfl

theorem setDryWet_combs (s : ReverbProcessor) (v : ℚ) :
    (setDryWet s v).combsL = s.combsL ∧ (setDryWet s v).combsR = s.combsR := ⟨rfl, rfl⟩

theorem rampState_combs (M : FloatMath) :
    (setDryWet (prepare M init 44100) 1).combsL ≠ [] ∧
      (setDryWet (prepare M init 44100) 1).combsR ≠ [] := by
  rw [(setDryWet_combs _ _).1, (setDryWet_combs _ _).2]
  exact prepare_combs_ne_nil M init 44100

theorem rampState_roomVolume (M : FloatMath) :
    (setDryWet (prepare M init 44100) 1).roomVolume = 1 := by
  rw [setDryWet_roomVolume, prepare_roomVolume]; norm_num [init]

theorem floor_ramp_steps : ⌊(0.05 : ℚ) * 44100⌋ = 2205 := by norm_num

theorem rampState_mixSmoother (M : FloatMath) :
    (setDryWet (prepare M init 44100) 1).mixSmoother =
        { currentValue := 1 / 2, target := 1, countdown := 2205, step := 1 / 4410,
          stepsToTarget := 2205 } := by
  rw [setDryWet_mixSmoother, prepare_mixSmoother]
  norm_num [jlimit, SmoothedValue.reset, SmoothedValue.setCurrentAndTargetValue,
    SmoothedValue.setTargetValue, init, SmoothedValue.init, floor_ramp_steps]

theorem ramp_next (c s t : ℚ) (n : Int) (hn : 1 < n) :
    SmoothedValue.getNextValue
        { currentValue := c, target := t, countdown := n, step := s, stepsToTarget := 2205 } =
      ({ currentValue := c + s, target := t, countdown := n - 1, step := s,
         stepsToTarget := 2205 }, c + s) :=
  getNextValue_ramp _ (by show 0 < n - 1; omega)

/-- The three mix values of the mid-ramp scenario. -/
theorem rampState_mix_values (M : FloatMath) :
    (setDryWet (prepare M init 44100) 1).mixSmoother.getNextValue.1.currentValue =
        1 / 2 + 1 / 4410 ∧
      (setDryWet (prepare M init 44100) 1).mixSmoother.getNextValue.1.getNextValue.2 =
        1 / 2 + 1 / 4410 + 1 / 4410 ∧
      (setDryWet (prepare M init 44100) 1).mixSmoother.getNextValue.1.getNextValue.1.getNextValue.1.currentValue =
        1 / 2 + 1 / 4410 + 1 / 4410 + 1 / 4410 := by
  rw [rampState_mixSmoother, ramp_next _ _ _ _ (by norm_num), ramp_next _ _ _ _ (by norm_num),
    ramp_next _ _ _ _ (by norm_num)]
  exact ⟨rfl, rfl, rfl⟩

/-- Counterexample to C5 as stated: a default-constructed processor prepared at 44100 Hz
whose dry/wet target was just set to 1 (mix smoother mid-ramp), and two samples of value 1
per channel. One call over both samples and two calls over one sample each write different
values at index 1, whatever the math library computes. -/
theorem C5_counterexample_split_differs_mid_ramp :
    ¬ ∃ M : FloatMath,
      outLeft (processStereo M (setDryWet (prepare M init 44100) 1)
          (some [1, 1]) (some [1, 1]) 2) =
        outLeft (processStereo M (setDryWet (prepare M init 44100) 1) (some [1]) (some [1]) 1) ++
          outLeft (processStereo M
            (processStereo M (setDryWet (prepare M init 44100) 1) (some [1]) (some [1]) 1).1
            (some [1]) (some [1]) 1) := by
  rintro ⟨M, h⟩
  obtain ⟨hL, hR⟩ := rampState_combs M
  have hq := rampState_quiet M
  obtain ⟨v1, v2, v3⟩ := rampState_mix_values M
  have two := sampleLoop_two_quiet M 22050 0 _ 1 1 1 1 hq (by norm_num) (by norm_num)
  obtain ⟨a1, a2, a3, a4⟩ := sampleLoop_one_quiet M 22050 0 _ 1 1 hq (by norm_num) (by norm_num)
  have hc := combs_ne_nil_of_config _ _
    (processStereo_configuration M (setDryWet (prepare M init 44100) 1) (some [1]) (some [1]) 1)
    hL hR
  have hrun1 := processStereo_run M (setDryWet (prepare M init 44100) 1) [1] [1] 1 hL hR
    (by norm_num)
  have hfirst : (processStereo M (setDryWet (prepare M init 44100) 1) (some [1]) (some [1]) 1).1 =
      (sampleLoop M (setDryWet (prepare M init 44100) 1) [1] [1] 1).s := by
    rw [hrun1]; rfl
  rw [hfirst] at hc
  obtain ⟨b1, _, _, _⟩ := sampleLoop_one_quiet M 22050 1 _ 1 1 a3 (by norm_num) (by norm_num)
  rw [processStereo_run M _ [1, 1] [1, 1] 2 hL hR (by norm_num), hfirst,
    processStereo_run M _ [1] [1] 1 hc.1 hc.2 (by norm_num), hrun1] at h
  simp only [outLeft, Option.getD_some] at h
  have e2 : ((2 : Int)).toNat = 2 := rfl
  have e1 : ((1 : Int)).toNat = 1 := rfl
  rw [e2, e1, two, a1, b1, a2, a4, v1, v2, v3, rampState_roomVolume] at h
  norm_num [dryOut] at h

end ReverbProcessor
end Reverb

namespace Reverb
namespace ReverbProcessor

/-! ## C6: what `prepare` sizes -/

theorem setCombFeedbacks_buffers (b : ℚ) (ls : List CombFilter) :
    ∀ (k : Nat) (rs : List CombFilter),
      (setCombFeedbacks b k ls rs).1.map (fun c => c.buffer.length) =
          ls.map (fun c => c.buffer.length) ∧
        (setCombFeedbacks b k ls rs).2.map (fun c => c.buffer.length) =
          rs.map (fun c => c.buffer.length) := by
  induction ls with
  | nil => intro k rs; exact ⟨rfl, rfl⟩
  | cons l rest ih =>
    intro k rs
    cases rs with
    | nil =>
      refine ⟨?_, ?_⟩ <;>
        simp only [setCombFeedbacks, List.map_cons, (ih (k + 1) []).1, (ih (k + 1) []).2,
          CombFilter.setFeedback, List.map_nil]
    | cons r rs =>
      refine ⟨?_, ?_⟩ <;>
        simp only [setCombFeedbacks, List.map_cons, (ih (k + 1) rs).1, (ih (k + 1) rs).2,
          CombFilter.setFeedback]

theorem setAllpassCoeffs_buffers (e t : ℚ) (ls : List AllpassFilter) :
    ∀ (k : Nat) (rs : List AllpassFilter),
      (setAllpassCoeffs e t k ls rs).1.map (fun a => a.buffer.length) =
          ls.map (fun a => a.buffer.length) ∧
        (setAllpassCoeffs e t k ls rs).2.map (fun a => a.buffer.length) =
          rs.map (fun a => a.buffer.length) := by
  induction ls with
  | nil => intro k rs; exact ⟨rfl, rfl⟩
  | cons l rest ih =>
    intro k rs
    cases rs with
    | nil =>
      refine ⟨?_, ?_⟩ <;>
        simp only [setAllpassCoeffs, List.map_cons, (ih (k + 1) []).1, (ih (k + 1) []).2,
          AllpassFilter.setCoeff, List.map_nil]
    | cons r rs =>
      refine ⟨?_, ?_⟩ <;>
        simp only [setAllpassCoeffs, List.map_cons, (ih (k + 1) rs).1, (ih (k + 1) rs).2,
          AllpassFilter.setCoeff]

/-- The buffer capacities of the comb banks, the allpass banks and the early-reflection
taps. -/
theorem updateOthers_capacities (M : FloatMath) (s : ReverbProcessor) :
    (updateOthers M s).combsL.map (fun c => c.buffer.length) =
        s.combsL.map (fun c => c.buffer.length) ∧
      (updateOthers M s).combsR.map (fun c => c.buffer.length) =
        s.combsR.map (fun c => c.buffer.length) ∧
      (updateOthers M s).allpassesL.map (fun a => a.buffer.length) =
        s.allpassesL.map (fun a => a.buffer.length) ∧
      (updateOthers M s).allpassesR.map (fun a => a.buffer.length) =
        s.allpassesR.map (fun a => a.buffer.length) ∧
      (updateOthers M s).earlyTaps = s.earlyTaps := by
  have hf : (updateFeedback M s).combsL.map (fun c => c.buffer.length) =
        s.combsL.map (fun c => c.buffer.length) ∧
      (updateFeedback M s).combsR.map (fun c => c.buffer.length) =
        s.combsR.map (fun c => c.buffer.length) ∧
      (updateFeedback M s).allpassesL = s.allpassesL ∧
      (updateFeedback M s).allpassesR = s.allpassesR ∧
      (updateFeedback M s).earlyTaps = s.earlyTaps := by
    unfold updateFeedback
    split_ifs
    · exact ⟨rfl, rfl, rfl, rfl, rfl⟩
    · exact ⟨(setCombFeedbacks_buffers _ _ _ _).1, (setCombFeedbacks_buffers _ _ _ _).2,
        rfl, rfl, rfl⟩
    · exact ⟨(setCombFeedbacks_buffers _ _ _ _).1, (setCombFeedbacks_buffers _ _ _ _).2,
        rfl, rfl, rfl⟩
  have hp : ∀ u : ReverbProcessor, (updatePreDelay u).combsL = u.combsL ∧
      (updatePreDelay u).combsR = u.combsR ∧ (updatePreDelay u).allpassesL = u.allpassesL ∧
      (updatePreDelay u).allpassesR = u.allpassesR ∧
      (updatePreDelay u).earlyTaps = u.earlyTaps := by
    intro u
    simp only [updatePreDelay, msToSamples]
    split_ifs <;> exact ⟨rfl, rfl, rfl, rfl, rfl⟩
  obtain ⟨p1, p2, p3, p4, p5⟩ := hp (updateDiffusion (updateDamping (updateFeedback M s)))
  obtain ⟨f1, f2, f3, f4, f5⟩ := hf
  unfold updateOthers
  refine ⟨?_, ?_, ?_, ?_, ?_⟩
  · show (updatePreDelay _).combsL.map _ = _
    rw [p1]
    show ((updateFeedback M s).combsL.map _).map _ = _
    rw [List.map_map, ← f1]
    rfl
  · show (updatePreDelay _).combsR.map _ = _
    rw [p2]
    show ((updateFeedback M s).combsR.map _).map _ = _
    rw [List.map_map, ← f2]
    rfl
  · show (updatePreDelay _).allpassesL.map _ = _
    rw [p3]
    show (setAllpassCoeffs _ _ 0 (updateFeedback M s).allpassesL
      (updateFeedback M s).allpassesR).1.map _ = _
    rw [(setAllpassCoeffs_buffers _ _ _ _ _).1, f3]
  · show (updatePreDelay _).allpassesR.map _ = _
    rw [p4]
    show (setAllpassCoeffs _ _ 0 (updateFeedback M s).allpassesL
      (updateFeedback M s).allpassesR).2.map _ = _
    rw [(setAllpassCoeffs_buffers _ _ _ _ _).2, f4]
  · show (updatePreDelay _).earlyTaps = _
    rw [p5]
    exact f5

theorem prepareFilters_init_cheapPath (sr : ℚ) :
    cheapPath (currentStatics (prepareFilters init sr)) (prepareFilters init sr) = true := by
  simp [cheapPath, currentStatics, prepareFilters, initSmoothers, init, List.replicate]
  norm_num

theorem prepareFilters_default_cheapPath (sr : ℚ) :
    cheapPath (currentStatics (prepareFilters { init with statics := some defaultStatics } sr))
      (prepareFilters { init with statics := some defaultStatics } sr) = true := by
  simp [cheapPath, currentStatics, prepareFilters, initSmoothers, init, List.replicate,
    defaultStatics]
  norm_num

/-- When `prepare` reaches `updateAllParameters` with statics that make it take the cheap
path, no comb, allpass or early-reflection buffer is sized. -/
theorem prepare_cheapPath_unsized (M : FloatMath) (s : ReverbProcessor) (sr : ℚ)
    (h : cheapPath (currentStatics (prepareFilters s sr)) (prepareFilters s sr) = true) :
    Unsized (prepare M s sr) := by
  have hu : updateAllParameters M (prepareFilters s sr) =
      updateOthers M { prepareFilters s sr with
        statics := some (currentStatics (prepareFilters s sr)) } := by
    unfold updateAllParameters
    rw [if_neg (not_le.mpr (prepareFilters_sampleRate_pos s sr)), if_pos h]
  obtain ⟨c1, c2, c3, c4, c5⟩ := updateOthers_capacities M
    { prepareFilters s sr with statics := some (currentStatics (prepareFilters s sr)) }
  unfold Unsized prepare
  rw [hu]
  simp only [clear, List.map_map]
  refine ⟨?_, ?_, ?_, ?_, ?_⟩
  · have : (fun c : CombFilter => c.buffer.length) ∘ CombFilter.clear =
        fun c => c.buffer.length := by
      funext c; simp [CombFilter.clear]
    rw [this, c1]; rfl
  · have : (fun c : CombFilter => c.buffer.length) ∘ CombFilter.clear =
        fun c => c.buffer.length := by
      funext c; simp [CombFilter.clear]
    rw [this, c2]; rfl
  · have : (fun a : AllpassFilter => a.buffer.length) ∘ AllpassFilter.clear =
        fun a => a.buffer.length := by
      funext a; simp [AllpassFilter.clear]
    rw [this, c3]; rfl
  · have : (fun a : AllpassFilter => a.buffer.length) ∘ AllpassFilter.clear =
        fun a => a.buffer.length := by
      funext a; simp [AllpassFilter.clear]
    rw [this, c4]; rfl
  · rw [c5]; rfl

/-- C6: `prepare` on a default-constructed processor at any sample rate, both when the
statics of `updateAllParameters` are not yet initialised and when they hold the default
parameters (as after the setter calls of the plugin's constructor): the update takes its
cheap path, and afterwards every comb, allpass and early-reflection buffer has capacity 0
(it was never sized). -/
theorem C6_prepare_on_fresh_processor_sizes_no_filter (M : FloatMath) (sr : ℚ) :
    Unsized (prepare M init sr) ∧
      Unsized (prepare M { init with statics := some defaultStatics } sr) :=
  ⟨prepare_cheapPath_unsized M init sr (prepareFilters_init_cheapPath sr),
    prepare_cheapPath_unsized M _ sr (prepareFilters_default_cheapPath sr)⟩

end ReverbProcessor
end Reverb

namespace Reverb
namespace ReverbProcessor

/-! ## The claims on dry/wet 1 and on block splitting, and the witnesses -/

/-- In exact arithmetic (no rounding, no overflow, no NaN): with the dry/wet value 1 in
effect on a processor whose comb banks and pre-delay buffers exist, the output samples at
index `i` of `processStereo` are the same for two input blocks that differ only at index
`i`; and the two outputs of one sample pass with mix 1 are `clamp (0.95 * wet, -1, 1)` of
the wet signals, which see the input only through the pre-delay lines. -/
theorem exact_wet_output_independent_of_current_input (M : FloatMath) (s : ReverbProcessor)
    (l r l' r' : List ℚ) (i : Nat)
    (hL : s.combsL ≠ []) (hR : s.combsR ≠ []) (hmix : MixInEffect 1 s)
    (hpl : s.preDelayL.buffer ≠ []) (hpr : s.preDelayR.buffer ≠ [])
    (hr : r.length = l.length) (hl' : l'.length = l.length) (hr' : r'.length = l.length)
    (hi : i < l.length) (hdiff : ∀ j, j ≠ i → l[j]? = l'[j]? ∧ r[j]? = r'[j]?) :
    ((outLeft (processStereo M s (some l) (some r) l.length))[i]? =
        (outLeft (processStereo M s (some l') (some r') l'.length))[i]? ∧
      (outRight (processStereo M s (some l) (some r) l.length))[i]? =
        (outRight (processStereo M s (some l') (some r') l'.length))[i]?) ∧
    ∀ (t : ReverbProcessor) (x y : ℚ),
      (processSample M t 1 x y).2 =
        (max (-1) (min 1 (0.95 * (wetStage M t
            (t.preDelayL.process (x * jlimit 0 2 t.roomVolume)).2
            (t.preDelayR.process (y * jlimit 0 2 t.roomVolume)).2).wetL)),
          max (-1) (min 1 (0.95 * (wetStage M t
            (t.preDelayL.process (x * jlimit 0 2 t.roomVolume)).2
            (t.preDelayR.process (y * jlimit 0 2 t.roomVolume)).2).wetR))) :=
  ⟨processStereo_wet_noninterference M s l r l' r' i hL hR hmix hpl hpr hr hl' hr' hi hdiff,
    fun t x y => processSample_mix_one M t x y⟩

/-- C5, as amended: when a dry/wet value is in effect (the mix smoother is not mid-ramp)
on a processor whose comb banks exist, one `processStereo` call over `n + m` samples
writes exactly the samples that a call over the first `n` samples followed by a call over
the remaining `m` samples writes, for every `n, m ≥ 1`. -/
theorem C5_block_split_when_mix_in_effect (M : FloatMath) (t : ℚ) (s : ReverbProcessor)
    (l1 r1 l2 r2 : List ℚ) (hL : s.combsL ≠ []) (hR : s.combsR ≠ [])
    (hmix : MixInEffect t s) (h1 : r1.length = l1.length) (h2 : r2.length = l2.length)
    (hp1 : 0 < l1.length) (hp2 : 0 < l2.length) :
    outLeft (processStereo M s (some (l1 ++ l2)) (some (r1 ++ r2)) (l1 ++ l2).length) =
        outLeft (processStereo M s (some l1) (some r1) l1.length) ++
          outLeft (processStereo M (processStereo M s (some l1) (some r1) l1.length).1
            (some l2) (some r2) l2.length) ∧
      outRight (processStereo M s (some (l1 ++ l2)) (some (r1 ++ r2)) (l1 ++ l2).length) =
        outRight (processStereo M s (some l1) (some r1) l1.length) ++
          outRight (processStereo M (processStereo M s (some l1) (some r1) l1.length).1
            (some l2) (some r2) l2.length) :=
  processStereo_split M t s l1 r1 l2 r2 hL hR hmix h1 h2 hp1 hp2

theorem init_dryWet : init.dryWet = 1 / 2 := by norm_num [init]

theorem prepared_default_mixInEffect (M : FloatMath) :
    MixInEffect (1 / 2) (prepare M init 44100) := by
  have h := prepare_mixInEffect M init 44100
  rw [init_dryWet] at h
  exact h

/-- Witness of C5: the default processor prepared at 44100 Hz, a block of three samples
split after the first. -/
theorem C5_block_split_witness :
    outLeft (processStereo sampleMath (prepare sampleMath init 44100)
        (some ([1] ++ [3, 4])) (some ([2] ++ [5, 6])) ([1] ++ [3, 4] : List ℚ).length) =
        outLeft (processStereo sampleMath (prepare sampleMath init 44100)
          (some [1]) (some [2]) ([1] : List ℚ).length) ++
          outLeft (processStereo sampleMath
            (processStereo sampleMath (prepare sampleMath init 44100)
              (some [1]) (some [2]) ([1] : List ℚ).length).1
            (some [3, 4]) (some [5, 6]) ([3, 4] : List ℚ).length) ∧
      outRight (processStereo sampleMath (prepare sampleMath init 44100)
        (some ([1] ++ [3, 4])) (some ([2] ++ [5, 6])) ([1] ++ [3, 4] : List ℚ).length) =
        outRight (processStereo sampleMath (prepare sampleMath init 44100)
          (some [1]) (some [2]) ([1] : List ℚ).length) ++
          outRight (processStereo sampleMath
            (processStereo sampleMath (prepare sampleMath init 44100)
              (some [1]) (some [2]) ([1] : List ℚ).length).1
            (some [3, 4]) (some [5, 6]) ([3, 4] : List ℚ).length) :=
  C5_block_split_when_mix_in_effect sampleMath (1 / 2) (prepare sampleMath init 44100)
    [1] [2] [3, 4] [5, 6] (prepare_combs_ne_nil sampleMath init 44100).1
    (prepare_combs_ne_nil sampleMath init 44100).2 (prepared_default_mixInEffect sampleMath)
    rfl rfl (by decide) (by decide)

theorem setDryWet_init_one_dryWet : (setDryWet init 1).dryWet = 1 := by
  norm_num [setDryWet, jlimit]

theorem setDryWet_init_preDelay (v : ℚ) :
    (setDryWet init v).preDelayL.buffer = [] ∧ (setDryWet init v).preDelayR.buffer = [] :=
  ⟨rfl, rfl⟩

theorem prepared_wet_mixInEffect (M : FloatMath) :
    MixInEffect 1 (prepare M (setDryWet init 1) 44100) := by
  have h := prepare_mixInEffect M (setDryWet init 1) 44100
  rw [setDryWet_init_one_dryWet] at h
  exact h

theorem preDelay_ne_nil_of_quiet (N k : Nat) (s : ReverbProcessor) (h : Quiet N k s)
    (hN : 0 < N) : s.preDelayL.buffer ≠ [] ∧ s.preDelayR.buffer ≠ [] := by
  obtain ⟨⟨h1, _⟩, ⟨h2, _⟩, _⟩ := h
  constructor
  · intro hn; rw [hn] at h1; simp at h1; omega
  · intro hn; rw [hn] at h2; simp at h2; omega

theorem agree_off_one : ∀ j : Nat, j ≠ 1 →
    ([1, 2] : List ℚ)[j]? = ([1, 5] : List ℚ)[j]? ∧
      ([3, 4] : List ℚ)[j]? = ([3, 6] : List ℚ)[j]? := by
  intro j hj
  match j, hj with
  | 0, _ => exact ⟨rfl, rfl⟩
  | 1, h => exact absurd rfl h
  | (k + 2), _ => exact ⟨rfl, rfl⟩

/-- Witness of C8: a call with a null left pointer, and a call with a sample count of 0. -/
theorem C8_invalid_input_witness :
    processStereo sampleMath init none (some [1, 2]) 2 = (init, none, some [1, 2]) ∧
      processStereo sampleMath init (some [1, 2]) (some [3, 4]) 0 =
        (init, some [1, 2], some [3, 4]) :=
  ⟨C8_processStereo_invalid_input_is_noop sampleMath init none (some [1, 2]) 2
      (Or.inr (Or.inl rfl)),
    C8_processStereo_invalid_input_is_noop sampleMath init (some [1, 2]) (some [3, 4]) 0
      (Or.inl (le_refl 0))⟩

theorem setDecayTime_frame (M : FloatMath) (s : ReverbProcessor) (v : ℚ) :
    updateFrame (setDecayTime M s v) = updateFrame s := by
  unfold setDecayTime
  rw [updateFeedback_frame]
  rfl

theorem prepare_sampleRate_pos (M : FloatMath) (s : ReverbProcessor) (sr : ℚ) :
    0 < (prepare M s sr).sampleRate := by
  have h := congrArg UpdateFrame.sampleRate (prepare_updateFrame M s sr)
  have e : (prepare M s sr).sampleRate = (prepareFilters s sr).sampleRate := h
  rw [e]
  exact prepareFilters_sampleRate_pos s sr

theorem setDecayTime_counts (M : FloatMath) (s : ReverbProcessor) (v : ℚ) :
    (setDecayTime M s v).combsL.length = s.combsL.length ∧
      (setDecayTime M s v).combsR.length = s.combsR.length ∧
      (setDecayTime M s v).sampleRate = s.sampleRate := by
  have h := setDecayTime_frame M s v
  exact ⟨congrArg UpdateFrame.nCombsL h, congrArg UpdateFrame.nCombsR h,
    congrArg UpdateFrame.sampleRate h⟩

/-- The processor of the witness of C10: prepared at 44100 Hz, decay time then set to 2. -/
theorem decaySet_facts (M : FloatMath) :
    (setDecayTime M (prepare M init 44100) 2).combsL.length = 8 ∧
      (setDecayTime M (prepare M init 44100) 2).combsR.length = 8 ∧
      0 < (setDecayTime M (prepare M init 44100) 2).sampleRate ∧
      0 < (setDecayTime M (prepare M init 44100) 2).decayTime := by
  obtain ⟨e1, e2, e3⟩ := setDecayTime_counts M (prepare M init 44100) 2
  obtain ⟨c1, c2, _⟩ := prepare_counts M init 44100
  refine ⟨e1.trans c1, e2.trans c2, ?_, ?_⟩
  · rw [e3]; exact prepare_sampleRate_pos M init 44100
  · rw [setDecayTime_decayTime]
    exact lt_of_lt_of_le (by norm_num) (jlimit_ge 0.01 60 2 (by norm_num))

/-- Witness of C10: the processor prepared at 44100 Hz with decay time 2, on which the
decay time, respectively the reflectivity, is then set with the argument 3. -/
theorem C10_rt60_feedback_witness :
    FeedbackMapped sampleMath
        (setDecayTime sampleMath (setDecayTime sampleMath (prepare sampleMath init 44100) 2) 3) ∧
      FeedbackMapped sampleMath
        (setNormalizedReflectivity sampleMath
          (setDecayTime sampleMath (prepare sampleMath init 44100) 2) 3) :=
  C10_rt60_feedback_mapping sampleMath (setDecayTime sampleMath (prepare sampleMath init 44100) 2)
    3 (decaySet_facts sampleMath).1 (decaySet_facts sampleMath).2.1
    (decaySet_facts sampleMath).2.2.1 (decaySet_facts sampleMath).2.2.2

end ReverbProcessor
end Reverb

namespace Reverb

theorem max_one_toNat (n : Int) : (if n ≤ 0 then (1 : Int) else n).toNat = (max n 1).toNat := by
  split_ifs with h
  · rw [max_eq_right (by omega)]
  · rw [max_eq_left (by omega)]

/-- C20: for each of CombFilter, EnhancedCombFilter, AllpassFilter and DelayLine and every
integer `n`, after `setSize (n)` the buffer capacity is `max (n, 1)`, every buffer sample is
zero (the buffer is `max (n, 1)` zeros), and every cursor is zero. -/
theorem C20_setSize_capacity_zeros_and_cursors (n : Int) :
    (∀ c : CombFilter, (c.setSize n).buffer.length = (max n 1).toNat ∧
      (c.setSize n).buffer = List.replicate (max n 1).toNat 0 ∧ (c.setSize n).writeIndex = 0) ∧
    (∀ c : EnhancedCombFilter, (c.setSize n).buffer.length = (max n 1).toNat ∧
      (c.setSize n).buffer = List.replicate (max n 1).toNat 0 ∧ (c.setSize n).writeIndex = 0) ∧
    (∀ a : AllpassFilter, (a.setSize n).buffer.length = (max n 1).toNat ∧
      (a.setSize n).buffer = List.replicate (max n 1).toNat 0 ∧ (a.setSize n).writeIndex = 0) ∧
    (∀ d : DelayLine, (d.setSize n).buffer.length = (max n 1).toNat ∧
      (d.setSize n).buffer = List.replicate (max n 1).toNat 0 ∧ (d.setSize n).writeIndex = 0 ∧
      (d.setSize n).readIndex = 0) := by
  refine ⟨fun c => ?_, fun c => ?_, fun a => ?_, fun d => ?_⟩
  · simp only [CombFilter.setSize, CombFilter.clear, vectorResize_length, max_one_toNat,
      List.length_replicate, and_self]
  · simp only [EnhancedCombFilter.setSize, EnhancedCombFilter.clear, vectorResize_length,
      max_one_toNat, List.length_replicate, and_self]
  · simp only [AllpassFilter.setSize, AllpassFilter.clear, vectorResize_length, max_one_toNat,
      List.length_replicate, and_self]
  · simp only [DelayLine.setSize, DelayLine.clear, vectorResize_length, max_one_toNat,
      List.length_replicate, and_self]

namespace ReverbProcessor

theorem msToSamples_floor (s : ReverbProcessor) (ms : ℚ) (hsr : 0 < s.sampleRate)
    (hms : 0 ≤ ms) : (msToSamples s ms).2 = ⌊s.sampleRate * ms / 1000⌋ := by
  rw [msToSamples_of_pos s ms hsr, if_neg (not_lt.mpr hms)]
  show truncToInt (s.sampleRate * ms / 1000) = _
  unfold truncToInt
  rw [if_pos (div_nonneg (mul_nonneg (le_of_lt hsr) hms) (by norm_num))]

theorem msToSamples_state (s : ReverbProcessor) (ms : ℚ) (hsr : 0 < s.sampleRate) :
    (msToSamples s ms).1 = s := by
  rw [msToSamples_of_pos s ms hsr]

end ReverbProcessor

end Reverb

namespace Reverb

/-! ## Delay lines: sizing, delay setting and the cursor offset -/

theorem toSizeT_of_nonneg (x : Int) (h0 : 0 ≤ x) (h1 : x < 18446744073709551616) :
    toSizeT x = x.toNat := by
  unfold toSizeT
  omega

theorem jlimitInt_eq_min (hi v : Int) (h0 : 0 ≤ v) : jlimitInt 0 hi v = min v hi := by
  unfold jlimitInt
  split_ifs with h1 h2
  · omega
  · rw [min_eq_right (le_of_lt h2)]
  · rw [min_eq_left (not_lt.mp h2)]

theorem delayLine_setSize_length (d : DelayLine) (n : Int) :
    (d.setSize n).buffer.length = (max n 1).toNat := by
  simp only [DelayLine.setSize, DelayLine.clear, vectorResize_length, max_one_toNat,
    List.length_replicate]

theorem delayLine_setDelay_delaySamples (d : DelayLine) (n : Int) (h : d.buffer ≠ []) :
    (d.setDelay n).delaySamples = jlimitInt 0 ((d.buffer.length : Int) - 1) n := by
  unfold DelayLine.setDelay
  rw [if_neg h]

theorem delayLine_setDelay_writeIndex (d : DelayLine) (n : Int) :
    (d.setDelay n).writeIndex = d.writeIndex := by
  unfold DelayLine.setDelay
  split_ifs <;> rfl

theorem delayLine_setDelay_readIndex (d : DelayLine) (n : Int) (h : d.buffer ≠ []) :
    (d.setDelay n).readIndex =
      ((toSizeT (d.writeIndex - jlimitInt 0 ((d.buffer.length : Int) - 1) n +
        (d.buffer.length : Int)) % d.buffer.length : Nat) : Int) := by
  unfold DelayLine.setDelay
  rw [if_neg h]

/-- On a non-empty line whose write cursor is inside the buffer, `setDelay` establishes
the cursor offset. -/
theorem delayLine_setDelay_cursorOffset (d : DelayLine) (n : Int) (h : d.buffer ≠ [])
    (hw0 : 0 ≤ d.writeIndex) (hw1 : d.writeIndex < (d.buffer.length : Int))
    (hlen : d.buffer.length < 9223372036854775808) :
    DelayLine.CursorOffset (d.setDelay n) := by
  have hpos : 0 < d.buffer.length := List.length_pos.mpr h
  unfold DelayLine.CursorOffset
  rw [delayLine_setDelay_readIndex d n h, delayLine_setDelay_writeIndex,
    delayLine_setDelay_delaySamples d n h, ReverbProcessor.delayLine_setDelay_buffer]
  have hj0 : 0 ≤ jlimitInt 0 ((d.buffer.length : Int) - 1) n := by
    unfold jlimitInt; split_ifs <;> omega
  have hj1 : jlimitInt 0 ((d.buffer.length : Int) - 1) n ≤ (d.buffer.length : Int) - 1 := by
    unfold jlimitInt; split_ifs <;> omega
  generalize jlimitInt 0 ((d.buffer.length : Int) - 1) n = ds at hj0 hj1
  rw [toSizeT_of_nonneg _ (by omega) (by omega), Int.natCast_mod,
    Int.toNat_of_nonneg (by omega), Int.add_emod_self]

theorem delayLine_clear_fields (d : DelayLine) :
    d.clear.readIndex = 0 ∧ d.clear.writeIndex = 0 ∧ d.clear.delaySamples = d.delaySamples ∧
      d.clear.buffer.length = d.buffer.length := by
  simp only [DelayLine.clear, List.length_replicate, and_self]

namespace ReverbProcessor

theorem truncToInt_44100_20 : truncToInt ((44100 : ℚ) * 20 / 1000) = 882 := by
  unfold truncToInt
  norm_num

/-- The pre-delay lines of the default processor prepared at 44100 Hz: sized to 22050
samples, delay set to 882 samples (20 ms), then cleared. -/
theorem prepare_init_preDelay (M : FloatMath) :
    (prepare M init 44100).preDelayL = ((DelayLine.init.setSize 22050).setDelay 882).clear ∧
      (prepare M init 44100).preDelayR =
        ((DelayLine.init.setSize 22050).setDelay 882).clear := by
  obtain ⟨pl, pr⟩ := prepare_preDelay M init 44100
  have hgrow : (0 : Nat) < toSizeT 22050 := by unfold toSizeT; omega
  have h20 : ¬ (20 : ℚ) < 0 := by norm_num
  have h1 : ¬ (22050 : Int) < 1 := by norm_num
  have h882 : truncToInt ((44100 * if (20.0 : ℚ) < 0 then 0 else 20.0) / 1000) = 882 := by
    norm_num [truncToInt]
  rw [pl, pr]
  simp only [preDelayUpdate, updateFrame, prepareFilters, initSmoothers, jlimit_44100,
    truncToInt_44100_500, init, DelayLine.init, List.length_nil, hgrow, decide_True, if_true,
    h1, if_false, h882, and_self]

theorem setSize_22050_length (d : DelayLine) : (d.setSize 22050).buffer.length = 22050 := by
  rw [delayLine_setSize_length]
  decide

theorem setSize_22050_ne_nil (d : DelayLine) : (d.setSize 22050).buffer ≠ [] := by
  intro h
  have := setSize_22050_length d
  rw [h] at this
  exact absurd this (by decide)

theorem prepare_init_preDelay_fields (M : FloatMath) :
    (prepare M init 44100).preDelayL.buffer.length = 22050 ∧
      (prepare M init 44100).preDelayL.delaySamples = 882 ∧
      (prepare M init 44100).preDelayL.writeIndex = 0 ∧
      (prepare M init 44100).preDelayL.readIndex = 0 := by
  rw [(prepare_init_preDelay M).1]
  obtain ⟨h1, h2, h3, h4⟩ := delayLine_clear_fields ((DelayLine.init.setSize 22050).setDelay 882)
  rw [h1, h2, h3, h4, delayLine_setDelay_buffer, setSize_22050_length,
    delayLine_setDelay_delaySamples _ _ (setSize_22050_ne_nil _), setSize_22050_length]
  refine ⟨rfl, ?_, rfl, rfl⟩
  decide

/-- C16: the cursor-offset relation holds after `setSize (4)` and `setDelay (2)` (read
cursor 2, write cursor 0) and is broken by `clear ()`, which zeroes both cursors and keeps
the configured delay; on the default processor `prepare (44100)` leaves the pre-delay line
with capacity 22050, configured delay 882 and both cursors at 0, so the relation
`read = (write - delay) mod capacity` fails there. -/
theorem C16_clear_breaks_cursor_offset (M : FloatMath) :
    DelayLine.CursorOffset ((DelayLine.init.setSize 4).setDelay 2) ∧
      ¬ DelayLine.CursorOffset ((DelayLine.init.setSize 4).setDelay 2).clear ∧
      (∀ d : DelayLine, d.clear.readIndex = 0 ∧ d.clear.writeIndex = 0 ∧
        d.clear.delaySamples = d.delaySamples ∧ d.clear.buffer.length = d.buffer.length) ∧
      ¬ DelayLine.CursorOffset (prepare M init 44100).preDelayL := by
  refine ⟨by unfold DelayLine.CursorOffset; decide, by unfold DelayLine.CursorOffset; decide,
    delayLine_clear_fields, ?_⟩
  obtain ⟨h1, h2, h3, h4⟩ := prepare_init_preDelay_fields M
  unfold DelayLine.CursorOffset
  rw [h1, h2, h3, h4]
  decide

/-- C15: with capacity 2 and delay 0 the line returns `0, 0, 1` for the inputs `1, 5, 7`:
the output is the input delayed by the capacity (2 samples), not by the configured 0
samples; with delay 1 the same inputs give `0, 1, 5`. -/
theorem C15_zero_delay_is_full_capacity_delay :
    (DelayLine.feed ((DelayLine.init.setSize 2).setDelay 0) [1, 5, 7]).2 = [0, 0, 1] ∧
      ((DelayLine.init.setSize 2).setDelay 0).delaySamples = 0 ∧
      (DelayLine.feed ((DelayLine.init.setSize 2).setDelay 1) [1, 5, 7]).2 = [0, 1, 5] := by
  refine ⟨?_, ?_, ?_⟩ <;> decide!

end ReverbProcessor

end Reverb

namespace Reverb

namespace ReverbProcessor

/-! ## Pre-delay configuration -/

theorem msToSamples_500 (s : ReverbProcessor) (hs : 0 < s.sampleRate) :
    (msToSamples s 500).2 = truncToInt (s.sampleRate * 500 / 1000) := by
  rw [msToSamples_of_pos s 500 hs, if_neg (by norm_num)]

theorem truncToInt_nonneg (x : ℚ) (h : 0 ≤ x) : 0 ≤ truncToInt x := by
  unfold truncToInt
  rw [if_pos h]
  exact Int.floor_nonneg.mpr h

theorem truncToInt_mono (x y : ℚ) (hx : 0 ≤ x) (h : x ≤ y) : truncToInt x ≤ truncToInt y := by
  unfold truncToInt
  rw [if_pos hx, if_pos (le_trans hx h)]
  exact Int.floor_mono h

theorem msToSamples_500_bounds (s : ReverbProcessor) (hlo : 22050 ≤ s.sampleRate)
    (hhi : s.sampleRate ≤ 192000) :
    11025 ≤ (msToSamples s 500).2 ∧ (msToSamples s 500).2 ≤ 96000 := by
  have hs : 0 < s.sampleRate := lt_of_lt_of_le (by norm_num) hlo
  rw [msToSamples_500 s hs]
  have e1 : truncToInt ((22050 : ℚ) * 500 / 1000) = 11025 := by norm_num [truncToInt]
  have e2 : truncToInt ((192000 : ℚ) * 500 / 1000) = 96000 := by norm_num [truncToInt]
  constructor
  · rw [← e1]
    exact truncToInt_mono _ _ (by norm_num) (by linarith)
  · rw [← e2]
    exact truncToInt_mono _ _ (by linarith) (by linarith)

/-- One pre-delay line under `updatePreDelay` when its capacity already is
`msToSamples (500)`: no resize, the delay is set to `min (d, capacity - 1)` and the read
cursor trails the write cursor by it. -/
theorem preDelay_line_update (d : DelayLine) (cap n : Int) (hcap0 : 11025 ≤ cap)
    (hcap1 : cap ≤ 96000) (hlen : (d.buffer.length : Int) = cap) (hn : 0 ≤ n)
    (hw0 : 0 ≤ d.writeIndex) (hw1 : d.writeIndex < cap) :
    ((d.setDelay n).buffer.length : Int) = cap ∧
      (d.setDelay n).delaySamples = min n (cap - 1) ∧
      DelayLine.CursorOffset (d.setDelay n) := by
  have hne : d.buffer ≠ [] := by
    intro h; rw [h] at hlen; simp at hlen; omega
  refine ⟨?_, ?_, ?_⟩
  · rw [delayLine_setDelay_buffer, hlen]
  · rw [delayLine_setDelay_delaySamples d n hne, hlen]
    exact jlimitInt_eq_min _ _ hn
  · exact delayLine_setDelay_cursorOffset d n hne hw0 (by omega) (by omega)

theorem setPreDelay_lines (s : ReverbProcessor) (ms : ℚ) (hs : 0 < s.sampleRate) :
    (setPreDelay s ms).preDelayL =
        (preDelayUpdate (updateFrame { s with preDelayMs := jlimit 0 500 ms })).preDelayL ∧
      (setPreDelay s ms).preDelayR =
        (preDelayUpdate (updateFrame { s with preDelayMs := jlimit 0 500 ms })).preDelayR := by
  have h := updatePreDelay_frame { s with preDelayMs := jlimit 0 500 ms } hs
  exact ⟨congrArg UpdateFrame.preDelayL h, congrArg UpdateFrame.preDelayR h⟩

theorem setPreDelay_no_resize (s : ReverbProcessor) (ms : ℚ) (hlo : 22050 ≤ s.sampleRate)
    (hhi : s.sampleRate ≤ 192000)
    (hcL : (s.preDelayL.buffer.length : Int) = (msToSamples s 500).2) :
    (setPreDelay s ms).preDelayL =
        s.preDelayL.setDelay (msToSamples s (jlimit 0 500 ms)).2 ∧
      (setPreDelay s ms).preDelayR =
        s.preDelayR.setDelay (msToSamples s (jlimit 0 500 ms)).2 := by
  have hs : 0 < s.sampleRate := lt_of_lt_of_le (by norm_num) hlo
  obtain ⟨b0, b1⟩ := msToSamples_500_bounds s hlo hhi
  obtain ⟨eL, eR⟩ := setPreDelay_lines s ms hs
  rw [eL, eR, msToSamples_of_pos s _ hs]
  rw [msToSamples_500 s hs] at hcL b0 b1
  have h1 : ¬ truncToInt (s.sampleRate * 500 / 1000) < 1 := by omega
  have hg : ¬ s.preDelayL.buffer.length < toSizeT (truncToInt (s.sampleRate * 500 / 1000)) := by
    rw [toSizeT_of_nonneg _ (by omega) (by omega)]
    omega
  simp only [preDelayUpdate, updateFrame, h1, if_false, hg, decide_False, and_self]
  constructor <;> rfl

theorem msToSamples_nonneg (s : ReverbProcessor) (ms : ℚ) (hs : 0 < s.sampleRate) :
    0 ≤ (msToSamples s ms).2 := by
  rw [msToSamples_of_pos s ms hs]
  apply truncToInt_nonneg
  apply div_nonneg _ (by norm_num)
  apply mul_nonneg (le_of_lt hs)
  split_ifs with h
  · exact le_refl _
  · exact not_lt.mp h

/-- What `setPreDelay (ms)` leaves in the two pre-delay lines of a processor whose lines
have capacity `msToSamples (500)` and write cursors inside the buffer. -/
theorem setPreDelay_configured (s : ReverbProcessor) (ms : ℚ)
    (hlo : 22050 ≤ s.sampleRate) (hhi : s.sampleRate ≤ 192000)
    (hcL : (s.preDelayL.buffer.length : Int) = (msToSamples s 500).2)
    (hcR : (s.preDelayR.buffer.length : Int) = (msToSamples s 500).2)
    (hwL : 0 ≤ s.preDelayL.writeIndex ∧ s.preDelayL.writeIndex < (msToSamples s 500).2)
    (hwR : 0 ≤ s.preDelayR.writeIndex ∧ s.preDelayR.writeIndex < (msToSamples s 500).2) :
    (((setPreDelay s ms).preDelayL.buffer.length : Int) = (msToSamples s 500).2 ∧
      (setPreDelay s ms).preDelayL.delaySamples =
        min (msToSamples s (jlimit 0 500 ms)).2 ((msToSamples s 500).2 - 1) ∧
      DelayLine.CursorOffset (setPreDelay s ms).preDelayL) ∧
    (((setPreDelay s ms).preDelayR.buffer.length : Int) = (msToSamples s 500).2 ∧
      (setPreDelay s ms).preDelayR.delaySamples =
        min (msToSamples s (jlimit 0 500 ms)).2 ((msToSamples s 500).2 - 1) ∧
      DelayLine.CursorOffset (setPreDelay s ms).preDelayR) := by
  have hs : 0 < s.sampleRate := lt_of_lt_of_le (by norm_num) hlo
  obtain ⟨b0, b1⟩ := msToSamples_500_bounds s hlo hhi
  obtain ⟨eL, eR⟩ := setPreDelay_no_resize s ms hlo hhi hcL
  rw [eL, eR]
  exact ⟨preDelay_line_update _ _ _ b0 b1 hcL (msToSamples_nonneg s _ hs) hwL.1 hwL.2,
    preDelay_line_update _ _ _ b0 b1 hcR (msToSamples_nonneg s _ hs) hwR.1 hwR.2⟩

/-- C17 (amended): on a processor with sample rate in `[22050, 192000]` whose two pre-delay
lines have capacity `msToSamples (500)` and write cursors inside the buffer (as after
`prepare`), after `setPreDelay (ms)` both lines still have capacity `msToSamples (500)`,
their configured delay is `min (msToSamples (clamp (ms, 0, 500)), capacity - 1)`, and the
read cursor trails the write cursor by that delay modulo the capacity. -/
theorem C17_preDelay_configuration (s : ReverbProcessor) (ms : ℚ)
    (hlo : 22050 ≤ s.sampleRate) (hhi : s.sampleRate ≤ 192000)
    (hcL : (s.preDelayL.buffer.length : Int) = (msToSamples s 500).2)
    (hcR : (s.preDelayR.buffer.length : Int) = (msToSamples s 500).2)
    (hwL : 0 ≤ s.preDelayL.writeIndex ∧ s.preDelayL.writeIndex < (msToSamples s 500).2)
    (hwR : 0 ≤ s.preDelayR.writeIndex ∧ s.preDelayR.writeIndex < (msToSamples s 500).2) :
    (((setPreDelay s ms).preDelayL.buffer.length : Int) = (msToSamples s 500).2 ∧
      (setPreDelay s ms).preDelayL.delaySamples =
        min (msToSamples s (jlimit 0 500 ms)).2 ((msToSamples s 500).2 - 1) ∧
      DelayLine.CursorOffset (setPreDelay s ms).preDelayL) ∧
    (((setPreDelay s ms).preDelayR.buffer.length : Int) = (msToSamples s 500).2 ∧
      (setPreDelay s ms).preDelayR.delaySamples =
        min (msToSamples s (jlimit 0 500 ms)).2 ((msToSamples s 500).2 - 1) ∧
      DelayLine.CursorOffset (setPreDelay s ms).preDelayR) :=
  setPreDelay_configured s ms hlo hhi hcL hcR hwL hwR

theorem prepare_sampleRate (M : FloatMath) (s : ReverbProcessor) (sr : ℚ) :
    (prepare M s sr).sampleRate = jlimit 22050 192000 sr :=
  congrArg UpdateFrame.sampleRate (prepare_updateFrame M s sr)

theorem prepare_init_preDelayR_fields (M : FloatMath) :
    (prepare M init 44100).preDelayR.buffer.length = 22050 ∧
      (prepare M init 44100).preDelayR.delaySamples = 882 ∧
      (prepare M init 44100).preDelayR.writeIndex = 0 ∧
      (prepare M init 44100).preDelayR.readIndex = 0 := by
  rw [(prepare_init_preDelay M).2]
  obtain ⟨h1, h2, h3, h4⟩ := delayLine_clear_fields ((DelayLine.init.setSize 22050).setDelay 882)
  rw [h1, h2, h3, h4, delayLine_setDelay_buffer, setSize_22050_length,
    delayLine_setDelay_delaySamples _ _ (setSize_22050_ne_nil _), setSize_22050_length]
  refine ⟨rfl, ?_, rfl, rfl⟩
  decide

/-- The hypotheses of the pre-delay configuration hold on the default processor prepared at
44100 Hz. -/
theorem prepare_init_preDelay_ready (M : FloatMath) :
    (22050 : ℚ) ≤ (prepare M init 44100).sampleRate ∧
      (prepare M init 44100).sampleRate ≤ 192000 ∧
      (msToSamples (prepare M init 44100) 500).2 = 22050 ∧
      ((prepare M init 44100).preDelayL.buffer.length : Int) = 22050 ∧
      ((prepare M init 44100).preDelayR.buffer.length : Int) = 22050 ∧
      (prepare M init 44100).preDelayL.writeIndex = 0 ∧
      (prepare M init 44100).preDelayR.writeIndex = 0 := by
  have hsr : (prepare M init 44100).sampleRate = 44100 := by
    rw [prepare_sampleRate, jlimit_44100]
  have h500 : (msToSamples (prepare M init 44100) 500).2 = 22050 := by
    rw [msToSamples_500 _ (by rw [hsr]; norm_num), hsr, truncToInt_44100_500]
  obtain ⟨l1, _, l3, _⟩ := prepare_init_preDelay_fields M
  obtain ⟨r1, _, r3, _⟩ := prepare_init_preDelayR_fields M
  rw [hsr, l1, r1]
  exact ⟨by norm_num, by norm_num, h500, rfl, rfl, l3, r3⟩

/-- Witness of C17: the default processor prepared at 44100 Hz and `setPreDelay (100)`. -/
theorem C17_preDelay_configuration_witness :
    (((setPreDelay (prepare sampleMath init 44100) 100).preDelayL.buffer.length : Int) =
        (msToSamples (prepare sampleMath init 44100) 500).2 ∧
      (setPreDelay (prepare sampleMath init 44100) 100).preDelayL.delaySamples =
        min (msToSamples (prepare sampleMath init 44100) (jlimit 0 500 100)).2
          ((msToSamples (prepare sampleMath init 44100) 500).2 - 1) ∧
      DelayLine.CursorOffset (setPreDelay (prepare sampleMath init 44100) 100).preDelayL) ∧
    (((setPreDelay (prepare sampleMath init 44100) 100).preDelayR.buffer.length : Int) =
        (msToSamples (prepare sampleMath init 44100) 500).2 ∧
      (setPreDelay (prepare sampleMath init 44100) 100).preDelayR.delaySamples =
        min (msToSamples (prepare sampleMath init 44100) (jlimit 0 500 100)).2
          ((msToSamples (prepare sampleMath init 44100) 500).2 - 1) ∧
      DelayLine.CursorOffset (setPreDelay (prepare sampleMath init 44100) 100).preDelayR) := by
  obtain ⟨h1, h2, h3, h4, h5, h6, h7⟩ := prepare_init_preDelay_ready sampleMath
  exact C17_preDelay_configuration (prepare sampleMath init 44100) 100 h1 h2
    (by rw [h3]; exact h4) (by rw [h3]; exact h5)
    (by rw [h3, h6]; exact ⟨le_refl _, by norm_num⟩)
    (by rw [h3, h7]; exact ⟨le_refl _, by norm_num⟩)

/-- Counterexample to C17 as stated: on the default processor prepared at 44100 Hz,
`setPreDelay (500)` leaves a configured delay of 22049 samples, one less than
`msToSamples (500) = 22050`: the delay is clamped to the capacity minus one. -/
theorem C17_counterexample_maximum_is_truncated :
    ¬ ∃ M : FloatMath,
      (setPreDelay (prepare M init 44100) 500).preDelayL.delaySamples =
        (msToSamples (prepare M init 44100) (jlimit 0 500 500)).2 := by
  rintro ⟨M, h⟩
  obtain ⟨h1, h2, h3, h4, h5, h6, h7⟩ := prepare_init_preDelay_ready M
  have hc := (setPreDelay_configured (prepare M init 44100) 500 h1 h2
    (by rw [h3]; exact h4) (by rw [h3]; exact h5)
    (by rw [h3, h6]; exact ⟨le_refl _, by norm_num⟩)
    (by rw [h3, h7]; exact ⟨le_refl _, by norm_num⟩)).1.2.1
  have hj : jlimit 0 500 (500 : ℚ) = 500 := by norm_num [jlimit]
  rw [hj, h3] at hc h
  rw [hc] at h
  exact absurd h (by decide)

end ReverbProcessor

end Reverb

namespace Reverb

namespace ReverbProcessor

/-! ## What the update functions do to the 16 parameters -/

theorem msToSamples_parameters (s : ReverbProcessor) (ms : ℚ) :
    parameters (msToSamples s ms).1 = parameters s := by
  unfold msToSamples
  simp only []
  split_ifs <;> rfl

theorem updateFeedback_parameters (M : FloatMath) (s : ReverbProcessor)
    (h : 0.01 ≤ s.decayTime) : parameters (updateFeedback M s) = parameters s := by
  unfold updateFeedback
  have h' : ¬ s.decayTime < 0.01 := not_lt.mpr h
  split_ifs
  · rfl
  · simp only [h', if_false]
    rfl

theorem updateDamping_parameters (s : ReverbProcessor) :
    parameters (updateDamping s) = parameters s := rfl

theorem updateDiffusion_parameters (s : ReverbProcessor) :
    parameters (updateDiffusion s) = parameters s := rfl

theorem updateTieLevel_parameters (s : ReverbProcessor) :
    parameters (updateTieLevel s) = parameters s := rfl

theorem updatePreDelay_parameters (s : ReverbProcessor) :
    parameters (updatePreDelay s) = parameters s := by
  simp only [updatePreDelay, msToSamples]
  split_ifs <;> rfl

theorem updateOthers_parameters (M : FloatMath) (s : ReverbProcessor)
    (h : 0.01 ≤ s.decayTime) : parameters (updateOthers M s) = parameters s := by
  unfold updateOthers
  rw [updateTieLevel_parameters, updatePreDelay_parameters, updateDiffusion_parameters,
    updateDamping_parameters, updateFeedback_parameters M s h]

theorem combSizeStep_parameters (c : ℚ) (i : Nat) (s : ReverbProcessor) :
    parameters (combSizeStep c i s) = parameters s := by
  simp only [combSizeStep, msToSamples]
  split_ifs <;> rfl

theorem allpassSizeStep_parameters (c : ℚ) (i : Nat) (s : ReverbProcessor) :
    parameters (allpassSizeStep c i s) = parameters s := by
  simp only [allpassSizeStep, msToSamples]
  split_ifs <;> rfl

theorem tapSizeStep_parameters (c : ℚ) (i : Nat) (s : ReverbProcessor) :
    parameters (tapSizeStep c i s) = parameters s := by
  simp only [tapSizeStep, msToSamples]
  split_ifs <;> rfl

theorem reflectionDelayStep_parameters (i : Nat) (s : ReverbProcessor) :
    parameters (reflectionDelayStep i s) = parameters s := by
  simp only [reflectionDelayStep, msToSamples]
  split_ifs <;> rfl

theorem subsequentDelayStep_parameters (i : Nat) (s : ReverbProcessor) :
    parameters (subsequentDelayStep i s) = parameters s := by
  simp only [subsequentDelayStep, msToSamples]
  split_ifs <;> rfl

theorem forLoop_parameters (n : Nat) (body : Nat → ReverbProcessor → ReverbProcessor)
    (s : ReverbProcessor) (h : ∀ i t, parameters (body i t) = parameters t) :
    parameters (forLoop n body s) = parameters s :=
  forLoop_preserves (fun t : ReverbProcessor => parameters t = parameters s) n body s rfl
    (fun i t ht => (h i t).trans ht)

theorem resizeFilters_parameters (s : ReverbProcessor) :
    parameters (resizeFilters s) = parameters s := by
  unfold resizeFilters
  simp only []
  rw [forLoop_parameters _ _ _ (tapSizeStep_parameters _),
    forLoop_parameters _ _ _ (allpassSizeStep_parameters _),
    forLoop_parameters _ _ _ (combSizeStep_parameters _)]

theorem decayTime_of_parameters (s t : ReverbProcessor) (h : parameters t = parameters s) :
    t.decayTime = s.decayTime := by
  have := congrArg (fun l : List ℚ => l.getD 0 0) h
  exact this

theorem updateAllParameters_parameters (M : FloatMath) (s : ReverbProcessor)
    (h : 0.01 ≤ s.decayTime) : parameters (updateAllParameters M s) = parameters s := by
  unfold updateAllParameters
  split_ifs
  · rfl
  · exact updateOthers_parameters M _ h
  · show parameters (updateOthers M (resizeFilters _)) = _
    have hp := resizeFilters_parameters { s with statics := some (currentStatics s) }
    have hd : 0.01 ≤ (resizeFilters { s with statics := some (currentStatics s) }).decayTime := by
      rw [decayTime_of_parameters _ _ hp]; exact h
    rw [updateOthers_parameters M _ hd, hp]
    rfl

theorem prepare_parameters (M : FloatMath) (s : ReverbProcessor) (sr : ℚ)
    (h : 0.01 ≤ s.decayTime) : parameters (prepare M s sr) = parameters s := by
  show parameters (updateAllParameters M (prepareFilters s sr)) = _
  exact (updateAllParameters_parameters M (prepareFilters s sr) h).trans rfl

end ReverbProcessor

end Reverb

namespace Reverb

namespace ReverbProcessor

/-! ## What the setters do to the 16 parameters -/

theorem updateReflectionDelays_parameters (s : ReverbProcessor) :
    parameters (updateReflectionDelays s) = parameters s :=
  forLoop_parameters _ _ _ reflectionDelayStep_parameters

theorem updateSubsequentDelays_parameters (M : FloatMath) (s : ReverbProcessor)
    (h : 0.01 ≤ s.decayTime) : parameters (updateSubsequentDelays M s) = parameters s := by
  unfold updateSubsequentDelays
  have hp := forLoop_parameters (min s.combsL.length baseCombDelaysMs.length)
    subsequentDelayStep s subsequentDelayStep_parameters
  rw [updateFeedback_parameters M _ (by rw [decayTime_of_parameters _ _ hp]; exact h), hp]

theorem jlimit_decay_ge (v : ℚ) : (0.01 : ℚ) ≤ jlimit 0.01 60 v :=
  jlimit_ge _ _ _ (by norm_num)

theorem setDecayTime_parameters (M : FloatMath) (s : ReverbProcessor) (v : ℚ) :
    parameters (setDecayTime M s v) = (parameters s).set 0 (jlimit 0.01 60 v) := by
  unfold setDecayTime
  refine Eq.trans (updateFeedback_parameters M _ ?_) ?_
  · exact jlimit_decay_ge v
  · rfl

theorem setPreDelay_parameters (s : ReverbProcessor) (v : ℚ) :
    parameters (setPreDelay s v) = (parameters s).set 1 (jlimit 0 500 v) := by
  unfold setPreDelay
  rw [updatePreDelay_parameters]
  rfl

theorem setRoomSize_parameters (M : FloatMath) (s : ReverbProcessor) (v : ℚ)
    (h : 0.01 ≤ s.decayTime) :
    parameters (setRoomSize M s v) = (parameters s).set 5 (jlimit 0.01 2 v) := by
  unfold setRoomSize
  refine Eq.trans (updateAllParameters_parameters M _ ?_) ?_
  · exact h
  · rfl

theorem setReflectionDelay_parameters (s : ReverbProcessor) (v : ℚ) :
    parameters (setReflectionDelay s v) = (parameters s).set 8 (jlimit 0.1 4 v) := by
  unfold setReflectionDelay
  rw [updateReflectionDelays_parameters]
  rfl

theorem setSubsequentReverbDelay_parameters (M : FloatMath) (s : ReverbProcessor) (v : ℚ)
    (h : 0.01 ≤ s.decayTime) :
    parameters (setSubsequentReverbDelay M s v) = (parameters s).set 9 (jlimit 0.1 4 v) := by
  unfold setSubsequentReverbDelay
  refine Eq.trans (updateSubsequentDelays_parameters M _ ?_) ?_
  · exact h
  · rfl

theorem setNormalizedReflectivity_parameters (M : FloatMath) (s : ReverbProcessor) (v : ℚ)
    (h : 0.01 ≤ s.decayTime) :
    parameters (setNormalizedReflectivity M s v) = (parameters s).set 12 (jlimit 0 1 v) := by
  unfold setNormalizedReflectivity
  refine Eq.trans (updateFeedback_parameters M _ ?_) ?_
  · exact h
  · rfl

/-- Every setter writes the clamp of its argument into its own parameter and leaves the
other 15 parameters as they are. -/
theorem applySetter_parameters (M : FloatMath) (s : ReverbProcessor) (c : SetterCall)
    (h : 0.01 ≤ s.decayTime) :
    parameters (applySetter M s c) =
      match c with
      | SetterCall.decayTime v => (parameters s).set 0 (jlimit 0.01 60 v)
      | SetterCall.preDelay v => (parameters s).set 1 (jlimit 0 500 v)
      | SetterCall.damping v => (parameters s).set 2 (jlimit 0 0.999 v)
      | SetterCall.diffusion v => (parameters s).set 3 (jlimit 0 1 v)
      | SetterCall.reverbDiffusion v => (parameters s).set 4 (jlimit 0 1 v)
      | SetterCall.roomSize v => (parameters s).set 5 (jlimit 0.01 2 v)
      | SetterCall.roomVolume v => (parameters s).set 6 (jlimit 0 5 v)
      | SetterCall.earlyReflectionLevel v => (parameters s).set 7 (jlimit 0 1 v)
      | SetterCall.reflectionDelay v => (parameters s).set 8 (jlimit 0.1 4 v)
      | SetterCall.subsequentReverbDelay v => (parameters s).set 9 (jlimit 0.1 4 v)
      | SetterCall.subsequentLevel v => (parameters s).set 10 (jlimit 0 1 v)
      | SetterCall.envelopment v => (parameters s).set 11 (jlimit 0 1 v)
      | SetterCall.normalizedReflectivity v => (parameters s).set 12 (jlimit 0 1 v)
      | SetterCall.tieLevel v => (parameters s).set 13 (jlimit 0 1 v)
      | SetterCall.position v => (parameters s).set 14 (jlimit 0 1 v)
      | SetterCall.dryWet v => (parameters s).set 15 (jlimit 0 1 v) := by
  cases c with
  | decayTime v => exact setDecayTime_parameters M s v
  | preDelay v => exact setPreDelay_parameters s v
  | damping v => rfl
  | diffusion v => rfl
  | reverbDiffusion v => rfl
  | roomSize v => exact setRoomSize_parameters M s v h
  | roomVolume v => rfl
  | earlyReflectionLevel v => rfl
  | reflectionDelay v => exact setReflectionDelay_parameters s v
  | subsequentReverbDelay v => exact setSubsequentReverbDelay_parameters M s v h
  | subsequentLevel v => rfl
  | envelopment v => rfl
  | normalizedReflectivity v => exact setNormalizedReflectivity_parameters M s v h
  | tieLevel v => rfl
  | position v => rfl
  | dryWet v => rfl

theorem applySetter_decayTime_ge (M : FloatMath) (s : ReverbProcessor) (c : SetterCall)
    (h : 0.01 ≤ s.decayTime) : 0.01 ≤ (applySetter M s c).decayTime := by
  have e : (applySetter M s c).decayTime = (parameters (applySetter M s c)).getD 0 0 := rfl
  rw [e, applySetter_parameters M s c h]
  cases c <;> first | exact h | exact jlimit_decay_ge _

end ReverbProcessor

end Reverb

namespace Reverb

namespace ReverbProcessor

/-! ## Bounds of the comb feedback after the feedback update -/

theorem variation_ge_one (i : Nat) : (1 : ℚ) ≤ 1 + 0.015 * ((i % 4 : Nat) : ℚ) := by
  have : (0 : ℚ) ≤ ((i % 4 : Nat) : ℚ) := Nat.cast_nonneg _
  linarith

theorem rt60BaseFeedback_bounds (M : FloatMath) (s : ReverbProcessor) :
    0 ≤ rt60BaseFeedback M s ∧ rt60BaseFeedback M s ≤ 0.998 := by
  unfold rt60BaseFeedback
  exact ⟨le_max_left _ _, max_le (by norm_num) (min_le_left _ _)⟩

/-- The bounds that the RT60 mapping implies: every left comb's feedback lies in
`[0, 0.9999]`, every right comb's in `[0, 0.998]`. -/
theorem feedback_bounds_of_mapped (M : FloatMath) (s : ReverbProcessor)
    (h : FeedbackMapped M s) :
    ∀ i : Nat, i < 8 → ∃ cl cr : CombFilter, s.combsL[i]? = some cl ∧ s.combsR[i]? = some cr ∧
      (0 ≤ cl.feedback ∧ cl.feedback ≤ 0.9999) ∧ (0 ≤ cr.feedback ∧ cr.feedback ≤ 0.998) := by
  intro i hi
  obtain ⟨hl, hr⟩ := h i hi
  obtain ⟨b0, b1⟩ := rt60BaseFeedback_bounds M s
  have hv := variation_ge_one i
  cases hcl : s.combsL[i]? with
  | none => rw [hcl] at hl; simp at hl
  | some cl =>
    cases hcr : s.combsR[i]? with
    | none => rw [hcr] at hr; simp at hr
    | some cr =>
      rw [hcl] at hl
      rw [hcr] at hr
      simp only [Option.map_some', Option.some.injEq] at hl hr
      refine ⟨cl, cr, rfl, rfl, ⟨?_, ?_⟩, ⟨?_, ?_⟩⟩
      · rw [hl]; exact le_max_left _ _
      · rw [hl]; exact max_le (by norm_num) (min_le_left _ _)
      · rw [hr]; exact le_max_left _ _
      · rw [hr]
        apply max_le (by norm_num)
        apply le_trans (min_le_right _ _)
        have hpos : (0 : ℚ) < 1 + 0.015 * ((i % 4 : Nat) : ℚ) := by linarith
        rw [div_le_iff₀ hpos]
        nlinarith

/-- C11 (amended): after the feedback update on a prepared processor (8 combs per channel,
positive sample rate and decay time) every left comb's feedback gain lies in `[0, 0.9999]`
and every right comb's in `[0, 0.998]`. -/
theorem C11_feedback_bounds_after_update (M : FloatMath) (s : ReverbProcessor)
    (hL : s.combsL.length = 8) (hR : s.combsR.length = 8) (hsr : 0 < s.sampleRate)
    (hd : 0 < s.decayTime) :
    ∀ i : Nat, i < 8 → ∃ cl cr : CombFilter, (updateFeedback M s).combsL[i]? = some cl ∧
      (updateFeedback M s).combsR[i]? = some cr ∧
      (0 ≤ cl.feedback ∧ cl.feedback ≤ 0.9999) ∧ (0 ≤ cr.feedback ∧ cr.feedback ≤ 0.998) :=
  feedback_bounds_of_mapped M _ (updateFeedback_mapped M s hL hR hsr hd)

/-- Witness of C11: the default processor prepared at 44100 Hz after `setDecayTime (2)`,
at comb 3 (the largest variation). -/
theorem C11_feedback_bounds_witness :
    ∃ cl cr : CombFilter,
      (updateFeedback sampleMath
        (setDecayTime sampleMath (prepare sampleMath init 44100) 2)).combsL[3]? = some cl ∧
      (updateFeedback sampleMath
        (setDecayTime sampleMath (prepare sampleMath init 44100) 2)).combsR[3]? = some cr ∧
      (0 ≤ cl.feedback ∧ cl.feedback ≤ 0.9999) ∧ (0 ≤ cr.feedback ∧ cr.feedback ≤ 0.998) :=
  C11_feedback_bounds_after_update sampleMath
    (setDecayTime sampleMath (prepare sampleMath init 44100) 2)
    (decaySet_facts sampleMath).1 (decaySet_facts sampleMath).2.1
    (decaySet_facts sampleMath).2.2.1 (decaySet_facts sampleMath).2.2.2 3 (by norm_num)

theorem setDecayTime_mapped (M : FloatMath) (s : ReverbProcessor) (v : ℚ)
    (hL : s.combsL.length = 8) (hR : s.combsR.length = 8) (hsr : 0 < s.sampleRate) :
    FeedbackMapped M (setDecayTime M s v) := by
  unfold setDecayTime
  exact updateFeedback_mapped M _ hL hR hsr
    (lt_of_lt_of_le (by norm_num) (jlimit_ge 0.01 60 v (by norm_num)))

theorem setNormalizedReflectivity_frame (M : FloatMath) (s : ReverbProcessor) (v : ℚ) :
    updateFrame (setNormalizedReflectivity M s v) = updateFrame s := by
  unfold setNormalizedReflectivity
  rw [updateFeedback_frame]
  rfl

theorem init_decayTime_ge : (0.01 : ℚ) ≤ init.decayTime := by norm_num [init]

theorem prepare_decayTime_ge (M : FloatMath) (s : ReverbProcessor) (sr : ℚ)
    (h : 0.01 ≤ s.decayTime) : 0.01 ≤ (prepare M s sr).decayTime := by
  rw [decayTime_of_parameters _ _ (prepare_parameters M s sr h)]
  exact h

/-- The parameters of the default processor prepared at 44100 Hz after
`setNormalizedReflectivity (1)` and `setDecayTime (60)`. -/
theorem longDecay_parameters (M : FloatMath) :
    parameters (setDecayTime M (setNormalizedReflectivity M (prepare M init 44100) 1) 60) =
      [60, 20, 0.5, 0.7, 0.7, 0.75, 1, 0.3, 1, 1, 0.8, 0.8, 1, 0.5, 0.5, 0.5] := by
  rw [setDecayTime_parameters,
    setNormalizedReflectivity_parameters M _ _ (prepare_decayTime_ge M init 44100 init_decayTime_ge),
    prepare_parameters M init 44100 init_decayTime_ge]
  norm_num [parameters, init, jlimit]

theorem longDecay_mapped (M : FloatMath) :
    FeedbackMapped M
      (setDecayTime M (setNormalizedReflectivity M (prepare M init 44100) 1) 60) := by
  have hf := setNormalizedReflectivity_frame M (prepare M init 44100) 1
  obtain ⟨c1, c2, _⟩ := prepare_counts M init 44100
  apply setDecayTime_mapped
  · exact (congrArg UpdateFrame.nCombsL hf).trans c1
  · exact (congrArg UpdateFrame.nCombsR hf).trans c2
  · exact pos_of_frame_eq _ _ hf (prepare_sampleRate_pos M init 44100)

theorem parameters_getD (s : ReverbProcessor) :
    s.decayTime = (parameters s).getD 0 0 ∧ s.roomSize = (parameters s).getD 5 0 ∧
      s.subsequentReverbDelay = (parameters s).getD 9 0 ∧
      s.normalizedReflectivity = (parameters s).getD 12 0 :=
  ⟨rfl, rfl, rfl, rfl⟩

theorem longDecay_baseFeedback (M : FloatMath) :
    rt60BaseFeedback M
        (setDecayTime M (setNormalizedReflectivity M (prepare M init 44100) 1) 60) =
      max 0 (min 0.998 (M.pow 10 (-3 * (29.7 * 0.75 * 1 / 1000) / 60) * 1)) := by
  obtain ⟨e0, e5, e9, e12⟩ := parameters_getD
    (setDecayTime M (setNormalizedReflectivity M (prepare M init 44100) 1) 60)
  rw [longDecay_parameters M] at e0 e5 e9 e12
  simp only [List.getD_cons_zero, List.getD_cons_succ] at e0 e5 e9 e12
  unfold rt60BaseFeedback
  rw [e0, e5, e9, e12]

theorem clamped_feedback_exceeds (p : ℚ) (hp : 0.99 ≤ p) :
    (0.9999 : ℚ) ≤
      max 0 (min 0.9999 (max 0 (min 0.998 (p * 1)) * (1 + 0.015 * ((1 % 4 : Nat) : ℚ)))) := by
  have h1 : (0.99 : ℚ) ≤ max 0 (min 0.998 (p * 1)) :=
    le_max_of_le_right (le_min (by norm_num) (by linarith))
  have hv : ((1 % 4 : Nat) : ℚ) = 1 := by norm_num
  rw [hv]
  apply le_max_of_le_right
  apply le_min (le_refl _)
  nlinarith

/-- Counterexample to C11 as stated: on the default processor prepared at 44100 Hz with
reflectivity 1 and decay time 60 s, the base feedback is `10 ^ (-0.00111375)` (about
0.9974) and left comb 1 gets `min (0.9999, base * 1.015) = 0.9999`, above 0.998. This holds
for every math library whose `pow (10, -0.00111375)` is at least 0.99. -/
theorem C11_counterexample_left_comb_exceeds :
    ¬ ∃ M : FloatMath, 0.99 ≤ M.pow 10 (-3 * (29.7 * 0.75 * 1 / 1000) / 60) ∧
      ∀ c : CombFilter,
        (setDecayTime M (setNormalizedReflectivity M (prepare M init 44100) 1) 60).combsL[1]? =
          some c → c.feedback ≤ 0.998 := by
  rintro ⟨M, hpow, hc⟩
  have hm := (longDecay_mapped M 1 (by norm_num)).1
  rw [longDecay_baseFeedback M] at hm
  cases hcl : (setDecayTime M (setNormalizedReflectivity M (prepare M init 44100) 1)
      60).combsL[1]? with
  | none => rw [hcl] at hm; simp at hm
  | some c =>
    have hle := hc c hcl
    rw [hcl] at hm
    simp only [Option.map_some', Option.some.injEq] at hm
    rw [hm] at hle
    have h2 := clamped_feedback_exceeds _ hpow
    have : (0.998 : ℚ) < 0.9999 := by norm_num
    linarith

end ReverbProcessor

end Reverb

namespace Reverb

/-! ## The mix smoother: how often a call advances it, and when the ramp ends -/

theorem advance_zero (v : SmoothedValue) : v.advance 0 = v := rfl

theorem advance_succ (k : Nat) (v : SmoothedValue) :
    v.advance (k + 1) = (v.advance k).getNextValue.1 := by
  unfold SmoothedValue.advance
  rw [Function.iterate_succ_apply']

/-- While the ramp lasts, `k` steps add `k` times the step to the current value. -/
theorem advance_ramp (v : SmoothedValue) :
    ∀ k : Nat, (k : Int) < v.countdown →
      v.advance k =
        { v with countdown := v.countdown - k, currentValue := v.currentValue + (k : ℚ) * v.step }
  | 0, _ => by
    rw [advance_zero]
    simp
  | k + 1, h => by
    have hk : (k : Int) < v.countdown := by push_cast at h; omega
    rw [advance_succ, advance_ramp v k hk]
    rw [ReverbProcessor.getNextValue_ramp _ (by simp only []; push_cast at h; omega)]
    simp only [SmoothedValue.mk.injEq, true_and, and_true]
    constructor
    · push_cast; ring
    · push_cast; ring

/-- After as many steps as the ramp is long, and after any further step, the current value
is the target and the smoother is idle. -/
theorem advance_done (v : SmoothedValue) (h0 : 0 < v.countdown) :
    ∀ k : Nat, v.countdown ≤ (k : Int) →
      v.advance k = { v with countdown := 0, currentValue := v.target }
  | 0, h => by omega
  | k + 1, h => by
    rw [advance_succ]
    by_cases hk : v.countdown ≤ (k : Int)
    · rw [advance_done v h0 k hk, ReverbProcessor.getNextValue_idle _ (by simp)]
    · have hlt : (k : Int) < v.countdown := by omega
      have he : v.countdown = (k : Int) + 1 := by push_cast at h; omega
      rw [advance_ramp v k hlt]
      rw [ReverbProcessor.getNextValue_last _ (by simp only []; omega) (by simp only []; omega)]
      simp only [SmoothedValue.mk.injEq, true_and, and_true]
      omega

namespace ReverbProcessor

theorem sampleStep_mixSmoother (M : FloatMath) (i : Nat) (st : LoopState) :
    (sampleStep M i st).s.mixSmoother =
      if i % 8 = 0 then st.s.mixSmoother.getNextValue.1 else st.s.mixSmoother := by
  by_cases h8 : i % 8 = 0
  · simp only [sampleStep, h8, if_true]
    rfl
  · simp only [sampleStep, h8, if_false]
    rfl

/-- A call over `n` samples advances the mix smoother once at its start and once after every
sample whose index is a multiple of 8: `1 + ceil (n / 8)` times. -/
theorem sampleLoop_mixSmoother (M : FloatMath) (s : ReverbProcessor) (l r : List ℚ) (n : Nat) :
    (sampleLoop M s l r n).s.mixSmoother = s.mixSmoother.advance (1 + (n + 7) / 8) := by
  unfold sampleLoop
  refine forLoop_induction
    (fun k (st : LoopState) => st.s.mixSmoother = s.mixSmoother.advance (1 + (k + 7) / 8))
    n (sampleStep M) _ ?_ ?_
  · show s.mixSmoother.getNextValue.1 = _
    rw [show 1 + (0 + 7) / 8 = 0 + 1 from rfl, advance_succ, advance_zero]
  · intro i t _ ht
    show (sampleStep M i t).s.mixSmoother = _
    rw [sampleStep_mixSmoother, ht]
    by_cases h8 : i % 8 = 0
    · rw [if_pos h8, ← advance_succ]
      congr 1
      omega
    · rw [if_neg h8]
      congr 1
      omega

theorem processStereo_mixSmoother (M : FloatMath) (s : ReverbProcessor) (l r : List ℚ)
    (n : Int) (hL : s.combsL ≠ []) (hR : s.combsR ≠ []) (hn : 0 < n) :
    (processStereo M s (some l) (some r) n).1.mixSmoother =
      s.mixSmoother.advance (1 + (n.toNat + 7) / 8) := by
  rw [processStereo_run M s l r n hL hR hn]
  exact sampleLoop_mixSmoother M s l r n.toNat

theorem rampLength_pos (sr : ℚ) : 0 < ⌊(0.05 : ℚ) * jlimit 22050 192000 sr⌋ := by
  have h := jlimit_ge 22050 192000 sr (by norm_num)
  have : (1 : Int) ≤ ⌊(0.05 : ℚ) * jlimit 22050 192000 sr⌋ := by
    apply Int.le_floor.mpr
    push_cast
    linarith
  omega

/-- After `prepare`, a `setDryWet` that changes the target starts a ramp of
`floor (0.05 * sampleRate)` steps from the old value to the new target. -/
theorem setDryWet_prepare_ramp (M : FloatMath) (s0 : ReverbProcessor) (sr v : ℚ)
    (hchg : jlimit 0 1 v ≠ s0.dryWet) :
    (setDryWet (prepare M s0 sr) v).mixSmoother =
      { currentValue := s0.dryWet, target := jlimit 0 1 v
        countdown := ⌊(0.05 : ℚ) * jlimit 22050 192000 sr⌋
        step := (jlimit 0 1 v - s0.dryWet) / ((⌊(0.05 : ℚ) * jlimit 22050 192000 sr⌋ : Int) : ℚ)
        stepsToTarget := ⌊(0.05 : ℚ) * jlimit 22050 192000 sr⌋ } := by
  rw [setDryWet_mixSmoother, prepare_mixSmoother]
  have hN : ¬ ⌊(0.05 : ℚ) * jlimit 22050 192000 sr⌋ ≤ 0 := not_le.mpr (rampLength_pos sr)
  simp only [SmoothedValue.setTargetValue, SmoothedValue.reset,
    SmoothedValue.setCurrentAndTargetValue, hchg, if_false, hN]

/-- How the mix ramp advances: after `prepare`, a `setDryWet (v)` that changes the target
starts a ramp of `floor (0.05 * sampleRate)` smoother steps towards `clamp (v, 0, 1)`; a
`processStereo` call over `n` samples advances the mix smoother `1 + ceil (n / 8)` times
(once at the start of the call and once after every sample whose index is a multiple of
8); once the smoother has been advanced as often as the ramp is long its value is the
target and it is idle, and before that it is still ramping. -/
theorem mix_smoother_steps_and_convergence (M : FloatMath) (s0 : ReverbProcessor)
    (sr v : ℚ) (hchg : jlimit 0 1 v ≠ s0.dryWet) :
    ((setDryWet (prepare M s0 sr) v).mixSmoother.target = jlimit 0 1 v ∧
      (setDryWet (prepare M s0 sr) v).mixSmoother.countdown =
        ⌊(0.05 : ℚ) * jlimit 22050 192000 sr⌋ ∧
      0 < (setDryWet (prepare M s0 sr) v).mixSmoother.countdown) ∧
    (∀ (t : ReverbProcessor) (l r : List ℚ) (n : Int), t.combsL ≠ [] → t.combsR ≠ [] → 0 < n →
      (processStereo M t (some l) (some r) n).1.mixSmoother =
        t.mixSmoother.advance (1 + (n.toNat + 7) / 8)) ∧
    (∀ (w : SmoothedValue) (k : Nat), 0 < w.countdown → w.countdown ≤ (k : Int) →
      (w.advance k).currentValue = w.target ∧ (w.advance k).target = w.target ∧
        (w.advance k).countdown = 0) ∧
    (∀ (w : SmoothedValue) (k : Nat), (k : Int) < w.countdown →
      (w.advance k).countdown = w.countdown - k ∧
        (w.advance k).currentValue = w.currentValue + (k : ℚ) * w.step) := by
  refine ⟨?_, ?_, ?_, ?_⟩
  · rw [setDryWet_prepare_ramp M s0 sr v hchg]
    exact ⟨rfl, rfl, rampLength_pos sr⟩
  · intro t l r n hL hR hn
    exact processStereo_mixSmoother M t l r n hL hR hn
  · intro w k h0 hk
    rw [advance_done w h0 k hk]
    exact ⟨rfl, rfl, rfl⟩
  · intro w k hk
    rw [advance_ramp w k hk]
    exact ⟨rfl, rfl⟩

theorem jlimit_unit_one : jlimit 0 1 (1 : ℚ) = 1 := by norm_num [jlimit]

theorem jlimit_22050 : jlimit 22050 192000 22050 = 22050 := by
  unfold jlimit
  norm_num

theorem floor_ramp_22050 : ⌊(0.05 : ℚ) * 22050⌋ = 1102 := by norm_num

end ReverbProcessor

end Reverb

namespace Reverb

/-! ## The resizing loops of the full parameter update, element by element -/

theorem modifyAt_getElem? {α : Type} (f : α → α) :
    ∀ (n : Nat) (l : List α) (j : Nat),
      (modifyAt f n l)[j]? = if j = n then (l[j]?).map f else l[j]?
  | _, [], j => by simp [modifyAt]
  | 0, x :: xs, j => by
    cases j with
    | zero => simp [modifyAt]
    | succ j => simp [modifyAt]
  | n + 1, x :: xs, j => by
    cases j with
    | zero => simp [modifyAt]
    | succ j =>
      simp only [modifyAt, List.getElem?_cons_succ, Nat.add_right_cancel_iff]
      exact modifyAt_getElem? f n xs j

/-- A loop whose pass `i` rewrites element `i` of a bank with `g i` (as long as an
invariant of the state holds) rewrites the first `n` elements and leaves the rest. -/
theorem forLoop_bank {σ α : Type} (get : σ → List α) (Inv : σ → Prop) (g : Nat → α → α)
    (body : Nat → σ → σ) (hInv : ∀ i t, Inv t → Inv (body i t))
    (hget : ∀ i t, Inv t → get (body i t) = modifyAt (g i) i (get t))
    (s : σ) (h0 : Inv s) (n : Nat) :
    Inv (forLoop n body s) ∧
      ∀ j, (get (forLoop n body s))[j]? =
        if j < n then ((get s)[j]?).map (g j) else (get s)[j]? := by
  refine forLoop_induction
    (fun k t => Inv t ∧ ∀ j, (get t)[j]? = if j < k then ((get s)[j]?).map (g j) else (get s)[j]?)
    n body s ⟨h0, fun j => by simp⟩ ?_
  intro i t _ ⟨hi, ht⟩
  refine ⟨hInv i t hi, fun j => ?_⟩
  rw [hget i t hi, modifyAt_getElem?, ht j]
  by_cases hji : j = i
  · subst hji
    simp
  · rw [if_neg hji]
    by_cases hlt : j < i
    · rw [if_pos hlt, if_pos (by omega)]
    · rw [if_neg hlt, if_neg (by omega)]

namespace ReverbProcessor

theorem tapSizeStep_eq (c : ℚ) (i : Nat) (t : ReverbProcessor) (ht : 0 < t.sampleRate) :
    tapSizeStep c i t =
      { t with earlyTaps := modifyAt (tapPass t.sampleRate c t.reflectionDelay i) i t.earlyTaps } := by
  simp only [tapSizeStep, msToSamples_of_pos _ _ ht]
  rfl

theorem allpassSizeStep_eq (c : ℚ) (i : Nat) (t : ReverbProcessor) (ht : 0 < t.sampleRate) :
    allpassSizeStep c i t =
      { t with
        allpassesL := modifyAt (allpassPassL t.sampleRate c i) i t.allpassesL
        allpassesR := modifyAt (allpassPassR t.sampleRate c i) i t.allpassesR } := by
  simp only [allpassSizeStep, msToSamples_of_pos _ _ ht]
  rfl

theorem combSizeStep_eq (c : ℚ) (i : Nat) (t : ReverbProcessor) (ht : 0 < t.sampleRate) :
    ∃ L R, combSizeStep c i t = { t with combsL := L, combsR := R } := by
  simp only [combSizeStep, msToSamples_of_pos _ _ ht]
  exact ⟨_, _, rfl⟩

/-- The comb loop of the full update writes the two comb banks only. -/
theorem combLoop_eq (c : ℚ) (n : Nat) (s : ReverbProcessor) (hs : 0 < s.sampleRate) :
    ∃ L R, forLoop n (combSizeStep c) s = { s with combsL := L, combsR := R } := by
  refine forLoop_preserves
    (fun t : ReverbProcessor => ∃ L R, t = { s with combsL := L, combsR := R }) n _ s
    ⟨s.combsL, s.combsR, rfl⟩ ?_
  rintro i t ⟨L, R, rfl⟩
  obtain ⟨L', R', h⟩ := combSizeStep_eq c i { s with combsL := L, combsR := R } hs
  exact ⟨L', R', h⟩

/-- The allpass loop of the full update writes the two allpass banks only, element `j` of
each with its pass. -/
theorem allpassLoop_eq (c : ℚ) (n : Nat) (s : ReverbProcessor) (hs : 0 < s.sampleRate) :
    ∃ AL AR, forLoop n (allpassSizeStep c) s = { s with allpassesL := AL, allpassesR := AR } ∧
      (∀ j, AL[j]? = if j < n then (s.allpassesL[j]?).map (allpassPassL s.sampleRate c j)
        else s.allpassesL[j]?) ∧
      (∀ j, AR[j]? = if j < n then (s.allpassesR[j]?).map (allpassPassR s.sampleRate c j)
        else s.allpassesR[j]?) := by
  have hinv : ∀ i (t : ReverbProcessor),
      (∃ AL AR, t = { s with allpassesL := AL, allpassesR := AR }) →
      ∃ AL AR, allpassSizeStep c i t = { s with allpassesL := AL, allpassesR := AR } := by
    rintro i t ⟨AL, AR, rfl⟩
    exact ⟨_, _, allpassSizeStep_eq c i { s with allpassesL := AL, allpassesR := AR } hs⟩
  have hL := forLoop_bank (fun t : ReverbProcessor => t.allpassesL)
    (fun t : ReverbProcessor => ∃ AL AR, t = { s with allpassesL := AL, allpassesR := AR })
    (allpassPassL s.sampleRate c) (allpassSizeStep c) hinv
    (by
      rintro i t ⟨AL, AR, rfl⟩
      rw [allpassSizeStep_eq c i { s with allpassesL := AL, allpassesR := AR } hs])
    s ⟨s.allpassesL, s.allpassesR, rfl⟩ n
  have hR := forLoop_bank (fun t : ReverbProcessor => t.allpassesR)
    (fun t : ReverbProcessor => ∃ AL AR, t = { s with allpassesL := AL, allpassesR := AR })
    (allpassPassR s.sampleRate c) (allpassSizeStep c) hinv
    (by
      rintro i t ⟨AL, AR, rfl⟩
      rw [allpassSizeStep_eq c i { s with allpassesL := AL, allpassesR := AR } hs])
    s ⟨s.allpassesL, s.allpassesR, rfl⟩ n
  obtain ⟨⟨AL, AR, he⟩, hl⟩ := hL
  refine ⟨AL, AR, he, ?_, ?_⟩
  · intro j
    have := hl j
    rw [he] at this
    exact this
  · intro j
    have := hR.2 j
    rw [he] at this
    exact this

/-- The early-reflection loop of the full update writes the tap bank only, element `j` with
its pass. -/
theorem tapLoop_eq (c : ℚ) (n : Nat) (s : ReverbProcessor) (hs : 0 < s.sampleRate) :
    ∃ T, forLoop n (tapSizeStep c) s = { s with earlyTaps := T } ∧
      ∀ j, T[j]? = if j < n then (s.earlyTaps[j]?).map (tapPass s.sampleRate c s.reflectionDelay j)
        else s.earlyTaps[j]? := by
  have h := forLoop_bank (fun t : ReverbProcessor => t.earlyTaps)
    (fun t : ReverbProcessor => ∃ T, t = { s with earlyTaps := T })
    (tapPass s.sampleRate c s.reflectionDelay) (tapSizeStep c)
    (by
      rintro i t ⟨T, rfl⟩
      exact ⟨_, tapSizeStep_eq c i { s with earlyTaps := T } hs⟩)
    (by
      rintro i t ⟨T, rfl⟩
      rw [tapSizeStep_eq c i { s with earlyTaps := T } hs])
    s ⟨s.earlyTaps, rfl⟩ n
  obtain ⟨⟨T, he⟩, hl⟩ := h
  refine ⟨T, he, fun j => ?_⟩
  have := hl j
  rw [he] at this
  exact this

end ReverbProcessor

end Reverb

namespace Reverb

namespace ReverbProcessor

/-! ## The full path of `updateAllParameters` -/

/-- The three resizing loops write the five filter banks only; every allpass and every
early-reflection tap below the loop bound is rewritten by its pass. -/
theorem resizeFilters_eq (s : ReverbProcessor) (hs : 0 < s.sampleRate) :
    ∃ L R AL AR T,
      resizeFilters s =
        { s with combsL := L, combsR := R, allpassesL := AL, allpassesR := AR, earlyTaps := T } ∧
      (∀ j, AL[j]? =
        if j < min s.allpassesL.length baseAllpassDelaysMs.length then
          (s.allpassesL[j]?).map (allpassPassL s.sampleRate (jlimit 0.01 2 s.roomSize) j)
        else s.allpassesL[j]?) ∧
      (∀ j, AR[j]? =
        if j < min s.allpassesL.length baseAllpassDelaysMs.length then
          (s.allpassesR[j]?).map (allpassPassR s.sampleRate (jlimit 0.01 2 s.roomSize) j)
        else s.allpassesR[j]?) ∧
      (∀ j, T[j]? =
        if j < min s.earlyTaps.length earlyTapDelaysMs.length then
          (s.earlyTaps[j]?).map
            (tapPass s.sampleRate (jlimit 0.01 2 s.roomSize) s.reflectionDelay j)
        else s.earlyTaps[j]?) := by
  unfold resizeFilters
  simp only []
  obtain ⟨L, R, h1⟩ := combLoop_eq (jlimit 0.01 2 s.roomSize)
    (min s.combsL.length baseCombDelaysMs.length) s hs
  rw [h1]
  obtain ⟨AL, AR, h2, hAL, hAR⟩ := allpassLoop_eq (jlimit 0.01 2 s.roomSize)
    (min s.allpassesL.length baseAllpassDelaysMs.length) { s with combsL := L, combsR := R } hs
  rw [h2]
  obtain ⟨T, h3, hT⟩ := tapLoop_eq (jlimit 0.01 2 s.roomSize)
    (min s.earlyTaps.length earlyTapDelaysMs.length)
    { s with combsL := L, combsR := R, allpassesL := AL, allpassesR := AR } hs
  rw [h3]
  exact ⟨L, R, AL, AR, T, rfl, hAL, hAR, hT⟩

theorem updateAllParameters_full (M : FloatMath) (s : ReverbProcessor) (hs : 0 < s.sampleRate)
    (hc : cheapPath (currentStatics s) s = false) :
    updateAllParameters M s =
      storeStatics (updateOthers M (resizeFilters { s with statics := some (currentStatics s) })) := by
  unfold updateAllParameters
  rw [if_neg (not_le.mpr hs), hc]
  rfl

/-- After a full update every early-reflection tap below the loop bound is the old tap
rewritten by its pass (grown to twice the delay when too small, then the delay set). -/
theorem fullUpdate_taps (M : FloatMath) (s : ReverbProcessor) (hs : 0 < s.sampleRate)
    (hc : cheapPath (currentStatics s) s = false) :
    ∀ j, (updateAllParameters M s).earlyTaps[j]? =
      if j < min s.earlyTaps.length earlyTapDelaysMs.length then
        (s.earlyTaps[j]?).map
          (tapPass s.sampleRate (jlimit 0.01 2 s.roomSize) s.reflectionDelay j)
      else s.earlyTaps[j]? := by
  obtain ⟨L, R, AL, AR, T, he, _, _, hT⟩ :=
    resizeFilters_eq { s with statics := some (currentStatics s) } hs
  intro j
  rw [updateAllParameters_full M s hs hc]
  show (updateOthers M _).earlyTaps[j]? = _
  rw [(updateOthers_capacities M _).2.2.2.2, he]
  exact hT j

/-- After a full update the capacity of every allpass below the loop bound is that of the
old allpass rewritten by its pass. -/
theorem fullUpdate_allpass_capacities (M : FloatMath) (s : ReverbProcessor)
    (hs : 0 < s.sampleRate) (hc : cheapPath (currentStatics s) s = false) :
    ∀ j, j < min s.allpassesL.length baseAllpassDelaysMs.length →
      ((updateAllParameters M s).allpassesL[j]?).map (fun a => a.buffer.length) =
          (s.allpassesL[j]?).map (fun a =>
            (allpassPassL s.sampleRate (jlimit 0.01 2 s.roomSize) j a).buffer.length) ∧
        ((updateAllParameters M s).allpassesR[j]?).map (fun a => a.buffer.length) =
          (s.allpassesR[j]?).map (fun a =>
            (allpassPassR s.sampleRate (jlimit 0.01 2 s.roomSize) j a).buffer.length) := by
  obtain ⟨L, R, AL, AR, T, he, hAL, hAR, _⟩ :=
    resizeFilters_eq { s with statics := some (currentStatics s) } hs
  intro j hj
  rw [updateAllParameters_full M s hs hc]
  obtain ⟨_, _, c3, c4, _⟩ := updateOthers_capacities M
    (resizeFilters { s with statics := some (currentStatics s) })
  constructor
  · show ((updateOthers M _).allpassesL[j]?).map _ = _
    rw [← List.getElem?_map, c3, he, List.getElem?_map]
    have := hAL j
    rw [if_pos hj] at this
    show (AL[j]?).map _ = _
    rw [this, Option.map_map]
    rfl
  · show ((updateOthers M _).allpassesR[j]?).map _ = _
    rw [← List.getElem?_map, c4, he, List.getElem?_map]
    have := hAR j
    rw [if_pos hj] at this
    show (AR[j]?).map _ = _
    rw [this, Option.map_map]
    rfl

theorem resizeFilters_statics (s : ReverbProcessor) (hs : 0 < s.sampleRate) :
    (resizeFilters s).statics = s.statics := by
  obtain ⟨L, R, AL, AR, T, he, _⟩ := resizeFilters_eq s hs
  rw [he]

/-- After a full update the statics hold the current room size, reflection delay and
subsequent delay. -/
theorem fullUpdate_statics (M : FloatMath) (s : ReverbProcessor) (hs : 0 < s.sampleRate)
    (hc : cheapPath (currentStatics s) s = false) (hd : 0.01 ≤ s.decayTime) :
    (updateAllParameters M s).statics =
      some { lastRoomSize := s.roomSize, lastRefDelay := s.reflectionDelay,
             lastSubDelay := s.subsequentReverbDelay } := by
  have hp : parameters (updateOthers M (resizeFilters { s with statics := some (currentStatics s) })) =
      parameters s := by
    have h1 := resizeFilters_parameters { s with statics := some (currentStatics s) }
    rw [updateOthers_parameters M _ (by rw [decayTime_of_parameters _ _ h1]; exact hd), h1]
    rfl
  have e5 := congrArg (fun l : List ℚ => l.getD 5 0) hp
  have e8 := congrArg (fun l : List ℚ => l.getD 8 0) hp
  have e9 := congrArg (fun l : List ℚ => l.getD 9 0) hp
  rw [updateAllParameters_full M s hs hc]
  simp only [storeStatics]
  simp only [parameters, List.getD_cons_zero, List.getD_cons_succ] at e5 e8 e9
  rw [e5, e8, e9]

end ReverbProcessor

end Reverb

namespace Reverb

namespace ReverbProcessor

/-! ## `setRoomSize` on the full path, and the capacity of a tap line -/

theorem jlimit_idem (lo hi v : ℚ) (h : lo ≤ hi) : jlimit lo hi (jlimit lo hi v) = jlimit lo hi v := by
  have h1 := jlimit_ge lo hi v h
  have h2 := jlimit_le lo hi v h
  generalize jlimit lo hi v = x at h1 h2
  unfold jlimit
  rw [if_neg (not_lt.mpr h1), if_neg (not_lt.mpr h2)]

theorem setRoomSize_full_cond (s : ReverbProcessor) (v : ℚ) (st : UpdateStatics)
    (hst : s.statics = some st) (hchg : |jlimit 0.01 2 v - st.lastRoomSize| > 0.001) :
    cheapPath (currentStatics { s with roomSize := jlimit 0.01 2 v })
      { s with roomSize := jlimit 0.01 2 v } = false := by
  simp only [cheapPath, currentStatics, hst, hchg, decide_True, Bool.not_true, Bool.false_and]

theorem updateAllParameters_sampleRate (M : FloatMath) (s : ReverbProcessor)
    (hs : 0 < s.sampleRate) : (updateAllParameters M s).sampleRate = s.sampleRate :=
  congrArg UpdateFrame.sampleRate (updateAllParameters_frame M s hs)

theorem updateAllParameters_nTaps (M : FloatMath) (s : ReverbProcessor)
    (hs : 0 < s.sampleRate) : (updateAllParameters M s).earlyTaps.length = s.earlyTaps.length :=
  congrArg UpdateFrame.nTaps (updateAllParameters_frame M s hs)

/-- One `setRoomSize` call that takes the full path: sample rate, parameters, statics and
the early-reflection taps afterwards. -/
theorem setRoomSize_step (M : FloatMath) (s : ReverbProcessor) (v : ℚ) (st : UpdateStatics)
    (hs : 0 < s.sampleRate) (hd : 0.01 ≤ s.decayTime) (hst : s.statics = some st)
    (hchg : |jlimit 0.01 2 v - st.lastRoomSize| > 0.001) :
    (setRoomSize M s v).sampleRate = s.sampleRate ∧
      parameters (setRoomSize M s v) = (parameters s).set 5 (jlimit 0.01 2 v) ∧
      (setRoomSize M s v).statics =
        some { lastRoomSize := jlimit 0.01 2 v, lastRefDelay := s.reflectionDelay,
               lastSubDelay := s.subsequentReverbDelay } ∧
      (setRoomSize M s v).earlyTaps.length = s.earlyTaps.length ∧
      ∀ j, (setRoomSize M s v).earlyTaps[j]? =
        if j < min s.earlyTaps.length earlyTapDelaysMs.length then
          (s.earlyTaps[j]?).map (tapPass s.sampleRate (jlimit 0.01 2 v) s.reflectionDelay j)
        else s.earlyTaps[j]? := by
  have hc := setRoomSize_full_cond s v st hst hchg
  refine ⟨?_, setRoomSize_parameters M s v hd, ?_, ?_, ?_⟩
  · exact updateAllParameters_sampleRate M { s with roomSize := jlimit 0.01 2 v } hs
  · exact fullUpdate_statics M { s with roomSize := jlimit 0.01 2 v } hs hc hd
  · exact updateAllParameters_nTaps M { s with roomSize := jlimit 0.01 2 v } hs
  · intro j
    have := fullUpdate_taps M { s with roomSize := jlimit 0.01 2 v } hs hc j
    simp only [jlimit_idem 0.01 2 v (by norm_num)] at this
    exact this

theorem sizeAndDelay_capacity (d : DelayLine) (n : Int) (h0 : 0 ≤ n)
    (h1 : n < 9223372036854775808) :
    ((sizeAndDelay d n).buffer.length : Int) =
      if (d.buffer.length : Int) < n then 2 * n else (d.buffer.length : Int) := by
  unfold sizeAndDelay
  rw [delayLine_setDelay_buffer, toSizeT_of_nonneg n h0 (by omega)]
  by_cases h : (d.buffer.length : Int) < n
  · rw [if_pos (by omega), if_pos h, delayLine_setSize_length]
    rw [max_eq_left (by omega)]
    omega
  · rw [if_neg (by omega), if_neg h]

theorem sizeAndDelay_capacity_ge (d : DelayLine) (n : Int) (h0 : 0 ≤ n)
    (h1 : n < 9223372036854775808) : n ≤ ((sizeAndDelay d n).buffer.length : Int) := by
  rw [sizeAndDelay_capacity d n h0 h1]
  split_ifs with h <;> omega

theorem samplesAt_nonneg (sr ms : ℚ) (hs : 0 < sr) : 0 ≤ samplesAt sr ms := by
  unfold samplesAt
  apply truncToInt_nonneg
  apply div_nonneg _ (by norm_num)
  apply mul_nonneg (le_of_lt hs)
  split_ifs with h
  · exact le_refl _
  · exact not_lt.mp h

theorem samplesAt_lt (sr ms : ℚ) (hs : 0 < sr) (hsr : sr ≤ 192000) (hms : ms ≤ 1000) :
    samplesAt sr ms < 192001 := by
  unfold samplesAt
  have hnn : (0 : ℚ) ≤ if ms < 0 then 0 else ms := by
    split_ifs with h
    · exact le_refl _
    · exact not_lt.mp h
  have hle : (if ms < 0 then 0 else ms) ≤ 1000 := by
    split_ifs with h
    · norm_num
    · exact hms
  have hx : sr * (if ms < 0 then 0 else ms) / 1000 < 192001 := by
    rw [div_lt_iff₀ (by norm_num)]
    nlinarith
  unfold truncToInt
  rw [if_pos (div_nonneg (mul_nonneg (le_of_lt hs) hnn) (by norm_num))]
  exact Int.floor_lt.mpr (by push_cast; exact hx)

theorem earlyTapDelaysMs_bounds (j : Nat) :
    0 ≤ earlyTapDelaysMs.getD j 0 ∧ earlyTapDelaysMs.getD j 0 ≤ 28.9 := by
  unfold earlyTapDelaysMs
  match j with
  | 0 => norm_num
  | 1 => norm_num
  | 2 => norm_num
  | 3 => norm_num
  | 4 => norm_num
  | 5 => norm_num
  | k + 6 => simp [List.getD]; norm_num

end ReverbProcessor

end Reverb

namespace Reverb

namespace ReverbProcessor

/-! ## Early-reflection capacities after a full update -/

theorem derivedTapDelayL_eq (t : ReverbProcessor) (j : Nat) (ht : 0 < t.sampleRate) :
    derivedTapDelayL t j =
      samplesAt t.sampleRate (earlyTapDelaysMs.getD j 0 * t.roomSize * t.reflectionDelay) := by
  unfold derivedTapDelayL
  rw [msToSamples_of_pos _ _ ht]
  rfl

theorem derivedTapDelayR_eq (t : ReverbProcessor) (j : Nat) (ht : 0 < t.sampleRate) :
    derivedTapDelayR t j =
      samplesAt t.sampleRate
        (earlyTapDelaysMs.getD j 0 * t.roomSize * t.reflectionDelay * 1.03) := by
  unfold derivedTapDelayR
  rw [msToSamples_of_pos _ _ ht]
  rfl

theorem parameters_room_reflection (s : ReverbProcessor) :
    s.roomSize = (parameters s).getD 5 0 ∧ s.reflectionDelay = (parameters s).getD 8 0 :=
  ⟨rfl, rfl⟩

theorem tapDelay_ms_le (j : Nat) (c rd : ℚ) (hc0 : 0 ≤ c) (hc1 : c ≤ 2) (hrd0 : 0 ≤ rd)
    (hrd1 : rd ≤ 4) :
    earlyTapDelaysMs.getD j 0 * c * rd ≤ 1000 ∧
      earlyTapDelaysMs.getD j 0 * c * rd * 1.03 ≤ 1000 := by
  obtain ⟨b0, b1⟩ := earlyTapDelaysMs_bounds j
  have h1 : earlyTapDelaysMs.getD j 0 * c ≤ 28.9 * 2 := by nlinarith
  have h1' : 0 ≤ earlyTapDelaysMs.getD j 0 * c := mul_nonneg b0 hc0
  have h2 : earlyTapDelaysMs.getD j 0 * c * rd ≤ 28.9 * 2 * 4 := by nlinarith
  constructor <;> nlinarith

/-- The capacities of tap `j` after a `setRoomSize` call on the full path, from the
capacities before: a line below the derived delay is resized to twice that delay, any other
line keeps its capacity; either way the capacity reaches the derived delay. -/
theorem tap_capacity_step (M : FloatMath) (s : ReverbProcessor) (v : ℚ) (st : UpdateStatics)
    (hs : 0 < s.sampleRate) (hsr : s.sampleRate ≤ 192000) (hrd0 : 0 ≤ s.reflectionDelay)
    (hrd1 : s.reflectionDelay ≤ 4) (hd : 0.01 ≤ s.decayTime) (hst : s.statics = some st)
    (hchg : |jlimit 0.01 2 v - st.lastRoomSize| > 0.001) :
    ∀ j, j < s.earlyTaps.length → j < 6 → ∃ old new : DelayLine × DelayLine,
      s.earlyTaps[j]? = some old ∧ (setRoomSize M s v).earlyTaps[j]? = some new ∧
      ((new.1.buffer.length : Int) =
        if (old.1.buffer.length : Int) < derivedTapDelayL (setRoomSize M s v) j then
          2 * derivedTapDelayL (setRoomSize M s v) j
        else (old.1.buffer.length : Int)) ∧
      ((new.2.buffer.length : Int) =
        if (old.2.buffer.length : Int) < derivedTapDelayR (setRoomSize M s v) j then
          2 * derivedTapDelayR (setRoomSize M s v) j
        else (old.2.buffer.length : Int)) ∧
      derivedTapDelayL (setRoomSize M s v) j ≤ (new.1.buffer.length : Int) ∧
      derivedTapDelayR (setRoomSize M s v) j ≤ (new.2.buffer.length : Int) := by
  intro j hj hj6
  obtain ⟨e1, e2, _, _, e5⟩ := setRoomSize_step M s v st hs hd hst hchg
  obtain ⟨p5, p8⟩ := parameters_room_reflection (setRoomSize M s v)
  rw [e2] at p5 p8
  have q5 : (setRoomSize M s v).roomSize = jlimit 0.01 2 v := by
    rw [p5]; simp [parameters]
  have q8 : (setRoomSize M s v).reflectionDelay = s.reflectionDelay := by
    rw [p8]; simp [parameters]
  have ht : 0 < (setRoomSize M s v).sampleRate := by rw [e1]; exact hs
  rw [derivedTapDelayL_eq _ _ ht, derivedTapDelayR_eq _ _ ht, e1, q5, q8]
  obtain ⟨m1, m2⟩ := tapDelay_ms_le j (jlimit 0.01 2 v) s.reflectionDelay
    (le_trans (by norm_num) (jlimit_ge 0.01 2 v (by norm_num))) (jlimit_le 0.01 2 v (by norm_num))
    hrd0 hrd1
  have nL0 := samplesAt_nonneg s.sampleRate
    (earlyTapDelaysMs.getD j 0 * jlimit 0.01 2 v * s.reflectionDelay) hs
  have nL1 := samplesAt_lt s.sampleRate _ hs hsr m1
  have nR0 := samplesAt_nonneg s.sampleRate
    (earlyTapDelaysMs.getD j 0 * jlimit 0.01 2 v * s.reflectionDelay * 1.03) hs
  have nR1 := samplesAt_lt s.sampleRate _ hs hsr m2
  have hjm : j < min s.earlyTaps.length earlyTapDelaysMs.length := by
    have : earlyTapDelaysMs.length = 6 := rfl
    rw [this]; omega
  have hnew := e5 j
  rw [if_pos hjm, List.getElem?_eq_getElem hj] at hnew
  refine ⟨s.earlyTaps[j], _, List.getElem?_eq_getElem hj, hnew, ?_, ?_, ?_, ?_⟩
  · exact sizeAndDelay_capacity _ _ nL0 (by omega)
  · exact sizeAndDelay_capacity _ _ nR0 (by omega)
  · exact sizeAndDelay_capacity_ge _ _ nL0 (by omega)
  · exact sizeAndDelay_capacity_ge _ _ nR0 (by omega)

/-- C18 (amended): on a processor with positive sample rate at most 192000, reflection
delay in `[0, 4]` and decay time at least 0.01, after a `setRoomSize (v)` call that takes
the full update (the clamped value differs by more than 0.001 from the room size of the
last full update), every early-reflection tap line has capacity at least the delay in
samples derived for it from the current parameters: a line whose capacity was below that
delay has been resized to exactly 2 times the delay, and every other line keeps the
capacity it had. -/
theorem C18_tap_capacity_after_full_update (M : FloatMath) (s : ReverbProcessor) (v : ℚ)
    (st : UpdateStatics) (hs : 0 < s.sampleRate) (hsr : s.sampleRate ≤ 192000)
    (hrd0 : 0 ≤ s.reflectionDelay) (hrd1 : s.reflectionDelay ≤ 4) (hd : 0.01 ≤ s.decayTime)
    (hst : s.statics = some st) (hchg : |jlimit 0.01 2 v - st.lastRoomSize| > 0.001) :
    ∀ j, j < s.earlyTaps.length → j < 6 → ∃ old new : DelayLine × DelayLine,
      s.earlyTaps[j]? = some old ∧ (setRoomSize M s v).earlyTaps[j]? = some new ∧
      ((new.1.buffer.length : Int) =
        if (old.1.buffer.length : Int) < derivedTapDelayL (setRoomSize M s v) j then
          2 * derivedTapDelayL (setRoomSize M s v) j
        else (old.1.buffer.length : Int)) ∧
      ((new.2.buffer.length : Int) =
        if (old.2.buffer.length : Int) < derivedTapDelayR (setRoomSize M s v) j then
          2 * derivedTapDelayR (setRoomSize M s v) j
        else (old.2.buffer.length : Int)) ∧
      derivedTapDelayL (setRoomSize M s v) j ≤ (new.1.buffer.length : Int) ∧
      derivedTapDelayR (setRoomSize M s v) j ≤ (new.2.buffer.length : Int) :=
  tap_capacity_step M s v st hs hsr hrd0 hrd1 hd hst hchg

theorem updateFeedback_statics (M : FloatMath) (s : ReverbProcessor) :
    (updateFeedback M s).statics = s.statics := by
  unfold updateFeedback
  split_ifs <;> rfl

theorem updatePreDelay_statics (s : ReverbProcessor) :
    (updatePreDelay s).statics = s.statics := by
  simp only [updatePreDelay, msToSamples]
  split_ifs <;> rfl

theorem updateOthers_statics (M : FloatMath) (s : ReverbProcessor) :
    (updateOthers M s).statics = s.statics := by
  unfold updateOthers
  show (updatePreDelay _).statics = _
  rw [updatePreDelay_statics]
  show (updateFeedback M s).statics = _
  exact updateFeedback_statics M s

/-- When `prepare` takes the cheap path, the statics afterwards are the ones it found, or
on the first pass the current parameters. -/
theorem prepare_cheapPath_statics (M : FloatMath) (s : ReverbProcessor) (sr : ℚ)
    (h : cheapPath (currentStatics (prepareFilters s sr)) (prepareFilters s sr) = true) :
    (prepare M s sr).statics = some (currentStatics (prepareFilters s sr)) := by
  have hu : updateAllParameters M (prepareFilters s sr) =
      updateOthers M { prepareFilters s sr with
        statics := some (currentStatics (prepareFilters s sr)) } := by
    unfold updateAllParameters
    rw [if_neg (not_le.mpr (prepareFilters_sampleRate_pos s sr)), if_pos h]
  unfold prepare
  rw [hu]
  show (updateOthers M _).statics = _
  rw [updateOthers_statics]

/-- The default processor prepared at 44100 Hz: sample rate, parameters, statics, number of
taps, and no filter sized. -/
theorem prepare_init_facts (M : FloatMath) :
    (prepare M init 44100).sampleRate = 44100 ∧
      parameters (prepare M init 44100) = parameters init ∧
      (prepare M init 44100).statics =
        some { lastRoomSize := 0.75, lastRefDelay := 1, lastSubDelay := 1 } ∧
      (prepare M init 44100).earlyTaps.length = 6 ∧
      (prepare M init 44100).allpassesL.length = 4 ∧
      Unsized (prepare M init 44100) := by
  refine ⟨?_, prepare_parameters M init 44100 init_decayTime_ge, ?_,
    (prepare_counts M init 44100).2.2.2.2, (prepare_counts M init 44100).2.2.1,
    prepare_cheapPath_unsized M init 44100 (prepareFilters_init_cheapPath 44100)⟩
  · rw [prepare_sampleRate, jlimit_44100]
  · rw [prepare_cheapPath_statics M init 44100 (prepareFilters_init_cheapPath 44100)]
    simp only [currentStatics, prepareFilters, initSmoothers, init]
    norm_num

end ReverbProcessor

end Reverb

namespace Reverb

namespace ReverbProcessor

/-! ## Concrete runs: early-reflection and allpass capacities -/

theorem unsized_tap_capacity (s : ReverbProcessor) (h : Unsized s) (j : Nat) (hj : j < 6) :
    (s.earlyTaps[j]?).map (fun tap => (tap.1.buffer.length : Int)) = some 0 := by
  have h5 := h.2.2.2.2
  have e := congrArg (fun l : List (Nat × Nat) => (l[j]?).map (fun p => (p.1 : Int))) h5
  simp only [List.getElem?_map, Option.map_map] at e
  rw [show (fun tap : DelayLine × DelayLine => (tap.1.buffer.length : Int)) =
    (fun p : Nat × Nat => (p.1 : Int)) ∘ fun t => (t.1.buffer.length, t.2.buffer.length) from rfl,
    e, List.getElem?_replicate]
  simp [hj]

theorem unsized_allpass_capacity (s : ReverbProcessor) (h : Unsized s) (j : Nat) (hj : j < 4) :
    (s.allpassesL[j]?).map (fun a => a.buffer.length) = some 0 ∧
      (s.allpassesR[j]?).map (fun a => a.buffer.length) = some 0 := by
  have h3 := h.2.2.1
  have h4 := h.2.2.2.1
  constructor
  · rw [← List.getElem?_map, h3, List.getElem?_replicate]
    simp [hj]
  · rw [← List.getElem?_map, h4, List.getElem?_replicate]
    simp [hj]

theorem earlyTap_zero : earlyTapDelaysMs.getD 0 0 = 8.3 := rfl

/-- One full-path `setRoomSize` call at 44100 Hz and reflection delay 1, followed at the
first tap's left line: the facts needed for the next call, the new capacity from the old
capacity `k`, and the delay derived from the new parameters. -/
theorem tap0_chain (M : FloatMath) (s : ReverbProcessor) (v : ℚ) (st : UpdateStatics) (k : Int)
    (hsr : s.sampleRate = 44100) (hrd : s.reflectionDelay = 1) (hd : 0.01 ≤ s.decayTime)
    (hst : s.statics = some st) (hchg : |jlimit 0.01 2 v - st.lastRoomSize| > 0.001)
    (hlen : s.earlyTaps.length = 6)
    (hk : (s.earlyTaps[0]?).map (fun tap => (tap.1.buffer.length : Int)) = some k) :
    ((setRoomSize M s v).sampleRate = 44100 ∧ (setRoomSize M s v).reflectionDelay = 1 ∧
      0.01 ≤ (setRoomSize M s v).decayTime ∧
      (setRoomSize M s v).statics =
        some { lastRoomSize := jlimit 0.01 2 v, lastRefDelay := 1,
               lastSubDelay := s.subsequentReverbDelay } ∧
      (setRoomSize M s v).earlyTaps.length = 6) ∧
    ((setRoomSize M s v).earlyTaps[0]?).map (fun tap => (tap.1.buffer.length : Int)) =
      some (if k < samplesAt 44100 (8.3 * jlimit 0.01 2 v * 1) then
        2 * samplesAt 44100 (8.3 * jlimit 0.01 2 v * 1) else k) ∧
    derivedTapDelayL (setRoomSize M s v) 0 = samplesAt 44100 (8.3 * jlimit 0.01 2 v * 1) := by
  have hs : 0 < s.sampleRate := by rw [hsr]; norm_num
  obtain ⟨e1, e2, e3, e4, _⟩ := setRoomSize_step M s v st hs hd hst hchg
  obtain ⟨p5, p8⟩ := parameters_room_reflection (setRoomSize M s v)
  obtain ⟨p0, _⟩ := parameters_getD (setRoomSize M s v)
  rw [e2] at p5 p8 p0
  have q5 : (setRoomSize M s v).roomSize = jlimit 0.01 2 v := by
    rw [p5]; simp [parameters]
  have q8 : (setRoomSize M s v).reflectionDelay = 1 := by
    rw [p8]; simp [parameters, hrd]
  have q0 : (setRoomSize M s v).decayTime = s.decayTime := by
    rw [p0]; simp [parameters]
  have ht : 0 < (setRoomSize M s v).sampleRate := by rw [e1]; exact hs
  have hD : derivedTapDelayL (setRoomSize M s v) 0 =
      samplesAt 44100 (8.3 * jlimit 0.01 2 v * 1) := by
    rw [derivedTapDelayL_eq _ _ ht, e1, hsr, q5, q8, earlyTap_zero]
  obtain ⟨old, new, ho, hn, hc, _⟩ := tap_capacity_step M s v st hs (by rw [hsr]; norm_num)
    (by rw [hrd]; norm_num) (by rw [hrd]; norm_num) hd hst hchg 0 (by omega) (by omega)
  refine ⟨⟨by rw [e1, hsr], q8, by rw [q0]; exact hd, by rw [e3, hrd], by rw [e4, hlen]⟩, ?_, hD⟩
  rw [ho] at hk
  simp only [Option.map_some', Option.some.injEq] at hk
  rw [hn, Option.map_some', hc, hD, hk]

theorem samplesAt_tap0_half : samplesAt 44100 (8.3 * jlimit 0.01 2 0.5 * 1) = 183 := by
  norm_num [samplesAt, truncToInt, jlimit]

theorem samplesAt_tap0_one : samplesAt 44100 (8.3 * jlimit 0.01 2 1 * 1) = 366 := by
  norm_num [samplesAt, truncToInt, jlimit]

theorem samplesAt_tap0_two : samplesAt 44100 (8.3 * jlimit 0.01 2 2 * 1) = 732 := by
  norm_num [samplesAt, truncToInt, jlimit]

/-- The premises of the tap chain on the default processor prepared at 44100 Hz. -/
theorem prepare_init_chain (M : FloatMath) :
    (prepare M init 44100).sampleRate = 44100 ∧ (prepare M init 44100).reflectionDelay = 1 ∧
      0.01 ≤ (prepare M init 44100).decayTime ∧
      (prepare M init 44100).statics =
        some { lastRoomSize := 0.75, lastRefDelay := 1, lastSubDelay := 1 } ∧
      (prepare M init 44100).earlyTaps.length = 6 ∧
      ((prepare M init 44100).earlyTaps[0]?).map (fun tap => (tap.1.buffer.length : Int)) =
        some 0 := by
  obtain ⟨f1, f2, f3, f4, _, f6⟩ := prepare_init_facts M
  obtain ⟨_, p8⟩ := parameters_room_reflection (prepare M init 44100)
  rw [f2] at p8
  refine ⟨f1, ?_, prepare_decayTime_ge M init 44100 init_decayTime_ge, f3, f4,
    unsized_tap_capacity _ f6 0 (by norm_num)⟩
  rw [p8]
  norm_num [parameters, init]

end ReverbProcessor

end Reverb

namespace Reverb

namespace ReverbProcessor

theorem abs_one_sub_default : |jlimit 0.01 2 (1 : ℚ) - 0.75| > 0.001 := by
  have : jlimit 0.01 2 (1 : ℚ) = 1 := by norm_num [jlimit]
  rw [this]
  norm_num [abs_of_pos]

theorem abs_half_sub_default : |jlimit 0.01 2 (0.5 : ℚ) - 0.75| > 0.001 := by
  have : jlimit 0.01 2 (0.5 : ℚ) = 0.5 := by norm_num [jlimit]
  rw [this]
  norm_num [abs_of_neg]

theorem abs_two_sub_default : |jlimit 0.01 2 (2 : ℚ) - 0.75| > 0.001 := by
  have : jlimit 0.01 2 (2 : ℚ) = 2 := by norm_num [jlimit]
  rw [this]
  norm_num [abs_of_pos]

theorem abs_one_sub_half : |jlimit 0.01 2 (1 : ℚ) - jlimit 0.01 2 0.5| > 0.001 := by
  have h1 : jlimit 0.01 2 (1 : ℚ) = 1 := by norm_num [jlimit]
  have h2 : jlimit 0.01 2 (0.5 : ℚ) = 0.5 := by norm_num [jlimit]
  rw [h1, h2]
  norm_num [abs_of_pos]

theorem abs_one_sub_two : |jlimit 0.01 2 (1 : ℚ) - jlimit 0.01 2 2| > 0.001 := by
  have h1 : jlimit 0.01 2 (1 : ℚ) = 1 := by norm_num [jlimit]
  have h2 : jlimit 0.01 2 (2 : ℚ) = 2 := by norm_num [jlimit]
  rw [h1, h2]
  norm_num [abs_of_neg]

/-- Witness of C18: the default processor prepared at 44100 Hz (statics at room size 0.75)
and `setRoomSize (1)`, at the first tap. -/
theorem C18_tap_capacity_witness :
    ∃ old new : DelayLine × DelayLine,
      (prepare sampleMath init 44100).earlyTaps[0]? = some old ∧
      (setRoomSize sampleMath (prepare sampleMath init 44100) 1).earlyTaps[0]? = some new ∧
      ((new.1.buffer.length : Int) =
        if (old.1.buffer.length : Int) <
            derivedTapDelayL (setRoomSize sampleMath (prepare sampleMath init 44100) 1) 0 then
          2 * derivedTapDelayL (setRoomSize sampleMath (prepare sampleMath init 44100) 1) 0
        else (old.1.buffer.length : Int)) ∧
      ((new.2.buffer.length : Int) =
        if (old.2.buffer.length : Int) <
            derivedTapDelayR (setRoomSize sampleMath (prepare sampleMath init 44100) 1) 0 then
          2 * derivedTapDelayR (setRoomSize sampleMath (prepare sampleMath init 44100) 1) 0
        else (old.2.buffer.length : Int)) ∧
      derivedTapDelayL (setRoomSize sampleMath (prepare sampleMath init 44100) 1) 0 ≤
        (new.1.buffer.length : Int) ∧
      derivedTapDelayR (setRoomSize sampleMath (prepare sampleMath init 44100) 1) 0 ≤
        (new.2.buffer.length : Int) := by
  obtain ⟨c1, c2, c3, c4, c5, _⟩ := prepare_init_chain sampleMath
  exact C18_tap_capacity_after_full_update sampleMath (prepare sampleMath init 44100) 1
    { lastRoomSize := 0.75, lastRefDelay := 1, lastSubDelay := 1 }
    (by rw [c1]; norm_num) (by rw [c1]; norm_num) (by rw [c2]; norm_num) (by rw [c2]; norm_num)
    c3 c4 abs_one_sub_default 0 (by rw [c5]; norm_num) (by norm_num)

/-- The first tap's left line after `setRoomSize (0.5)` and `setRoomSize (1)` on the
default processor prepared at 44100 Hz: capacity 366 (twice the 183 samples of room size
0.5, kept at room size 1), derived delay 366. -/
theorem grownRoom_tap0 (M : FloatMath) :
    ((setRoomSize M (setRoomSize M (prepare M init 44100) 0.5) 1).earlyTaps[0]?).map
        (fun tap => (tap.1.buffer.length : Int)) = some 366 ∧
      derivedTapDelayL (setRoomSize M (setRoomSize M (prepare M init 44100) 0.5) 1) 0 = 366 := by
  obtain ⟨c1, c2, c3, c4, c5, c6⟩ := prepare_init_chain M
  obtain ⟨⟨d1, d2, d3, d4, d5⟩, d6, _⟩ := tap0_chain M (prepare M init 44100) 0.5 _ 0 c1 c2 c3
    c4 abs_half_sub_default c5 c6
  rw [samplesAt_tap0_half] at d6
  obtain ⟨_, e6, e7⟩ := tap0_chain M (setRoomSize M (prepare M init 44100) 0.5) 1 _ _ d1 d2 d3
    d4 abs_one_sub_half d5 d6
  rw [samplesAt_tap0_one] at e6 e7
  exact ⟨by rw [e6]; decide, e7⟩

/-- Counterexample to C18 as stated: on the default processor prepared at 44100 Hz,
after `setRoomSize (0.5)` and `setRoomSize (1)` the first tap's left line has a non-empty
buffer of capacity 366 while the delay derived for it is 366 samples: the capacity is not
2 times the delay. -/
theorem C18_counterexample_capacity_equals_delay :
    ¬ ∃ M : FloatMath, ∀ tap : DelayLine × DelayLine,
      (setRoomSize M (setRoomSize M (prepare M init 44100) 0.5) 1).earlyTaps[0]? = some tap →
      tap.1.buffer ≠ [] →
      2 * derivedTapDelayL (setRoomSize M (setRoomSize M (prepare M init 44100) 0.5) 1) 0 ≤
        (tap.1.buffer.length : Int) := by
  rintro ⟨M, h⟩
  obtain ⟨hc, hd⟩ := grownRoom_tap0 M
  cases ht : (setRoomSize M (setRoomSize M (prepare M init 44100) 0.5) 1).earlyTaps[0]? with
  | none => rw [ht] at hc; simp at hc
  | some tap =>
    rw [ht] at hc
    simp only [Option.map_some', Option.some.injEq] at hc
    have hne : tap.1.buffer ≠ [] := by
      intro hnil; rw [hnil] at hc; simp at hc
    have := h tap ht hne
    rw [hd, hc] at this
    omega

/-! ## The right allpass whose derived length is zero -/

/-- The capacities of allpass `j` after a `setRoomSize` call on the full path. -/
theorem setRoomSize_allpass_capacities (M : FloatMath) (s : ReverbProcessor) (v : ℚ)
    (st : UpdateStatics) (hs : 0 < s.sampleRate) (hst : s.statics = some st)
    (hchg : |jlimit 0.01 2 v - st.lastRoomSize| > 0.001) :
    ∀ j, j < min s.allpassesL.length baseAllpassDelaysMs.length →
      ((setRoomSize M s v).allpassesL[j]?).map (fun a => a.buffer.length) =
          (s.allpassesL[j]?).map (fun a =>
            (allpassPassL s.sampleRate (jlimit 0.01 2 v) j a).buffer.length) ∧
        ((setRoomSize M s v).allpassesR[j]?).map (fun a => a.buffer.length) =
          (s.allpassesR[j]?).map (fun a =>
            (allpassPassR s.sampleRate (jlimit 0.01 2 v) j a).buffer.length) := by
  intro j hj
  have := fullUpdate_allpass_capacities M { s with roomSize := jlimit 0.01 2 v } hs
    (setRoomSize_full_cond s v st hst hchg) j hj
  simp only [jlimit_idem 0.01 2 v (by norm_num)] at this
  exact this

theorem jlimit_room_min : jlimit 0.01 2 (0.01 : ℚ) = 0.01 := by norm_num [jlimit]

theorem abs_min_sub_default : |jlimit 0.01 2 (0.01 : ℚ) - 0.75| > 0.001 := by
  rw [jlimit_room_min]
  norm_num [abs_of_neg]

theorem allpassPassL_one_empty (a : AllpassFilter) (h : a.buffer.length = 0) :
    (allpassPassL 44100 (jlimit 0.01 2 0.01) 1 a).buffer.length = 1 := by
  have hn : samplesAt 44100 (baseAllpassDelaysMs.getD 1 0 * jlimit 0.01 2 0.01) = 0 := by
    norm_num [samplesAt, truncToInt, jlimit, baseAllpassDelaysMs]
  have h1 : toSizeT 1 = 1 := by decide
  simp only [allpassPassL, hn, h, h1]
  norm_num [AllpassFilter.setSize, AllpassFilter.clear, vectorResize_length]
  rw [h1]
  simp

theorem allpassPassR_one_empty (a : AllpassFilter) (h : a.buffer.length = 0) :
    (allpassPassR 44100 (jlimit 0.01 2 0.01) 1 a).buffer.length = 0 := by
  have hn : samplesAt 44100 (baseAllpassDelaysMs.getD 1 0 * jlimit 0.01 2 0.01 * 1.02) = 0 := by
    norm_num [samplesAt, truncToInt, jlimit, baseAllpassDelaysMs]
  have h0 : toSizeT 0 = 0 := by decide
  simp only [allpassPassR, hn, h, h0, ne_eq, not_true_eq_false, if_false]

/-- C12: on the default processor prepared at 44100 Hz (no allpass sized, statics at room
size 0.75), `setRoomSize (0.01)` takes the full update; left allpass 1 gets capacity
`max (1, msToSamples (1.7 * 0.01)) = 1`, but right allpass 1, whose derived length
`msToSamples (1.7 * 0.01 * 1.02)` is 0, is not resized and keeps capacity 0, where the
stated value is `max (1, 0) = 1`; the right delay is shorter than the left one. -/
theorem C12_right_allpass_left_unsized (M : FloatMath) :
    ((setRoomSize M (prepare M init 44100) 0.01).allpassesL[1]?).map
        (fun a => a.buffer.length) = some 1 ∧
      ((setRoomSize M (prepare M init 44100) 0.01).allpassesR[1]?).map
        (fun a => a.buffer.length) = some 0 ∧
      max 1 (msToSamples (setRoomSize M (prepare M init 44100) 0.01)
        (baseAllpassDelaysMs.getD 1 0 * (setRoomSize M (prepare M init 44100) 0.01).roomSize *
          1.02)).2 = 1 := by
  obtain ⟨f1, f2, f3, f4, f5, f6⟩ := prepare_init_facts M
  have hs : 0 < (prepare M init 44100).sampleRate := by rw [f1]; norm_num
  have hj : 1 < min (prepare M init 44100).allpassesL.length baseAllpassDelaysMs.length := by
    rw [f5]; decide
  obtain ⟨hL, hR⟩ := setRoomSize_allpass_capacities M (prepare M init 44100) 0.01 _ hs f3
    abs_min_sub_default 1 hj
  obtain ⟨uL, uR⟩ := unsized_allpass_capacity _ f6 1 (by norm_num)
  rw [f1] at hL hR
  obtain ⟨e1, e2, _⟩ := setRoomSize_step M (prepare M init 44100) 0.01 _ hs
    (prepare_decayTime_ge M init 44100 init_decayTime_ge) f3 abs_min_sub_default
  obtain ⟨p5, _⟩ := parameters_room_reflection (setRoomSize M (prepare M init 44100) 0.01)
  rw [e2] at p5
  have q5 : (setRoomSize M (prepare M init 44100) 0.01).roomSize = 0.01 := by
    rw [p5]; simp [parameters, jlimit_room_min]
  refine ⟨?_, ?_, ?_⟩
  · rw [hL]
    cases ha : (prepare M init 44100).allpassesL[1]? with
    | none => rw [ha] at uL; simp at uL
    | some a =>
      rw [ha] at uL
      simp only [Option.map_some', Option.some.injEq] at uL
      rw [Option.map_some', allpassPassL_one_empty a uL]
  · rw [hR]
    cases ha : (prepare M init 44100).allpassesR[1]? with
    | none => rw [ha] at uR; simp at uR
    | some a =>
      rw [ha] at uR
      simp only [Option.map_some', Option.some.injEq] at uR
      rw [Option.map_some', allpassPassR_one_empty a uR]
  · rw [msToSamples_of_pos _ _ (by rw [e1]; exact hs), e1, f1, q5]
    norm_num [truncToInt, baseAllpassDelaysMs]

end ReverbProcessor

end Reverb

namespace Reverb

namespace ReverbProcessor

/-! ## The coefficients that the update functions write -/

theorem map_eq_range_map {α β : Type} (l : List α) (f : α → β) (g : Nat → β)
    (h : ∀ i x, l[i]? = some x → f x = g i) : l.map f = (List.range l.length).map g := by
  apply List.ext_getElem?
  intro i
  rw [List.getElem?_map, List.getElem?_map]
  by_cases hi : i < l.length
  · rw [List.getElem?_range hi, List.getElem?_eq_getElem hi]
    simp only [Option.map_some', Option.some.injEq]
    exact h i _ (List.getElem?_eq_getElem hi)
  · rw [List.getElem?_eq_none (by omega), List.getElem?_eq_none (by simp; omega)]
    rfl

theorem map_eq_replicate {α β : Type} (l : List α) (f : α → β) (b : β)
    (h : ∀ x ∈ l, f x = b) : l.map f = List.replicate l.length b := by
  induction l with
  | nil => rfl
  | cons x xs ih =>
    rw [List.map_cons, h x (List.mem_cons_self _ _),
      ih (fun y hy => h y (List.mem_cons_of_mem _ hy))]
    rfl

theorem modifyAt_map_invariant {α β : Type} (f : α → α) (g : α → β) (h : ∀ x, g (f x) = g x) :
    ∀ (n : Nat) (l : List α), (modifyAt f n l).map g = l.map g
  | n, [] => by cases n <;> rfl
  | 0, x :: xs => by simp [modifyAt, h]
  | n + 1, x :: xs => by
    simp only [modifyAt, List.map_cons, modifyAt_map_invariant f g h n xs]

theorem setCombFeedbacks_damp (b : ℚ) (ls : List CombFilter) :
    ∀ (k : Nat) (rs : List CombFilter),
      (setCombFeedbacks b k ls rs).1.map CombFilter.damp = ls.map CombFilter.damp ∧
        (setCombFeedbacks b k ls rs).2.map CombFilter.damp = rs.map CombFilter.damp := by
  induction ls with
  | nil => intro k rs; exact ⟨rfl, rfl⟩
  | cons l rest ih =>
    intro k rs
    cases rs with
    | nil =>
      refine ⟨?_, ?_⟩ <;>
        simp only [setCombFeedbacks, List.map_cons, (ih (k + 1) []).1, (ih (k + 1) []).2,
          CombFilter.setFeedback, List.map_nil]
    | cons r rs =>
      refine ⟨?_, ?_⟩ <;>
        simp only [setCombFeedbacks, List.map_cons, (ih (k + 1) rs).1, (ih (k + 1) rs).2,
          CombFilter.setFeedback]

/-- The feedback gains that the loop of `updateFeedback` leaves in two banks of equal
length. -/
theorem setCombFeedbacks_feedback (b : ℚ) (ls rs : List CombFilter)
    (hlen : rs.length = ls.length) :
    (setCombFeedbacks b 0 ls rs).1.map CombFilter.feedback =
        (List.range ls.length).map
          (fun i => jlimit 0 0.9999 (b * (1 + 0.015 * ((i % 4 : Nat) : ℚ)))) ∧
      (setCombFeedbacks b 0 ls rs).2.map CombFilter.feedback =
        (List.range ls.length).map
          (fun i => jlimit 0 0.9999 (b * (1 / (1 + 0.015 * ((i % 4 : Nat) : ℚ))))) := by
  obtain ⟨l1, l2⟩ := setCombFeedbacks_length b ls 0 rs
  constructor
  · rw [← l1]
    apply map_eq_range_map
    intro i x hx
    rw [setCombFeedbacks_left, Nat.zero_add] at hx
    cases hc : ls[i]? with
    | none => rw [hc] at hx; simp at hx
    | some c =>
      rw [hc] at hx
      simp only [Option.map_some', Option.some.injEq] at hx
      rw [← hx]
      rfl
  · rw [← hlen, ← l2]
    apply map_eq_range_map
    intro i x hx
    have hi : i < ls.length := by
      have := (List.getElem?_eq_some_iff.mp hx).1
      rw [l2, hlen] at this
      exact this
    rw [setCombFeedbacks_right b ls 0 rs i hi, Nat.zero_add] at hx
    cases hc : rs[i]? with
    | none => rw [hc] at hx; simp at hx
    | some c =>
      rw [hc] at hx
      simp only [Option.map_some', Option.some.injEq] at hx
      rw [← hx]
      rfl

theorem setAllpassCoeffs_left (e t : ℚ) (ls : List AllpassFilter) :
    ∀ (k : Nat) (rs : List AllpassFilter) (i : Nat),
      (setAllpassCoeffs e t k ls rs).1[i]? =
        (ls[i]?).map (fun a => a.setCoeff (if k + i < 2 then e else t)) := by
  induction ls with
  | nil => intro k rs i; simp [setAllpassCoeffs]
  | cons l rest ih =>
    intro k rs i
    cases rs with
    | nil =>
      cases i with
      | zero => simp [setAllpassCoeffs]
      | succ j =>
        simp only [setAllpassCoeffs, List.getElem?_cons_succ, ih]
        rw [show k + 1 + j = k + (j + 1) by omega]
    | cons r rs =>
      cases i with
      | zero => simp [setAllpassCoeffs]
      | succ j =>
        simp only [setAllpassCoeffs, List.getElem?_cons_succ, ih]
        rw [show k + 1 + j = k + (j + 1) by omega]

theorem setAllpassCoeffs_right (e t : ℚ) (ls : List AllpassFilter) :
    ∀ (k : Nat) (rs : List AllpassFilter) (i : Nat), i < ls.length →
      (setAllpassCoeffs e t k ls rs).2[i]? =
        (rs[i]?).map (fun a => a.setCoeff (if k + i < 2 then e else t)) := by
  induction ls with
  | nil => intro k rs i hi; simp at hi
  | cons l rest ih =>
    intro k rs i hi
    cases rs with
    | nil =>
      have := (setAllpassCoeffs_length e t (l :: rest) k []).2
      rw [List.getElem?_eq_none (by rw [this]; simp)]
      rfl
    | cons r rs =>
      cases i with
      | zero => simp [setAllpassCoeffs]
      | succ j =>
        simp only [setAllpassCoeffs, List.getElem?_cons_succ]
        rw [ih (k + 1) rs j (by simpa using hi), show k + 1 + j = k + (j + 1) by omega]

/-- The coefficients that the loop of `updateDiffusion` leaves in two banks of equal
length. -/
theorem setAllpassCoeffs_coeff (e t : ℚ) (ls rs : List AllpassFilter)
    (hlen : rs.length = ls.length) :
    (setAllpassCoeffs e t 0 ls rs).1.map AllpassFilter.coeff =
        (List.range ls.length).map (fun i => jlimit 0 0.9999 (if i < 2 then e else t)) ∧
      (setAllpassCoeffs e t 0 ls rs).2.map AllpassFilter.coeff =
        (List.range ls.length).map (fun i => jlimit 0 0.9999 (if i < 2 then e else t)) := by
  obtain ⟨l1, l2⟩ := setAllpassCoeffs_length e t ls 0 rs
  constructor
  · rw [← l1]
    apply map_eq_range_map
    intro i x hx
    rw [setAllpassCoeffs_left, Nat.zero_add] at hx
    cases hc : ls[i]? with
    | none => rw [hc] at hx; simp at hx
    | some c =>
      rw [hc] at hx
      simp only [Option.map_some', Option.some.injEq] at hx
      rw [← hx]
      rfl
  · rw [← hlen, ← l2]
    apply map_eq_range_map
    intro i x hx
    have hi : i < ls.length := by
      have := (List.getElem?_eq_some_iff.mp hx).1
      rw [l2, hlen] at this
      exact this
    rw [setAllpassCoeffs_right e t ls 0 rs i hi, Nat.zero_add] at hx
    cases hc : rs[i]? with
    | none => rw [hc] at hx; simp at hx
    | some c =>
      rw [hc] at hx
      simp only [Option.map_some', Option.some.injEq] at hx
      rw [← hx]
      rfl

end ReverbProcessor

end Reverb

namespace Reverb

namespace ReverbProcessor

/-! ## The coefficients after each update function -/

theorem updateFeedback_eq (M : FloatMath) (s : ReverbProcessor)
    (hL : s.combsL.length = 8) (hR : s.combsR.length = 8) (hsr : 0 < s.sampleRate)
    (hd : 0.01 ≤ s.decayTime) :
    updateFeedback M s =
      { s with
        combsL := (setCombFeedbacks
          (jlimit 0 0.998
            (M.pow 10 (-3 * (29.7 * s.roomSize * s.subsequentReverbDelay / 1000) / s.decayTime) *
              s.normalizedReflectivity)) 0 s.combsL s.combsR).1
        combsR := (setCombFeedbacks
          (jlimit 0 0.998
            (M.pow 10 (-3 * (29.7 * s.roomSize * s.subsequentReverbDelay / 1000) / s.decayTime) *
              s.normalizedReflectivity)) 0 s.combsL s.combsR).2 } := by
  have hLne : s.combsL ≠ [] := by intro h; rw [h] at hL; simp at hL
  have hRne : s.combsR ≠ [] := by intro h; rw [h] at hR; simp at hR
  have hd0 : 0 < s.decayTime := lt_of_lt_of_le (by norm_num) hd
  have hguard : ¬ (s.combsL = [] ∨ s.combsR = [] ∨ s.decayTime ≤ 0 ∨ s.sampleRate ≤ 0) := by
    simp [hLne, hRne, hd0, hsr]
  unfold updateFeedback
  rw [if_neg hguard]
  simp only [not_lt.mpr hd, if_false, baseCombDelaysMs, List.getD_cons_zero]

/-- After `updateFeedback` the feedback gains are the ones derived from the parameters; the
other coefficients are untouched. -/
theorem updateFeedback_coefficients (M : FloatMath) (s : ReverbProcessor)
    (hL : s.combsL.length = 8) (hR : s.combsR.length = 8) (hsr : 0 < s.sampleRate)
    (hd : 0.01 ≤ s.decayTime) :
    coefficients (updateFeedback M s) =
      { coefficients s with
        feedbackL := (derivedCoefficients M (parameters s)).feedbackL
        feedbackR := (derivedCoefficients M (parameters s)).feedbackR } := by
  rw [updateFeedback_eq M s hL hR hsr hd]
  obtain ⟨f1, f2⟩ := setCombFeedbacks_feedback
    (jlimit 0 0.998
      (M.pow 10 (-3 * (29.7 * s.roomSize * s.subsequentReverbDelay / 1000) / s.decayTime) *
        s.normalizedReflectivity)) s.combsL s.combsR (by rw [hL, hR])
  obtain ⟨d1, d2⟩ := setCombFeedbacks_damp
    (jlimit 0 0.998
      (M.pow 10 (-3 * (29.7 * s.roomSize * s.subsequentReverbDelay / 1000) / s.decayTime) *
        s.normalizedReflectivity)) s.combsL 0 s.combsR
  rw [hL] at f1 f2
  apply Coefficients.ext
  · exact f1
  · exact f2
  · exact d1
  · exact d2
  · rfl
  · rfl
  · rfl

/-- After `updateDamping` the damping coefficients are the ones derived from the
parameters; the other coefficients are untouched. -/
theorem updateDamping_coefficients (M : FloatMath) (s : ReverbProcessor)
    (hL : s.combsL.length = 8) (hR : s.combsR.length = 8) :
    coefficients (updateDamping s) =
      { coefficients s with
        dampL := (derivedCoefficients M (parameters s)).dampL
        dampR := (derivedCoefficients M (parameters s)).dampR } := by
  apply Coefficients.ext
  · simp only [coefficients, updateDamping, List.map_map]
    rfl
  · simp only [coefficients, updateDamping, List.map_map]
    rfl
  · simp only [coefficients, updateDamping, List.map_map]
    rw [map_eq_replicate s.combsL (CombFilter.damp ∘ fun c => c.setDamp (s.damping * 0.9))
      (jlimit 0 0.9999 (s.damping * 0.9)) (fun _ _ => rfl), hL]
    rfl
  · simp only [coefficients, updateDamping, List.map_map]
    rw [map_eq_replicate s.combsR (CombFilter.damp ∘ fun c => c.setDamp (s.damping * 0.9))
      (jlimit 0 0.9999 (s.damping * 0.9)) (fun _ _ => rfl), hR]
    rfl
  · rfl
  · rfl
  · rfl

/-- After `updateDiffusion` the allpass coefficients are the ones derived from the
parameters; the other coefficients are untouched. -/
theorem updateDiffusion_coefficients (M : FloatMath) (s : ReverbProcessor)
    (hL : s.allpassesL.length = 4) (hR : s.allpassesR.length = 4) :
    coefficients (updateDiffusion s) =
      { coefficients s with
        coeffL := (derivedCoefficients M (parameters s)).coeffL
        coeffR := (derivedCoefficients M (parameters s)).coeffR } := by
  obtain ⟨c1, c2⟩ := setAllpassCoeffs_coeff (jlimit 0.01 0.999 (s.diffusion * 0.6))
    (jlimit 0.01 0.999 (s.reverbDiffusion * 0.6)) s.allpassesL s.allpassesR (by rw [hL, hR])
  rw [hL] at c1 c2
  apply Coefficients.ext
  · rfl
  · rfl
  · rfl
  · rfl
  · exact c1
  · exact c2
  · rfl

theorem updateTieLevel_coefficients (M : FloatMath) (s : ReverbProcessor) :
    coefficients (updateTieLevel s) =
      { coefficients s with tieLevelGain := (derivedCoefficients M (parameters s)).tieLevelGain } :=
  rfl

theorem updatePreDelay_coefficients (s : ReverbProcessor) :
    coefficients (updatePreDelay s) = coefficients s := by
  simp only [updatePreDelay, msToSamples]
  split_ifs <;> rfl

/-- After the five coefficient updates every coefficient is the one derived from the
parameters. -/
theorem updateOthers_coefficients (M : FloatMath) (s : ReverbProcessor)
    (hL : s.combsL.length = 8) (hR : s.combsR.length = 8) (hAL : s.allpassesL.length = 4)
    (hAR : s.allpassesR.length = 4) (hsr : 0 < s.sampleRate) (hd : 0.01 ≤ s.decayTime) :
    coefficients (updateOthers M s) = derivedCoefficients M (parameters s) := by
  have f1 := updateFeedback_frame M s
  have f2 := (updateDamping_frame (updateFeedback M s)).trans f1
  have p1 := updateFeedback_parameters M s hd
  have h1 := updateFeedback_coefficients M s hL hR hsr hd
  have h2 := updateDamping_coefficients M (updateFeedback M s)
    ((congrArg UpdateFrame.nCombsL f1).trans hL) ((congrArg UpdateFrame.nCombsR f1).trans hR)
  have h3 := updateDiffusion_coefficients M (updateDamping (updateFeedback M s))
    ((congrArg UpdateFrame.nAllpassesL f2).trans hAL)
    ((congrArg UpdateFrame.nAllpassesR f2).trans hAR)
  have h4 := updatePreDelay_coefficients (updateDiffusion (updateDamping (updateFeedback M s)))
  have h5 := updateTieLevel_coefficients M
    (updatePreDelay (updateDiffusion (updateDamping (updateFeedback M s))))
  rw [updatePreDelay_parameters, updateDiffusion_parameters, updateDamping_parameters, p1] at h5
  rw [updateDamping_parameters, p1] at h3
  rw [p1] at h2
  unfold updateOthers
  rw [h5, h4, h3, h2, h1]

end ReverbProcessor

end Reverb

namespace Reverb

namespace ReverbProcessor

/-! ## Which parameters each derived coefficient reads -/

theorem getD_set_ne (l : List ℚ) (i j : Nat) (v : ℚ) (h : i ≠ j) :
    (l.set i v).getD j 0 = l.getD j 0 := by
  rw [List.getD_eq_getElem?_getD, List.getD_eq_getElem?_getD, List.getElem?_set_ne h]

/-- A write to a parameter that no coefficient reads leaves the derived coefficients as
they are. -/
theorem derived_set_none (M : FloatMath) (p : List ℚ) (k : Nat) (v : ℚ) (h0 : k ≠ 0)
    (h2 : k ≠ 2) (h3 : k ≠ 3) (h4 : k ≠ 4) (h5 : k ≠ 5) (h9 : k ≠ 9) (h12 : k ≠ 12)
    (h13 : k ≠ 13) : derivedCoefficients M (p.set k v) = derivedCoefficients M p := by
  simp only [derivedCoefficients, getD_set_ne _ _ _ _ h0, getD_set_ne _ _ _ _ h2,
    getD_set_ne _ _ _ _ h3, getD_set_ne _ _ _ _ h4, getD_set_ne _ _ _ _ h5,
    getD_set_ne _ _ _ _ h9, getD_set_ne _ _ _ _ h12, getD_set_ne _ _ _ _ h13]

/-- A write to a parameter that only the feedback reads: re-deriving the feedback gives
all derived coefficients. -/
theorem derived_set_feedback (M : FloatMath) (p : List ℚ) (k : Nat) (v : ℚ) (h2 : k ≠ 2)
    (h3 : k ≠ 3) (h4 : k ≠ 4) (h13 : k ≠ 13) :
    { derivedCoefficients M p with
      feedbackL := (derivedCoefficients M (p.set k v)).feedbackL
      feedbackR := (derivedCoefficients M (p.set k v)).feedbackR } =
      derivedCoefficients M (p.set k v) := by
  apply Coefficients.ext <;>
    simp only [derivedCoefficients, getD_set_ne _ _ _ _ h2, getD_set_ne _ _ _ _ h3,
      getD_set_ne _ _ _ _ h4, getD_set_ne _ _ _ _ h13]

theorem derived_set_damp (M : FloatMath) (p : List ℚ) (k : Nat) (v : ℚ) (h0 : k ≠ 0)
    (h3 : k ≠ 3) (h4 : k ≠ 4) (h5 : k ≠ 5) (h9 : k ≠ 9) (h12 : k ≠ 12) (h13 : k ≠ 13) :
    { derivedCoefficients M p with
      dampL := (derivedCoefficients M (p.set k v)).dampL
      dampR := (derivedCoefficients M (p.set k v)).dampR } =
      derivedCoefficients M (p.set k v) := by
  apply Coefficients.ext <;>
    simp only [derivedCoefficients, getD_set_ne _ _ _ _ h0, getD_set_ne _ _ _ _ h3,
      getD_set_ne _ _ _ _ h4, getD_set_ne _ _ _ _ h5, getD_set_ne _ _ _ _ h9,
      getD_set_ne _ _ _ _ h12, getD_set_ne _ _ _ _ h13]

theorem derived_set_coeff (M : FloatMath) (p : List ℚ) (k : Nat) (v : ℚ) (h0 : k ≠ 0)
    (h2 : k ≠ 2) (h5 : k ≠ 5) (h9 : k ≠ 9) (h12 : k ≠ 12) (h13 : k ≠ 13) :
    { derivedCoefficients M p with
      coeffL := (derivedCoefficients M (p.set k v)).coeffL
      coeffR := (derivedCoefficients M (p.set k v)).coeffR } =
      derivedCoefficients M (p.set k v) := by
  apply Coefficients.ext <;>
    simp only [derivedCoefficients, getD_set_ne _ _ _ _ h0, getD_set_ne _ _ _ _ h2,
      getD_set_ne _ _ _ _ h5, getD_set_ne _ _ _ _ h9, getD_set_ne _ _ _ _ h12,
      getD_set_ne _ _ _ _ h13]

theorem derived_set_tie (M : FloatMath) (p : List ℚ) (k : Nat) (v : ℚ) (h0 : k ≠ 0)
    (h2 : k ≠ 2) (h3 : k ≠ 3) (h4 : k ≠ 4) (h5 : k ≠ 5) (h9 : k ≠ 9) (h12 : k ≠ 12) :
    { derivedCoefficients M p with
      tieLevelGain := (derivedCoefficients M (p.set k v)).tieLevelGain } =
      derivedCoefficients M (p.set k v) := by
  apply Coefficients.ext <;>
    simp only [derivedCoefficients, getD_set_ne _ _ _ _ h0, getD_set_ne _ _ _ _ h2,
      getD_set_ne _ _ _ _ h3, getD_set_ne _ _ _ _ h4, getD_set_ne _ _ _ _ h5,
      getD_set_ne _ _ _ _ h9, getD_set_ne _ _ _ _ h12]

/-! ## Loops and calls that leave the coefficients alone -/

theorem combFilter_setSize_coefficients (c : CombFilter) (n : Int) :
    (c.setSize n).feedback = c.feedback ∧ (c.setSize n).damp = c.damp := ⟨rfl, rfl⟩

theorem subsequentDelayStep_coefficients (i : Nat) (t : ReverbProcessor) :
    coefficients (subsequentDelayStep i t) = coefficients t := by
  have hf : ∀ (n : Int) (x : CombFilter),
      (if x.buffer.length ≠ toSizeT n then x.setSize n else x).feedback = x.feedback := by
    intro n x; split_ifs <;> rfl
  have hd : ∀ (n : Int) (x : CombFilter),
      (if x.buffer.length ≠ toSizeT n then x.setSize n else x).damp = x.damp := by
    intro n x; split_ifs <;> rfl
  simp only [subsequentDelayStep, msToSamples]
  split_ifs <;>
    (apply Coefficients.ext
     · exact modifyAt_map_invariant _ CombFilter.feedback (hf _) _ _
     · exact modifyAt_map_invariant _ CombFilter.feedback (hf _) _ _
     · exact modifyAt_map_invariant _ CombFilter.damp (hd _) _ _
     · exact modifyAt_map_invariant _ CombFilter.damp (hd _) _ _
     · rfl
     · rfl
     · rfl)

theorem reflectionDelayStep_coefficients (i : Nat) (t : ReverbProcessor) :
    coefficients (reflectionDelayStep i t) = coefficients t := by
  simp only [reflectionDelayStep, msToSamples]
  split_ifs <;> rfl

theorem forLoop_coefficients (n : Nat) (body : Nat → ReverbProcessor → ReverbProcessor)
    (s : ReverbProcessor) (h : ∀ i t, coefficients (body i t) = coefficients t) :
    coefficients (forLoop n body s) = coefficients s :=
  forLoop_preserves (fun t : ReverbProcessor => coefficients t = coefficients s) n body s rfl
    (fun i t ht => (h i t).trans ht)

theorem clear_coefficients (s : ReverbProcessor) : coefficients (clear s) = coefficients s := by
  simp only [coefficients, clear, List.map_map]
  rfl

theorem subsequentDelayStep_frame (i : Nat) (s : ReverbProcessor) (h : 0 < s.sampleRate) :
    updateFrame (subsequentDelayStep i s) = updateFrame s := by
  simp only [subsequentDelayStep, msToSamples_of_pos _ _ h, updateFrame, modifyAt_length]

theorem reflectionDelayStep_frame (i : Nat) (s : ReverbProcessor) (h : 0 < s.sampleRate) :
    updateFrame (reflectionDelayStep i s) = updateFrame s := by
  simp only [reflectionDelayStep, msToSamples_of_pos _ _ h, updateFrame, modifyAt_length]

end ReverbProcessor

end Reverb

namespace Reverb

namespace ReverbProcessor

/-! ## The coefficients after `updateAllParameters`, `prepare` and every setter -/

theorem counts_of_frame (s t : ReverbProcessor) (h : updateFrame t = updateFrame s) :
    t.combsL.length = s.combsL.length ∧ t.combsR.length = s.combsR.length ∧
      t.allpassesL.length = s.allpassesL.length ∧ t.allpassesR.length = s.allpassesR.length ∧
      t.sampleRate = s.sampleRate :=
  ⟨congrArg UpdateFrame.nCombsL h, congrArg UpdateFrame.nCombsR h,
    congrArg UpdateFrame.nAllpassesL h, congrArg UpdateFrame.nAllpassesR h,
    congrArg UpdateFrame.sampleRate h⟩

theorem counts_of_preDelayFrame (s t : ReverbProcessor)
    (h : updateFrame t = preDelayUpdate (updateFrame s)) :
    t.combsL.length = s.combsL.length ∧ t.combsR.length = s.combsR.length ∧
      t.allpassesL.length = s.allpassesL.length ∧ t.allpassesR.length = s.allpassesR.length ∧
      t.sampleRate = s.sampleRate :=
  ⟨congrArg UpdateFrame.nCombsL h, congrArg UpdateFrame.nCombsR h,
    congrArg UpdateFrame.nAllpassesL h, congrArg UpdateFrame.nAllpassesR h,
    congrArg UpdateFrame.sampleRate h⟩

theorem updateAllParameters_coefficients (M : FloatMath) (s : ReverbProcessor)
    (hL : s.combsL.length = 8) (hR : s.combsR.length = 8) (hAL : s.allpassesL.length = 4)
    (hAR : s.allpassesR.length = 4) (hsr : 0 < s.sampleRate) (hd : 0.01 ≤ s.decayTime) :
    coefficients (updateAllParameters M s) = derivedCoefficients M (parameters s) := by
  unfold updateAllParameters
  rw [if_neg (not_le.mpr hsr)]
  split_ifs
  · exact updateOthers_coefficients M { s with statics := some (currentStatics s) }
      hL hR hAL hAR hsr hd
  · have hf := resizeFilters_frame { s with statics := some (currentStatics s) } hsr
    have hp := resizeFilters_parameters { s with statics := some (currentStatics s) }
    obtain ⟨k1, k2, k3, k4, k5⟩ := counts_of_frame _ _ hf
    have h := updateOthers_coefficients M
      (resizeFilters { s with statics := some (currentStatics s) })
      (k1.trans hL) (k2.trans hR) (k3.trans hAL) (k4.trans hAR) (by rw [k5]; exact hsr)
      (by rw [decayTime_of_parameters _ _ hp]; exact hd)
    rw [hp] at h
    exact h

/-- After `prepare` on a processor with decay time at least 0.01 the coefficients are the
ones derived from the parameters. -/
theorem prepare_coefficientsDerived (M : FloatMath) (s : ReverbProcessor) (sr : ℚ)
    (h : 0.01 ≤ s.decayTime) : CoefficientsDerived M (prepare M s sr) := by
  obtain ⟨c1, c2, c3, c4, _⟩ := prepare_counts M s sr
  refine ⟨c1, c2, c3, c4, prepare_sampleRate_pos M s sr, prepare_decayTime_ge M s sr h, ?_⟩
  rw [prepare_parameters M s sr h]
  show coefficients (clear (updateAllParameters M (prepareFilters s sr))) = _
  rw [clear_coefficients]
  exact updateAllParameters_coefficients M (prepareFilters s sr) (by simp [prepareFilters])
    (by simp [prepareFilters]) (by simp [prepareFilters]) (by simp [prepareFilters])
    (prepareFilters_sampleRate_pos s sr) h

theorem updateReflectionDelays_frame (s : ReverbProcessor) (hs : 0 < s.sampleRate) :
    updateFrame (updateReflectionDelays s) = updateFrame s :=
  forLoop_frame _ _ s hs (fun i t ht => reflectionDelayStep_frame i t ht)

theorem updateSubsequentDelays_frame (M : FloatMath) (s : ReverbProcessor)
    (hs : 0 < s.sampleRate) : updateFrame (updateSubsequentDelays M s) = updateFrame s := by
  unfold updateSubsequentDelays
  rw [updateFeedback_frame]
  exact forLoop_frame _ _ s hs (fun i t ht => subsequentDelayStep_frame i t ht)

/-- No setter changes the number of combs or allpasses or the sample rate of a processor
with a positive sample rate. -/
theorem applySetter_counts (M : FloatMath) (s : ReverbProcessor) (c : SetterCall)
    (hs : 0 < s.sampleRate) :
    (applySetter M s c).combsL.length = s.combsL.length ∧
      (applySetter M s c).combsR.length = s.combsR.length ∧
      (applySetter M s c).allpassesL.length = s.allpassesL.length ∧
      (applySetter M s c).allpassesR.length = s.allpassesR.length ∧
      (applySetter M s c).sampleRate = s.sampleRate := by
  cases c with
  | decayTime v => exact counts_of_frame s _ (setDecayTime_frame M s v)
  | preDelay v =>
    exact counts_of_preDelayFrame { s with preDelayMs := jlimit 0 500 v } _
      (updatePreDelay_frame { s with preDelayMs := jlimit 0 500 v } hs)
  | damping v =>
    exact counts_of_frame s _ (by
      show updateFrame (setDamping s v) = _
      unfold setDamping
      rw [updateDamping_frame]
      rfl)
  | diffusion v =>
    exact counts_of_frame s _ (by
      show updateFrame (setDiffusion s v) = _
      unfold setDiffusion
      rw [updateDiffusion_frame]
      rfl)
  | reverbDiffusion v =>
    exact counts_of_frame s _ (by
      show updateFrame (setReverbDiffusion s v) = _
      unfold setReverbDiffusion
      rw [updateDiffusion_frame]
      rfl)
  | roomSize v =>
    exact counts_of_preDelayFrame { s with roomSize := jlimit 0.01 2 v } _
      (updateAllParameters_frame M { s with roomSize := jlimit 0.01 2 v } hs)
  | roomVolume v => exact ⟨rfl, rfl, rfl, rfl, rfl⟩
  | earlyReflectionLevel v => exact ⟨rfl, rfl, rfl, rfl, rfl⟩
  | reflectionDelay v =>
    exact counts_of_frame { s with reflectionDelay := jlimit 0.1 4 v } _
      (updateReflectionDelays_frame { s with reflectionDelay := jlimit 0.1 4 v } hs)
  | subsequentReverbDelay v =>
    exact counts_of_frame { s with subsequentReverbDelay := jlimit 0.1 4 v } _
      (updateSubsequentDelays_frame M { s with subsequentReverbDelay := jlimit 0.1 4 v } hs)
  | subsequentLevel v => exact ⟨rfl, rfl, rfl, rfl, rfl⟩
  | envelopment v => exact ⟨rfl, rfl, rfl, rfl, rfl⟩
  | normalizedReflectivity v =>
    exact counts_of_frame s _ (setNormalizedReflectivity_frame M s v)
  | tieLevel v => exact ⟨rfl, rfl, rfl, rfl, rfl⟩
  | position v => exact ⟨rfl, rfl, rfl, rfl, rfl⟩
  | dryWet v => exact ⟨rfl, rfl, rfl, rfl, rfl⟩

end ReverbProcessor

end Reverb

namespace Reverb

namespace ReverbProcessor

/-! ## Every setter keeps the coefficients derived from the parameters -/

theorem setDecayTime_coefficients (M : FloatMath) (s : ReverbProcessor) (v : ℚ)
    (h : CoefficientsDerived M s) :
    coefficients (setDecayTime M s v) =
      derivedCoefficients M (parameters (setDecayTime M s v)) := by
  obtain ⟨hL, hR, _, _, hsr, _, hc⟩ := h
  rw [setDecayTime_parameters]
  have hu := updateFeedback_coefficients M
    { s with decayTime := jlimit 0.01 60 v
             decaySmoother := s.decaySmoother.setTargetValue (jlimit 0.01 60 v) }
    hL hR hsr (jlimit_decay_ge v)
  have hc' : coefficients
      { s with decayTime := jlimit 0.01 60 v
               decaySmoother := s.decaySmoother.setTargetValue (jlimit 0.01 60 v) } =
      derivedCoefficients M (parameters s) := hc
  rw [hc'] at hu
  exact hu.trans (derived_set_feedback M (parameters s) 0 _ (by decide) (by decide) (by decide)
    (by decide))

theorem setNormalizedReflectivity_coefficients (M : FloatMath) (s : ReverbProcessor) (v : ℚ)
    (h : CoefficientsDerived M s) :
    coefficients (setNormalizedReflectivity M s v) =
      derivedCoefficients M (parameters (setNormalizedReflectivity M s v)) := by
  obtain ⟨hL, hR, _, _, hsr, hd, hc⟩ := h
  rw [setNormalizedReflectivity_parameters M s v hd]
  have hu := updateFeedback_coefficients M { s with normalizedReflectivity := jlimit 0 1 v }
    hL hR hsr hd
  have hc' : coefficients { s with normalizedReflectivity := jlimit 0 1 v } =
      derivedCoefficients M (parameters s) := hc
  rw [hc'] at hu
  exact hu.trans (derived_set_feedback M (parameters s) 12 _ (by decide) (by decide) (by decide)
    (by decide))

theorem setDamping_coefficients (M : FloatMath) (s : ReverbProcessor) (v : ℚ)
    (h : CoefficientsDerived M s) :
    coefficients (setDamping s v) = derivedCoefficients M (parameters (setDamping s v)) := by
  obtain ⟨hL, hR, _, _, _, _, hc⟩ := h
  have hu := updateDamping_coefficients M
    { s with damping := jlimit 0 0.999 v
             dampingSmoother := s.dampingSmoother.setTargetValue (jlimit 0 0.999 v) } hL hR
  have hc' : coefficients
      { s with damping := jlimit 0 0.999 v
               dampingSmoother := s.dampingSmoother.setTargetValue (jlimit 0 0.999 v) } =
      derivedCoefficients M (parameters s) := hc
  rw [hc'] at hu
  exact hu.trans (derived_set_damp M (parameters s) 2 _ (by decide) (by decide) (by decide)
    (by decide) (by decide) (by decide) (by decide))

theorem setDiffusion_coefficients (M : FloatMath) (s : ReverbProcessor) (v : ℚ)
    (h : CoefficientsDerived M s) :
    coefficients (setDiffusion s v) = derivedCoefficients M (parameters (setDiffusion s v)) := by
  obtain ⟨_, _, hAL, hAR, _, _, hc⟩ := h
  have hu := updateDiffusion_coefficients M { s with diffusion := jlimit 0 1 v } hAL hAR
  have hc' : coefficients { s with diffusion := jlimit 0 1 v } =
      derivedCoefficients M (parameters s) := hc
  rw [hc'] at hu
  exact hu.trans (derived_set_coeff M (parameters s) 3 _ (by decide) (by decide) (by decide)
    (by decide) (by decide) (by decide))

theorem setReverbDiffusion_coefficients (M : FloatMath) (s : ReverbProcessor) (v : ℚ)
    (h : CoefficientsDerived M s) :
    coefficients (setReverbDiffusion s v) =
      derivedCoefficients M (parameters (setReverbDiffusion s v)) := by
  obtain ⟨_, _, hAL, hAR, _, _, hc⟩ := h
  have hu := updateDiffusion_coefficients M { s with reverbDiffusion := jlimit 0 1 v } hAL hAR
  have hc' : coefficients { s with reverbDiffusion := jlimit 0 1 v } =
      derivedCoefficients M (parameters s) := hc
  rw [hc'] at hu
  exact hu.trans (derived_set_coeff M (parameters s) 4 _ (by decide) (by decide) (by decide)
    (by decide) (by decide) (by decide))

theorem setTieLevel_coefficients (M : FloatMath) (s : ReverbProcessor) (v : ℚ)
    (h : CoefficientsDerived M s) :
    coefficients (setTieLevel s v) = derivedCoefficients M (parameters (setTieLevel s v)) := by
  obtain ⟨_, _, _, _, _, _, hc⟩ := h
  have hu := updateTieLevel_coefficients M { s with tieLevel := jlimit 0 1 v }
  have hc' : coefficients { s with tieLevel := jlimit 0 1 v } =
      derivedCoefficients M (parameters s) := hc
  rw [hc'] at hu
  exact hu.trans (derived_set_tie M (parameters s) 13 _ (by decide) (by decide) (by decide)
    (by decide) (by decide) (by decide) (by decide))

theorem setRoomSize_coefficients (M : FloatMath) (s : ReverbProcessor) (v : ℚ)
    (h : CoefficientsDerived M s) :
    coefficients (setRoomSize M s v) = derivedCoefficients M (parameters (setRoomSize M s v)) := by
  obtain ⟨hL, hR, hAL, hAR, hsr, hd, _⟩ := h
  rw [setRoomSize_parameters M s v hd]
  exact updateAllParameters_coefficients M { s with roomSize := jlimit 0.01 2 v }
    hL hR hAL hAR hsr hd

theorem setSubsequentReverbDelay_coefficients (M : FloatMath) (s : ReverbProcessor) (v : ℚ)
    (h : CoefficientsDerived M s) :
    coefficients (setSubsequentReverbDelay M s v) =
      derivedCoefficients M (parameters (setSubsequentReverbDelay M s v)) := by
  obtain ⟨hL, hR, _, _, hsr, hd, hc⟩ := h
  rw [setSubsequentReverbDelay_parameters M s v hd]
  have hf := forLoop_frame
    (min s.combsL.length baseCombDelaysMs.length) subsequentDelayStep
    { s with subsequentReverbDelay := jlimit 0.1 4 v } hsr
    (fun i t ht => subsequentDelayStep_frame i t ht)
  have hp := forLoop_parameters
    (min s.combsL.length baseCombDelaysMs.length) subsequentDelayStep
    { s with subsequentReverbDelay := jlimit 0.1 4 v } subsequentDelayStep_parameters
  have hk := forLoop_coefficients
    (min s.combsL.length baseCombDelaysMs.length) subsequentDelayStep
    { s with subsequentReverbDelay := jlimit 0.1 4 v } subsequentDelayStep_coefficients
  obtain ⟨k1, k2, _, _, k5⟩ := counts_of_frame _ _ hf
  have hu := updateFeedback_coefficients M
    (forLoop (min s.combsL.length baseCombDelaysMs.length) subsequentDelayStep
      { s with subsequentReverbDelay := jlimit 0.1 4 v })
    (k1.trans hL) (k2.trans hR) (by rw [k5]; exact hsr)
    (by rw [decayTime_of_parameters _ _ hp]; exact hd)
  have hc' : coefficients { s with subsequentReverbDelay := jlimit 0.1 4 v } =
      derivedCoefficients M (parameters s) := hc
  rw [hk, hc', hp] at hu
  exact hu.trans (derived_set_feedback M (parameters s) 9 _ (by decide) (by decide) (by decide)
    (by decide))

theorem setPreDelay_coefficients (M : FloatMath) (s : ReverbProcessor) (v : ℚ)
    (h : CoefficientsDerived M s) :
    coefficients (setPreDelay s v) = derivedCoefficients M (parameters (setPreDelay s v)) := by
  rw [setPreDelay_parameters, derived_set_none M _ 1 _ (by decide) (by decide) (by decide)
    (by decide) (by decide) (by decide) (by decide) (by decide)]
  unfold setPreDelay
  rw [updatePreDelay_coefficients]
  exact h.2.2.2.2.2.2

theorem setReflectionDelay_coefficients (M : FloatMath) (s : ReverbProcessor) (v : ℚ)
    (h : CoefficientsDerived M s) :
    coefficients (setReflectionDelay s v) =
      derivedCoefficients M (parameters (setReflectionDelay s v)) := by
  rw [setReflectionDelay_parameters, derived_set_none M _ 8 _ (by decide) (by decide)
    (by decide) (by decide) (by decide) (by decide) (by decide) (by decide)]
  unfold setReflectionDelay updateReflectionDelays
  rw [forLoop_coefficients _ _ _ reflectionDelayStep_coefficients]
  exact h.2.2.2.2.2.2

end ReverbProcessor

end Reverb

namespace Reverb

namespace ReverbProcessor

/-! ## Sequences of setter calls -/

theorem applySetters_nil (M : FloatMath) (s : ReverbProcessor) : applySetters M s [] = s := rfl

theorem applySetters_cons (M : FloatMath) (s : ReverbProcessor) (c : SetterCall)
    (cs : List SetterCall) :
    applySetters M s (c :: cs) = applySetters M (applySetter M s c) cs := rfl

theorem applySetter_roomSize (M : FloatMath) (s : ReverbProcessor) (v : ℚ) :
    applySetter M s (SetterCall.roomSize v) = setRoomSize M s v := rfl

theorem applySetter_coefficients (M : FloatMath) (s : ReverbProcessor) (c : SetterCall)
    (h : CoefficientsDerived M s) :
    coefficients (applySetter M s c) =
      derivedCoefficients M (parameters (applySetter M s c)) := by
  have hc := h.2.2.2.2.2.2
  cases c with
  | decayTime v => exact setDecayTime_coefficients M s v h
  | preDelay v => exact setPreDelay_coefficients M s v h
  | damping v => exact setDamping_coefficients M s v h
  | diffusion v => exact setDiffusion_coefficients M s v h
  | reverbDiffusion v => exact setReverbDiffusion_coefficients M s v h
  | roomSize v => exact setRoomSize_coefficients M s v h
  | roomVolume v =>
    show coefficients s = derivedCoefficients M ((parameters s).set 6 (jlimit 0 5 v))
    rw [derived_set_none M _ 6 _ (by decide) (by decide) (by decide) (by decide) (by decide)
      (by decide) (by decide) (by decide)]
    exact hc
  | earlyReflectionLevel v =>
    show coefficients s = derivedCoefficients M ((parameters s).set 7 (jlimit 0 1 v))
    rw [derived_set_none M _ 7 _ (by decide) (by decide) (by decide) (by decide) (by decide)
      (by decide) (by decide) (by decide)]
    exact hc
  | reflectionDelay v => exact setReflectionDelay_coefficients M s v h
  | subsequentReverbDelay v => exact setSubsequentReverbDelay_coefficients M s v h
  | subsequentLevel v =>
    show coefficients s = derivedCoefficients M ((parameters s).set 10 (jlimit 0 1 v))
    rw [derived_set_none M _ 10 _ (by decide) (by decide) (by decide) (by decide) (by decide)
      (by decide) (by decide) (by decide)]
    exact hc
  | envelopment v =>
    show coefficients s = derivedCoefficients M ((parameters s).set 11 (jlimit 0 1 v))
    rw [derived_set_none M _ 11 _ (by decide) (by decide) (by decide) (by decide) (by decide)
      (by decide) (by decide) (by decide)]
    exact hc
  | normalizedReflectivity v => exact setNormalizedReflectivity_coefficients M s v h
  | tieLevel v => exact setTieLevel_coefficients M s v h
  | position v =>
    show coefficients s = derivedCoefficients M ((parameters s).set 14 (jlimit 0 1 v))
    rw [derived_set_none M _ 14 _ (by decide) (by decide) (by decide) (by decide) (by decide)
      (by decide) (by decide) (by decide)]
    exact hc
  | dryWet v =>
    show coefficients s = derivedCoefficients M ((parameters s).set 15 (jlimit 0 1 v))
    rw [derived_set_none M _ 15 _ (by decide) (by decide) (by decide) (by decide) (by decide)
      (by decide) (by decide) (by decide)]
    exact hc

/-- Every setter keeps a prepared processor prepared, with the coefficients derived from
its parameters. -/
theorem applySetter_coefficientsDerived (M : FloatMath) (s : ReverbProcessor) (c : SetterCall)
    (h : CoefficientsDerived M s) : CoefficientsDerived M (applySetter M s c) := by
  have hc := applySetter_coefficients M s c h
  obtain ⟨hL, hR, hAL, hAR, hsr, hd, _⟩ := h
  obtain ⟨k1, k2, k3, k4, k5⟩ := applySetter_counts M s c hsr
  exact ⟨k1.trans hL, k2.trans hR, k3.trans hAL, k4.trans hAR, by rw [k5]; exact hsr,
    applySetter_decayTime_ge M s c hd, hc⟩

theorem applySetters_coefficientsDerived (M : FloatMath) (calls : List SetterCall) :
    ∀ s : ReverbProcessor, CoefficientsDerived M s →
      CoefficientsDerived M (applySetters M s calls) := by
  induction calls with
  | nil => intro s h; exact h
  | cons c cs ih =>
    intro s h
    rw [applySetters_cons]
    exact ih _ (applySetter_coefficientsDerived M s c h)

/-- After `prepare` and any sequence of setter calls the coefficients are the function
`derivedCoefficients` of the current parameter values. -/
theorem prepared_run_coefficients (M : FloatMath) (s : ReverbProcessor) (sr : ℚ)
    (calls : List SetterCall) (h : 0.01 ≤ s.decayTime) :
    coefficients (applySetters M (prepare M s sr) calls) =
      derivedCoefficients M (parameters (applySetters M (prepare M s sr) calls)) :=
  (applySetters_coefficientsDerived M calls _ (prepare_coefficientsDerived M s sr h)).2.2.2.2.2.2

/-- C19 (amended): the coefficient part of the derived state (comb feedback and damping,
allpass coefficients, tie-level gain) is a function of the current parameter values alone:
after `prepare` (on a processor whose decay time is at least 0.01) and any sequence of
setter calls the coefficients equal `derivedCoefficients` of the stored parameters, so two
such runs that end with the same stored value for every parameter have equal
coefficients. Buffer capacities and configured delays are not covered. -/
theorem C19_coefficients_function_of_parameters (M : FloatMath) (s1 s2 : ReverbProcessor)
    (sr : ℚ) (calls1 calls2 : List SetterCall) (h1 : 0.01 ≤ s1.decayTime)
    (h2 : 0.01 ≤ s2.decayTime) :
    coefficients (applySetters M (prepare M s1 sr) calls1) =
        derivedCoefficients M (parameters (applySetters M (prepare M s1 sr) calls1)) ∧
      (parameters (applySetters M (prepare M s1 sr) calls1) =
          parameters (applySetters M (prepare M s2 sr) calls2) →
        coefficients (applySetters M (prepare M s1 sr) calls1) =
          coefficients (applySetters M (prepare M s2 sr) calls2)) := by
  refine ⟨prepared_run_coefficients M s1 sr calls1 h1, fun hp => ?_⟩
  rw [prepared_run_coefficients M s1 sr calls1 h1, prepared_run_coefficients M s2 sr calls2 h2,
    hp]

/-- Witness of C19: the default processor prepared at 44100 Hz, once with
`setRoomSize (1)` and once with `setRoomSize (2)` followed by `setRoomSize (1)`. -/
theorem C19_coefficients_witness :
    coefficients (applySetters sampleMath (prepare sampleMath init 44100)
          [SetterCall.roomSize 1]) =
        derivedCoefficients sampleMath
          (parameters (applySetters sampleMath (prepare sampleMath init 44100)
            [SetterCall.roomSize 1])) ∧
      (parameters (applySetters sampleMath (prepare sampleMath init 44100)
            [SetterCall.roomSize 1]) =
          parameters (applySetters sampleMath (prepare sampleMath init 44100)
            [SetterCall.roomSize 2, SetterCall.roomSize 1]) →
        coefficients (applySetters sampleMath (prepare sampleMath init 44100)
            [SetterCall.roomSize 1]) =
          coefficients (applySetters sampleMath (prepare sampleMath init 44100)
            [SetterCall.roomSize 2, SetterCall.roomSize 1])) :=
  C19_coefficients_function_of_parameters sampleMath init init 44100 [SetterCall.roomSize 1]
    [SetterCall.roomSize 2, SetterCall.roomSize 1] init_decayTime_ge init_decayTime_ge

theorem configuration_tap_capacity (a b : ReverbProcessor)
    (h : configuration a = configuration b) (j : Nat) :
    (a.earlyTaps[j]?).map (fun tap => (tap.1.buffer.length : Int)) =
      (b.earlyTaps[j]?).map (fun tap => (tap.1.buffer.length : Int)) := by
  have e := congrArg
    (fun c : Configuration => (c.earlyTaps[j]?).map (fun p => ((p.1.1 : Nat) : Int))) h
  simp only [configuration, List.getElem?_map, Option.map_map] at e
  exact e

/-- The two runs of the counterexample on the default processor prepared at 44100 Hz:
after `setRoomSize (1)` the first tap's left line has capacity 732; after
`setRoomSize (2)` and `setRoomSize (1)` it has capacity 1464; the stored parameters are the
same. -/
theorem twoRuns_facts (M : FloatMath) :
    ((setRoomSize M (prepare M init 44100) 1).earlyTaps[0]?).map
        (fun tap => (tap.1.buffer.length : Int)) = some 732 ∧
      ((setRoomSize M (setRoomSize M (prepare M init 44100) 2) 1).earlyTaps[0]?).map
        (fun tap => (tap.1.buffer.length : Int)) = some 1464 ∧
      parameters (setRoomSize M (prepare M init 44100) 1) =
        parameters (setRoomSize M (setRoomSize M (prepare M init 44100) 2) 1) := by
  obtain ⟨c1, c2, c3, c4, c5, c6⟩ := prepare_init_chain M
  obtain ⟨_, a6, _⟩ := tap0_chain M (prepare M init 44100) 1 _ 0 c1 c2 c3 c4
    abs_one_sub_default c5 c6
  rw [samplesAt_tap0_one] at a6
  obtain ⟨⟨d1, d2, d3, d4, d5⟩, d6, _⟩ := tap0_chain M (prepare M init 44100) 2 _ 0 c1 c2 c3
    c4 abs_two_sub_default c5 c6
  rw [samplesAt_tap0_two] at d6
  obtain ⟨_, e6, _⟩ := tap0_chain M (setRoomSize M (prepare M init 44100) 2) 1 _ _ d1 d2 d3
    d4 abs_one_sub_two d5 d6
  rw [samplesAt_tap0_one] at e6
  refine ⟨by rw [a6]; decide, by rw [e6]; decide, ?_⟩
  rw [setRoomSize_parameters M _ 1 c3, setRoomSize_parameters M _ 1 d3,
    setRoomSize_parameters M _ 2 c3, List.set_set]

/-- Counterexample to C19 as stated: two runs on the default processor prepared at
44100 Hz, `setRoomSize (1)` and `setRoomSize (2)` followed by `setRoomSize (1)`, end with the
same stored parameters, but the first early-reflection tap has capacity 732 in the first
run and 1464 in the second (a tap line is only ever grown), so the derived state differs. -/
theorem C19_counterexample_tap_capacity_keeps_history :
    ¬ ∃ M : FloatMath,
      (parameters (applySetters M (prepare M init 44100) [SetterCall.roomSize 1]) =
          parameters (applySetters M (prepare M init 44100)
            [SetterCall.roomSize 2, SetterCall.roomSize 1]) →
        configuration (applySetters M (prepare M init 44100) [SetterCall.roomSize 1]) =
          configuration (applySetters M (prepare M init 44100)
            [SetterCall.roomSize 2, SetterCall.roomSize 1])) := by
  rintro ⟨M, h⟩
  obtain ⟨ha, hb, hp⟩ := twoRuns_facts M
  rw [applySetters_cons, applySetters_cons, applySetters_cons, applySetters_nil,
    applySetters_nil, applySetter_roomSize, applySetter_roomSize, applySetter_roomSize] at h
  have hc := configuration_tap_capacity _ _ (h hp) 0
  rw [ha, hb] at hc
  exact absurd hc (by decide)

end ReverbProcessor

end Reverb

namespace Reverb

/-! ## C22: filters without a buffer -/

/-- C22: a comb, enhanced comb, allpass or delay line whose buffer is empty returns its
input from `process` and is left exactly as it was (cursors, one-pole or damping state,
coefficients), for every input; `DelayLine.setDelay` on an empty buffer changes nothing. -/
theorem C22_empty_buffer_pass_through (c : CombFilter) (e : EnhancedCombFilter)
    (a : AllpassFilter) (d : DelayLine) (x spread : ℚ) (n : Int)
    (hc : c.buffer = []) (he : e.buffer = []) (ha : a.buffer = []) (hd : d.buffer = []) :
    c.process x = (c, x) ∧ e.process x spread = (e, x) ∧ a.process x = (a, x) ∧
      d.process x = (d, x) ∧ d.setDelay n = d := by
  refine ⟨?_, ?_, ?_, ?_, ?_⟩
  · unfold CombFilter.process; rw [if_pos hc]
  · unfold EnhancedCombFilter.process; rw [if_pos he]
  · unfold AllpassFilter.process; rw [if_pos ha]
  · unfold DelayLine.process; rw [if_pos hd]
  · unfold DelayLine.setDelay; rw [if_pos hd]

/-- Witness of C22: the four filters as constructed (never sized), with cursors and
coefficients at their initial values. -/
theorem C22_empty_buffer_witness :
    CombFilter.init.process 3 = (CombFilter.init, 3) ∧
      EnhancedCombFilter.init.process 3 (1 / 2) = (EnhancedCombFilter.init, 3) ∧
      AllpassFilter.init.process 3 = (AllpassFilter.init, 3) ∧
      DelayLine.init.process 3 = (DelayLine.init, 3) ∧
      DelayLine.init.setDelay 5 = DelayLine.init :=
  C22_empty_buffer_pass_through CombFilter.init EnhancedCombFilter.init AllpassFilter.init
    DelayLine.init 3 (1 / 2) 5 rfl rfl rfl rfl

/-! ## C21: bounds safety of `process` -/

/-- After the wrap test `if (writeIndex >= buffer.size()) writeIndex = 0` the cursor,
converted to `size_t`, is inside a buffer of capacity `N ≥ 1`. -/
theorem wrapped_cursor_lt (N : Nat) (w : Int) (hN : 0 < N) :
    toSizeT (if N ≤ toSizeT w then 0 else w) < N := by
  split_ifs with h
  · exact hN
  · exact not_le.mp h

theorem vectorAt_of_lt (v : List ℚ) (i : Nat) (h : i < v.length) :
    vectorAt v i = some (v.getD i 0) := by
  unfold vectorAt
  rw [List.getD_eq_getElem?_getD, List.getElem?_eq_getElem h]
  rfl

theorem vectorAssign_of_lt (v : List ℚ) (i : Nat) (x : ℚ) (h : i < v.length) :
    vectorAssign v i x = some (v.set i x) := by
  unfold vectorAssign
  rw [if_pos h]

theorem length_pos_of_ne_nil (v : List ℚ) (h : v ≠ []) : 0 < v.length :=
  List.length_pos.mpr h

/-- For a cursor in the range of `int` and a capacity in the range of `int`, the wrapped
cursor is non-negative, so its conversion to `size_t` is the cursor itself. -/
theorem wrapped_cursor_toNat (N : Nat) (w : Int) (hlo : -2147483648 ≤ w)
    (hhi : w ≤ 2147483647) (hN : N ≤ 2147483647) :
    (if N ≤ toSizeT w then 0 else w).toNat = toSizeT (if N ≤ toSizeT w then 0 else w) := by
  split_ifs with h
  · rfl
  · unfold toSizeT at h ⊢
    omega

/-- The checked call agrees with `CombFilter.process` on every cursor an `int` can hold. -/
theorem comb_processChecked_eq (c : CombFilter) (x : ℚ)
    (hlo : -2147483648 ≤ c.writeIndex) (hhi : c.writeIndex ≤ 2147483647)
    (hN : c.buffer.length ≤ 2147483647) :
    c.processChecked x = some (c.process x) := by
  unfold CombFilter.processChecked CombFilter.process
  by_cases h : c.buffer = []
  · rw [if_pos h, if_pos h]
  · have hlt := wrapped_cursor_lt c.buffer.length c.writeIndex (length_pos_of_ne_nil _ h)
    rw [if_neg h, if_neg h]
    simp only [vectorAt_of_lt _ _ hlt, vectorAssign_of_lt _ _ _ hlt, Option.some_bind,
      Option.map_some', wrapped_cursor_toNat _ _ hlo hhi hN]

theorem enhancedComb_processChecked_eq (c : EnhancedCombFilter) (x spread : ℚ)
    (hlo : -2147483648 ≤ c.writeIndex) (hhi : c.writeIndex ≤ 2147483647)
    (hN : c.buffer.length ≤ 2147483647) :
    c.processChecked x spread = some (c.process x spread) := by
  unfold EnhancedCombFilter.processChecked EnhancedCombFilter.process
  by_cases h : c.buffer = []
  · rw [if_pos h, if_pos h]
  · have hlt := wrapped_cursor_lt c.buffer.length c.writeIndex (length_pos_of_ne_nil _ h)
    rw [if_neg h, if_neg h]
    simp only [vectorAt_of_lt _ _ hlt, vectorAssign_of_lt _ _ _ hlt, Option.some_bind,
      Option.map_some', wrapped_cursor_toNat _ _ hlo hhi hN]

theorem allpass_processChecked_eq (a : AllpassFilter) (x : ℚ)
    (hlo : -2147483648 ≤ a.writeIndex) (hhi : a.writeIndex ≤ 2147483647)
    (hN : a.buffer.length ≤ 2147483647) :
    a.processChecked x = some (a.process x) := by
  unfold AllpassFilter.processChecked AllpassFilter.process
  by_cases h : a.buffer = []
  · rw [if_pos h, if_pos h]
  · have hlt := wrapped_cursor_lt a.buffer.length a.writeIndex (length_pos_of_ne_nil _ h)
    rw [if_neg h, if_neg h]
    simp only [vectorAt_of_lt _ _ hlt, vectorAssign_of_lt _ _ _ hlt, Option.some_bind,
      Option.map_some', wrapped_cursor_toNat _ _ hlo hhi hN]

theorem delayLine_processChecked_eq (d : DelayLine) (x : ℚ)
    (hw : -2147483648 ≤ d.writeIndex) (hw' : d.writeIndex ≤ 2147483647)
    (hr : -2147483648 ≤ d.readIndex) (hr' : d.readIndex ≤ 2147483647)
    (hN : d.buffer.length ≤ 2147483647) :
    d.processChecked x = some (d.process x) := by
  unfold DelayLine.processChecked DelayLine.process
  by_cases h : d.buffer = []
  · rw [if_pos h, if_pos h]
  · have h1 := wrapped_cursor_lt d.buffer.length d.writeIndex (length_pos_of_ne_nil _ h)
    have h2 := wrapped_cursor_lt d.buffer.length d.readIndex (length_pos_of_ne_nil _ h)
    rw [if_neg h, if_neg h]
    simp only [vectorAt_of_lt _ _ h2, vectorAssign_of_lt _ _ _ h1, Option.some_bind,
      Option.map_some', wrapped_cursor_toNat _ _ hw hw' hN, wrapped_cursor_toNat _ _ hr hr' hN]

end Reverb

namespace Reverb

/-! ## C29: a comb filter under silence -/

theorem foldr_max_init_le (l : List ℚ) (a : ℚ) : a ≤ l.foldr max a := by
  induction l with
  | nil => exact le_refl _
  | cons x rest ih => exact le_trans ih (le_max_right _ _)

theorem foldr_max_mem_le (l : List ℚ) (a y : ℚ) (h : y ∈ l) : y ≤ l.foldr max a := by
  induction l with
  | nil => exact absurd h (List.not_mem_nil _)
  | cons x rest ih =>
    rcases List.mem_cons.mp h with e | e
    · rw [e]; exact le_max_left _ _
    · exact le_trans (ih e) (le_max_right _ _)

theorem foldr_max_le (l : List ℚ) (a B : ℚ) (hl : ∀ y ∈ l, y ≤ B) (ha : a ≤ B) :
    l.foldr max a ≤ B := by
  induction l with
  | nil => exact ha
  | cons x rest ih =>
    exact max_le (hl x (List.mem_cons_self _ _))
      (ih (fun y hy => hl y (List.mem_cons_of_mem _ hy)))

theorem peak_state_le (c : CombFilter) : |c.lowpass.state| ≤ c.peak :=
  foldr_max_init_le _ _

theorem peak_nonneg (c : CombFilter) : 0 ≤ c.peak :=
  le_trans (abs_nonneg _) (peak_state_le c)

theorem peak_mem_le (c : CombFilter) (x : ℚ) (h : x ∈ c.buffer) : |x| ≤ c.peak :=
  foldr_max_mem_le _ _ _ (List.mem_map.mpr ⟨x, h, rfl⟩)

theorem peak_getD_le (c : CombFilter) (i : Nat) : |c.buffer.getD i 0| ≤ c.peak := by
  rw [List.getD_eq_getElem?_getD]
  by_cases h : i < c.buffer.length
  · rw [List.getElem?_eq_getElem h]
    exact peak_mem_le c _ (List.getElem_mem h)
  · rw [List.getElem?_eq_none (not_lt.mp h)]
    simpa using peak_nonneg c

theorem peak_le (c : CombFilter) (B : ℚ) (hb : ∀ x ∈ c.buffer, |x| ≤ B)
    (hs : |c.lowpass.state| ≤ B) : c.peak ≤ B := by
  refine foldr_max_le _ _ _ ?_ hs
  intro y hy
  obtain ⟨x, hx, e⟩ := List.mem_map.mp hy
  rw [← e]
  exact hb x hx

/-- A convex combination of two values bounded by `P` in magnitude is bounded by `P`. -/
theorem abs_mix_le (u v d P : ℚ) (hu : |u| ≤ P) (hv : |v| ≤ P) (h0 : 0 ≤ d) (h1 : d ≤ 1) :
    |u * (1 - d) + v * d| ≤ P := by
  have h2 : 0 ≤ 1 - d := by linarith
  calc |u * (1 - d) + v * d| ≤ |u * (1 - d)| + |v * d| := abs_add _ _
    _ = |u| * (1 - d) + |v| * d := by rw [abs_mul, abs_mul, abs_of_nonneg h2, abs_of_nonneg h0]
    _ ≤ P * (1 - d) + P * d :=
      add_le_add (mul_le_mul_of_nonneg_right hu h2) (mul_le_mul_of_nonneg_right hv h0)
    _ = P := by ring

theorem abs_scaled_le (u g P : ℚ) (hu : |u| ≤ P) (h0 : 0 ≤ g) (h1 : g ≤ 1) :
    |0 + u * g| ≤ P := by
  have hP : 0 ≤ P := le_trans (abs_nonneg _) hu
  rw [zero_add, abs_mul, abs_of_nonneg h0]
  calc |u| * g ≤ P * g := mul_le_mul_of_nonneg_right hu h0
    _ ≤ P * 1 := mul_le_mul_of_nonneg_left h1 hP
    _ = P := mul_one _

/-- One call `process (0)`: the output and the new peak are bounded by the old peak. -/
theorem comb_process_zero_peak (c : CombFilter) :
    |(c.process 0).2| ≤ c.peak ∧ (c.process 0).1.peak ≤ c.peak := by
  unfold CombFilter.process
  by_cases hb : c.buffer = []
  · rw [if_pos hb]
    exact ⟨by simpa using peak_nonneg c, le_refl _⟩
  · rw [if_neg hb]
    have hd0 : (0 : ℚ) ≤ jlimit 0 0.9999 c.damp := jlimit_ge _ _ _ (by norm_num)
    have hd1 : jlimit 0 0.9999 c.damp ≤ 1 :=
      le_trans (jlimit_le _ _ _ (by norm_num)) (by norm_num)
    have hg0 : (0 : ℚ) ≤ jlimit 0 0.9999 c.feedback := jlimit_ge _ _ _ (by norm_num)
    have hg1 : jlimit 0 0.9999 c.feedback ≤ 1 :=
      le_trans (jlimit_le _ _ _ (by norm_num)) (by norm_num)
    simp only [OnePole.process]
    refine ⟨peak_getD_le c _, ?_⟩
    have hst := abs_mix_le _ _ _ _ (peak_getD_le c
      (if c.buffer.length ≤ toSizeT c.writeIndex then 0 else c.writeIndex).toNat)
      (peak_state_le c) hd0 hd1
    apply peak_le
    · intro x hx
      rcases List.mem_or_eq_of_mem_set hx with h | h
      · exact peak_mem_le c x h
      · rw [h]
        exact abs_scaled_le _ _ _ hst hg0 hg1
    · exact hst

theorem comb_feed_zero_peak (n : Nat) :
    ∀ c : CombFilter, (∀ y ∈ (c.feed (List.replicate n 0)).2, |y| ≤ c.peak) ∧
      (c.feed (List.replicate n 0)).1.peak ≤ c.peak := by
  induction n with
  | zero =>
    intro c
    exact ⟨fun y hy => absurd hy (List.not_mem_nil _), le_refl _⟩
  | succ k ih =>
    intro c
    obtain ⟨h1, h2⟩ := comb_process_zero_peak c
    obtain ⟨i1, i2⟩ := ih (c.process 0).1
    simp only [List.replicate_succ, CombFilter.feed]
    refine ⟨?_, le_trans i2 h2⟩
    intro y hy
    rcases List.mem_cons.mp hy with e | e
    · rw [e]; exact h1
    · exact le_trans (i1 y e) h2

/-- C29: for every comb filter, whatever its capacity, feedback field, damping coefficient,
cursor and contents, one call `process (0)` does not increase the peak
`max (|buffer[j]|, |one-pole state|)`, and under zero input every output of every later
call is bounded in magnitude by the peak of the starting state. -/
theorem C29_comb_does_not_grow_under_silence (c : CombFilter) (n : Nat) :
    (c.process 0).1.peak ≤ c.peak ∧
      (∀ y ∈ (c.feed (List.replicate n 0)).2, |y| ≤ c.peak) ∧
      (c.feed (List.replicate n 0)).1.peak ≤ c.peak :=
  ⟨(comb_process_zero_peak c).2, (comb_feed_zero_peak n c).1, (comb_feed_zero_peak n c).2⟩

end Reverb

namespace Reverb
namespace ReverbProcessor

/-! ## C23: `clear` is idempotent -/

theorem comb_clear_clear (c : CombFilter) : c.clear.clear = c.clear := by
  simp [CombFilter.clear, OnePole.clear]

theorem allpass_clear_clear (a : AllpassFilter) : a.clear.clear = a.clear := by
  simp [AllpassFilter.clear]

theorem delayLine_clear_clear (d : DelayLine) : d.clear.clear = d.clear := by
  simp [DelayLine.clear]

theorem clear_clear (s : ReverbProcessor) : clear (clear s) = clear s := by
  simp only [clear, List.map_map, delayLine_clear_clear]
  congr 1
  · exact List.map_congr_left (fun c _ => comb_clear_clear c)
  · exact List.map_congr_left (fun c _ => comb_clear_clear c)
  · exact List.map_congr_left (fun a _ => allpass_clear_clear a)
  · exact List.map_congr_left (fun a _ => allpass_clear_clear a)
  · exact List.map_congr_left (fun tap _ => by
      simp only [Function.comp, delayLine_clear_clear])

theorem clear_silent (s : ReverbProcessor) : Silent (clear s) := by
  refine ⟨allZero_replicate _, allZero_replicate _, ?_, ?_, ?_, ?_, ?_⟩
  · intro tap h
    obtain ⟨t, _, e⟩ := List.mem_map.mp h
    rw [← e]
    exact ⟨allZero_replicate _, allZero_replicate _⟩
  · intro c h
    obtain ⟨t, _, e⟩ := List.mem_map.mp h
    rw [← e]
    exact ⟨allZero_replicate _, rfl⟩
  · intro c h
    obtain ⟨t, _, e⟩ := List.mem_map.mp h
    rw [← e]
    exact ⟨allZero_replicate _, rfl⟩
  · intro a h
    obtain ⟨t, _, e⟩ := List.mem_map.mp h
    rw [← e]
    exact allZero_replicate _
  · intro a h
    obtain ⟨t, _, e⟩ := List.mem_map.mp h
    rw [← e]
    exact allZero_replicate _

/-- One sample of silence on a silent processor: both outputs are zero whatever the mix,
and the processor stays silent. -/
theorem processSample_silent (M : FloatMath) (s : ReverbProcessor) (m : ℚ) (h : Silent s) :
    (processSample M s m 0 0).2 = (0, 0) ∧ Silent (processSample M s m 0 0).1 := by
  obtain ⟨hpl, hpr, ht, hcl, hcr, hal, har⟩ := h
  have pl := delaySilent_process s.preDelayL hpl
  have pr := delaySilent_process s.preDelayR hpr
  have w := wetStage_silent M s ht hcl hcr hal har
  constructor
  · simp only [processSample, zero_mul, pl.1, pr.1, w.1, w.2.1, add_zero]
    norm_num [jlimit]
  · simp only [processSample, zero_mul, pl.1, pr.1]
    exact ⟨pl.2, pr.2, w.2.2.1, w.2.2.2.1, w.2.2.2.2.1, w.2.2.2.2.2.1, w.2.2.2.2.2.2⟩

theorem getD_of_all_zero (l : List ℚ) (i : Nat) (h : ∀ x ∈ l, x = 0) : l.getD i 0 = 0 := by
  rw [List.getD_eq_getElem?_getD]
  by_cases hi : i < l.length
  · rw [List.getElem?_eq_getElem hi]
    exact h _ (List.getElem_mem hi)
  · rw [List.getElem?_eq_none (not_lt.mp hi)]
    rfl

theorem set_zero_of_all_zero (l : List ℚ) (i : Nat) (h : ∀ x ∈ l, x = 0) : l.set i 0 = l := by
  apply List.ext_getElem?
  intro j
  rw [List.getElem?_set]
  split_ifs with h1 h2
  · rw [← h1, List.getElem?_eq_getElem h2, h _ (List.getElem_mem h2)]
  · rw [← h1, List.getElem?_eq_none (not_lt.mp h2)]
  · rfl

/-- One pass of the sample loop over silent arrays on a silent processor. -/
theorem sampleStep_silent (M : FloatMath) (l r : List ℚ) (hl : ∀ x ∈ l, x = 0)
    (hr : ∀ x ∈ r, x = 0) (i : Nat) (st : LoopState)
    (h : Silent st.s ∧ st.left = l ∧ st.right = r) :
    Silent (sampleStep M i st).s ∧ (sampleStep M i st).left = l ∧
      (sampleStep M i st).right = r := by
  obtain ⟨hs, e1, e2⟩ := h
  unfold sampleStep
  simp only [e1, e2, getD_of_all_zero l i hl, getD_of_all_zero r i hr]
  generalize (if i = 0 then st.s.mixSmoother.getCurrentValue else st.currentMix) = m
  have p := processSample_silent M st.s m hs
  have q : Silent (advanceSmoothers (processSample M st.s m 0 0).1).1 := p.2
  by_cases h8 : i % 8 = 0
  · simp only [h8, if_true, p.1, set_zero_of_all_zero l i hl, set_zero_of_all_zero r i hr]
    exact ⟨q, trivial, trivial⟩
  · simp only [h8, if_false, p.1, set_zero_of_all_zero l i hl, set_zero_of_all_zero r i hr]
    exact ⟨p.2, trivial, trivial⟩

theorem sampleLoop_silent (M : FloatMath) (s : ReverbProcessor) (l r : List ℚ) (n : Nat)
    (hs : Silent s) (hl : ∀ x ∈ l, x = 0) (hr : ∀ x ∈ r, x = 0) :
    Silent (sampleLoop M s l r n).s ∧ (sampleLoop M s l r n).left = l ∧
      (sampleLoop M s l r n).right = r := by
  unfold sampleLoop
  exact forLoop_preserves
    (fun (st : LoopState) => Silent st.s ∧ st.left = l ∧ st.right = r) n _ _
    ⟨hs, rfl, rfl⟩ (fun i st h => sampleStep_silent M l r hl hr i st h)

/-- A call of `processStereo` over silent arrays on a silent processor leaves the arrays
as they are. -/
theorem processStereo_silent (M : FloatMath) (s : ReverbProcessor) (l r : List ℚ)
    (numSamples : Int) (hs : Silent s) (hl : ∀ x ∈ l, x = 0) (hr : ∀ x ∈ r, x = 0) :
    outLeft (processStereo M s (some l) (some r) numSamples) = l ∧
      outRight (processStereo M s (some l) (some r) numSamples) = r := by
  unfold processStereo
  simp only [outLeft, outRight]
  split_ifs with h1 h2
  · exact ⟨rfl, rfl⟩
  · exact ⟨rfl, rfl⟩
  · obtain ⟨_, e1, e2⟩ := sampleLoop_silent M s l r numSamples.toNat hs hl hr
    simp only [Option.getD_some, e1, e2, and_self]

/-- C23: for every processor state, `clear` followed by `clear` gives the same state as
one `clear`: a state in which every comb, allpass, pre-delay and tap buffer and every
one-pole state is zero and `reverbLevel` is 0. So the next `processStereo` call gives the
same result in both cases, and on an all-zero block its output is all zeros. -/
theorem C23_clear_idempotent_and_silent (M : FloatMath) (s : ReverbProcessor)
    (left right : Option (List ℚ)) (numSamples : Int) (n : Nat) :
    clear (clear s) = clear s ∧
      Silent (clear s) ∧ (clear s).reverbLevel = 0 ∧
      processStereo M (clear (clear s)) left right numSamples =
        processStereo M (clear s) left right numSamples ∧
      outLeft (processStereo M (clear s) (some (List.replicate n 0))
        (some (List.replicate n 0)) n) = List.replicate n 0 ∧
      outRight (processStereo M (clear s) (some (List.replicate n 0))
        (some (List.replicate n 0)) n) = List.replicate n 0 := by
  have hz : ∀ x ∈ List.replicate n (0 : ℚ), x = 0 := fun x hx => List.eq_of_mem_replicate hx
  refine ⟨clear_clear s, clear_silent s, rfl, by rw [clear_clear], ?_⟩
  exact processStereo_silent M (clear s) _ _ n (clear_silent s) hz hz

end ReverbProcessor
end Reverb

namespace Reverb
namespace ReverbProcessor

/-! ## C30: the dry path -/

theorem dryOut_zero_mix (v x : ℚ) :
    dryOut v 0 x = jlimit (-1) 1 (0.95 * jlimit 0 2 v * x) := by
  unfold dryOut
  rw [jlimit_unit_eq, jlimit_gain_eq]
  congr 2
  ring

theorem jlimit_gain_saturated (v : ℚ) (h : 2 ≤ v) : jlimit 0 2 v = 2 := by
  unfold jlimit
  rcases eq_or_lt_of_le h with e | e
  · rw [← e]; norm_num
  · rw [if_neg (by linarith), if_pos e]

/-- The dry path as `processStereo` writes it when the mix 0 is in effect. -/
theorem processStereo_dry_path (M : FloatMath) (s : ReverbProcessor) (l r : List ℚ)
    (hL : s.combsL ≠ []) (hR : s.combsR ≠ []) (hmix : MixInEffect 0 s)
    (hlen : r.length = l.length) (hpos : 0 < l.length) :
    outLeft (processStereo M s (some l) (some r) l.length) =
        l.map (fun x => jlimit (-1) 1 (0.95 * jlimit 0 2 s.roomVolume * x)) ∧
      outRight (processStereo M s (some l) (some r) l.length) =
        r.map (fun x => jlimit (-1) 1 (0.95 * jlimit 0 2 s.roomVolume * x)) := by
  obtain ⟨h1, h2⟩ := processStereo_dry M s l r hL hR hmix hlen hpos
  rw [h1, h2]
  exact ⟨List.map_congr_left (fun x _ => dryOut_zero_mix _ x),
    List.map_congr_left (fun x _ => dryOut_zero_mix _ x)⟩

theorem init_mixInEffect_zero : MixInEffect 0 init := by
  refine ⟨rfl, rfl, ?_⟩
  intro h
  exact absurd h (by decide)

theorem processStereo_init (M : FloatMath) (l r : List ℚ) (n : Int) :
    processStereo M init (some l) (some r) n = (init, some l, some r) := by
  unfold processStereo
  split_ifs with h1 h2
  · rfl
  · rfl
  · exact absurd (Or.inl rfl) h2

theorem setRoomVolume_dry_mixInEffect (M : FloatMath) :
    MixInEffect 0 (prepare M (setRoomVolume (setDryWet init 0) 3) 44100) := by
  have h := prepare_mixInEffect M (setRoomVolume (setDryWet init 0) 3) 44100
  have e : (setRoomVolume (setDryWet init 0) 3).dryWet = 0 := by
    norm_num [setRoomVolume, setDryWet, jlimit]
  rw [e] at h
  exact h

theorem setRoomVolume_prepared_roomVolume (M : FloatMath) :
    (2 : ℚ) ≤ (prepare M (setRoomVolume (setDryWet init 0) 3) 44100).roomVolume := by
  rw [prepare_roomVolume]
  norm_num [setRoomVolume, jlimit]

/-- Counterexample to C30 as stated: on the processor as constructed (never prepared, room
volume 1) the mix smoother's current value and target are both 0, and `processStereo`
returns at its comb-bank guard, so the input sample 1 stays 1 and is not written as
`clamp (0.95 * 1 * 1, -1, 1) = 0.95`, whatever the math library computes. -/
theorem C30_counterexample_unprepared_processor :
    MixInEffect 0 init ∧ init.roomVolume = 1 ∧
      ¬ ∃ M : FloatMath,
        outLeft (processStereo M init (some [1]) (some [1]) 1) =
          [1].map (fun x => jlimit (-1) 1 (0.95 * jlimit 0 2 init.roomVolume * x)) := by
  refine ⟨init_mixInEffect_zero, by norm_num [init], ?_⟩
  rintro ⟨M, h⟩
  rw [processStereo_init] at h
  norm_num [outLeft, init, jlimit] at h

end ReverbProcessor
end Reverb

namespace Reverb
namespace ReverbProcessor

/-! ## C28: envelopment 0 -/

/-- With envelopment 0 and early-reflection level 0 the two wet signals of one sample are
the same value: the mid signal of the diffused pair, scaled by the late mix 0.7, the
reflectivity and the HF contour. -/
theorem wetStage_mono (M : FloatMath) (s : ReverbProcessor) (preL preR : ℚ)
    (henv : s.envelopment = 0) (herl : s.earlyReflectionLevel = 0) :
    (wetStage M s preL preR).wetL =
        0.707 * ((diffused M s preL preR).1 + (diffused M s preL preR).2) * 0.7 *
          s.normalizedReflectivity * (1 + s.tieLevel * 2 * 0.5) ∧
      (wetStage M s preL preR).wetR = (wetStage M s preL preR).wetL := by
  simp only [wetStage, diffused, henv, herl, mul_zero, zero_div, zero_mul, add_zero, sub_zero,
    zero_add]
  refine ⟨?_, trivial⟩
  ring

theorem processSample_mono (M : FloatMath) (s : ReverbProcessor) (x y : ℚ)
    (henv : s.envelopment = 0) (herl : s.earlyReflectionLevel = 0) :
    (processSample M s 1 x y).2.1 = (processSample M s 1 x y).2.2 := by
  rw [processSample_mix_one]
  simp only [(wetStage_mono M s _ _ henv herl).2]

theorem processSample_envelopment (M : FloatMath) (s : ReverbProcessor) (m x y : ℚ) :
    (processSample M s m x y).1.envelopment = s.envelopment ∧
      (processSample M s m x y).1.earlyReflectionLevel = s.earlyReflectionLevel :=
  ⟨rfl, rfl⟩

theorem dspStream_mono (M : FloatMath) (xs : List (ℚ × ℚ)) :
    ∀ s : ReverbProcessor, s.envelopment = 0 → s.earlyReflectionLevel = 0 →
      (dspStream M 1 s xs).2.map Prod.fst = (dspStream M 1 s xs).2.map Prod.snd := by
  induction xs with
  | nil => intro s _ _; rfl
  | cons x rest ih =>
    intro s henv herl
    obtain ⟨e1, e2⟩ := processSample_envelopment M s 1 x.1 x.2
    simp only [dspStream, List.map_cons]
    rw [ih _ (e1.trans henv) (e2.trans herl), processSample_mono M s x.1 x.2 henv herl]

/-- The call `processStereo` with the mix 1 in effect, envelopment 0 and early-reflection
level 0: the two output arrays are equal. -/
theorem processStereo_mono (M : FloatMath) (s : ReverbProcessor) (l r : List ℚ)
    (henv : s.envelopment = 0) (herl : s.earlyReflectionLevel = 0)
    (hL : s.combsL ≠ []) (hR : s.combsR ≠ []) (hmix : MixInEffect 1 s)
    (hlen : r.length = l.length) (hpos : 0 < l.length) :
    outLeft (processStereo M s (some l) (some r) l.length) =
      outRight (processStereo M s (some l) (some r) l.length) := by
  obtain ⟨h1, h2, _, _⟩ := processStereo_settled M 1 s l r hL hR hmix hlen hpos
  rw [h1, h2]
  exact dspStream_mono M _ s henv herl

theorem envelopment_of_parameters (a b : ReverbProcessor) (h : parameters a = parameters b) :
    a.envelopment = b.envelopment ∧ a.earlyReflectionLevel = b.earlyReflectionLevel := by
  have h1 := congrArg (fun p => p.getD 11 0) h
  have h2 := congrArg (fun p => p.getD 7 0) h
  exact ⟨h1, h2⟩

theorem monoSetup_facts :
    (setDryWet (setEarlyReflectionLevel (setEnvelopment init 0) 0) 1).envelopment = 0 ∧
      (setDryWet (setEarlyReflectionLevel (setEnvelopment init 0) 0) 1).earlyReflectionLevel
        = 0 ∧
      (setDryWet (setEarlyReflectionLevel (setEnvelopment init 0) 0) 1).dryWet = 1 ∧
      (0.01 : ℚ) ≤ (setDryWet (setEarlyReflectionLevel (setEnvelopment init 0) 0) 1).decayTime ∧
      (setDryWet (setEarlyReflectionLevel (setEnvelopment init 0) 0) 1).combsL = [] := by
  norm_num [setDryWet, setEarlyReflectionLevel, setEnvelopment, jlimit, init]

theorem monoSetup_mixInEffect :
    MixInEffect 1 (setDryWet (setEarlyReflectionLevel (setEnvelopment init 0) 0) 1) := by
  have e : (setDryWet (setEarlyReflectionLevel (setEnvelopment init 0) 0) 1).mixSmoother =
      { currentValue := 1, target := 1, countdown := 0, step := 0, stepsToTarget := 0 } := by
    norm_num [setDryWet, setEarlyReflectionLevel, setEnvelopment, jlimit, init,
      SmoothedValue.setTargetValue, SmoothedValue.init, SmoothedValue.setCurrentAndTargetValue]
  unfold MixInEffect
  rw [e]
  refine ⟨rfl, rfl, ?_⟩
  intro h
  exact absurd h (by decide)

theorem monoPrepared_facts (M : FloatMath) :
    (prepare M (setDryWet (setEarlyReflectionLevel (setEnvelopment init 0) 0) 1)
        44100).envelopment = 0 ∧
      (prepare M (setDryWet (setEarlyReflectionLevel (setEnvelopment init 0) 0) 1)
        44100).earlyReflectionLevel = 0 ∧
      MixInEffect 1
        (prepare M (setDryWet (setEarlyReflectionLevel (setEnvelopment init 0) 0) 1) 44100) := by
  obtain ⟨f1, f2, f3, f4, _⟩ := monoSetup_facts
  obtain ⟨e1, e2⟩ := envelopment_of_parameters _ _ (prepare_parameters M _ 44100 f4)
  have hm := prepare_mixInEffect M
    (setDryWet (setEarlyReflectionLevel (setEnvelopment init 0) 0) 1) 44100
  rw [f3] at hm
  exact ⟨e1.trans f1, e2.trans f2, hm⟩

/-- Counterexample to C28 as stated: on a processor constructed with envelopment 0,
early-reflection level 0 and dry/wet 1 but never prepared, the mix 1 is in effect and
`processStereo` returns at its comb-bank guard, so the left output stays 1 and the right
output stays 0, whatever the math library computes. -/
theorem C28_counterexample_unprepared_processor :
    (setDryWet (setEarlyReflectionLevel (setEnvelopment init 0) 0) 1).envelopment = 0 ∧
      (setDryWet (setEarlyReflectionLevel (setEnvelopment init 0) 0) 1).earlyReflectionLevel
        = 0 ∧
      MixInEffect 1 (setDryWet (setEarlyReflectionLevel (setEnvelopment init 0) 0) 1) ∧
      ¬ ∃ M : FloatMath,
        outLeft (processStereo M
          (setDryWet (setEarlyReflectionLevel (setEnvelopment init 0) 0) 1)
          (some [1]) (some [0]) 1) =
        outRight (processStereo M
          (setDryWet (setEarlyReflectionLevel (setEnvelopment init 0) 0) 1)
          (some [1]) (some [0]) 1) := by
  obtain ⟨f1, f2, _, _, f5⟩ := monoSetup_facts
  refine ⟨f1, f2, monoSetup_mixInEffect, ?_⟩
  rintro ⟨M, h⟩
  unfold processStereo at h
  simp only [f5, true_or, if_true] at h
  norm_num [outLeft, outRight] at h

end ReverbProcessor
end Reverb

namespace Reverb
namespace ReverbProcessor

/-! ## C26: `resetWithFade` -/

theorem jlimit_of_mem (lo hi v : ℚ) (h1 : lo ≤ v) (h2 : v ≤ hi) : jlimit lo hi v = v := by
  unfold jlimit
  rw [if_neg (not_lt.mpr h1), if_neg (not_lt.mpr h2)]

theorem fadeProduct_bounds : ∀ n : Nat, n ≤ 64 → 0 ≤ fadeProduct n ∧ fadeProduct n ≤ 1 := by
  intro n
  induction n with
  | zero => intro _; exact ⟨by norm_num [fadeProduct], by norm_num [fadeProduct]⟩
  | succ k ih =>
    intro hk
    obtain ⟨h0, h1⟩ := ih (by omega)
    have hk' : (k : ℚ) ≤ 64 := by exact_mod_cast (by omega : k ≤ 64)
    have hk0 : (0 : ℚ) ≤ (k : ℚ) := Nat.cast_nonneg k
    have f0 : (0 : ℚ) ≤ 1 - (k : ℚ) / 64 := by linarith
    have f1 : 1 - (k : ℚ) / 64 ≤ 1 := by linarith
    simp only [fadeProduct]
    exact ⟨mul_nonneg h0 f0, mul_le_one₀ h1 f0 f1⟩

/-- A comb whose feedback is scaled by a factor. -/
theorem scaled_feedback_one (c : CombFilter) :
    ({ c with feedback := c.feedback * fadeProduct 0 } : CombFilter) = c := by
  cases c
  simp [fadeProduct]

/-- One fade pass on a comb whose feedback is `f * fadeProduct n` with `f` in
`[0, 0.9999]`: the clamp of `setFeedback` does not act, and the feedback becomes
`f * fadeProduct (n + 1)`. -/
theorem fade_pass_comb (c : CombFilter) (n : Nat) (hn : n < 64)
    (h : 0 ≤ c.feedback ∧ c.feedback ≤ 0.9999) :
    CombFilter.setFeedback { c with feedback := c.feedback * fadeProduct n }
        (({ c with feedback := c.feedback * fadeProduct n } : CombFilter).feedback *
          (1 - (n : ℚ) / 64)) =
      { c with feedback := c.feedback * fadeProduct (n + 1) } := by
  obtain ⟨p0, p1⟩ := fadeProduct_bounds (n + 1) (by omega)
  have e : c.feedback * fadeProduct n * (1 - (n : ℚ) / 64) = c.feedback * fadeProduct (n + 1) := by
    simp only [fadeProduct]; ring
  have b0 : 0 ≤ c.feedback * fadeProduct (n + 1) := mul_nonneg h.1 p0
  have b1 : c.feedback * fadeProduct (n + 1) ≤ 0.9999 :=
    le_trans (mul_le_of_le_one_right h.1 p1) h.2
  simp only [CombFilter.setFeedback, e, jlimit_of_mem _ _ _ b0 b1]

/-- The fade loop after `n` passes: every comb feedback is the entry feedback times the
product of the first `n` fade factors; nothing else has changed. -/
theorem forLoop_fade (s : ReverbProcessor)
    (hL : ∀ c ∈ s.combsL, 0 ≤ c.feedback ∧ c.feedback ≤ 0.9999)
    (hR : ∀ c ∈ s.combsR, 0 ≤ c.feedback ∧ c.feedback ≤ 0.9999) :
    ∀ n : Nat, n ≤ 64 →
      forLoop n fadeStep s =
        { s with
          combsL := s.combsL.map (fun c => { c with feedback := c.feedback * fadeProduct n })
          combsR := s.combsR.map (fun c => { c with feedback := c.feedback * fadeProduct n }) } := by
  intro n
  induction n with
  | zero =>
    intro _
    rw [forLoop_zero]
    simp only [scaled_feedback_one, List.map_id']
  | succ k ih =>
    intro hk
    rw [forLoop_succ, ih (by omega)]
    simp only [fadeStep, List.map_map]
    congr 1
    · exact List.map_congr_left (fun c hc => fade_pass_comb c k (by omega) (hL c hc))
    · exact List.map_congr_left (fun c hc => fade_pass_comb c k (by omega) (hR c hc))

theorem resetWithFade_eq (s : ReverbProcessor)
    (hL : ∀ c ∈ s.combsL, 0 ≤ c.feedback ∧ c.feedback ≤ 0.9999)
    (hR : ∀ c ∈ s.combsR, 0 ≤ c.feedback ∧ c.feedback ≤ 0.9999) :
    resetWithFade s =
      { clear s with
        combsL := (clear s).combsL.map
          (fun c => { c with feedback := c.feedback * fadeProduct 64 })
        combsR := (clear s).combsR.map
          (fun c => { c with feedback := c.feedback * fadeProduct 64 }) } := by
  unfold resetWithFade
  rw [forLoop_fade s hL hR 64 (le_refl _)]
  simp only [clear, List.map_map]
  congr 1

theorem resetWithFade_feedback (s : ReverbProcessor)
    (hL : ∀ c ∈ s.combsL, 0 ≤ c.feedback ∧ c.feedback ≤ 0.9999)
    (hR : ∀ c ∈ s.combsR, 0 ≤ c.feedback ∧ c.feedback ≤ 0.9999) :
    (resetWithFade s).combsL.map CombFilter.feedback =
        s.combsL.map (fun c => c.feedback * fadeProduct 64) ∧
      (resetWithFade s).combsR.map CombFilter.feedback =
        s.combsR.map (fun c => c.feedback * fadeProduct 64) := by
  rw [resetWithFade_eq s hL hR]
  simp only [clear, List.map_map]
  exact ⟨List.map_congr_left (fun c _ => rfl), List.map_congr_left (fun c _ => rfl)⟩

theorem fadeProduct_64_ne : fadeProduct 64 ≠ 1 / 64 := by
  norm_num [fadeProduct]

theorem fadeProduct_64_closed : fadeProduct 64 = (Nat.factorial 63 : ℚ) / 64 ^ 63 := by
  norm_num [fadeProduct, Nat.factorial]

/-- What the fade loop of `resetWithFade` computes: for a processor whose comb feedbacks
are in `[0, 0.9999]` at entry (the range `setFeedback` clamps to), each pass multiplies the
current feedback by `1 - i/64`, so after the pass with index `i` (`0 ≤ i < 64`) a comb with
entry feedback `f0` has feedback `f0 * (1 - 0/64) * (1 - 1/64) * ... * (1 - i/64)`, and on
return `f0 * 63! / 64^63`; on return every filter buffer and one-pole state and
`reverbLevel` are zero, and apart from the comb feedbacks the processor is as after
`clear`. -/
theorem resetWithFade_compounds_and_clears (s : ReverbProcessor) (i : Nat) (hi : i < 64)
    (hL : ∀ c ∈ s.combsL, 0 ≤ c.feedback ∧ c.feedback ≤ 0.9999)
    (hR : ∀ c ∈ s.combsR, 0 ≤ c.feedback ∧ c.feedback ≤ 0.9999) :
    (forLoop (i + 1) fadeStep s).combsL.map CombFilter.feedback =
        s.combsL.map (fun c => c.feedback * fadeProduct (i + 1)) ∧
      (forLoop (i + 1) fadeStep s).combsR.map CombFilter.feedback =
        s.combsR.map (fun c => c.feedback * fadeProduct (i + 1)) ∧
      (resetWithFade s).combsL.map CombFilter.feedback =
        s.combsL.map (fun c => c.feedback * ((Nat.factorial 63 : ℚ) / 64 ^ 63)) ∧
      (resetWithFade s).combsR.map CombFilter.feedback =
        s.combsR.map (fun c => c.feedback * ((Nat.factorial 63 : ℚ) / 64 ^ 63)) ∧
      Silent (resetWithFade s) ∧ (resetWithFade s).reverbLevel = 0 ∧
      resetWithFade s =
        { clear s with
          combsL := (clear s).combsL.map
            (fun c => { c with feedback := c.feedback * fadeProduct 64 })
          combsR := (clear s).combsR.map
            (fun c => { c with feedback := c.feedback * fadeProduct 64 }) } := by
  obtain ⟨r1, r2⟩ := resetWithFade_feedback s hL hR
  rw [fadeProduct_64_closed] at r1 r2
  refine ⟨?_, ?_, r1, r2, clear_silent _, rfl, resetWithFade_eq s hL hR⟩
  · rw [forLoop_fade s hL hR (i + 1) (by omega)]
    simp only [List.map_map]
    exact List.map_congr_left (fun c _ => rfl)
  · rw [forLoop_fade s hL hR (i + 1) (by omega)]
    simp only [List.map_map]
    exact List.map_congr_left (fun c _ => rfl)

/-- The comb feedbacks of a processor whose coefficients are the derived ones lie in
`[0, 0.9999]`. -/
theorem coefficientsDerived_feedback_range (M : FloatMath) (s : ReverbProcessor)
    (h : CoefficientsDerived M s) :
    (∀ c ∈ s.combsL, 0 ≤ c.feedback ∧ c.feedback ≤ 0.9999) ∧
      (∀ c ∈ s.combsR, 0 ≤ c.feedback ∧ c.feedback ≤ 0.9999) := by
  have hc := h.2.2.2.2.2.2
  have h1 := congrArg Coefficients.feedbackL hc
  have h2 := congrArg Coefficients.feedbackR hc
  simp only [coefficients, derivedCoefficients] at h1 h2
  constructor
  · intro c hcm
    have hm : c.feedback ∈ s.combsL.map CombFilter.feedback := List.mem_map.mpr ⟨c, hcm, rfl⟩
    rw [h1] at hm
    obtain ⟨j, _, e⟩ := List.mem_map.mp hm
    rw [← e]
    exact ⟨jlimit_ge _ _ _ (by norm_num), jlimit_le _ _ _ (by norm_num)⟩
  · intro c hcm
    have hm : c.feedback ∈ s.combsR.map CombFilter.feedback := List.mem_map.mpr ⟨c, hcm, rfl⟩
    rw [h2] at hm
    obtain ⟨j, _, e⟩ := List.mem_map.mp hm
    rw [← e]
    exact ⟨jlimit_ge _ _ _ (by norm_num), jlimit_le _ _ _ (by norm_num)⟩

theorem prepared_feedback_range (M : FloatMath) :
    (∀ c ∈ (prepare M init 44100).combsL, 0 ≤ c.feedback ∧ c.feedback ≤ 0.9999) ∧
      (∀ c ∈ (prepare M init 44100).combsR, 0 ≤ c.feedback ∧ c.feedback ≤ 0.9999) :=
  coefficientsDerived_feedback_range M _
    (prepare_coefficientsDerived M init 44100 init_decayTime_ge)

end ReverbProcessor
end Reverb

namespace Reverb
namespace ReverbProcessor

/-! ## C27: the cheap path of `updateAllParameters` -/

end ReverbProcessor
end Reverb

namespace Reverb

/-! ## Circular buffers: index arithmetic -/

theorem toSizeT_natCast_succ (n : Nat) (h : n + 1 < 18446744073709551616) :
    toSizeT ((n : Int) + 1) = n + 1 := by
  unfold toSizeT
  omega

theorem getD_set_self (l : List ℚ) (i : Nat) (v : ℚ) (h : i < l.length) :
    (l.set i v).getD i 0 = v := by
  rw [List.getD_eq_getElem?_getD, List.getElem?_set_self h]
  rfl

/-- Within one lap a later slot is never the current slot. -/
theorem ring_index_ne (N w d : Nat) (hw : w < N) (hd0 : 0 < d) (hd : d < N) :
    (w + d) % N ≠ w := by
  by_cases h : w + d < N
  · rw [Nat.mod_eq_of_lt h]; omega
  · rw [Nat.mod_eq_sub_mod (by omega), Nat.mod_eq_of_lt (by omega)]
    omega

theorem ring_index_succ (N w j : Nat) : ((w + 1) % N + j) % N = (w + (j + 1)) % N := by
  rw [Nat.mod_add_mod]
  congr 1
  omega

theorem ring_index_back (N k : Nat) (h : N ≤ k) : (k - N) % N = k % N :=
  (Nat.mod_eq_sub_mod h).symm

/-! ## C25: the allpass recurrence -/

/-- One call of `process` on an allpass whose cursor `w` is inside the buffer. -/
theorem allpass_process_at (a : AllpassFilter) (x : ℚ) (w : Nat)
    (hw : a.writeIndex = (w : Int)) (hlt : w < a.buffer.length)
    (hN : a.buffer.length ≤ 2147483647) :
    (a.process x).2 = -x + a.buffer.getD w 0 ∧
      (a.process x).1.buffer =
        a.buffer.set w (x + a.buffer.getD w 0 * jlimit 0 0.9999 a.coeff) ∧
      (a.process x).1.writeIndex = (((w + 1) % a.buffer.length : Nat) : Int) ∧
      (a.process x).1.coeff = a.coeff := by
  have hne : a.buffer ≠ [] := by
    intro e; rw [e] at hlt; exact absurd hlt (by simp)
  have e1 : toSizeT (w : Int) = w := ReverbProcessor.toSizeT_natCast w (by omega)
  have e2 : toSizeT ((w : Int) + 1) = w + 1 := toSizeT_natCast_succ w (by omega)
  unfold AllpassFilter.process
  rw [if_neg hne]
  simp only [hw, e1, if_neg (not_le.mpr hlt), e2, Int.toNat_ofNat]
  exact ⟨trivial, trivial, trivial, trivial⟩

theorem allpass_feed_cons (a : AllpassFilter) (x : ℚ) (xs : List ℚ) :
    (a.feed (x :: xs)).1 = ((a.process x).1.feed xs).1 ∧
      (a.feed (x :: xs)).2 = (a.process x).2 :: ((a.process x).1.feed xs).2 :=
  ⟨rfl, rfl⟩

/-- The cursor advances by one modulo the capacity per call; capacity and coefficient stay. -/
theorem allpass_feed_state (N : Nat) (hN0 : 0 < N) (hN : N ≤ 2147483647) :
    ∀ (xs : List ℚ) (a : AllpassFilter) (w : Nat), a.buffer.length = N →
      a.writeIndex = (w : Int) → w < N →
      (a.feed xs).1.buffer.length = N ∧
        (a.feed xs).1.writeIndex = (((w + xs.length) % N : Nat) : Int) ∧
        (a.feed xs).1.coeff = a.coeff ∧ (a.feed xs).2.length = xs.length := by
  intro xs
  induction xs with
  | nil =>
    intro a w hb hw hlt
    refine ⟨hb, ?_, rfl, rfl⟩
    show a.writeIndex = _
    rw [hw]
    simp [Nat.mod_eq_of_lt hlt]
  | cons x rest ih =>
    intro a w hb hw hlt
    obtain ⟨_, pb, pw, pc⟩ := allpass_process_at a x w hw (by rw [hb]; exact hlt)
      (by rw [hb]; exact hN)
    rw [hb] at pw
    obtain ⟨i1, i2, i3, i4⟩ := ih (a.process x).1 ((w + 1) % N)
      (by rw [pb, List.length_set]; exact hb) pw (Nat.mod_lt _ hN0)
    obtain ⟨c1, c2⟩ := allpass_feed_cons a x rest
    rw [c1, c2]
    refine ⟨i1, ?_, i3.trans pc, by simp [i4]⟩
    rw [i2, List.length_cons, Nat.mod_add_mod]
    congr 2
    omega

/-- During the first lap a call reads what the buffer held at the start. -/
theorem allpass_feed_first_lap (N : Nat) (hN0 : 0 < N) (hN : N ≤ 2147483647) :
    ∀ (xs : List ℚ) (a : AllpassFilter) (w : Nat), a.buffer.length = N →
      a.writeIndex = (w : Int) → w < N → ∀ k : Nat, k < xs.length → k < N →
      (a.feed xs).2.getD k 0 = -xs.getD k 0 + a.buffer.getD ((w + k) % N) 0 := by
  intro xs
  induction xs with
  | nil => intro a w _ _ _ k hk _; exact absurd hk (by simp)
  | cons x rest ih =>
    intro a w hb hw hlt k hk hkN
    obtain ⟨p2, pb, pw, _⟩ := allpass_process_at a x w hw (by rw [hb]; exact hlt)
      (by rw [hb]; exact hN)
    rw [hb] at pw
    rw [(allpass_feed_cons a x rest).2]
    cases k with
    | zero =>
      simp only [List.getD_cons_zero, p2, Nat.add_zero, Nat.mod_eq_of_lt hlt]
    | succ j =>
      simp only [List.getD_cons_succ]
      rw [ih (a.process x).1 ((w + 1) % N) (by rw [pb, List.length_set]; exact hb) pw
        (Nat.mod_lt _ hN0) j (by simpa using hk) (by omega), pb, ring_index_succ,
        ReverbProcessor.getD_set_ne _ _ _ _ (Ne.symm (ring_index_ne N w (j + 1) hlt (by omega) hkN))]

/-- From the second lap on a call reads the slot as the call `N` steps earlier left it. -/
theorem allpass_feed_later_lap (N : Nat) (hN0 : 0 < N) (hN : N ≤ 2147483647) :
    ∀ (xs : List ℚ) (a : AllpassFilter) (w : Nat), a.buffer.length = N →
      a.writeIndex = (w : Int) → w < N → ∀ k : Nat, k < xs.length → N ≤ k →
      (a.feed xs).2.getD k 0 =
        -xs.getD k 0 + (a.feed (xs.take (k - N + 1))).1.buffer.getD ((w + k) % N) 0 := by
  intro xs
  induction xs with
  | nil => intro a w _ _ _ k hk _; exact absurd hk (by simp)
  | cons x rest ih =>
    intro a w hb hw hlt k hk hkN
    obtain ⟨p2, pb, pw, _⟩ := allpass_process_at a x w hw (by rw [hb]; exact hlt)
      (by rw [hb]; exact hN)
    rw [hb] at pw
    have hb1 : (a.process x).1.buffer.length = N := by rw [pb, List.length_set]; exact hb
    rw [(allpass_feed_cons a x rest).2]
    cases k with
    | zero => omega
    | succ j =>
      simp only [List.getD_cons_succ]
      by_cases hj : N ≤ j
      · have e : j + 1 - N + 1 = (j - N + 1) + 1 := by omega
        rw [ih (a.process x).1 ((w + 1) % N) hb1 pw (Nat.mod_lt _ hN0) j (by simpa using hk) hj,
          e, List.take_succ_cons, (allpass_feed_cons a x _).1, ring_index_succ]
      · have e : j + 1 - N + 1 = 0 + 1 := by omega
        rw [allpass_feed_first_lap N hN0 hN rest (a.process x).1 ((w + 1) % N) hb1 pw
          (Nat.mod_lt _ hN0) j (by simpa using hk) (by omega),
          e, List.take_succ_cons, (allpass_feed_cons a x _).1, ring_index_succ]
        rfl

/-- What a call stores: the input plus the coefficient times the value it read. -/
theorem allpass_feed_stored (N : Nat) (hN0 : 0 < N) (hN : N ≤ 2147483647) :
    ∀ (xs : List ℚ) (a : AllpassFilter) (w : Nat), a.buffer.length = N →
      a.writeIndex = (w : Int) → w < N → ∀ k : Nat, k < xs.length →
      (a.feed (xs.take (k + 1))).1.buffer.getD ((w + k) % N) 0 =
        xs.getD k 0 + ((a.feed xs).2.getD k 0 + xs.getD k 0) * jlimit 0 0.9999 a.coeff := by
  intro xs
  induction xs with
  | nil => intro a w _ _ _ k hk; exact absurd hk (by simp)
  | cons x rest ih =>
    intro a w hb hw hlt k hk
    obtain ⟨p2, pb, pw, pc⟩ := allpass_process_at a x w hw (by rw [hb]; exact hlt)
      (by rw [hb]; exact hN)
    rw [hb] at pw
    have hb1 : (a.process x).1.buffer.length = N := by rw [pb, List.length_set]; exact hb
    rw [(allpass_feed_cons a x rest).2, List.take_succ_cons, (allpass_feed_cons a x _).1]
    cases k with
    | zero =>
      simp only [List.take_zero, List.getD_cons_zero, p2, Nat.add_zero, Nat.mod_eq_of_lt hlt]
      show (a.process x).1.buffer.getD w 0 = _
      rw [pb, getD_set_self _ _ _ (by rw [hb]; exact hlt)]
      ring
    | succ j =>
      simp only [List.getD_cons_succ]
      rw [← ring_index_succ, ih (a.process x).1 ((w + 1) % N) hb1 pw (Nat.mod_lt _ hN0) j
        (by simpa using hk), pc]

theorem allpass_setSize_facts (a0 : AllpassFilter) (N : Nat) (h1 : 1 ≤ N) :
    (a0.setSize (N : Int)).buffer = List.replicate N 0 ∧
      (a0.setSize (N : Int)).writeIndex = ((0 : Nat) : Int) ∧
      (a0.setSize (N : Int)).coeff = a0.coeff := by
  have h : ¬ ((N : Int) ≤ 0) := by omega
  simp only [AllpassFilter.setSize, AllpassFilter.clear, if_neg h, Int.toNat_ofNat,
    vectorResize_length]
  exact ⟨trivial, rfl, trivial⟩

theorem getD_replicate_zero (n j : Nat) : (List.replicate n (0 : ℚ)).getD j 0 = 0 :=
  ReverbProcessor.allZero_replicate n j

theorem length_take_of_lt (xs : List ℚ) (k : Nat) (hk : k < xs.length) :
    (xs.take k).length = k ∧ (xs.take (k + 1)).length = k + 1 := by
  rw [List.length_take, List.length_take]
  omega

/-- The allpass recurrence from a freshly sized filter, with the clamp of the coefficient
still in place. -/
theorem allpass_recurrence (a0 : AllpassFilter) (N : Nat) (xs : List ℚ) (k : Nat)
    (hN1 : 1 ≤ N) (hN : N ≤ 2147483647) (hk : k < xs.length) :
    ((a0.setSize (N : Int)).feed xs).2.getD k 0 =
        -xs.getD k 0 +
          (if k < N then 0 else (a0.setSize (N : Int)).storedAfter N xs (k - N)) ∧
      (a0.setSize (N : Int)).storedAfter N xs k =
        xs.getD k 0 + jlimit 0 0.9999 a0.coeff *
          (if k < N then 0 else (a0.setSize (N : Int)).storedAfter N xs (k - N)) ∧
      ((a0.setSize (N : Int)).feed (xs.take k)).1.writeIndex = ((k % N : Nat) : Int) ∧
      ((a0.setSize (N : Int)).feed (xs.take (k + 1))).1.writeIndex =
        (((k + 1) % N : Nat) : Int) := by
  obtain ⟨sb, sw, sc⟩ := allpass_setSize_facts a0 N hN1
  have hb : (a0.setSize (N : Int)).buffer.length = N := by rw [sb, List.length_replicate]
  have hread : ((a0.setSize (N : Int)).feed xs).2.getD k 0 =
      -xs.getD k 0 +
        (if k < N then 0 else (a0.setSize (N : Int)).storedAfter N xs (k - N)) := by
    by_cases hkN : k < N
    · rw [if_pos hkN, allpass_feed_first_lap N hN1 hN xs _ 0 hb sw hN1 k hk hkN, sb,
        getD_replicate_zero]
    · rw [if_neg hkN, allpass_feed_later_lap N hN1 hN xs _ 0 hb sw hN1 k hk (not_lt.mp hkN)]
      unfold AllpassFilter.storedAfter
      rw [Nat.zero_add, ring_index_back N k (not_lt.mp hkN)]
  have hstore := allpass_feed_stored N hN1 hN xs _ 0 hb sw hN1 k hk
  obtain ⟨l1, l2⟩ := length_take_of_lt xs k hk
  have hc1 := (allpass_feed_state N hN1 hN (xs.take k) _ 0 hb sw hN1).2.1
  have hc2 := (allpass_feed_state N hN1 hN (xs.take (k + 1)) _ 0 hb sw hN1).2.1
  rw [l1, Nat.zero_add] at hc1
  rw [l2, Nat.zero_add] at hc2
  refine ⟨hread, ?_, hc1, hc2⟩
  unfold AllpassFilter.storedAfter at hread ⊢
  rw [Nat.zero_add] at hstore
  rw [hstore, hread, sc]
  ring

/-- C25: for an allpass after `setSize (N)` with `1 ≤ N` and a coefficient `c` in
`[0, 0.9999]`, for every input sequence the output of call `k` is `-x[k] + w[k-N]`, where
`w[k] = x[k] + c * w[k-N]` is the value call `k` stores and `w[j] = 0` for `j < 0`; the
cursor is `k mod N` before call `k` and `(k + 1) mod N` after it. -/
theorem C25_allpass_recurrence (a0 : AllpassFilter) (N : Nat) (xs : List ℚ) (k : Nat)
    (hN1 : 1 ≤ N) (hN : N ≤ 2147483647) (hc0 : 0 ≤ a0.coeff) (hc1 : a0.coeff ≤ 0.9999)
    (hk : k < xs.length) :
    ((a0.setSize (N : Int)).feed xs).2.getD k 0 =
        -xs.getD k 0 +
          (if k < N then 0 else (a0.setSize (N : Int)).storedAfter N xs (k - N)) ∧
      (a0.setSize (N : Int)).storedAfter N xs k =
        xs.getD k 0 + a0.coeff *
          (if k < N then 0 else (a0.setSize (N : Int)).storedAfter N xs (k - N)) ∧
      ((a0.setSize (N : Int)).feed (xs.take k)).1.writeIndex = ((k % N : Nat) : Int) ∧
      ((a0.setSize (N : Int)).feed (xs.take (k + 1))).1.writeIndex =
        (((k + 1) % N : Nat) : Int) := by
  have h := allpass_recurrence a0 N xs k hN1 hN hk
  rw [ReverbProcessor.jlimit_of_mem _ _ _ hc0 hc1] at h
  exact h

/-- Witness of C25: an allpass of capacity 2 with the coefficient 0.5 it is constructed
with, fed four samples, at call 2. -/
theorem C25_allpass_recurrence_witness :
    ((AllpassFilter.init.setSize ((2 : Nat) : Int)).feed [1, 0, 0, 3]).2.getD 2 0 =
        -([1, 0, 0, 3] : List ℚ).getD 2 0 +
          (if 2 < 2 then 0
            else (AllpassFilter.init.setSize ((2 : Nat) : Int)).storedAfter 2 [1, 0, 0, 3]
              (2 - 2)) ∧
      (AllpassFilter.init.setSize ((2 : Nat) : Int)).storedAfter 2 [1, 0, 0, 3] 2 =
        ([1, 0, 0, 3] : List ℚ).getD 2 0 + AllpassFilter.init.coeff *
          (if 2 < 2 then 0
            else (AllpassFilter.init.setSize ((2 : Nat) : Int)).storedAfter 2 [1, 0, 0, 3]
              (2 - 2)) ∧
      ((AllpassFilter.init.setSize ((2 : Nat) : Int)).feed
          (([1, 0, 0, 3] : List ℚ).take 2)).1.writeIndex = ((2 % 2 : Nat) : Int) ∧
      ((AllpassFilter.init.setSize ((2 : Nat) : Int)).feed
          (([1, 0, 0, 3] : List ℚ).take (2 + 1))).1.writeIndex = (((2 + 1) % 2 : Nat) : Int) :=
  C25_allpass_recurrence AllpassFilter.init 2 [1, 0, 0, 3] 2 (by decide) (by decide)
    (by norm_num [AllpassFilter.init]) (by norm_num [AllpassFilter.init]) (by decide)

end Reverb

namespace Reverb

/-! ## C24: the lowpass-feedback comb recurrence -/

/-- One call of `process` on a comb whose cursor `w` is inside the buffer: the value
returned is the stored sample, the one-pole state moves toward it, and the slot receives
the input plus the clamped feedback times the new one-pole state. -/
theorem comb_process_at (c : CombFilter) (x : ℚ) (w : Nat)
    (hw : c.writeIndex = (w : Int)) (hlt : w < c.buffer.length)
    (hN : c.buffer.length ≤ 2147483647) :
    (c.process x).2 = c.buffer.getD w 0 ∧
      (c.process x).1.lowpass.state =
        c.buffer.getD w 0 * (1 - jlimit 0 0.9999 c.damp) +
          c.lowpass.state * jlimit 0 0.9999 c.damp ∧
      (c.process x).1.buffer =
        c.buffer.set w (x + (c.buffer.getD w 0 * (1 - jlimit 0 0.9999 c.damp) +
          c.lowpass.state * jlimit 0 0.9999 c.damp) * jlimit 0 0.9999 c.feedback) ∧
      (c.process x).1.writeIndex = (((w + 1) % c.buffer.length : Nat) : Int) ∧
      (c.process x).1.feedback = c.feedback ∧ (c.process x).1.damp = c.damp := by
  have hne : c.buffer ≠ [] := by
    intro e; rw [e] at hlt; exact absurd hlt (by simp)
  have e1 : toSizeT (w : Int) = w := ReverbProcessor.toSizeT_natCast w (by omega)
  have e2 : toSizeT ((w : Int) + 1) = w + 1 := toSizeT_natCast_succ w (by omega)
  unfold CombFilter.process
  rw [if_neg hne]
  simp only [hw, e1, if_neg (not_le.mpr hlt), e2, Int.toNat_ofNat, OnePole.process]
  exact ⟨trivial, trivial, trivial, trivial, trivial, trivial⟩

theorem comb_feed_cons (c : CombFilter) (x : ℚ) (xs : List ℚ) :
    (c.feed (x :: xs)).1 = ((c.process x).1.feed xs).1 ∧
      (c.feed (x :: xs)).2 = (c.process x).2 :: ((c.process x).1.feed xs).2 :=
  ⟨rfl, rfl⟩

/-- During the first lap a call returns what the buffer held at the start. -/
theorem comb_feed_first_lap (N : Nat) (hN0 : 0 < N) (hN : N ≤ 2147483647) :
    ∀ (xs : List ℚ) (c : CombFilter) (w : Nat), c.buffer.length = N →
      c.writeIndex = (w : Int) → w < N → ∀ k : Nat, k < xs.length → k < N →
      (c.feed xs).2.getD k 0 = c.buffer.getD ((w + k) % N) 0 := by
  intro xs
  induction xs with
  | nil => intro c w _ _ _ k hk _; exact absurd hk (by simp)
  | cons x rest ih =>
    intro c w hb hw hlt k hk hkN
    obtain ⟨p2, _, pb, pw, _, _⟩ := comb_process_at c x w hw (by rw [hb]; exact hlt)
      (by rw [hb]; exact hN)
    rw [hb] at pw
    rw [(comb_feed_cons c x rest).2]
    cases k with
    | zero =>
      simp only [List.getD_cons_zero, p2, Nat.add_zero, Nat.mod_eq_of_lt hlt]
    | succ j =>
      simp only [List.getD_cons_succ]
      rw [ih (c.process x).1 ((w + 1) % N) (by rw [pb, List.length_set]; exact hb) pw
        (Nat.mod_lt _ hN0) j (by simpa using hk) (by omega), pb, ring_index_succ,
        ReverbProcessor.getD_set_ne _ _ _ _
          (Ne.symm (ring_index_ne N w (j + 1) hlt (by omega) hkN))]

/-- From the second lap on a call returns the slot as the call `N` steps earlier left
it. -/
theorem comb_feed_later_lap (N : Nat) (hN0 : 0 < N) (hN : N ≤ 2147483647) :
    ∀ (xs : List ℚ) (c : CombFilter) (w : Nat), c.buffer.length = N →
      c.writeIndex = (w : Int) → w < N → ∀ k : Nat, k < xs.length → N ≤ k →
      (c.feed xs).2.getD k 0 =
        (c.feed (xs.take (k - N + 1))).1.buffer.getD ((w + k) % N) 0 := by
  intro xs
  induction xs with
  | nil => intro c w _ _ _ k hk _; exact absurd hk (by simp)
  | cons x rest ih =>
    intro c w hb hw hlt k hk hkN
    obtain ⟨p2, _, pb, pw, _, _⟩ := comb_process_at c x w hw (by rw [hb]; exact hlt)
      (by rw [hb]; exact hN)
    rw [hb] at pw
    have hb1 : (c.process x).1.buffer.length = N := by rw [pb, List.length_set]; exact hb
    rw [(comb_feed_cons c x rest).2]
    cases k with
    | zero => omega
    | succ j =>
      simp only [List.getD_cons_succ]
      by_cases hj : N ≤ j
      · have e : j + 1 - N + 1 = (j - N + 1) + 1 := by omega
        rw [ih (c.process x).1 ((w + 1) % N) hb1 pw (Nat.mod_lt _ hN0) j (by simpa using hk) hj,
          e, List.take_succ_cons, (comb_feed_cons c x _).1, ring_index_succ]
      · have e : j + 1 - N + 1 = 0 + 1 := by omega
        rw [comb_feed_first_lap N hN0 hN rest (c.process x).1 ((w + 1) % N) hb1 pw
          (Nat.mod_lt _ hN0) j (by simpa using hk) (by omega),
          e, List.take_succ_cons, (comb_feed_cons c x _).1, ring_index_succ]
        rfl

/-- What a call stores: the input plus the clamped feedback times the one-pole state after
the call. -/
theorem comb_feed_stored (N : Nat) (hN0 : 0 < N) (hN : N ≤ 2147483647) :
    ∀ (xs : List ℚ) (c : CombFilter) (w : Nat), c.buffer.length = N →
      c.writeIndex = (w : Int) → w < N → ∀ k : Nat, k < xs.length →
      (c.feed (xs.take (k + 1))).1.buffer.getD ((w + k) % N) 0 =
        xs.getD k 0 +
          (c.feed (xs.take (k + 1))).1.lowpass.state * jlimit 0 0.9999 c.feedback := by
  intro xs
  induction xs with
  | nil => intro c w _ _ _ k hk; exact absurd hk (by simp)
  | cons x rest ih =>
    intro c w hb hw hlt k hk
    obtain ⟨p2, ps, pb, pw, pf, _⟩ := comb_process_at c x w hw (by rw [hb]; exact hlt)
      (by rw [hb]; exact hN)
    rw [hb] at pw
    have hb1 : (c.process x).1.buffer.length = N := by rw [pb, List.length_set]; exact hb
    rw [List.take_succ_cons, (comb_feed_cons c x _).1]
    cases k with
    | zero =>
      simp only [List.take_zero, List.getD_cons_zero, Nat.add_zero, Nat.mod_eq_of_lt hlt]
      show (c.process x).1.buffer.getD w 0 = x + (c.process x).1.lowpass.state * _
      rw [pb, ps, getD_set_self _ _ _ (by rw [hb]; exact hlt)]
    | succ j =>
      simp only [List.getD_cons_succ]
      rw [← ring_index_succ, ih (c.process x).1 ((w + 1) % N) hb1 pw (Nat.mod_lt _ hN0) j
        (by simpa using hk), pf]

/-- The one-pole state after a call, from the value the call returned and the state before
it. -/
theorem comb_feed_lowpass (N : Nat) (hN0 : 0 < N) (hN : N ≤ 2147483647) :
    ∀ (xs : List ℚ) (c : CombFilter) (w : Nat), c.buffer.length = N →
      c.writeIndex = (w : Int) → w < N → ∀ k : Nat, k < xs.length →
      (c.feed (xs.take (k + 1))).1.lowpass.state =
        (c.feed xs).2.getD k 0 * (1 - jlimit 0 0.9999 c.damp) +
          (c.feed (xs.take k)).1.lowpass.state * jlimit 0 0.9999 c.damp := by
  intro xs
  induction xs with
  | nil => intro c w _ _ _ k hk; exact absurd hk (by simp)
  | cons x rest ih =>
    intro c w hb hw hlt k hk
    obtain ⟨p2, ps, pb, pw, _, pd⟩ := comb_process_at c x w hw (by rw [hb]; exact hlt)
      (by rw [hb]; exact hN)
    rw [hb] at pw
    have hb1 : (c.process x).1.buffer.length = N := by rw [pb, List.length_set]; exact hb
    rw [List.take_succ_cons, (comb_feed_cons c x _).1, (comb_feed_cons c x rest).2]
    cases k with
    | zero =>
      simp only [List.take_zero, List.getD_cons_zero, p2]
      show (c.process x).1.lowpass.state = _ + c.lowpass.state * _
      rw [ps]
    | succ j =>
      simp only [List.getD_cons_succ]
      rw [List.take_succ_cons, (comb_feed_cons c x _).1,
        ih (c.process x).1 ((w + 1) % N) hb1 pw (Nat.mod_lt _ hN0) j (by simpa using hk), pd]

theorem comb_setSize_facts (c0 : CombFilter) (N : Nat) (h1 : 1 ≤ N) :
    (c0.setSize (N : Int)).buffer = List.replicate N 0 ∧
      (c0.setSize (N : Int)).writeIndex = ((0 : Nat) : Int) ∧
      (c0.setSize (N : Int)).lowpass.state = 0 ∧
      (c0.setSize (N : Int)).feedback = c0.feedback ∧
      (c0.setSize (N : Int)).damp = c0.damp := by
  have h : ¬ ((N : Int) ≤ 0) := by omega
  simp only [CombFilter.setSize, CombFilter.clear, if_neg h, Int.toNat_ofNat,
    vectorResize_length, OnePole.clear]
  exact ⟨trivial, rfl, trivial, trivial, trivial⟩

/-- The comb recurrence from a freshly sized filter, with the clamps of the feedback and
of the damping coefficient still in place. -/
theorem comb_recurrence (c0 : CombFilter) (N : Nat) (xs : List ℚ) (k : Nat)
    (hN1 : 1 ≤ N) (hN : N ≤ 2147483647) (hk : k < xs.length) :
    ((c0.setSize (N : Int)).feed xs).2.getD k 0 =
        (if k < N then 0
          else xs.getD (k - N) 0 +
            jlimit 0 0.9999 c0.feedback * (c0.setSize (N : Int)).stateAfter xs (k - N)) ∧
      (c0.setSize (N : Int)).stateAfter xs k =
        (1 - jlimit 0 0.9999 c0.damp) * ((c0.setSize (N : Int)).feed xs).2.getD k 0 +
          jlimit 0 0.9999 c0.damp *
            (if k = 0 then 0 else (c0.setSize (N : Int)).stateAfter xs (k - 1)) := by
  obtain ⟨sb, sw, ss, sf, sd⟩ := comb_setSize_facts c0 N hN1
  have hb : (c0.setSize (N : Int)).buffer.length = N := by rw [sb, List.length_replicate]
  constructor
  · by_cases hkN : k < N
    · rw [if_pos hkN, comb_feed_first_lap N hN1 hN xs _ 0 hb sw hN1 k hk hkN, sb,
        getD_replicate_zero]
    · have hle := not_lt.mp hkN
      have hst := comb_feed_stored N hN1 hN xs _ 0 hb sw hN1 (k - N) (by omega)
      rw [Nat.zero_add, ring_index_back N k hle] at hst
      rw [if_neg hkN, comb_feed_later_lap N hN1 hN xs _ 0 hb sw hN1 k hk hle, Nat.zero_add,
        hst, sf]
      unfold CombFilter.stateAfter
      ring
  · have hlp := comb_feed_lowpass N hN1 hN xs _ 0 hb sw hN1 k hk
    unfold CombFilter.stateAfter
    rw [hlp, sd]
    cases k with
    | zero =>
      simp only [List.take_zero, if_true]
      show _ + (c0.setSize (N : Int)).lowpass.state * _ = _
      rw [ss]
      ring
    | succ j =>
      simp only [Nat.add_one_ne_zero, if_false, Nat.add_sub_cancel]
      ring

/-- C24: for a comb after `setSize (N)` with `1 ≤ N`, feedback `g` and damp `d` in
`[0, 0.9999]`, for every input sequence the value returned by call `k` is 0 for `k < N`
and `x[k-N] + g * s[k-N]` for `k ≥ N`, where `s[j]`, the one-pole state after call `j`,
is `(1 - d) * y[j] + d * s[j-1]` with `s[-1] = 0`: the call returns the undamped stored
sample, and the feedback multiplies the damped one. -/
theorem C24_comb_recurrence (c0 : CombFilter) (N : Nat) (xs : List ℚ) (k : Nat)
    (hN1 : 1 ≤ N) (hN : N ≤ 2147483647)
    (hg0 : 0 ≤ c0.feedback) (hg1 : c0.feedback ≤ 0.9999)
    (hd0 : 0 ≤ c0.damp) (hd1 : c0.damp ≤ 0.9999) (hk : k < xs.length) :
    ((c0.setSize (N : Int)).feed xs).2.getD k 0 =
        (if k < N then 0
          else xs.getD (k - N) 0 +
            c0.feedback * (c0.setSize (N : Int)).stateAfter xs (k - N)) ∧
      (c0.setSize (N : Int)).stateAfter xs k =
        (1 - c0.damp) * ((c0.setSize (N : Int)).feed xs).2.getD k 0 +
          c0.damp * (if k = 0 then 0 else (c0.setSize (N : Int)).stateAfter xs (k - 1)) := by
  have h := comb_recurrence c0 N xs k hN1 hN hk
  rw [ReverbProcessor.jlimit_of_mem _ _ _ hg0 hg1, ReverbProcessor.jlimit_of_mem _ _ _ hd0 hd1]
    at h
  exact h

/-- Witness of C24: a comb of capacity 3 with the feedback 0.5 and damp 0.5 it is
constructed with, fed seven samples, at call 6. -/
theorem C24_comb_recurrence_witness :
    ((CombFilter.init.setSize ((3 : Nat) : Int)).feed [1, 0, 0, 0, 0, 0, 2]).2.getD 6 0 =
        (if 6 < 3 then 0
          else ([1, 0, 0, 0, 0, 0, 2] : List ℚ).getD (6 - 3) 0 +
            CombFilter.init.feedback *
              (CombFilter.init.setSize ((3 : Nat) : Int)).stateAfter [1, 0, 0, 0, 0, 0, 2]
                (6 - 3)) ∧
      (CombFilter.init.setSize ((3 : Nat) : Int)).stateAfter [1, 0, 0, 0, 0, 0, 2] 6 =
        (1 - CombFilter.init.damp) *
            ((CombFilter.init.setSize ((3 : Nat) : Int)).feed [1, 0, 0, 0, 0, 0, 2]).2.getD 6 0 +
          CombFilter.init.damp *
            (if 6 = 0 then 0
              else (CombFilter.init.setSize ((3 : Nat) : Int)).stateAfter
                [1, 0, 0, 0, 0, 0, 2] (6 - 1)) :=
  C24_comb_recurrence CombFilter.init 3 [1, 0, 0, 0, 0, 0, 2] 6 (by decide) (by decide)
    (by norm_num [CombFilter.init]) (by norm_num [CombFilter.init])
    (by norm_num [CombFilter.init]) (by norm_num [CombFilter.init]) (by decide)

end Reverb

namespace Reverb
namespace ReverbProcessor

/-! ## The float range: an input sample that overflows at the input gain -/

theorem overflowSetup_roomVolume (M : FloatMath) :
    (prepare M (setDryWet (setRoomVolume init 2) 1) 44100).roomVolume = 2 := by
  rw [prepare_roomVolume]
  norm_num [setDryWet, setRoomVolume, jlimit]

theorem overflowSetup_mixInEffect (M : FloatMath) :
    MixInEffect 1 (prepare M (setDryWet (setRoomVolume init 2) 1) 44100) := by
  have h := prepare_mixInEffect M (setDryWet (setRoomVolume init 2) 1) 44100
  have e : (setDryWet (setRoomVolume init 2) 1).dryWet = 1 := by
    norm_num [setDryWet, jlimit]
  rw [e] at h
  exact h

theorem overflowSetup_quiet (M : FloatMath) :
    Quiet 22050 0 (prepare M (setDryWet (setRoomVolume init 2) 1) 44100) :=
  prepare_quiet M _ rfl rfl

/-- On a quiet processor the wet signals of a sample are zero whatever the input sample:
the pre-delay lines return zero and the wet path holds no signal. -/
theorem wetOfSample_quiet (M : FloatMath) (N k : Nat) (s : ReverbProcessor) (x y : ℚ)
    (h : Quiet N k s) (hk : k + 1 < N) (hN : N < 18446744073709551616) :
    wetOfSample M s x y = (0, 0) := by
  obtain ⟨hpl, hpr, ht, hcl, hcr, hal, har⟩ := h
  have pl := preDelayFresh_process N k s.preDelayL (x * jlimit 0 2 s.roomVolume) hpl hk hN
  have pr := preDelayFresh_process N k s.preDelayR (y * jlimit 0 2 s.roomVolume) hpr hk hN
  have w := wetStage_silent M s ht hcl hcr hal har
  simp only [wetOfSample, pl.1, pr.1, w.1, w.2.1]

theorem overflowSetup_wet (M : FloatMath) (x y : ℚ) :
    wetOfSample M (prepare M (setDryWet (setRoomVolume init 2) 1) 44100) x y = (0, 0) :=
  wetOfSample_quiet M 22050 0 _ x y (overflowSetup_quiet M) (by decide) (by decide)

theorem smoothMix_of_mixInEffect (s : ReverbProcessor) (t : ℚ) (h : MixInEffect t s) :
    (advanceSmoothers s).1.mixSmoother.getCurrentValue = t :=
  (advanceSmoothers_settled s t h).1.1

theorem overflowSetup_smoothMix (M : FloatMath) :
    (advanceSmoothers
      (prepare M (setDryWet (setRoomVolume init 2) 1) 44100)).1.mixSmoother.getCurrentValue
        = 1 :=
  smoothMix_of_mixInEffect _ 1 (overflowSetup_mixInEffect M)

theorem two_pow_127_le_floatMax : (2 : ℚ) ^ 127 ≤ floatMax := by
  norm_num [floatMax]

theorem outputSample_overflow :
    outputSample (FloatVal.finite (2 ^ 127)) (FloatVal.finite 2) (FloatVal.finite 1)
      (FloatVal.finite 0) = FloatVal.nan := by
  norm_num [outputSample, FloatVal.jlimit, FloatVal.lt, FloatVal.mul, FloatVal.add,
    FloatVal.sub, FloatVal.neg, FloatVal.ofExact, floatMax]

theorem outputSample_zero_input :
    outputSample (FloatVal.finite 0) (FloatVal.finite 2) (FloatVal.finite 1)
      (FloatVal.finite 0) = FloatVal.finite 0 := by
  norm_num [outputSample, FloatVal.jlimit, FloatVal.lt, FloatVal.mul, FloatVal.add,
    FloatVal.sub, FloatVal.neg, FloatVal.ofExact, floatMax]

theorem ofExact_of_abs_le (q : ℚ) (h : |q| ≤ floatMax) :
    FloatVal.ofExact q = FloatVal.finite q := by
  obtain ⟨h1, h2⟩ := abs_le.mp h
  unfold FloatVal.ofExact
  rw [if_neg (not_lt.mpr h2), if_neg (not_lt.mpr h1)]

theorem floatVal_jlimit_finite (lo hi v : ℚ) :
    FloatVal.jlimit (FloatVal.finite lo) (FloatVal.finite hi) (FloatVal.finite v) =
      FloatVal.finite (jlimit lo hi v) := by
  unfold FloatVal.jlimit jlimit
  simp only [FloatVal.lt, decide_eq_true_eq]
  split_ifs <;> rfl

/-- Where no intermediate value leaves the float range, the float kinds of the output
sample are those of the exact computation of `processSample`: a finite value, the one the
exact arithmetic gives. -/
theorem outputSample_finite (x g m w : ℚ) (h1 : |x * jlimit 0 2 g| ≤ floatMax)
    (h2 : |1 + -m| ≤ floatMax) (h3 : |x * jlimit 0 2 g * (1 + -m)| ≤ floatMax)
    (h4 : |w * m| ≤ floatMax)
    (h5 : |x * jlimit 0 2 g * (1 + -m) + w * m| ≤ floatMax)
    (h6 : |(x * jlimit 0 2 g * (1 + -m) + w * m) * 0.95| ≤ floatMax) :
    outputSample (FloatVal.finite x) (FloatVal.finite g) (FloatVal.finite m)
        (FloatVal.finite w) =
      FloatVal.finite (jlimit (-1) 1 ((x * jlimit 0 2 g * (1 + -m) + w * m) * 0.95)) := by
  unfold outputSample
  simp only [floatVal_jlimit_finite, FloatVal.mul, FloatVal.sub, FloatVal.neg, FloatVal.add,
    ofExact_of_abs_le _ h1, ofExact_of_abs_le _ h2, ofExact_of_abs_le _ h3,
    ofExact_of_abs_le _ h4, ofExact_of_abs_le _ h5, ofExact_of_abs_le _ h6]

/-- Where no intermediate value leaves the float range, `outputSample` on the values of a
pass of the sample loop is the left output sample of `processSample`. -/
theorem outputSample_processSample (M : FloatMath) (s : ReverbProcessor) (m x y : ℚ)
    (h1 : |x * jlimit 0 2 s.roomVolume| ≤ floatMax) (h2 : |1 + -m| ≤ floatMax)
    (h3 : |x * jlimit 0 2 s.roomVolume * (1 + -m)| ≤ floatMax)
    (h4 : |(wetOfSample M s x y).1 * m| ≤ floatMax)
    (h5 : |x * jlimit 0 2 s.roomVolume * (1 + -m) + (wetOfSample M s x y).1 * m| ≤ floatMax)
    (h6 : |(x * jlimit 0 2 s.roomVolume * (1 + -m) + (wetOfSample M s x y).1 * m) * 0.95|
      ≤ floatMax) :
    outputSample (FloatVal.finite x) (FloatVal.finite s.roomVolume) (FloatVal.finite m)
        (FloatVal.finite (wetOfSample M s x y).1) =
      FloatVal.finite (processSample M s m x y).2.1 := by
  rw [outputSample_finite x s.roomVolume m _ h1 h2 h3 h4 h5 h6]
  simp only [processSample, wetOfSample, sub_eq_add_neg]

/-- C1 (the limiter lets an overflowed sample through): on a processor constructed,
given `setRoomVolume (2)` and `setDryWet (1)` and prepared at 44100 Hz, the first pass of
the sample loop has room volume 2, mix 1 and wet signals 0 whatever the input samples are
(the pre-delay lines return 0), and the finite float `2^127` is a possible input sample.
With these values the lines that form the output sample give NaN: the dry sample
`2^127 * 2` overflows to infinity, `inf * (1 - 1)` is NaN, and `jlimit (-1, 1, NaN)`
returns the NaN, which is not in `[-1, 1]`. -/
theorem C1_overflowing_input_sample_is_written_as_nan (M : FloatMath) :
    (prepare M (setDryWet (setRoomVolume init 2) 1) 44100).roomVolume = 2 ∧
      (advanceSmoothers
        (prepare M (setDryWet (setRoomVolume init 2) 1) 44100)).1.mixSmoother.getCurrentValue
          = 1 ∧
      (∀ x y : ℚ,
        wetOfSample M (prepare M (setDryWet (setRoomVolume init 2) 1) 44100) x y = (0, 0)) ∧
      (2 : ℚ) ^ 127 ≤ floatMax ∧
      outputSample (FloatVal.finite (2 ^ 127)) (FloatVal.finite 2) (FloatVal.finite 1)
        (FloatVal.finite 0) = FloatVal.nan :=
  ⟨overflowSetup_roomVolume M, overflowSetup_smoothMix M, overflowSetup_wet M,
    two_pow_127_le_floatMax, outputSample_overflow⟩

/-- C4 (the input sample at index `i` reaches the output at index `i` through an
overflow): on a processor constructed, given `setRoomVolume (2)` and `setDryWet (1)` and
prepared at 44100 Hz, the mix 1 is in effect and the wet signals of the first pass do not
depend on the input samples of that pass; yet the output sample formed from the input
`2^127` (NaN: the dry sample overflows and `inf * (1 - 1)` is NaN) differs from the one
formed from the input 0 with the same wet signal. -/
theorem C4_overflowing_input_sample_reaches_output (M : FloatMath) :
    MixInEffect 1 (prepare M (setDryWet (setRoomVolume init 2) 1) 44100) ∧
      (∀ x y x1 y1 : ℚ,
        wetOfSample M (prepare M (setDryWet (setRoomVolume init 2) 1) 44100) x y =
          wetOfSample M (prepare M (setDryWet (setRoomVolume init 2) 1) 44100) x1 y1) ∧
      outputSample (FloatVal.finite (2 ^ 127))
          (FloatVal.finite (prepare M (setDryWet (setRoomVolume init 2) 1) 44100).roomVolume)
          (FloatVal.finite 1)
          (FloatVal.finite
            (wetOfSample M (prepare M (setDryWet (setRoomVolume init 2) 1) 44100)
              (2 ^ 127) 0).1) ≠
        outputSample (FloatVal.finite 0)
          (FloatVal.finite (prepare M (setDryWet (setRoomVolume init 2) 1) 44100).roomVolume)
          (FloatVal.finite 1)
          (FloatVal.finite
            (wetOfSample M (prepare M (setDryWet (setRoomVolume init 2) 1) 44100) 0 0).1) := by
  have hw := overflowSetup_wet M
  refine ⟨overflowSetup_mixInEffect M, fun x y x1 y1 => by rw [hw x y, hw x1 y1], ?_⟩
  rw [hw, hw, overflowSetup_roomVolume, outputSample_overflow, outputSample_zero_input]
  exact fun h => FloatVal.noConfusion h

/-! ## The mix ramp after one block of 50 ms -/

/-- C14 (the ramp set up for 50 ms is advanced on every eighth sample only): at 22050 Hz,
`setDryWet (1)` on the default processor (mix 0.5) starts a ramp of
`floor (0.05 * 22050) = 1102` steps towards 1; one `processStereo` call over 1103 samples
(`ceil (0.05 * 22050)`, 50 ms) advances the mix smoother 139 times, and the mix value of
the next sample is `0.5 + 140 * 0.5 / 1102 = 621 / 1102` (about 0.56), not the target 1,
whatever the math library computes. -/
theorem C14_one_block_of_50ms_leaves_ramp_unfinished (M : FloatMath) :
    (setDryWet (prepare M init 22050) 1).mixSmoother.target = 1 ∧
      (setDryWet (prepare M init 22050) 1).mixSmoother.countdown = 1102 ∧
      (processStereo M (setDryWet (prepare M init 22050) 1)
          (some (List.replicate 1103 0)) (some (List.replicate 1103 0)) 1103).1.mixSmoother =
        (setDryWet (prepare M init 22050) 1).mixSmoother.advance 139 ∧
      ((processStereo M (setDryWet (prepare M init 22050) 1)
          (some (List.replicate 1103 0)) (some (List.replicate 1103 0))
          1103).1.mixSmoother.getNextValue.1).getCurrentValue = 621 / 1102 := by
  obtain ⟨p1, p2⟩ := prepare_combs_ne_nil M init 22050
  have c1 : (setDryWet (prepare M init 22050) 1).combsL ≠ [] := by
    rw [(setDryWet_combs _ _).1]; exact p1
  have c2 : (setDryWet (prepare M init 22050) 1).combsR ≠ [] := by
    rw [(setDryWet_combs _ _).2]; exact p2
  have hchg : jlimit 0 1 (1 : ℚ) ≠ init.dryWet := by
    rw [jlimit_unit_one, init_dryWet]; norm_num
  have hsm := setDryWet_prepare_ramp M init 22050 1 hchg
  rw [jlimit_22050, floor_ramp_22050, jlimit_unit_one, init_dryWet] at hsm
  have e : 1 + ((1103 : Int).toNat + 7) / 8 = 139 := by decide
  have hadv := processStereo_mixSmoother M _ (List.replicate 1103 0) (List.replicate 1103 0)
    1103 c1 c2 (by norm_num)
  rw [e] at hadv
  refine ⟨by rw [hsm], by rw [hsm], hadv, ?_⟩
  rw [hadv, ← advance_succ, hsm, advance_ramp _ 140 (by norm_num)]
  simp only [SmoothedValue.getCurrentValue]
  norm_num

/-! ## The fade loop of `resetWithFade` -/

theorem fade_factor_lt : (Nat.factorial 63 : ℚ) / 64 ^ 63 < 1 / 10 ^ 26 := by
  norm_num [Nat.factorial]

/-- C26 (the fade factor is applied to the running feedback, not to the entry feedback):
on the default processor prepared at 44100 Hz, whatever the math library computes, the
pass of the fade loop with index 2 leaves every left comb with its entry feedback times
`(1 - 0/64) * (1 - 1/64) * (1 - 2/64)` (not times `1 - 2/64`), and on return from
`resetWithFade` every comb has its entry feedback times `63! / 64^63`, a factor below
`10^-26`; that is the entry feedback divided by 64 only for a comb whose entry feedback
is 0. -/
theorem C26_fade_compounds_on_running_feedback (M : FloatMath) :
    (forLoop 3 fadeStep (prepare M init 44100)).combsL.map CombFilter.feedback =
        (prepare M init 44100).combsL.map
          (fun c => c.feedback * ((1 - 0 / 64) * (1 - 1 / 64) * (1 - 2 / 64))) ∧
      (resetWithFade (prepare M init 44100)).combsL.map CombFilter.feedback =
        (prepare M init 44100).combsL.map
          (fun c => c.feedback * ((Nat.factorial 63 : ℚ) / 64 ^ 63)) ∧
      (resetWithFade (prepare M init 44100)).combsR.map CombFilter.feedback =
        (prepare M init 44100).combsR.map
          (fun c => c.feedback * ((Nat.factorial 63 : ℚ) / 64 ^ 63)) ∧
      (Nat.factorial 63 : ℚ) / 64 ^ 63 < 1 / 10 ^ 26 ∧
      ∀ f0 : ℚ, f0 * ((Nat.factorial 63 : ℚ) / 64 ^ 63) = f0 / 64 → f0 = 0 := by
  obtain ⟨hL, hR⟩ := prepared_feedback_range M
  obtain ⟨r1, r2⟩ := resetWithFade_feedback _ hL hR
  rw [fadeProduct_64_closed] at r1 r2
  refine ⟨?_, r1, r2, fade_factor_lt, ?_⟩
  · rw [forLoop_fade _ hL hR 3 (by decide)]
    simp only [List.map_map]
    refine List.map_congr_left (fun c _ => ?_)
    simp only [Function.comp, fadeProduct]
    norm_num
  · intro f0 h
    have hlt := fade_factor_lt
    by_contra hne
    have h1 : f0 * ((Nat.factorial 63 : ℚ) / 64 ^ 63) = f0 * (1 / 64) := by
      rw [h]
      ring
    have h2 : (Nat.factorial 63 : ℚ) / 64 ^ 63 = 1 / 64 := mul_left_cancel₀ hne h1
    rw [h2] at hlt
    norm_num at hlt

end ReverbProcessor
end Reverb

namespace Reverb
namespace ReverbProcessor

/-! ## C13: `msToSamples` truncates the float quotient -/

end ReverbProcessor
end Reverb

namespace Reverb

/-! ## Signal levels: what one call of a filter keeps -/

theorem within_getD (b : ℚ) (l : List ℚ) (i : Nat) (h : Within b l) (hb : 0 ≤ b) :
    |l.getD i 0| ≤ b := by
  rw [List.getD_eq_getElem?_getD]
  by_cases hi : i < l.length
  · rw [List.getElem?_eq_getElem hi]
    exact h _ (List.getElem_mem hi)
  · rw [List.getElem?_eq_none (not_lt.mp hi)]
    simpa using hb

theorem within_set (b : ℚ) (l : List ℚ) (i : Nat) (v : ℚ) (h : Within b l) (hv : |v| ≤ b) :
    Within b (l.set i v) := by
  intro x hx
  rcases List.mem_or_eq_of_mem_set hx with e | e
  · exact h x e
  · rw [e]; exact hv

theorem within_of_allZero (b : ℚ) (l : List ℚ) (hb : 0 ≤ b) (h : ReverbProcessor.AllZero l) :
    Within b l := by
  intro x hx
  obtain ⟨i, hi, e⟩ := List.getElem_of_mem hx
  have h0 := h i
  rw [List.getD_eq_getElem?_getD, List.getElem?_eq_getElem hi, Option.getD_some, e] at h0
  rw [h0]
  simpa using hb

/-- A delay line within `b` fed a sample within `b` returns a sample within `b` and stays
within `b`. -/
theorem delayLine_process_within (b : ℚ) (d : DelayLine) (x : ℚ) (hb : 0 ≤ b)
    (h : Within b d.buffer) (hx : |x| ≤ b) :
    |(d.process x).2| ≤ b ∧ Within b (d.process x).1.buffer := by
  unfold DelayLine.process
  by_cases hnil : d.buffer = []
  · rw [if_pos hnil]
    exact ⟨hx, h⟩
  · rw [if_neg hnil]
    exact ⟨within_getD _ _ _ h hb, within_set _ _ _ _ h hx⟩

/-- A comb within `K` fed a sample within `U`, where `U + 0.9999 K ≤ K`, returns a sample
within `K` and stays within `K`. -/
theorem comb_process_within (K U : ℚ) (c : CombFilter) (x : ℚ) (hU : 0 ≤ U)
    (hUK : U + 0.9999 * K ≤ K) (h : CombWithin K c) (hx : |x| ≤ U) :
    |(c.process x).2| ≤ K ∧ CombWithin K (c.process x).1 := by
  have hK : 0 ≤ K := by linarith
  have hUleK : U ≤ K := by linarith
  obtain ⟨hbuf, hst⟩ := h
  unfold CombFilter.process
  by_cases hb : c.buffer = []
  · rw [if_pos hb]
    exact ⟨le_trans hx hUleK, hbuf, hst⟩
  · rw [if_neg hb]
    have hd0 : (0 : ℚ) ≤ jlimit 0 0.9999 c.damp := jlimit_ge _ _ _ (by norm_num)
    have hd1 : jlimit 0 0.9999 c.damp ≤ 1 :=
      le_trans (jlimit_le _ _ _ (by norm_num)) (by norm_num)
    have hg0 : (0 : ℚ) ≤ jlimit 0 0.9999 c.feedback := jlimit_ge _ _ _ (by norm_num)
    have hg1 : jlimit 0 0.9999 c.feedback ≤ 0.9999 := jlimit_le _ _ _ (by norm_num)
    simp only [OnePole.process]
    have hout := within_getD K c.buffer
      (if c.buffer.length ≤ toSizeT c.writeIndex then 0 else c.writeIndex).toNat hbuf hK
    have hmix := abs_mix_le _ _ _ _ hout hst hd0 hd1
    refine ⟨hout, ?_, hmix⟩
    apply within_set _ _ _ _ hbuf
    calc |x + (c.buffer.getD
            (if c.buffer.length ≤ toSizeT c.writeIndex then 0 else c.writeIndex).toNat 0 *
              (1 - jlimit 0 0.9999 c.damp) + c.lowpass.state * jlimit 0 0.9999 c.damp) *
            jlimit 0 0.9999 c.feedback|
        ≤ |x| + |(c.buffer.getD
            (if c.buffer.length ≤ toSizeT c.writeIndex then 0 else c.writeIndex).toNat 0 *
              (1 - jlimit 0 0.9999 c.damp) + c.lowpass.state * jlimit 0 0.9999 c.damp) *
            jlimit 0 0.9999 c.feedback| := abs_add _ _
      _ ≤ U + K * 0.9999 := by
        rw [abs_mul, abs_of_nonneg hg0]
        exact add_le_add hx (mul_le_mul hmix hg1 hg0 hK)
      _ ≤ K := by linarith

/-- An allpass whose buffer is within `10000 V` fed a sample within `V` returns a sample
within `10001 V` and its buffer stays within `10000 V`. -/
theorem allpass_process_within (V : ℚ) (a : AllpassFilter) (x : ℚ) (hV : 0 ≤ V)
    (h : Within (10000 * V) a.buffer) (hx : |x| ≤ V) :
    |(a.process x).2| ≤ 10001 * V ∧ Within (10000 * V) (a.process x).1.buffer := by
  have hK : 0 ≤ 10000 * V := by linarith
  unfold AllpassFilter.process
  by_cases hb : a.buffer = []
  · rw [if_pos hb]
    exact ⟨by linarith, h⟩
  · rw [if_neg hb]
    have hg0 : (0 : ℚ) ≤ jlimit 0 0.9999 a.coeff := jlimit_ge _ _ _ (by norm_num)
    have hg1 : jlimit 0 0.9999 a.coeff ≤ 0.9999 := jlimit_le _ _ _ (by norm_num)
    have hout := within_getD (10000 * V) a.buffer
      (if a.buffer.length ≤ toSizeT a.writeIndex then 0 else a.writeIndex).toNat h hK
    constructor
    · calc |-x + a.buffer.getD
            (if a.buffer.length ≤ toSizeT a.writeIndex then 0 else a.writeIndex).toNat 0|
          ≤ |-x| + |a.buffer.getD
            (if a.buffer.length ≤ toSizeT a.writeIndex then 0 else a.writeIndex).toNat 0| :=
            abs_add _ _
        _ ≤ V + 10000 * V := by
          rw [abs_neg]
          exact add_le_add hx hout
        _ = 10001 * V := by ring
    · apply within_set _ _ _ _ h
      calc |x + a.buffer.getD
            (if a.buffer.length ≤ toSizeT a.writeIndex then 0 else a.writeIndex).toNat 0 *
              jlimit 0 0.9999 a.coeff|
          ≤ |x| + |a.buffer.getD
            (if a.buffer.length ≤ toSizeT a.writeIndex then 0 else a.writeIndex).toNat 0 *
              jlimit 0 0.9999 a.coeff| := abs_add _ _
        _ ≤ V + 10000 * V * 0.9999 := by
          rw [abs_mul, abs_of_nonneg hg0]
          exact add_le_add hx (mul_le_mul hout hg1 hg0 hK)
        _ = 10000 * V := by ring

end Reverb

namespace Reverb
namespace ReverbProcessor

/-! ## Signal levels: the filter banks of the wet path -/

theorem abs_mul_le_mul (u w P Q : ℚ) (hu : |u| ≤ P) (hw : |w| ≤ Q) : |u * w| ≤ P * Q := by
  rw [abs_mul]
  exact mul_le_mul hu hw (abs_nonneg _) (le_trans (abs_nonneg _) hu)

theorem abs_sub_step (res e d n b : ℚ) (h1 : |res - (e + d)| ≤ n * b) (h2 : |d| ≤ b) :
    |res - e| ≤ (n + 1) * b := by
  have e1 : res - e = (res - (e + d)) + d := by ring
  rw [e1]
  calc |res - (e + d) + d| ≤ |res - (e + d)| + |d| := abs_add _ _
    _ ≤ n * b + b := add_le_add h1 h2
    _ = (n + 1) * b := by ring

theorem pan_range (t size : Nat) (h : t < size) :
    (0 : ℚ) ≤ (t : ℚ) / (size : ℚ) ∧ (t : ℚ) / (size : ℚ) ≤ 1 := by
  have hs : (0 : ℚ) < (size : ℚ) := by exact_mod_cast (by omega : 0 < size)
  constructor
  · positivity
  · rw [div_le_one hs]
    exact_mod_cast le_of_lt h

/-- The early-reflection loop on taps within `b`, fed samples within `b`: the taps stay
within `b` and each running sum grows by at most `b` per tap. -/
theorem processEarlyTaps_within (b : ℚ) (size : Nat) (preL preR : ℚ) (hb : 0 ≤ b)
    (hl : |preL| ≤ b) (hr : |preR| ≤ b) :
    ∀ (taps : List (DelayLine × DelayLine)) (t : Nat) (eL eR : ℚ),
      t + taps.length ≤ size →
      (∀ tap ∈ taps, Within b tap.1.buffer ∧ Within b tap.2.buffer) →
      (∀ tap ∈ (processEarlyTaps size preL preR t taps eL eR).1,
        Within b tap.1.buffer ∧ Within b tap.2.buffer) ∧
      |(processEarlyTaps size preL preR t taps eL eR).2.1 - eL| ≤ (taps.length : ℚ) * b ∧
      |(processEarlyTaps size preL preR t taps eL eR).2.2 - eR| ≤ (taps.length : ℚ) * b := by
  intro taps
  induction taps with
  | nil =>
    intro t eL eR _ _
    simp [processEarlyTaps]
  | cons tap rest ih =>
    intro t eL eR hlen htaps
    rw [List.length_cons] at hlen
    obtain ⟨p0, p1⟩ := pan_range t size (by omega)
    obtain ⟨hL1, hL2⟩ := delayLine_process_within b tap.1 preL hb
      (htaps tap (List.mem_cons_self _ _)).1 hl
    obtain ⟨hR1, hR2⟩ := delayLine_process_within b tap.2 preR hb
      (htaps tap (List.mem_cons_self _ _)).2 hr
    have wl : |(tap.1.process preL).2 * (1 - (t : ℚ) / (size : ℚ) * 0.7)| ≤ b := by
      have := abs_mul_le_mul _ (1 - (t : ℚ) / (size : ℚ) * 0.7) b 1 hL1
        (abs_le.mpr ⟨by linarith, by linarith⟩)
      linarith
    have wr : |(tap.2.process preR).2 * (0.3 + (t : ℚ) / (size : ℚ) * 0.7)| ≤ b := by
      have := abs_mul_le_mul _ (0.3 + (t : ℚ) / (size : ℚ) * 0.7) b 1 hR1
        (abs_le.mpr ⟨by linarith, by linarith⟩)
      linarith
    obtain ⟨i1, i2, i3⟩ := ih (t + 1)
      (eL + (tap.1.process preL).2 * (1 - (t : ℚ) / (size : ℚ) * 0.7))
      (eR + (tap.2.process preR).2 * (0.3 + (t : ℚ) / (size : ℚ) * 0.7))
      (by omega) (fun x hx => htaps x (List.mem_cons_of_mem _ hx))
    simp only [processEarlyTaps, List.length_cons, Nat.cast_add, Nat.cast_one]
    refine ⟨?_, abs_sub_step _ _ _ _ _ i2 wl, abs_sub_step _ _ _ _ _ i3 wr⟩
    intro x hx
    rcases List.mem_cons.mp hx with e | e
    · rw [e]
      exact ⟨hL2, hR2⟩
    · exact i1 x e

/-- The input of a comb: the weighted pre-delayed samples times the detune factor. -/
theorem comb_input_le (B p q w1 w2 g d : ℚ) (hB : 0 ≤ B) (hp : |p| ≤ 2 * B)
    (hq : |q| ≤ 2 * B) (hw1 : |w1| ≤ 1) (hw2 : |w2| ≤ 3 / 10) (hg : |g| ≤ 1)
    (hd : |d| ≤ 1.0035) : |(p * w1 + q * w2 * g) * d| ≤ 3 * B := by
  have h1 := abs_mul_le_mul p w1 _ _ hp hw1
  have h2 := abs_mul_le_mul (q * w2) g _ _ (abs_mul_le_mul q w2 _ _ hq hw2) hg
  have h3 : |p * w1 + q * w2 * g| ≤ 2.6 * B := by
    calc |p * w1 + q * w2 * g| ≤ |p * w1| + |q * w2 * g| := abs_add _ _
      _ ≤ 2 * B * 1 + 2 * B * (3 / 10) * 1 := add_le_add h1 h2
      _ = 2.6 * B := by ring
  have h4 := abs_mul_le_mul _ d _ _ h3 hd
  calc |(p * w1 + q * w2 * g) * d| ≤ 2.6 * B * 1.0035 := h4
    _ ≤ 3 * B := by linarith

theorem weight_main (x : ℚ) (h : |x| ≤ 1) : |0.7 + 0.3 * x| ≤ 1 := by
  obtain ⟨h1, h2⟩ := abs_le.mp h
  exact abs_le.mpr ⟨by linarith, by linarith⟩

theorem weight_cross (x : ℚ) (h : |x| ≤ 1) : |0.3 * x| ≤ 3 / 10 := by
  obtain ⟨h1, h2⟩ := abs_le.mp h
  exact abs_le.mpr ⟨by linarith, by linarith⟩

theorem comb_level_step (B : ℚ) : 3 * B + 0.9999 * (30000 * B) ≤ 30000 * B := by
  have e : 3 * B + 0.9999 * (30000 * B) = 30000 * B := by ring
  exact le_of_eq e

/-- The left comb loop on combs within `30000 B`, fed pre-delayed samples within `2 B`:
the combs stay within `30000 B` and the running sum grows by at most `30000 B` per
comb. -/
theorem processCombsL_within (M : FloatMath) (hM : BoundedMath M) (B preL preR pos : ℚ)
    (hB : 0 ≤ B) (hl : |preL| ≤ 2 * B) (hr : |preR| ≤ 2 * B) (hp0 : 0 ≤ pos)
    (hp1 : pos ≤ 1) :
    ∀ (combs : List CombFilter) (c : Nat) (sum : ℚ),
      c + combs.length ≤ 8 →
      (∀ f ∈ combs, CombWithin (30000 * B) f) →
      (∀ f ∈ (processCombsL M preL preR pos c combs sum).1, CombWithin (30000 * B) f) ∧
      |(processCombsL M preL preR pos c combs sum).2 - sum| ≤
        (combs.length : ℚ) * (30000 * B) := by
  intro combs
  induction combs with
  | nil =>
    intro c sum _ _
    simp [processCombsL]
  | cons comb rest ih =>
    intro c sum hlen hcombs
    rw [List.length_cons] at hlen
    have hc : (c : ℚ) ≤ 7 := by exact_mod_cast (by omega : c ≤ 7)
    have hc0 : (0 : ℚ) ≤ (c : ℚ) := Nat.cast_nonneg c
    have hin := comb_input_le B preL preR (0.7 + 0.3 * M.sin ((c : ℚ) * 0.5))
      (0.3 * M.cos ((c : ℚ) * 0.5)) pos (1 + 0.0005 * (c : ℚ)) hB hl hr
      (weight_main _ (hM _).1) (weight_cross _ (hM _).2)
      (abs_le.mpr ⟨by linarith, hp1⟩) (abs_le.mpr ⟨by linarith, by linarith⟩)
    obtain ⟨h1, h2⟩ := comb_process_within (30000 * B) (3 * B) comb _ (by linarith)
      (comb_level_step B) (hcombs comb (List.mem_cons_self _ _)) hin
    obtain ⟨i1, i2⟩ := ih (c + 1)
      (sum + (comb.process ((preL * (0.7 + 0.3 * M.sin ((c : ℚ) * 0.5)) +
        preR * (0.3 * M.cos ((c : ℚ) * 0.5)) * pos) * (1 + 0.0005 * (c : ℚ)))).2)
      (by omega) (fun x hx => hcombs x (List.mem_cons_of_mem _ hx))
    simp only [processCombsL, List.length_cons, Nat.cast_add, Nat.cast_one]
    refine ⟨?_, abs_sub_step _ _ _ _ _ i2 h1⟩
    intro x hx
    rcases List.mem_cons.mp hx with e | e
    · rw [e]
      exact h2
    · exact i1 x e

/-- The right comb loop, as the left one. -/
theorem processCombsR_within (M : FloatMath) (hM : BoundedMath M) (B preL preR pos : ℚ)
    (hB : 0 ≤ B) (hl : |preL| ≤ 2 * B) (hr : |preR| ≤ 2 * B) (hp0 : 0 ≤ pos)
    (hp1 : pos ≤ 1) :
    ∀ (combs : List CombFilter) (c : Nat) (sum : ℚ),
      c + combs.length ≤ 8 →
      (∀ f ∈ combs, CombWithin (30000 * B) f) →
      (∀ f ∈ (processCombsR M preL preR pos c combs sum).1, CombWithin (30000 * B) f) ∧
      |(processCombsR M preL preR pos c combs sum).2 - sum| ≤
        (combs.length : ℚ) * (30000 * B) := by
  intro combs
  induction combs with
  | nil =>
    intro c sum _ _
    simp [processCombsR]
  | cons comb rest ih =>
    intro c sum hlen hcombs
    rw [List.length_cons] at hlen
    have hc : (c : ℚ) ≤ 7 := by exact_mod_cast (by omega : c ≤ 7)
    have hc0 : (0 : ℚ) ≤ (c : ℚ) := Nat.cast_nonneg c
    have hin := comb_input_le B preR preL (0.7 + 0.3 * M.cos ((c : ℚ) * 0.5))
      (0.3 * M.sin ((c : ℚ) * 0.5)) (1 - pos) (1 - 0.0005 * (c : ℚ)) hB hr hl
      (weight_main _ (hM _).2) (weight_cross _ (hM _).1)
      (abs_le.mpr ⟨by linarith, by linarith⟩) (abs_le.mpr ⟨by linarith, by linarith⟩)
    obtain ⟨h1, h2⟩ := comb_process_within (30000 * B) (3 * B) comb _ (by linarith)
      (comb_level_step B) (hcombs comb (List.mem_cons_self _ _)) hin
    obtain ⟨i1, i2⟩ := ih (c + 1)
      (sum + (comb.process ((preR * (0.7 + 0.3 * M.cos ((c : ℚ) * 0.5)) +
        preL * (0.3 * M.sin ((c : ℚ) * 0.5)) * (1 - pos)) * (1 - 0.0005 * (c : ℚ)))).2)
      (by omega) (fun x hx => hcombs x (List.mem_cons_of_mem _ hx))
    simp only [processCombsR, List.length_cons, Nat.cast_add, Nat.cast_one]
    refine ⟨?_, abs_sub_step _ _ _ _ _ i2 h1⟩
    intro x hx
    rcases List.mem_cons.mp hx with e | e
    · rw [e]
      exact h2
    · exact i1 x e

theorem processCombsL_length (M : FloatMath) (preL preR pos : ℚ) :
    ∀ (combs : List CombFilter) (c : Nat) (sum : ℚ),
      (processCombsL M preL preR pos c combs sum).1.length = combs.length := by
  intro combs
  induction combs with
  | nil => intro c sum; rfl
  | cons comb rest ih =>
    intro c sum
    simp only [processCombsL, List.length_cons, ih]

theorem processCombsR_length (M : FloatMath) (preL preR pos : ℚ) :
    ∀ (combs : List CombFilter) (c : Nat) (sum : ℚ),
      (processCombsR M preL preR pos c combs sum).1.length = combs.length := by
  intro combs
  induction combs with
  | nil => intro c sum; rfl
  | cons comb rest ih =>
    intro c sum
    simp only [processCombsR, List.length_cons, ih]

theorem processAllpasses_lengths :
    ∀ (ls rs : List AllpassFilter) (dL dR : ℚ),
      (processAllpasses ls rs dL dR).1.length = ls.length ∧
        (processAllpasses ls rs dL dR).2.1.length = rs.length := by
  intro ls
  induction ls with
  | nil => intro rs dL dR; exact ⟨rfl, rfl⟩
  | cons l rest ih =>
    intro rs dL dR
    cases rs with
    | nil =>
      obtain ⟨i1, i2⟩ := ih [] (l.process dL).2 dR
      simp only [processAllpasses, List.length_cons, i1, i2, List.length_nil, and_self]
    | cons r rrest =>
      obtain ⟨i1, i2⟩ := ih rrest (l.process dL).2 (r.process dR).2
      simp only [processAllpasses, List.length_cons, i1, i2, and_self]

/-- The allpass loop on chains within the bounds of `AllpassesWithin` from `V` on, fed
samples within `V`: the chains stay within their bounds, and each of the two outputs is
within `10001 ^ n * V` for `n` the length of the left chain. -/
theorem processAllpasses_within :
    ∀ (ls rs : List AllpassFilter) (V dL dR : ℚ), 0 ≤ V →
      AllpassesWithin V ls → AllpassesWithin V rs → |dL| ≤ V → |dR| ≤ V →
      AllpassesWithin V (processAllpasses ls rs dL dR).1 ∧
      AllpassesWithin V (processAllpasses ls rs dL dR).2.1 ∧
      |(processAllpasses ls rs dL dR).2.2.1| ≤ 10001 ^ ls.length * V ∧
      |(processAllpasses ls rs dL dR).2.2.2| ≤ 10001 ^ ls.length * V := by
  intro ls
  induction ls with
  | nil =>
    intro rs V dL dR hV _ hrs hl hr
    simp only [processAllpasses, List.length_nil, pow_zero, one_mul]
    exact ⟨trivial, hrs, hl, hr⟩
  | cons l rest ih =>
    intro rs V dL dR hV hls hrs hl hr
    obtain ⟨hl1, hl2⟩ := hls
    obtain ⟨a1, a2⟩ := allpass_process_within V l dL hV hl1 hl
    have hV1 : 0 ≤ 10001 * V := by linarith
    have e : ∀ n : Nat, (10001 : ℚ) ^ n * (10001 * V) = 10001 ^ (n + 1) * V := by
      intro n
      ring
    cases rs with
    | nil =>
      obtain ⟨i1, i2, i3, i4⟩ := ih [] (10001 * V) (l.process dL).2 dR hV1 hl2 trivial a1
        (by linarith)
      rw [e] at i3 i4
      have hnil : (processAllpasses rest [] (l.process dL).2 dR).2.1 = [] :=
        List.length_eq_zero.mp (processAllpasses_lengths rest [] _ _).2
      simp only [processAllpasses, List.length_cons, hnil]
      exact ⟨⟨a2, i1⟩, trivial, i3, i4⟩
    | cons r rrest =>
      obtain ⟨hr1, hr2⟩ := hrs
      obtain ⟨b1, b2⟩ := allpass_process_within V r dR hV hr1 hr
      obtain ⟨i1, i2, i3, i4⟩ := ih rrest (10001 * V) (l.process dL).2 (r.process dR).2 hV1
        hl2 hr2 a1 b1
      rw [e] at i3 i4
      simp only [processAllpasses, List.length_cons]
      exact ⟨⟨a2, i1⟩, ⟨b2, i2⟩, i3, i4⟩

end ReverbProcessor
end Reverb

namespace Reverb
namespace ReverbProcessor

/-! ## Signal levels: one sample, a stream and a call of `processStereo` -/

theorem abs_avg_le (x K : ℚ) (n : Nat) (hK : 0 ≤ K) (h : |x| ≤ (n : ℚ) * K) :
    |x / (n : ℚ)| ≤ K := by
  rcases Nat.eq_zero_or_pos n with h0 | hpos
  · rw [h0, Nat.cast_zero, div_zero, abs_zero]
    exact hK
  · have hn : (0 : ℚ) < (n : ℚ) := by exact_mod_cast hpos
    rw [abs_div, abs_of_pos hn, div_le_iff₀ hn]
    linarith

/-- The recombination of the wet path: early part within `2 B`, mid and side parts within
`4.242 D` each, reflectivity within 1 and HF contour within 2. -/
theorem wet_shape_le (B D eL m t refl f : ℚ) (he : |eL| ≤ 2 * B)
    (hm : |m| ≤ 4.242 * D) (ht : |t| ≤ 4.242 * D) (hr : |refl| ≤ 1) (hf : |f| ≤ 2) :
    |(eL * 0.3 + (m + t) * 0.7) * refl * f| ≤ 1.2 * B + 11.8776 * D := by
  have h1 : |eL * 0.3| ≤ 2 * B * 0.3 :=
    abs_mul_le_mul _ _ _ _ he (le_of_eq (abs_of_pos (by norm_num)))
  have h2 : |m + t| ≤ 4.242 * D + 4.242 * D := le_trans (abs_add _ _) (add_le_add hm ht)
  have h3 : |(m + t) * 0.7| ≤ (4.242 * D + 4.242 * D) * 0.7 :=
    abs_mul_le_mul _ _ _ _ h2 (le_of_eq (abs_of_pos (by norm_num)))
  have h4 : |eL * 0.3 + (m + t) * 0.7| ≤ 2 * B * 0.3 + (4.242 * D + 4.242 * D) * 0.7 :=
    le_trans (abs_add _ _) (add_le_add h1 h3)
  have h5 := abs_mul_le_mul _ _ _ _ (abs_mul_le_mul _ _ _ _ h4 hr) hf
  calc |(eL * 0.3 + (m + t) * 0.7) * refl * f|
      ≤ (2 * B * 0.3 + (4.242 * D + 4.242 * D) * 0.7) * 1 * 2 := h5
    _ = 1.2 * B + 11.8776 * D := by ring

theorem abs_of_unit (x : ℚ) (h : 0 ≤ x ∧ x ≤ 1) : |x| ≤ 1 :=
  abs_le.mpr ⟨by linarith [h.1], h.2⟩

theorem wetBound_ge (B : ℚ) (hB : 0 ≤ B) :
    1.2 * B + 11.8776 * (10001 ^ 4 * (30000 * B)) ≤ wetBound B := by
  unfold wetBound
  norm_num
  linarith

/-- The two diffused tail signals on a processor at level `B`, for pre-delayed samples
within `2 B`: the banks stay within their bounds and each signal is within
`3 * 10001^4 * 30000 B`. -/
theorem diffuse_within (M : FloatMath) (hM : BoundedMath M) (B : ℚ) (s : ReverbProcessor)
    (preL preR : ℚ) (hst : Stable B s) (hl : |preL| ≤ 2 * B) (hr : |preR| ≤ 2 * B) :
    (∀ c ∈ (wetStage M s preL preR).combsL, CombWithin (30000 * B) c) ∧
      (∀ c ∈ (wetStage M s preL preR).combsR, CombWithin (30000 * B) c) ∧
      AllpassesWithin (30000 * B) (wetStage M s preL preR).allpassesL ∧
      AllpassesWithin (30000 * B) (wetStage M s preL preR).allpassesR ∧
      |(diffused M s preL preR).1| ≤ 3 * (10001 ^ 4 * (30000 * B)) ∧
      |(diffused M s preL preR).2| ≤ 3 * (10001 ^ 4 * (30000 * B)) := by
  have hB := hst.level_nonneg
  have hK : 0 ≤ 30000 * B := by linarith
  obtain ⟨cl1, cl2⟩ := processCombsL_within M hM B preL preR s.position hB hl hr
    hst.position_range.1 hst.position_range.2 s.combsL 0 0
    (by have := hst.combsL_count; omega) hst.combsL_within
  obtain ⟨cr1, cr2⟩ := processCombsR_within M hM B preL preR s.position hB hl hr
    hst.position_range.1 hst.position_range.2 s.combsR 0 0
    (by have := hst.combsR_count; omega) hst.combsR_within
  rw [sub_zero] at cl2 cr2
  have sl := abs_avg_le _ _ _ hK cl2
  have sr := abs_avg_le _ _ _ hK cr2
  obtain ⟨a1, a2, a3, a4⟩ := processAllpasses_within s.allpassesL s.allpassesR (30000 * B)
    _ _ hK hst.allpassesL_within hst.allpassesR_within sl sr
  have hpow : (10001 : ℚ) ^ s.allpassesL.length * (30000 * B) ≤ 10001 ^ 4 * (30000 * B) :=
    mul_le_mul_of_nonneg_right
      (pow_le_pow_right₀ (by norm_num) hst.allpassesL_count) hK
  have htail : |s.subsequentLevel * s.tieLevelGain| ≤ 3 := by
    have h1 := hst.subsequentLevel_range
    have h2 := hst.tieLevelGain_range
    have := abs_mul_le_mul s.subsequentLevel s.tieLevelGain 1 3
      (abs_le.mpr ⟨by linarith [h1.1], h1.2⟩) (abs_le.mpr ⟨by linarith [h2.1], h2.2⟩)
    linarith
  have dl := abs_mul_le_mul _ _ _ _ (le_trans a3 hpow) htail
  have dr := abs_mul_le_mul _ _ _ _ (le_trans a4 hpow) htail
  refine ⟨cl1, cr1, a1, a2, ?_, ?_⟩
  · rw [mul_comm 3]
    exact dl
  · rw [mul_comm 3]
    exact dr

theorem mid_side_le (D dL dR g : ℚ) (hl : |dL| ≤ 3 * D) (hr : |dR| ≤ 3 * D)
    (hg : |g| ≤ 1) :
    |(dL + dR) * 0.707| ≤ 4.242 * D ∧ |(dL - dR) * 0.707 * g| ≤ 4.242 * D ∧
      |-((dL - dR) * 0.707 * g)| ≤ 4.242 * D := by
  have h7 : |(0.707 : ℚ)| ≤ 0.707 := le_of_eq (abs_of_pos (by norm_num))
  have h1 : |dL + dR| ≤ 3 * D + 3 * D := le_trans (abs_add _ _) (add_le_add hl hr)
  have h2 : |dL - dR| ≤ 3 * D + 3 * D := le_trans (abs_sub _ _) (add_le_add hl hr)
  have m := abs_mul_le_mul _ _ _ _ h1 h7
  have sd := abs_mul_le_mul _ _ _ _ (abs_mul_le_mul _ _ _ _ h2 h7) hg
  refine ⟨by linarith, by linarith, ?_⟩
  rw [abs_neg]
  linarith

/-- The wet path of one sample on a processor at level `B`, for pre-delayed samples within
`2 B`: every bank stays within its bounds and the two wet signals are within
`wetBound B`. -/
theorem wetStage_within (M : FloatMath) (hM : BoundedMath M) (B : ℚ) (s : ReverbProcessor)
    (preL preR : ℚ) (hst : Stable B s) (hl : |preL| ≤ 2 * B) (hr : |preR| ≤ 2 * B) :
    (∀ tap ∈ (wetStage M s preL preR).earlyTaps,
        Within (2 * B) tap.1.buffer ∧ Within (2 * B) tap.2.buffer) ∧
      (∀ c ∈ (wetStage M s preL preR).combsL, CombWithin (30000 * B) c) ∧
      (∀ c ∈ (wetStage M s preL preR).combsR, CombWithin (30000 * B) c) ∧
      AllpassesWithin (30000 * B) (wetStage M s preL preR).allpassesL ∧
      AllpassesWithin (30000 * B) (wetStage M s preL preR).allpassesR ∧
      |(wetStage M s preL preR).wetL| ≤ wetBound B ∧
      |(wetStage M s preL preR).wetR| ≤ wetBound B := by
  have hB := hst.level_nonneg
  have h2B : 0 ≤ 2 * B := by linarith
  obtain ⟨c1, c2, c3, c4, dl, dr⟩ := diffuse_within M hM B s preL preR hst hl hr
  obtain ⟨t1, t2, t3⟩ := processEarlyTaps_within (2 * B) s.earlyTaps.length preL preR h2B
    hl hr s.earlyTaps 0 0 0 (by omega) hst.taps_within
  rw [sub_zero] at t2 t3
  have herl := abs_of_unit _ hst.earlyLevel_range
  have el : |(processEarlyTaps s.earlyTaps.length preL preR 0 s.earlyTaps 0 0).2.1 *
      s.earlyReflectionLevel / (s.earlyTaps.length : ℚ)| ≤ 2 * B := by
    apply abs_avg_le _ _ _ h2B
    have := abs_mul_le_mul _ _ _ _ t2 herl
    linarith
  have er : |(processEarlyTaps s.earlyTaps.length preL preR 0 s.earlyTaps 0 0).2.2 *
      s.earlyReflectionLevel / (s.earlyTaps.length : ℚ)| ≤ 2 * B := by
    apply abs_avg_le _ _ _ h2B
    have := abs_mul_le_mul _ _ _ _ t3 herl
    linarith
  obtain ⟨m1, m2, m3⟩ := mid_side_le _ _ _ s.envelopment dl dr
    (abs_of_unit _ hst.envelopment_range)
  have hrefl := abs_of_unit _ hst.reflectivity_range
  have hf : |1 + s.tieLevel * 2 * 0.5| ≤ 2 := by
    have h := hst.tieLevel_range
    exact abs_le.mpr ⟨by linarith [h.1], by linarith [h.2]⟩
  have wl := wet_shape_le B _ _ _ _ _ _ el m1 m2 hrefl hf
  have wr := wet_shape_le B _ _ _ _ _ _ er m1 m3 hrefl hf
  have hwb := wetBound_ge B hB
  refine ⟨t1, c1, c2, c3, c4, le_trans ?_ hwb, le_trans ?_ hwb⟩
  · exact wl
  · have e : (wetStage M s preL preR).wetR =
        ((processEarlyTaps s.earlyTaps.length preL preR 0 s.earlyTaps 0 0).2.2 *
            s.earlyReflectionLevel / (s.earlyTaps.length : ℚ) * 0.3 +
          (((diffused M s preL preR).1 + (diffused M s preL preR).2) * 0.707 +
            -(((diffused M s preL preR).1 - (diffused M s preL preR).2) * 0.707 *
              s.envelopment)) * 0.7) * s.normalizedReflectivity *
          (1 + s.tieLevel * 2 * 0.5) := by
      simp only [wetStage, diffused]
      ring
    rw [e]
    exact wr

theorem dry_sample_le (B x g : ℚ) (hx : |x| ≤ B) : |x * jlimit 0 2 g| ≤ 2 * B := by
  have h0 : (0 : ℚ) ≤ jlimit 0 2 g := jlimit_ge _ _ _ (by norm_num)
  have h1 : jlimit 0 2 g ≤ 2 := jlimit_le _ _ _ (by norm_num)
  have := abs_mul_le_mul x (jlimit 0 2 g) B 2 hx (abs_le.mpr ⟨by linarith, h1⟩)
  linarith

/-- On a processor at level `B` the wet signals of a pass over input samples within `B`
are within `wetBound B`. -/
theorem wetOfSample_within (M : FloatMath) (hM : BoundedMath M) (B : ℚ) (s : ReverbProcessor)
    (x y : ℚ) (hst : Stable B s) (hx : |x| ≤ B) (hy : |y| ≤ B) :
    |(wetOfSample M s x y).1| ≤ wetBound B ∧ |(wetOfSample M s x y).2| ≤ wetBound B := by
  have h2B : 0 ≤ 2 * B := by linarith [hst.level_nonneg]
  have pl := delayLine_process_within (2 * B) s.preDelayL _ h2B hst.preDelayL_within
    (dry_sample_le B x s.roomVolume hx)
  have pr := delayLine_process_within (2 * B) s.preDelayR _ h2B hst.preDelayR_within
    (dry_sample_le B y s.roomVolume hy)
  have w := wetStage_within M hM B s _ _ hst pl.1 pr.1
  exact ⟨w.2.2.2.2.2.1, w.2.2.2.2.2.2⟩

/-- One pass of the sample loop keeps a processor at level `B` when the input samples are
within `B`, whatever the mix value. -/
theorem processSample_stable (M : FloatMath) (hM : BoundedMath M) (B : ℚ)
    (s : ReverbProcessor) (m x y : ℚ) (hst : Stable B s) (hx : |x| ≤ B) (hy : |y| ≤ B) :
    Stable B (processSample M s m x y).1 := by
  have h2B : 0 ≤ 2 * B := by linarith [hst.level_nonneg]
  have pl := delayLine_process_within (2 * B) s.preDelayL _ h2B hst.preDelayL_within
    (dry_sample_le B x s.roomVolume hx)
  have pr := delayLine_process_within (2 * B) s.preDelayR _ h2B hst.preDelayR_within
    (dry_sample_le B y s.roomVolume hy)
  obtain ⟨w1, w2, w3, w4, w5, _, _⟩ := wetStage_within M hM B s _ _ hst pl.1 pr.1
  exact
    { level_nonneg := hst.level_nonneg
      level_le := hst.level_le
      combsL_count := by
        show (processCombsL M _ _ s.position 0 s.combsL 0).1.length ≤ 8
        rw [processCombsL_length]
        exact hst.combsL_count
      combsR_count := by
        show (processCombsR M _ _ s.position 0 s.combsR 0).1.length ≤ 8
        rw [processCombsR_length]
        exact hst.combsR_count
      allpassesL_count := by
        show (processAllpasses s.allpassesL s.allpassesR _ _).1.length ≤ 4
        rw [(processAllpasses_lengths _ _ _ _).1]
        exact hst.allpassesL_count
      allpassesR_count := by
        show (processAllpasses s.allpassesL s.allpassesR _ _).2.1.length ≤ 4
        rw [(processAllpasses_lengths _ _ _ _).2]
        exact hst.allpassesR_count
      position_range := hst.position_range
      earlyLevel_range := hst.earlyLevel_range
      subsequentLevel_range := hst.subsequentLevel_range
      tieLevelGain_range := hst.tieLevelGain_range
      envelopment_range := hst.envelopment_range
      reflectivity_range := hst.reflectivity_range
      tieLevel_range := hst.tieLevel_range
      preDelayL_within := pl.2
      preDelayR_within := pr.2
      taps_within := w1
      combsL_within := w2
      combsR_within := w3
      allpassesL_within := w4
      allpassesR_within := w5 }

/-- The sample loop keeps a processor at level `B` when every input sample is within
`B`. -/
theorem dspStream_stable (M : FloatMath) (hM : BoundedMath M) (B t : ℚ) :
    ∀ (xs : List (ℚ × ℚ)) (s : ReverbProcessor), Stable B s →
      (∀ p ∈ xs, |p.1| ≤ B ∧ |p.2| ≤ B) → Stable B (dspStream M t s xs).1 := by
  intro xs
  induction xs with
  | nil => intro s hst _; exact hst
  | cons p rest ih =>
    intro s hst hxs
    have hp := hxs p (List.mem_cons_self _ _)
    exact ih _ (processSample_stable M hM B s t p.1 p.2 hst hp.1 hp.2)
      (fun q hq => hxs q (List.mem_cons_of_mem _ hq))

/-- The level of a processor does not depend on its smoothers. -/
theorem stable_of_dspPart (B : ℚ) (s u : ReverbProcessor) (h : dspPart s = dspPart u)
    (hu : Stable B u) : Stable B s := by
  have e1 : s.combsL = u.combsL :=
    (congrArg ReverbProcessor.combsL h :
      (dspPart s).combsL = (dspPart u).combsL)
  have e2 : s.combsR = u.combsR :=
    (congrArg ReverbProcessor.combsR h :
      (dspPart s).combsR = (dspPart u).combsR)
  have e3 : s.allpassesL = u.allpassesL :=
    (congrArg ReverbProcessor.allpassesL h :
      (dspPart s).allpassesL = (dspPart u).allpassesL)
  have e4 : s.allpassesR = u.allpassesR :=
    (congrArg ReverbProcessor.allpassesR h :
      (dspPart s).allpassesR = (dspPart u).allpassesR)
  have e5 : s.position = u.position :=
    (congrArg ReverbProcessor.position h :
      (dspPart s).position = (dspPart u).position)
  have e6 : s.earlyReflectionLevel = u.earlyReflectionLevel :=
    (congrArg ReverbProcessor.earlyReflectionLevel h :
      (dspPart s).earlyReflectionLevel = (dspPart u).earlyReflectionLevel)
  have e7 : s.subsequentLevel = u.subsequentLevel :=
    (congrArg ReverbProcessor.subsequentLevel h :
      (dspPart s).subsequentLevel = (dspPart u).subsequentLevel)
  have e8 : s.tieLevelGain = u.tieLevelGain :=
    (congrArg ReverbProcessor.tieLevelGain h :
      (dspPart s).tieLevelGain = (dspPart u).tieLevelGain)
  have e9 : s.envelopment = u.envelopment :=
    (congrArg ReverbProcessor.envelopment h :
      (dspPart s).envelopment = (dspPart u).envelopment)
  have e10 : s.normalizedReflectivity = u.normalizedReflectivity :=
    (congrArg ReverbProcessor.normalizedReflectivity h :
      (dspPart s).normalizedReflectivity = (dspPart u).normalizedReflectivity)
  have e11 : s.tieLevel = u.tieLevel :=
    (congrArg ReverbProcessor.tieLevel h :
      (dspPart s).tieLevel = (dspPart u).tieLevel)
  have e12 : s.preDelayL = u.preDelayL :=
    (congrArg ReverbProcessor.preDelayL h :
      (dspPart s).preDelayL = (dspPart u).preDelayL)
  have e13 : s.preDelayR = u.preDelayR :=
    (congrArg ReverbProcessor.preDelayR h :
      (dspPart s).preDelayR = (dspPart u).preDelayR)
  have e14 : s.earlyTaps = u.earlyTaps :=
    (congrArg ReverbProcessor.earlyTaps h :
      (dspPart s).earlyTaps = (dspPart u).earlyTaps)
  exact
    { level_nonneg := hu.level_nonneg
      level_le := hu.level_le
      combsL_count := by rw [e1]; exact hu.combsL_count
      combsR_count := by rw [e2]; exact hu.combsR_count
      allpassesL_count := by rw [e3]; exact hu.allpassesL_count
      allpassesR_count := by rw [e4]; exact hu.allpassesR_count
      position_range := by rw [e5]; exact hu.position_range
      earlyLevel_range := by rw [e6]; exact hu.earlyLevel_range
      subsequentLevel_range := by rw [e7]; exact hu.subsequentLevel_range
      tieLevelGain_range := by rw [e8]; exact hu.tieLevelGain_range
      envelopment_range := by rw [e9]; exact hu.envelopment_range
      reflectivity_range := by rw [e10]; exact hu.reflectivity_range
      tieLevel_range := by rw [e11]; exact hu.tieLevel_range
      preDelayL_within := by rw [e12]; exact hu.preDelayL_within
      preDelayR_within := by rw [e13]; exact hu.preDelayR_within
      taps_within := by rw [e14]; exact hu.taps_within
      combsL_within := by rw [e1]; exact hu.combsL_within
      combsR_within := by rw [e2]; exact hu.combsR_within
      allpassesL_within := by rw [e3]; exact hu.allpassesL_within
      allpassesR_within := by rw [e4]; exact hu.allpassesR_within }

theorem within_zip (B : ℚ) (l r : List ℚ) (hl : Within B l) (hr : Within B r) :
    ∀ p ∈ l.zip r, |p.1| ≤ B ∧ |p.2| ≤ B := by
  intro p hp
  obtain ⟨a, b⟩ := p
  exact ⟨hl a (List.of_mem_zip hp).1, hr b (List.of_mem_zip hp).2⟩

/-- A call of `processStereo` with the mix in effect keeps a processor at level `B` when
every input sample is within `B`, and so does every initial part of its sample loop. -/
theorem processStereo_stable (M : FloatMath) (hM : BoundedMath M) (B t : ℚ)
    (s : ReverbProcessor) (l r : List ℚ) (hst : Stable B s) (hl : Within B l)
    (hr : Within B r) (hL : s.combsL ≠ []) (hR : s.combsR ≠ []) (hmix : MixInEffect t s)
    (hlen : r.length = l.length) (hpos : 0 < l.length) :
    Stable B (processStereo M s (some l) (some r) l.length).1 ∧
      ∀ k : Nat, Stable B (dspStream M t s ((l.zip r).take k)).1 := by
  obtain ⟨_, _, h3, _⟩ := processStereo_settled M t s l r hL hR hmix hlen hpos
  refine ⟨stable_of_dspPart B _ _ h3
    (dspStream_stable M hM B t _ s hst (within_zip B l r hl hr)), ?_⟩
  intro k
  exact dspStream_stable M hM B t _ s hst
    (fun p hp => within_zip B l r hl hr p (List.mem_of_mem_take hp))

end ReverbProcessor
end Reverb

namespace Reverb
namespace ReverbProcessor

/-! ## A prepared processor is at every signal level -/

theorem allpassesWithin_of_silent :
    ∀ (as : List AllpassFilter) (V : ℚ), 0 ≤ V → (∀ a ∈ as, AllpassSilent a) →
      AllpassesWithin V as := by
  intro as
  induction as with
  | nil => intro V _ _; trivial
  | cons a rest ih =>
    intro V hV h
    exact ⟨within_of_allZero _ _ (by linarith) (h a (List.mem_cons_self _ _)),
      ih (10001 * V) (by linarith) (fun x hx => h x (List.mem_cons_of_mem _ hx))⟩

theorem within_of_fresh (b : ℚ) (N : Nat) (d : DelayLine) (hb : 0 ≤ b)
    (h : PreDelayFresh N 0 d) : Within b d.buffer :=
  within_of_allZero b _ hb (fun j => h.2.2.2 j (Nat.zero_le j))

/-- The parameters the wet path reads, as entries of the parameter list. -/
theorem wet_parameters (a b : ReverbProcessor) (h : parameters a = parameters b) :
    a.position = b.position ∧ a.earlyReflectionLevel = b.earlyReflectionLevel ∧
      a.subsequentLevel = b.subsequentLevel ∧ a.envelopment = b.envelopment ∧
      a.normalizedReflectivity = b.normalizedReflectivity ∧ a.tieLevel = b.tieLevel := by
  have h1 := congrArg (fun p => p.getD 14 0) h
  have h2 := congrArg (fun p => p.getD 7 0) h
  have h3 := congrArg (fun p => p.getD 10 0) h
  have h4 := congrArg (fun p => p.getD 11 0) h
  have h5 := congrArg (fun p => p.getD 12 0) h
  have h6 := congrArg (fun p => p.getD 13 0) h
  exact ⟨h1, h2, h3, h4, h5, h6⟩

theorem tieLevelGain_range_of_derived (M : FloatMath) (s : ReverbProcessor)
    (h : CoefficientsDerived M s) : 0 ≤ s.tieLevelGain ∧ s.tieLevelGain ≤ 3 := by
  have hc := congrArg Coefficients.tieLevelGain h.2.2.2.2.2.2
  simp only [coefficients, derivedCoefficients] at hc
  rw [hc]
  exact ⟨jlimit_ge _ _ _ (by norm_num), jlimit_le _ _ _ (by norm_num)⟩

/-- A quiet processor with at most 8 combs and 4 allpasses per channel and parameters in
the ranges of their setters is at every level `B` in `[0, 10^9]`. -/
theorem stable_of_quiet (B : ℚ) (N : Nat) (s : ReverbProcessor) (hB0 : 0 ≤ B)
    (hB1 : B ≤ 1000000000) (hq : Quiet N 0 s)
    (c1 : s.combsL.length ≤ 8) (c2 : s.combsR.length ≤ 8)
    (c3 : s.allpassesL.length ≤ 4) (c4 : s.allpassesR.length ≤ 4)
    (p1 : 0 ≤ s.position ∧ s.position ≤ 1)
    (p2 : 0 ≤ s.earlyReflectionLevel ∧ s.earlyReflectionLevel ≤ 1)
    (p3 : 0 ≤ s.subsequentLevel ∧ s.subsequentLevel ≤ 1)
    (p4 : 0 ≤ s.tieLevelGain ∧ s.tieLevelGain ≤ 3)
    (p5 : 0 ≤ s.envelopment ∧ s.envelopment ≤ 1)
    (p6 : 0 ≤ s.normalizedReflectivity ∧ s.normalizedReflectivity ≤ 1)
    (p7 : 0 ≤ s.tieLevel ∧ s.tieLevel ≤ 1) : Stable B s := by
  obtain ⟨q1, q2, q3, q4, q5, q6, q7⟩ := hq
  have h2B : 0 ≤ 2 * B := by linarith
  have hK : 0 ≤ 30000 * B := by linarith
  exact
    { level_nonneg := hB0
      level_le := hB1
      combsL_count := c1
      combsR_count := c2
      allpassesL_count := c3
      allpassesR_count := c4
      position_range := p1
      earlyLevel_range := p2
      subsequentLevel_range := p3
      tieLevelGain_range := p4
      envelopment_range := p5
      reflectivity_range := p6
      tieLevel_range := p7
      preDelayL_within := within_of_fresh _ N _ h2B q1
      preDelayR_within := within_of_fresh _ N _ h2B q2
      taps_within := fun tap ht =>
        ⟨within_of_allZero _ _ h2B (q3 tap ht).1, within_of_allZero _ _ h2B (q3 tap ht).2⟩
      combsL_within := fun c hc => ⟨within_of_allZero _ _ hK (q4 c hc).1, by
        rw [(q4 c hc).2, abs_zero]; exact hK⟩
      combsR_within := fun c hc => ⟨within_of_allZero _ _ hK (q5 c hc).1, by
        rw [(q5 c hc).2, abs_zero]; exact hK⟩
      allpassesL_within := allpassesWithin_of_silent _ _ hK q6
      allpassesR_within := allpassesWithin_of_silent _ _ hK q7 }

/-- A processor constructed, given parameters in the ranges of their setters and prepared
at 44100 Hz is at every level `B` in `[0, 10^9]`. -/
theorem prepare_stable (M : FloatMath) (B : ℚ) (s0 : ReverbProcessor) (hB0 : 0 ≤ B)
    (hB1 : B ≤ 1000000000) (hl : s0.preDelayL.buffer = []) (hr : s0.preDelayR.buffer = [])
    (hd : 0.01 ≤ s0.decayTime)
    (p1 : 0 ≤ s0.position ∧ s0.position ≤ 1)
    (p2 : 0 ≤ s0.earlyReflectionLevel ∧ s0.earlyReflectionLevel ≤ 1)
    (p3 : 0 ≤ s0.subsequentLevel ∧ s0.subsequentLevel ≤ 1)
    (p5 : 0 ≤ s0.envelopment ∧ s0.envelopment ≤ 1)
    (p6 : 0 ≤ s0.normalizedReflectivity ∧ s0.normalizedReflectivity ≤ 1)
    (p7 : 0 ≤ s0.tieLevel ∧ s0.tieLevel ≤ 1) : Stable B (prepare M s0 44100) := by
  obtain ⟨c1, c2, c3, c4, _⟩ := prepare_counts M s0 44100
  obtain ⟨e1, e2, e3, e4, e5, e6⟩ := wet_parameters _ _ (prepare_parameters M s0 44100 hd)
  have hg := tieLevelGain_range_of_derived M _ (prepare_coefficientsDerived M s0 44100 hd)
  exact stable_of_quiet B 22050 _ hB0 hB1 (prepare_quiet M s0 hl hr)
    (le_of_eq c1) (le_of_eq c2) (le_of_eq c3) (le_of_eq c4)
    (by rw [e1]; exact p1) (by rw [e2]; exact p2) (by rw [e3]; exact p3) hg
    (by rw [e4]; exact p5) (by rw [e5]; exact p6) (by rw [e6]; exact p7)

theorem boundedMath_bounded : BoundedMath boundedMath := by
  intro x
  have h1 : (0 : ℚ) < 1 + x * x := by nlinarith [mul_self_nonneg x]
  constructor
  · show |x / (1 + x * x)| ≤ 1
    rw [abs_div, abs_of_pos h1, div_le_one h1]
    rcases abs_cases x with ⟨e, _⟩ | ⟨e, _⟩
    · rw [e]; nlinarith [mul_self_nonneg (x - 1)]
    · rw [e]; nlinarith [mul_self_nonneg (x + 1)]
  · show |1 / (1 + x * x)| ≤ 1
    rw [abs_div, abs_of_pos h1, abs_one, div_le_one h1]
    nlinarith [mul_self_nonneg x]

theorem within_replicate (B v : ℚ) (n : Nat) (h : |v| ≤ B) : Within B (List.replicate n v) := by
  intro x hx
  rw [List.eq_of_mem_replicate hx]
  exact h

end ReverbProcessor
end Reverb

namespace Reverb
namespace ReverbProcessor

/-! ## The dry/wet extremes at bounded signal level -/

/-- A call of `processStereo` on a processor at level `B` with input samples within `B`:
the processor is at level `B` after the call, and before every pass of the sample loop
the wet signals of a pass over samples within `B` are within `wetBound B`. -/
theorem run_levels (M : FloatMath) (hM : BoundedMath M) (B t : ℚ) (s : ReverbProcessor)
    (l r : List ℚ) (hst : Stable B s) (hl : Within B l) (hr : Within B r)
    (hL : s.combsL ≠ []) (hR : s.combsR ≠ []) (hmix : MixInEffect t s)
    (hlen : r.length = l.length) (hpos : 0 < l.length) :
    Stable B (processStereo M s (some l) (some r) l.length).1 ∧
      ∀ (k : Nat) (x y : ℚ), |x| ≤ B → |y| ≤ B →
        |(wetOfSample M (dspStream M t s ((l.zip r).take k)).1 x y).1| ≤ wetBound B ∧
          |(wetOfSample M (dspStream M t s ((l.zip r).take k)).1 x y).2| ≤ wetBound B := by
  obtain ⟨h1, h2⟩ := processStereo_stable M hM B t s l r hst hl hr hL hR hmix hlen hpos
  exact ⟨h1, fun k x y hx hy => wetOfSample_within M hM B _ x y (h2 k) hx hy⟩

/-- C3, as amended: on a processor at a signal level `B ≤ 10^9` whose comb banks exist,
with the dry/wet value 0 in effect and every input sample within `B`, `processStereo` over
whole arrays writes for every sample the dry input scaled by the input gain
`clamp (roomVolume, 0, 2)`, attenuated by 0.95 and limited to `[-1, 1]`; the wet path
contributes nothing. The processor is at level `B` after the call, and before every pass
of the sample loop (the processor then is `dspStream` over the samples already passed,
apart from the smoothers) the wet signals are within `wetBound B`, so that no value of the
signal path leaves the float range. -/
theorem C3_dry_output_at_bounded_level (M : FloatMath) (B : ℚ) (s : ReverbProcessor)
    (l r : List ℚ) (hM : BoundedMath M) (hst : Stable B s) (hl : Within B l)
    (hr : Within B r) (hL : s.combsL ≠ []) (hR : s.combsR ≠ []) (hmix : MixInEffect 0 s)
    (hlen : r.length = l.length) (hpos : 0 < l.length) :
    outLeft (processStereo M s (some l) (some r) l.length) =
        l.map (fun x => max (-1) (min 1 (0.95 * dryScaled s.roomVolume x))) ∧
      outRight (processStereo M s (some l) (some r) l.length) =
        r.map (fun x => max (-1) (min 1 (0.95 * dryScaled s.roomVolume x))) ∧
      Stable B (processStereo M s (some l) (some r) l.length).1 ∧
      ∀ (k : Nat) (x y : ℚ), |x| ≤ B → |y| ≤ B →
        |(wetOfSample M (dspStream M 0 s ((l.zip r).take k)).1 x y).1| ≤ wetBound B ∧
          |(wetOfSample M (dspStream M 0 s ((l.zip r).take k)).1 x y).2| ≤ wetBound B := by
  have e : ∀ x : ℚ, dryOut s.roomVolume 0 x =
      max (-1) (min 1 (0.95 * dryScaled s.roomVolume x)) := by
    intro x
    unfold dryOut dryScaled
    congr 2
    ring
  obtain ⟨h1, h2⟩ := processStereo_dry M s l r hL hR hmix hlen hpos
  obtain ⟨h3, h4⟩ := run_levels M hM B 0 s l r hst hl hr hL hR hmix hlen hpos
  rw [h1, h2]
  exact ⟨List.map_congr_left (fun x _ => e x), List.map_congr_left (fun x _ => e x), h3, h4⟩

theorem drySetup_facts :
    (setDryWet init 0).preDelayL.buffer = [] ∧ (setDryWet init 0).preDelayR.buffer = [] ∧
      (0.01 : ℚ) ≤ (setDryWet init 0).decayTime ∧
      (0 ≤ (setDryWet init 0).position ∧ (setDryWet init 0).position ≤ 1) ∧
      (0 ≤ (setDryWet init 0).earlyReflectionLevel ∧
        (setDryWet init 0).earlyReflectionLevel ≤ 1) ∧
      (0 ≤ (setDryWet init 0).subsequentLevel ∧ (setDryWet init 0).subsequentLevel ≤ 1) ∧
      (0 ≤ (setDryWet init 0).envelopment ∧ (setDryWet init 0).envelopment ≤ 1) ∧
      (0 ≤ (setDryWet init 0).normalizedReflectivity ∧
        (setDryWet init 0).normalizedReflectivity ≤ 1) ∧
      (0 ≤ (setDryWet init 0).tieLevel ∧ (setDryWet init 0).tieLevel ≤ 1) := by
  refine ⟨rfl, rfl, ?_⟩
  norm_num [setDryWet, init]

theorem drySetup_stable (M : FloatMath) : Stable 1 (prepare M (setDryWet init 0) 44100) := by
  obtain ⟨f1, f2, f3, f4, f5, f6, f7, f8, f9⟩ := drySetup_facts
  exact prepare_stable M 1 _ (by norm_num) (by norm_num) f1 f2 f3 f4 f5 f6 f7 f8 f9

/-- Witness of C3: a processor constructed with dry/wet 0 and prepared at 44100 Hz, at
level 1, and a block of 32768 samples per channel (`1/2` left, `-1/4` right), which is
longer than the pre-delay line (22050 samples) and the comb delays together. -/
theorem C3_dry_output_bounded_witness :
    outLeft (processStereo boundedMath (prepare boundedMath (setDryWet init 0) 44100)
        (some (List.replicate 32768 (1 / 2))) (some (List.replicate 32768 (-1 / 4)))
        (List.replicate 32768 (1 / 2 : ℚ)).length) =
      (List.replicate 32768 (1 / 2)).map (fun x => max (-1) (min 1 (0.95 * dryScaled
        (prepare boundedMath (setDryWet init 0) 44100).roomVolume x))) ∧
      outRight (processStereo boundedMath (prepare boundedMath (setDryWet init 0) 44100)
        (some (List.replicate 32768 (1 / 2))) (some (List.replicate 32768 (-1 / 4)))
        (List.replicate 32768 (1 / 2 : ℚ)).length) =
      (List.replicate 32768 (-1 / 4)).map (fun x => max (-1) (min 1 (0.95 * dryScaled
        (prepare boundedMath (setDryWet init 0) 44100).roomVolume x))) ∧
      Stable 1 (processStereo boundedMath (prepare boundedMath (setDryWet init 0) 44100)
        (some (List.replicate 32768 (1 / 2))) (some (List.replicate 32768 (-1 / 4)))
        (List.replicate 32768 (1 / 2 : ℚ)).length).1 :=
  ⟨(C3_dry_output_at_bounded_level boundedMath 1 (prepare boundedMath (setDryWet init 0) 44100)
      (List.replicate 32768 (1 / 2)) (List.replicate 32768 (-1 / 4)) boundedMath_bounded
      (drySetup_stable boundedMath) (within_replicate 1 _ _ (by norm_num [abs_of_pos]))
      (within_replicate 1 _ _ (by rw [abs_le]; constructor <;> norm_num))
      (prepare_combs_ne_nil boundedMath _ 44100).1 (prepare_combs_ne_nil boundedMath _ 44100).2
      (prepared_dry_mixInEffect boundedMath)
      (by rw [List.length_replicate, List.length_replicate])
      (by rw [List.length_replicate]; decide)).1,
    (C3_dry_output_at_bounded_level boundedMath 1 (prepare boundedMath (setDryWet init 0) 44100)
      (List.replicate 32768 (1 / 2)) (List.replicate 32768 (-1 / 4)) boundedMath_bounded
      (drySetup_stable boundedMath) (within_replicate 1 _ _ (by norm_num [abs_of_pos]))
      (within_replicate 1 _ _ (by rw [abs_le]; constructor <;> norm_num))
      (prepare_combs_ne_nil boundedMath _ 44100).1 (prepare_combs_ne_nil boundedMath _ 44100).2
      (prepared_dry_mixInEffect boundedMath)
      (by rw [List.length_replicate, List.length_replicate])
      (by rw [List.length_replicate]; decide)).2.1,
    (C3_dry_output_at_bounded_level boundedMath 1 (prepare boundedMath (setDryWet init 0) 44100)
      (List.replicate 32768 (1 / 2)) (List.replicate 32768 (-1 / 4)) boundedMath_bounded
      (drySetup_stable boundedMath) (within_replicate 1 _ _ (by norm_num [abs_of_pos]))
      (within_replicate 1 _ _ (by rw [abs_le]; constructor <;> norm_num))
      (prepare_combs_ne_nil boundedMath _ 44100).1 (prepare_combs_ne_nil boundedMath _ 44100).2
      (prepared_dry_mixInEffect boundedMath)
      (by rw [List.length_replicate, List.length_replicate])
      (by rw [List.length_replicate]; decide)).2.2.1⟩

/-- C30, as amended: on a processor at a signal level `B ≤ 10^9` whose comb banks exist,
with the mix smoother's current value and target both 0 and every input sample within `B`,
for every stored room volume `v`, `processStereo` over whole arrays writes
`clamp (0.95 * clamp (v, 0, 2) * in[i], -1, 1)` to both arrays; in particular every room
volume `≥ 2` gives the same output as room volume 2. The processor is at level `B` after
the call, and before every pass of the sample loop the wet signals are within
`wetBound B`, so that no value of the signal path leaves the float range. -/
theorem C30_dry_path_at_bounded_level (M : FloatMath) (B : ℚ) (s : ReverbProcessor)
    (l r : List ℚ) (hM : BoundedMath M) (hst : Stable B s) (hl : Within B l)
    (hr : Within B r) (hL : s.combsL ≠ []) (hR : s.combsR ≠ []) (hmix : MixInEffect 0 s)
    (hlen : r.length = l.length) (hpos : 0 < l.length) :
    outLeft (processStereo M s (some l) (some r) l.length) =
        l.map (fun x => jlimit (-1) 1 (0.95 * jlimit 0 2 s.roomVolume * x)) ∧
      outRight (processStereo M s (some l) (some r) l.length) =
        r.map (fun x => jlimit (-1) 1 (0.95 * jlimit 0 2 s.roomVolume * x)) ∧
      (2 ≤ s.roomVolume →
        outLeft (processStereo M s (some l) (some r) l.length) =
            outLeft (processStereo M { s with roomVolume := 2 } (some l) (some r) l.length) ∧
          outRight (processStereo M s (some l) (some r) l.length) =
            outRight
              (processStereo M { s with roomVolume := 2 } (some l) (some r) l.length)) ∧
      Stable B (processStereo M s (some l) (some r) l.length).1 ∧
      ∀ (k : Nat) (x y : ℚ), |x| ≤ B → |y| ≤ B →
        |(wetOfSample M (dspStream M 0 s ((l.zip r).take k)).1 x y).1| ≤ wetBound B ∧
          |(wetOfSample M (dspStream M 0 s ((l.zip r).take k)).1 x y).2| ≤ wetBound B := by
  obtain ⟨h1, h2⟩ := processStereo_dry_path M s l r hL hR hmix hlen hpos
  obtain ⟨h3, h4⟩ := run_levels M hM B 0 s l r hst hl hr hL hR hmix hlen hpos
  refine ⟨h1, h2, ?_, h3, h4⟩
  intro hv
  obtain ⟨g1, g2⟩ :=
    processStereo_dry_path M { s with roomVolume := 2 } l r hL hR hmix hlen hpos
  rw [h1, h2, g1, g2, jlimit_gain_saturated _ hv, jlimit_gain_saturated 2 (le_refl _)]
  exact ⟨rfl, rfl⟩

theorem loudSetup_facts :
    (setRoomVolume (setDryWet init 0) 3).preDelayL.buffer = [] ∧
      (setRoomVolume (setDryWet init 0) 3).preDelayR.buffer = [] ∧
      (0.01 : ℚ) ≤ (setRoomVolume (setDryWet init 0) 3).decayTime ∧
      (0 ≤ (setRoomVolume (setDryWet init 0) 3).position ∧
        (setRoomVolume (setDryWet init 0) 3).position ≤ 1) ∧
      (0 ≤ (setRoomVolume (setDryWet init 0) 3).earlyReflectionLevel ∧
        (setRoomVolume (setDryWet init 0) 3).earlyReflectionLevel ≤ 1) ∧
      (0 ≤ (setRoomVolume (setDryWet init 0) 3).subsequentLevel ∧
        (setRoomVolume (setDryWet init 0) 3).subsequentLevel ≤ 1) ∧
      (0 ≤ (setRoomVolume (setDryWet init 0) 3).envelopment ∧
        (setRoomVolume (setDryWet init 0) 3).envelopment ≤ 1) ∧
      (0 ≤ (setRoomVolume (setDryWet init 0) 3).normalizedReflectivity ∧
        (setRoomVolume (setDryWet init 0) 3).normalizedReflectivity ≤ 1) ∧
      (0 ≤ (setRoomVolume (setDryWet init 0) 3).tieLevel ∧
        (setRoomVolume (setDryWet init 0) 3).tieLevel ≤ 1) := by
  refine ⟨rfl, rfl, ?_⟩
  norm_num [setRoomVolume, setDryWet, init]

theorem loudSetup_stable (M : FloatMath) :
    Stable 1 (prepare M (setRoomVolume (setDryWet init 0) 3) 44100) := by
  obtain ⟨f1, f2, f3, f4, f5, f6, f7, f8, f9⟩ := loudSetup_facts
  exact prepare_stable M 1 _ (by norm_num) (by norm_num) f1 f2 f3 f4 f5 f6 f7 f8 f9

/-- Witness of C30: a processor constructed with dry/wet 0 and room volume 3 and prepared
at 44100 Hz, at level 1, and a block of 32768 samples per channel (`1/4` left, `-1/2`
right), which is longer than the pre-delay line (22050 samples) and the comb delays
together. -/
theorem C30_dry_path_bounded_witness :
    outLeft (processStereo boundedMath
        (prepare boundedMath (setRoomVolume (setDryWet init 0) 3) 44100)
        (some (List.replicate 32768 (1 / 4))) (some (List.replicate 32768 (-1 / 2)))
        (List.replicate 32768 (1 / 4 : ℚ)).length) =
      (List.replicate 32768 (1 / 4)).map (fun x => jlimit (-1) 1 (0.95 * jlimit 0 2
        (prepare boundedMath (setRoomVolume (setDryWet init 0) 3) 44100).roomVolume * x)) ∧
      outRight (processStereo boundedMath
        (prepare boundedMath (setRoomVolume (setDryWet init 0) 3) 44100)
        (some (List.replicate 32768 (1 / 4))) (some (List.replicate 32768 (-1 / 2)))
        (List.replicate 32768 (1 / 4 : ℚ)).length) =
      (List.replicate 32768 (-1 / 2)).map (fun x => jlimit (-1) 1 (0.95 * jlimit 0 2
        (prepare boundedMath (setRoomVolume (setDryWet init 0) 3) 44100).roomVolume * x)) ∧
      Stable 1 (processStereo boundedMath
        (prepare boundedMath (setRoomVolume (setDryWet init 0) 3) 44100)
        (some (List.replicate 32768 (1 / 4))) (some (List.replicate 32768 (-1 / 2)))
        (List.replicate 32768 (1 / 4 : ℚ)).length).1 :=
  ⟨(C30_dry_path_at_bounded_level boundedMath 1
      (prepare boundedMath (setRoomVolume (setDryWet init 0) 3) 44100)
      (List.replicate 32768 (1 / 4)) (List.replicate 32768 (-1 / 2)) boundedMath_bounded
      (loudSetup_stable boundedMath) (within_replicate 1 _ _ (by norm_num [abs_of_pos]))
      (within_replicate 1 _ _ (by rw [abs_le]; constructor <;> norm_num))
      (prepare_combs_ne_nil boundedMath _ 44100).1 (prepare_combs_ne_nil boundedMath _ 44100).2
      (setRoomVolume_dry_mixInEffect boundedMath)
      (by rw [List.length_replicate, List.length_replicate])
      (by rw [List.length_replicate]; decide)).1,
    (C30_dry_path_at_bounded_level boundedMath 1
      (prepare boundedMath (setRoomVolume (setDryWet init 0) 3) 44100)
      (List.replicate 32768 (1 / 4)) (List.replicate 32768 (-1 / 2)) boundedMath_bounded
      (loudSetup_stable boundedMath) (within_replicate 1 _ _ (by norm_num [abs_of_pos]))
      (within_replicate 1 _ _ (by rw [abs_le]; constructor <;> norm_num))
      (prepare_combs_ne_nil boundedMath _ 44100).1 (prepare_combs_ne_nil boundedMath _ 44100).2
      (setRoomVolume_dry_mixInEffect boundedMath)
      (by rw [List.length_replicate, List.length_replicate])
      (by rw [List.length_replicate]; decide)).2.1,
    (C30_dry_path_at_bounded_level boundedMath 1
      (prepare boundedMath (setRoomVolume (setDryWet init 0) 3) 44100)
      (List.replicate 32768 (1 / 4)) (List.replicate 32768 (-1 / 2)) boundedMath_bounded
      (loudSetup_stable boundedMath) (within_replicate 1 _ _ (by norm_num [abs_of_pos]))
      (within_replicate 1 _ _ (by rw [abs_le]; constructor <;> norm_num))
      (prepare_combs_ne_nil boundedMath _ 44100).1 (prepare_combs_ne_nil boundedMath _ 44100).2
      (setRoomVolume_dry_mixInEffect boundedMath)
      (by rw [List.length_replicate, List.length_replicate])
      (by rw [List.length_replicate]; decide)).2.2.2.1⟩

/-- C28, as amended: on a processor at a signal level `B ≤ 10^9` with envelopment 0 and
early-reflection level 0, for every pre-delayed input pair within `2 B` the two wet
signals of a sample are equal, both being `0.707 * (diffusedL + diffusedR)` scaled by the
late mix 0.7, the reflectivity and the HF contour, and within `wetBound B`; so when the
comb banks exist, the mix 1 is in effect and every input sample is within `B`, the left
and right outputs of `processStereo` over whole arrays are equal. The processor is at
level `B` after the call, and before every pass of the sample loop the wet signals are
within `wetBound B`, so that no value of the signal path leaves the float range. -/
theorem C28_mono_at_bounded_level (M : FloatMath) (B : ℚ) (s : ReverbProcessor)
    (preL preR : ℚ) (l r : List ℚ) (hM : BoundedMath M) (hst : Stable B s)
    (hpl : |preL| ≤ 2 * B) (hpr : |preR| ≤ 2 * B) (hl : Within B l) (hr : Within B r)
    (henv : s.envelopment = 0) (herl : s.earlyReflectionLevel = 0)
    (hL : s.combsL ≠ []) (hR : s.combsR ≠ []) (hmix : MixInEffect 1 s)
    (hlen : r.length = l.length) (hpos : 0 < l.length) :
    (wetStage M s preL preR).wetL =
        0.707 * ((diffused M s preL preR).1 + (diffused M s preL preR).2) * 0.7 *
          s.normalizedReflectivity * (1 + s.tieLevel * 2 * 0.5) ∧
      (wetStage M s preL preR).wetR = (wetStage M s preL preR).wetL ∧
      |(wetStage M s preL preR).wetL| ≤ wetBound B ∧
      outLeft (processStereo M s (some l) (some r) l.length) =
        outRight (processStereo M s (some l) (some r) l.length) ∧
      Stable B (processStereo M s (some l) (some r) l.length).1 ∧
      ∀ (k : Nat) (x y : ℚ), |x| ≤ B → |y| ≤ B →
        |(wetOfSample M (dspStream M 1 s ((l.zip r).take k)).1 x y).1| ≤ wetBound B ∧
          |(wetOfSample M (dspStream M 1 s ((l.zip r).take k)).1 x y).2| ≤ wetBound B := by
  obtain ⟨h3, h4⟩ := run_levels M hM B 1 s l r hst hl hr hL hR hmix hlen hpos
  exact ⟨(wetStage_mono M s preL preR henv herl).1, (wetStage_mono M s preL preR henv herl).2,
    (wetStage_within M hM B s preL preR hst hpl hpr).2.2.2.2.2.1,
    processStereo_mono M s l r henv herl hL hR hmix hlen hpos, h3, h4⟩

theorem monoSetup_ranges :
    (setDryWet (setEarlyReflectionLevel (setEnvelopment init 0) 0) 1).preDelayL.buffer = [] ∧
      (setDryWet (setEarlyReflectionLevel (setEnvelopment init 0) 0) 1).preDelayR.buffer
        = [] ∧
      (0 ≤ (setDryWet (setEarlyReflectionLevel (setEnvelopment init 0) 0) 1).position ∧
        (setDryWet (setEarlyReflectionLevel (setEnvelopment init 0) 0) 1).position ≤ 1) ∧
      (0 ≤ (setDryWet (setEarlyReflectionLevel (setEnvelopment init 0) 0)
          1).earlyReflectionLevel ∧
        (setDryWet (setEarlyReflectionLevel (setEnvelopment init 0) 0)
          1).earlyReflectionLevel ≤ 1) ∧
      (0 ≤ (setDryWet (setEarlyReflectionLevel (setEnvelopment init 0) 0) 1).subsequentLevel ∧
        (setDryWet (setEarlyReflectionLevel (setEnvelopment init 0) 0) 1).subsequentLevel
          ≤ 1) ∧
      (0 ≤ (setDryWet (setEarlyReflectionLevel (setEnvelopment init 0) 0) 1).envelopment ∧
        (setDryWet (setEarlyReflectionLevel (setEnvelopment init 0) 0) 1).envelopment ≤ 1) ∧
      (0 ≤ (setDryWet (setEarlyReflectionLevel (setEnvelopment init 0) 0)
          1).normalizedReflectivity ∧
        (setDryWet (setEarlyReflectionLevel (setEnvelopment init 0) 0)
          1).normalizedReflectivity ≤ 1) ∧
      (0 ≤ (setDryWet (setEarlyReflectionLevel (setEnvelopment init 0) 0) 1).tieLevel ∧
        (setDryWet (setEarlyReflectionLevel (setEnvelopment init 0) 0) 1).tieLevel ≤ 1) := by
  refine ⟨rfl, rfl, ?_⟩
  norm_num [setDryWet, setEarlyReflectionLevel, setEnvelopment, jlimit, init]

theorem monoSetup_stable (M : FloatMath) :
    Stable 1
      (prepare M (setDryWet (setEarlyReflectionLevel (setEnvelopment init 0) 0) 1) 44100) := by
  obtain ⟨f1, f2, f4, f5, f6, f7, f8, f9⟩ := monoSetup_ranges
  exact prepare_stable M 1 _ (by norm_num) (by norm_num) f1 f2 monoSetup_facts.2.2.2.1
    f4 f5 f6 f7 f8 f9

/-- Witness of C28: a processor constructed with envelopment 0, early-reflection level 0
and dry/wet 1 and prepared at 44100 Hz, at level 1, the pre-delayed pair `(1, -2)`, and a
block of 32768 samples per channel (`1/2` left, `-1/4` right), which is longer than the
pre-delay line (22050 samples) and the comb delays together. -/
theorem C28_mono_bounded_witness :
    (wetStage boundedMath
        (prepare boundedMath (setDryWet (setEarlyReflectionLevel (setEnvelopment init 0) 0) 1)
          44100) 1 (-2)).wetR =
      (wetStage boundedMath
        (prepare boundedMath (setDryWet (setEarlyReflectionLevel (setEnvelopment init 0) 0) 1)
          44100) 1 (-2)).wetL ∧
      outLeft (processStereo boundedMath
        (prepare boundedMath (setDryWet (setEarlyReflectionLevel (setEnvelopment init 0) 0) 1)
          44100)
        (some (List.replicate 32768 (1 / 2))) (some (List.replicate 32768 (-1 / 4)))
        (List.replicate 32768 (1 / 2 : ℚ)).length) =
      outRight (processStereo boundedMath
        (prepare boundedMath (setDryWet (setEarlyReflectionLevel (setEnvelopment init 0) 0) 1)
          44100)
        (some (List.replicate 32768 (1 / 2))) (some (List.replicate 32768 (-1 / 4)))
        (List.replicate 32768 (1 / 2 : ℚ)).length) ∧
      Stable 1 (processStereo boundedMath
        (prepare boundedMath (setDryWet (setEarlyReflectionLevel (setEnvelopment init 0) 0) 1)
          44100)
        (some (List.replicate 32768 (1 / 2))) (some (List.replicate 32768 (-1 / 4)))
        (List.replicate 32768 (1 / 2 : ℚ)).length).1 :=
  ⟨(C28_mono_at_bounded_level boundedMath 1
      (prepare boundedMath (setDryWet (setEarlyReflectionLevel (setEnvelopment init 0) 0) 1)
        44100) 1 (-2) (List.replicate 32768 (1 / 2)) (List.replicate 32768 (-1 / 4))
      boundedMath_bounded (monoSetup_stable boundedMath) (by norm_num [abs_of_pos])
      (by rw [abs_le]; constructor <;> norm_num)
      (within_replicate 1 _ _ (by norm_num [abs_of_pos]))
      (within_replicate 1 _ _ (by rw [abs_le]; constructor <;> norm_num))
      (monoPrepared_facts boundedMath).1 (monoPrepared_facts boundedMath).2.1
      (prepare_combs_ne_nil boundedMath _ 44100).1 (prepare_combs_ne_nil boundedMath _ 44100).2
      (monoPrepared_facts boundedMath).2.2
      (by rw [List.length_replicate, List.length_replicate])
      (by rw [List.length_replicate]; decide)).2.1,
    (C28_mono_at_bounded_level boundedMath 1
      (prepare boundedMath (setDryWet (setEarlyReflectionLevel (setEnvelopment init 0) 0) 1)
        44100) 1 (-2) (List.replicate 32768 (1 / 2)) (List.replicate 32768 (-1 / 4))
      boundedMath_bounded (monoSetup_stable boundedMath) (by norm_num [abs_of_pos])
      (by rw [abs_le]; constructor <;> norm_num)
      (within_replicate 1 _ _ (by norm_num [abs_of_pos]))
      (within_replicate 1 _ _ (by rw [abs_le]; constructor <;> norm_num))
      (monoPrepared_facts boundedMath).1 (monoPrepared_facts boundedMath).2.1
      (prepare_combs_ne_nil boundedMath _ 44100).1 (prepare_combs_ne_nil boundedMath _ 44100).2
      (monoPrepared_facts boundedMath).2.2
      (by rw [List.length_replicate, List.length_replicate])
      (by rw [List.length_replicate]; decide)).2.2.2.1,
    (C28_mono_at_bounded_level boundedMath 1
      (prepare boundedMath (setDryWet (setEarlyReflectionLevel (setEnvelopment init 0) 0) 1)
        44100) 1 (-2) (List.replicate 32768 (1 / 2)) (List.replicate 32768 (-1 / 4))
      boundedMath_bounded (monoSetup_stable boundedMath) (by norm_num [abs_of_pos])
      (by rw [abs_le]; constructor <;> norm_num)
      (within_replicate 1 _ _ (by norm_num [abs_of_pos]))
      (within_replicate 1 _ _ (by rw [abs_le]; constructor <;> norm_num))
      (monoPrepared_facts boundedMath).1 (monoPrepared_facts boundedMath).2.1
      (prepare_combs_ne_nil boundedMath _ 44100).1 (prepare_combs_ne_nil boundedMath _ 44100).2
      (monoPrepared_facts boundedMath).2.2
      (by rw [List.length_replicate, List.length_replicate])
      (by rw [List.length_replicate]; decide)).2.2.2.2.1⟩

end ReverbProcessor
end Reverb
